import Mathlib

/-! The thread scheduler of `kernel/sched.c`.

A shallow embedding of the scheduler core (priority comparison, the list and
tree priority queues, next-thread selection, the preemption policy, the ready
and wait queue operations) and the properties proved about it.

Conventions of the embedding.

* A `struct k_thread *` is a thread identifier `Tid`; the null pointer is
  `NULL = 0`.  The thread table `threads : Tid → k_thread` is total, so reading
  a field through any pointer is a table lookup.
* A `_wait_q_t *` is an `Option WaitQ`; `none` is the null pointer.
* A `sys_dlist_t` is the list of the thread identifiers linked on it, head
  first.  A thread has one queue node (`base.qnode_dlist`), used by the run
  queue and by the wait queues alike; unlinking the node takes the thread off
  whichever list holds it.
* The run queue and the wait queues use the list back-end
  (`CONFIG_SCHED_DUMB`, `CONFIG_WAITQ_DUMB`); the tree back-end is modelled on
  its own.
* Build options (`CONFIG_*`) are the fields of `Config`.
* The scheduler lock, tracing hooks, IPIs and assertions have no effect on the
  state and are left out.
-/

namespace Zephyr

/-! ## Machine integers -/

/-- Two's complement reading of an integer as an `int32_t`. -/
def wrap_int32 (x : Int) : Int := (x + 2 ^ 31) % 2 ^ 32 - 2 ^ 31

/-- Two's complement reading of an integer as an `int8_t`. -/
def wrap_int8 (x : Int) : Int := (x + 2 ^ 7) % 2 ^ 8 - 2 ^ 7

/-- Range of an `int8_t`. -/
def int8_range (x : Int) : Prop := -128 ≤ x ∧ x ≤ 127

instance (x : Int) : Decidable (int8_range x) := by
  unfold int8_range; infer_instance

/-! ## Build configuration -/

/-- Build options read by `sched.c`. -/
structure Config where
  SMP : Bool
  SCHED_DEADLINE : Bool
  SCHED_CPU_MASK : Bool
  SWAP_NONATOMIC : Bool
  TIMESLICING : Bool
  TICKLESS_KERNEL : Bool
  NUM_METAIRQ_PRIORITIES : Nat
  NUM_COOP_PRIORITIES : Nat
  deriving DecidableEq, Repr

/-- Modelled from the spec: `K_HIGHEST_THREAD_PRIO` is defined in a header that
is not part of the sources.  Cooperative priorities are the negative ones, so
the highest thread priority is minus the number of cooperative priorities. -/
def Config.K_HIGHEST_THREAD_PRIO (cfg : Config) : Int := -(cfg.NUM_COOP_PRIORITIES : Int)

/-! ## Data model -/

/-- Thread pointer. -/
abbrev Tid := Nat

/-- The null thread pointer. -/
def NULL : Tid := 0

/-- Address of a wait queue: the wait queue of a kernel object, or the
`join_queue` embedded in a thread. -/
inductive WaitQ where
  | obj (n : Nat)
  | join (t : Tid)
  deriving DecidableEq, Repr

/-- Modelled from the spec: the `_THREAD_*` bit positions are defined in a
header that is not part of the sources.  The state bitmask over
PENDING, PRESTART, DEAD, SUSPENDED, QUEUED, ABORTING, DUMMY is kept as one flag
per bit: `|= _THREAD_X` sets the flag, `&= ~_THREAD_X` clears it and
`& _THREAD_X` reads it. -/
structure ThreadState where
  DUMMY : Bool
  PENDING : Bool
  PRESTART : Bool
  DEAD : Bool
  SUSPENDED : Bool
  ABORTING : Bool
  QUEUED : Bool
  deriving DecidableEq, Repr

/-- The scheduler's part of `struct k_thread` (`thread->base` and the fields
written through the thread's return-value helpers). -/
structure k_thread where
  /-- `base.prio`, an `int8_t`. -/
  prio : Int
  /-- `base.sched_locked`, a `uint8_t`. -/
  sched_locked : Nat
  /-- `base.prio_deadline`, read as a `uint32_t`. -/
  prio_deadline : Nat
  thread_state : ThreadState
  /-- `base.order_key`, a `uint32_t`. -/
  order_key : Nat
  cpu_mask : Nat
  pended_on : Option WaitQ
  /-- Whether `base.timeout` is linked on the timeout list. -/
  timeout_active : Bool
  is_idle : Bool
  swap_retval : Int
  swap_data : Nat
  deriving DecidableEq, Repr

/-- Well-formedness of the integer fields of a thread. -/
def k_thread.wf (t : k_thread) : Prop := int8_range t.prio

instance (t : k_thread) : Decidable t.wf := by
  unfold k_thread.wf; infer_instance

/-! ## Priority comparison -/

/-- `z_sched_prio_cmp(thread_1, thread_2)`. -/
def z_sched_prio_cmp (cfg : Config) (thread_1 thread_2 : k_thread) : Int :=
  let b1 := thread_1.prio
  let b2 := thread_2.prio
  if b1 ≠ b2 then
    wrap_int32 (b2 - b1)
  else if cfg.SCHED_DEADLINE then
    let d1 := thread_1.prio_deadline % 2 ^ 32
    let d2 := thread_2.prio_deadline % 2 ^ 32
    if d1 ≠ d2 then
      wrap_int32 (((d2 + 2 ^ 32 - d1) % 2 ^ 32 : Nat) : Int)
    else 0
  else 0

/-! ## The list priority queue (`CONFIG_SCHED_DUMB`, `CONFIG_WAITQ_DUMB`) -/

/-- `sys_dlist_remove(node)`: the node is unlinked, the other nodes keep their
order. -/
def sys_dlist_remove (l : List Tid) (node : Tid) : List Tid :=
  l.filter (fun n => n != node)

/-- `z_priq_dumb_add(pq, thread)`: walk the list from the head and insert
`thread` before the first `t` with `z_sched_prio_cmp(thread, t) > 0`; append
at the tail when there is none. -/
def z_priq_dumb_add (cfg : Config) (th : Tid → k_thread) : List Tid → Tid → List Tid
  | [], thread => [thread]
  | t :: rest, thread =>
    if z_sched_prio_cmp cfg (th thread) (th t) > 0 then thread :: t :: rest
    else t :: z_priq_dumb_add cfg th rest thread

/-- `z_priq_dumb_remove(pq, thread)`: the effect on a list of unlinking the
thread's node. -/
def z_priq_dumb_remove (pq : List Tid) (thread : Tid) : List Tid :=
  sys_dlist_remove pq thread

/-- `z_priq_dumb_best(pq)`: the head of the list, `NULL` when it is empty. -/
def z_priq_dumb_best (pq : List Tid) : Tid :=
  match pq with
  | [] => NULL
  | n :: _ => n

/-! ## The tree priority queue (`CONFIG_SCHED_SCALABLE`) -/

/-- `struct _priq_rb`.  Modelled from the spec: the red-black tree (`rb.c`) is
not part of the sources; the tree is kept as the sequence of its nodes in tree
order, and `next_order_key` counts in the 32-bit key space. -/
structure priq_rb where
  tree : List Tid
  next_order_key : Nat
  deriving DecidableEq, Repr

/-- `z_priq_rb_lessthan(a, b)`. -/
def z_priq_rb_lessthan (cfg : Config) (th : Tid → k_thread) (a b : Tid) : Bool :=
  let cmp := z_sched_prio_cmp cfg (th a) (th b)
  if cmp > 0 then true
  else if cmp < 0 then false
  else decide ((th a).order_key < (th b).order_key)

/-- Modelled from the spec: `rb_insert` is not part of the sources.  The tree
is an ordered container keyed by `lessthan_fn`: the node is placed in tree
order in front of the first node it is less than, behind all nodes when there
is none. -/
def rb_insert (lessthan : Tid → Tid → Bool) : List Tid → Tid → List Tid
  | [], node => [node]
  | n :: rest, node =>
    if lessthan node n then node :: n :: rest
    else n :: rb_insert lessthan rest node

/-- The renumbering loop of `z_priq_rb_add`:
`RB_FOR_EACH_CONTAINER(&pq->tree, t, ...) t->base.order_key = pq->next_order_key++`,
over the nodes in tree order. -/
def rb_renumber (th : Tid → k_thread) (next : Nat) : List Tid → (Tid → k_thread) × Nat
  | [] => (th, next)
  | t :: rest =>
    rb_renumber (Function.update th t { th t with order_key := next })
      ((next + 1) % 2 ^ 32) rest

/-- `z_priq_rb_add(pq, thread)`. -/
def z_priq_rb_add (cfg : Config) (th : Tid → k_thread) (pq : priq_rb) (thread : Tid) :
    (Tid → k_thread) × priq_rb :=
  let th1 := Function.update th thread { th thread with order_key := pq.next_order_key }
  let next := (pq.next_order_key + 1) % 2 ^ 32
  let r := if next = 0 then rb_renumber th1 next pq.tree else (th1, next)
  (r.1, { tree := rb_insert (z_priq_rb_lessthan cfg r.1) pq.tree thread,
          next_order_key := r.2 })

/-- `z_priq_rb_remove(pq, thread)`. -/
def z_priq_rb_remove (pq : priq_rb) (thread : Tid) : priq_rb :=
  let tree := pq.tree.filter (fun n => n != thread)
  { tree := tree, next_order_key := if tree = [] then 0 else pq.next_order_key }

/-- `z_priq_rb_best(pq)`: the minimum of the tree, `NULL` when it is empty. -/
def z_priq_rb_best (pq : priq_rb) : Tid :=
  match pq.tree with
  | [] => NULL
  | n :: _ => n

/-! ## Thread state helpers -/

/-- `is_preempt`'s threshold.  Modelled from the spec: the constant is defined
in a header that is not part of the sources; a thread is preemptible when its
priority is non-negative and its `sched_locked` count is zero, which is
`preempt <= 0x7f` on the 16-bit overlay of the two bytes. -/
def _PREEMPT_THRESHOLD : Nat := 127

/-- Modelled from the spec: `base.preempt` is the 16-bit field that overlays
`base.prio` (low byte) and `base.sched_locked` (high byte). -/
def k_thread.preempt (t : k_thread) : Nat :=
  (t.sched_locked % 256) * 256 + (t.prio % 256).toNat

/-- `is_preempt(thread)`. -/
def is_preempt (t : k_thread) : Bool :=
  decide (t.preempt ≤ _PREEMPT_THRESHOLD)

/-- `is_metairq(thread)`. -/
def is_metairq (cfg : Config) (t : k_thread) : Bool :=
  if cfg.NUM_METAIRQ_PRIORITIES > 0 then
    decide (t.prio - cfg.K_HIGHEST_THREAD_PRIO < (cfg.NUM_METAIRQ_PRIORITIES : Int))
  else false

/-- `is_aborting(thread)`. -/
def is_aborting (t : k_thread) : Bool := t.thread_state.ABORTING

/-- Modelled from the spec: `z_is_thread_prevented_from_running` is defined in
a header that is not part of the sources.  A thread is prevented from running
while it is pended, suspended or dummy, and while it has not started or is
dead. -/
def z_is_thread_prevented_from_running (t : k_thread) : Bool :=
  t.thread_state.PENDING || t.thread_state.PRESTART || t.thread_state.DEAD ||
    t.thread_state.DUMMY || t.thread_state.SUSPENDED

/-- Modelled from the spec: whether the thread's timeout is pending. -/
def z_is_thread_timeout_active (t : k_thread) : Bool := t.timeout_active

/-- Modelled from the spec: a thread is in a runnable state when nothing
prevents it from running and it has no timeout pending. -/
def z_is_thread_ready (t : k_thread) : Bool :=
  !(z_is_thread_prevented_from_running t || z_is_thread_timeout_active t)

/-- Modelled from the spec: the `QUEUED` bit. -/
def z_is_thread_queued (t : k_thread) : Bool := t.thread_state.QUEUED

/-- Modelled from the spec: the `PENDING` bit. -/
def z_is_thread_pending (t : k_thread) : Bool := t.thread_state.PENDING

/-- Modelled from the spec: the `SUSPENDED` bit. -/
def z_is_thread_suspended (t : k_thread) : Bool := t.thread_state.SUSPENDED

/-! ## Kernel state -/

/-- The scheduler's global state: `_kernel`, the record of the executing CPU
(`_current_cpu`), every wait queue, and the statics of `sched.c`. -/
structure Kernel where
  threads : Tid → k_thread
  /-- `_kernel.ready_q.runq`. -/
  runq : List Tid
  /-- `_kernel.ready_q.cache`. -/
  cache : Tid
  /-- `wait_q->waitq` of every wait queue. -/
  waitq : WaitQ → List Tid
  /-- `_current_cpu->current`. -/
  current : Tid
  idle_thread : Tid
  metairq_preempted : Tid
  swap_ok : Int
  cpu_id : Nat
  slice_ticks : Int
  slice_time : Int
  slice_max_prio : Int
  pending_current : Tid
  /-- `&z_idle_threads[0]`. -/
  z_idle_threads : Tid
  /-- What `sys_clock_elapsed()` returns. -/
  clock_elapsed : Int

/-- Write to the fields of one thread. -/
def Kernel.upd (k : Kernel) (t : Tid) (f : k_thread → k_thread) : Kernel :=
  { k with threads := Function.update k.threads t (f (k.threads t)) }

/-- Write to `thread->base.thread_state`. -/
def Kernel.upd_state (k : Kernel) (t : Tid) (f : ThreadState → ThreadState) : Kernel :=
  k.upd t (fun x => { x with thread_state := f x.thread_state })

/-- The node `thread->base.qnode_dlist` is unlinked.  `z_priq_dumb_remove`
does not use its `pq` argument: `sys_dlist_remove` takes the node alone and
unlinks it from the list it is on, so the removal is applied to every list
(a node that is on no list is left alone). -/
def Kernel.unlink (k : Kernel) (thread : Tid) : Kernel :=
  { k with runq := z_priq_dumb_remove k.runq thread
           waitq := fun w => z_priq_dumb_remove (k.waitq w) thread }

/-- Modelled from the spec: `z_is_idle_thread_object` is defined in a header
that is not part of the sources; the idle thread is the thread object
`z_idle_threads[0]` on a uniprocessor and a thread flagged `is_idle` on
SMP. -/
def z_is_idle_thread_object (cfg : Config) (k : Kernel) (thread : Tid) : Bool :=
  if cfg.SMP then (k.threads thread).is_idle else thread == k.z_idle_threads

/-- Modelled from the spec: `z_mark_thread_as_started` clears `PRESTART`. -/
def z_mark_thread_as_started (k : Kernel) (t : Tid) : Kernel :=
  k.upd_state t (fun s => { s with PRESTART := false })

/-- Modelled from the spec: `z_mark_thread_as_pending` sets `PENDING`. -/
def z_mark_thread_as_pending (k : Kernel) (t : Tid) : Kernel :=
  k.upd_state t (fun s => { s with PENDING := true })

/-- Modelled from the spec: `z_mark_thread_as_not_pending` clears `PENDING`. -/
def z_mark_thread_as_not_pending (k : Kernel) (t : Tid) : Kernel :=
  k.upd_state t (fun s => { s with PENDING := false })

/-- Modelled from the spec: `z_mark_thread_as_suspended` sets `SUSPENDED`. -/
def z_mark_thread_as_suspended (k : Kernel) (t : Tid) : Kernel :=
  k.upd_state t (fun s => { s with SUSPENDED := true })

/-- Modelled from the spec: `z_mark_thread_as_not_suspended` clears
`SUSPENDED`. -/
def z_mark_thread_as_not_suspended (k : Kernel) (t : Tid) : Kernel :=
  k.upd_state t (fun s => { s with SUSPENDED := false })

/-- Modelled from the spec: `z_abort_thread_timeout` cancels the thread's
timeout. -/
def z_abort_thread_timeout (k : Kernel) (t : Tid) : Kernel :=
  k.upd t (fun x => { x with timeout_active := false })

/-- Modelled from the spec: `arch_thread_return_value_set` stores the value the
thread's pending swap returns. -/
def arch_thread_return_value_set (k : Kernel) (t : Tid) (value : Int) : Kernel :=
  k.upd t (fun x => { x with swap_retval := value })

/-- Modelled from the spec: `z_thread_return_value_set_with_data` stores the
swap return value and `swap_data`. -/
def z_thread_return_value_set_with_data (k : Kernel) (t : Tid) (value : Int)
    (data : Nat) : Kernel :=
  k.upd t (fun x => { x with swap_retval := value, swap_data := data })

/-! ## Scheduler core -/

/-- `should_preempt(thread, preempt_ok)`. -/
def should_preempt (cfg : Config) (k : Kernel) (thread : Tid) (preempt_ok : Int) : Bool :=
  if preempt_ok ≠ 0 then true
  else if z_is_thread_prevented_from_running (k.threads k.current) then true
  else if cfg.SWAP_NONATOMIC && z_is_thread_timeout_active (k.threads thread) then true
  else if is_preempt (k.threads k.current) || is_metairq cfg (k.threads thread) then true
  else false

/-- `_priq_dumb_mask_best(pq)`: the first thread on the list whose `cpu_mask`
has the bit of the executing CPU, `NULL` when there is none. -/
def _priq_dumb_mask_best (k : Kernel) (pq : List Tid) : Tid :=
  match pq.find? (fun t => (k.threads t).cpu_mask.testBit k.cpu_id) with
  | some t => t
  | none => NULL

/-- `_priq_run_best` with the list back-end. -/
def _priq_run_best (cfg : Config) (k : Kernel) : Tid :=
  if cfg.SCHED_CPU_MASK then _priq_dumb_mask_best k k.runq
  else z_priq_dumb_best k.runq

/-- `should_queue_thread(th)`. -/
def should_queue_thread (cfg : Config) (k : Kernel) (th : Tid) : Bool :=
  !cfg.SMP || th != k.current

/-- `queue_thread(&_kernel.ready_q.runq, thread)`. -/
def queue_thread (cfg : Config) (k : Kernel) (thread : Tid) : Kernel :=
  let k1 := k.upd_state thread (fun s => { s with QUEUED := true })
  let k2 := if should_queue_thread cfg k1 thread then
      { k1 with runq := z_priq_dumb_add cfg k1.threads k1.runq thread }
    else k1
  if cfg.SMP && thread == k2.current then { k2 with swap_ok := 1 } else k2

/-- `dequeue_thread(&_kernel.ready_q.runq, thread)`. -/
def dequeue_thread (cfg : Config) (k : Kernel) (thread : Tid) : Kernel :=
  let k1 := k.upd_state thread (fun s => { s with QUEUED := false })
  if should_queue_thread cfg k1 thread then k1.unlink thread else k1

/-- `next_up()` of a uniprocessor build (`CONFIG_SMP` unset): the chosen thread
and the state, in which `metairq_preempted` may have been cleared. -/
def next_up (cfg : Config) (k : Kernel) : Tid × Kernel :=
  let thread := _priq_run_best cfg k
  let r : Tid × Kernel :=
    if cfg.NUM_METAIRQ_PRIORITIES > 0 && cfg.NUM_COOP_PRIORITIES > 0 then
      let mirqp := k.metairq_preempted
      if mirqp ≠ NULL ∧ (thread = NULL ∨ ¬ is_metairq cfg (k.threads thread) = true) then
        if ¬ z_is_thread_prevented_from_running (k.threads mirqp) = true then (mirqp, k)
        else (thread, { k with metairq_preempted := NULL })
      else (thread, k)
    else (thread, k)
  (if r.1 ≠ NULL then r.1 else r.2.idle_thread, r.2)

/-- `z_reset_time_slice()`. -/
def z_reset_time_slice (k : Kernel) : Kernel :=
  if k.slice_time ≠ 0 then { k with slice_ticks := k.slice_time + k.clock_elapsed }
  else k

/-- `update_metairq_preempt(thread)`. -/
def update_metairq_preempt (cfg : Config) (k : Kernel) (thread : Tid) : Kernel :=
  if cfg.NUM_METAIRQ_PRIORITIES > 0 && cfg.NUM_COOP_PRIORITIES > 0 then
    if is_metairq cfg (k.threads thread) && !is_metairq cfg (k.threads k.current) &&
        !is_preempt (k.threads k.current) then
      { k with metairq_preempted := k.current }
    else if !is_metairq cfg (k.threads thread) && !z_is_idle_thread_object cfg k thread then
      { k with metairq_preempted := NULL }
    else k
  else k

/-- `update_cache(preempt_ok)`. -/
def update_cache (cfg : Config) (k : Kernel) (preempt_ok : Int) : Kernel :=
  if cfg.SMP then { k with swap_ok := preempt_ok }
  else
    let r := next_up cfg k
    let thread := r.1
    let k1 := r.2
    if should_preempt cfg k1 thread preempt_ok then
      let k2 := if cfg.TIMESLICING && thread != k1.current then z_reset_time_slice k1 else k1
      let k3 := update_metairq_preempt cfg k2 thread
      { k3 with cache := thread }
    else { k1 with cache := k1.current }

/-- `need_swap()`. -/
def need_swap (cfg : Config) (k : Kernel) : Bool :=
  if cfg.SMP then true else k.cache != k.current

/-- `ready_thread(thread)`. -/
def ready_thread (cfg : Config) (k : Kernel) (thread : Tid) : Kernel :=
  if !z_is_thread_queued (k.threads thread) && z_is_thread_ready (k.threads thread) then
    update_cache cfg (queue_thread cfg k thread) 0
  else k

/-- `move_thread_to_end_of_prio_q(thread)`. -/
def move_thread_to_end_of_prio_q (cfg : Config) (k : Kernel) (thread : Tid) : Kernel :=
  let k1 := if z_is_thread_queued (k.threads thread) then dequeue_thread cfg k thread else k
  let k2 := queue_thread cfg k1 thread
  update_cache cfg k2 (if thread = k2.current then 1 else 0)

/-- `unready_thread(thread)`. -/
def unready_thread (cfg : Config) (k : Kernel) (thread : Tid) : Kernel :=
  let k1 := if z_is_thread_queued (k.threads thread) then dequeue_thread cfg k thread else k
  update_cache cfg k1 (if thread = k1.current then 1 else 0)

/-- `add_to_waitq_locked(thread, wait_q)`. -/
def add_to_waitq_locked (cfg : Config) (k : Kernel) (thread : Tid) (wait_q : Option WaitQ) :
    Kernel :=
  let k1 := unready_thread cfg k thread
  let k2 := z_mark_thread_as_pending k1 thread
  match wait_q with
  | some w =>
    let k3 := k2.upd thread (fun x => { x with pended_on := some w })
    { k3 with waitq := Function.update k3.waitq w
                (z_priq_dumb_add cfg k3.threads (k3.waitq w) thread) }
  | none => k2

/-- `unpend_thread_no_timeout(thread)`. -/
def unpend_thread_no_timeout (k : Kernel) (thread : Tid) : Kernel :=
  let k1 := k.unlink thread
  let k2 := z_mark_thread_as_not_pending k1 thread
  k2.upd thread (fun x => { x with pended_on := none })

/-- `z_thread_timeout(timeout)`, for the thread that embeds the timeout. -/
def z_thread_timeout (cfg : Config) (k : Kernel) (thread : Tid) : Kernel :=
  let killed := (k.threads thread).thread_state.DEAD || (k.threads thread).thread_state.ABORTING
  if !killed then
    let k1 := if (k.threads thread).pended_on ≠ none then unpend_thread_no_timeout k thread
      else k
    let k2 := z_mark_thread_as_started k1 thread
    let k3 := z_mark_thread_as_not_suspended k2 thread
    ready_thread cfg k3 thread
  else k

/-- `z_set_prio(thread, prio)`: the returned flag and the state. -/
def z_set_prio (cfg : Config) (k : Kernel) (thread : Tid) (prio : Int) : Bool × Kernel :=
  let need_sched := z_is_thread_ready (k.threads thread)
  let set := fun (k : Kernel) => k.upd thread (fun x => { x with prio := wrap_int8 prio })
  if need_sched then
    let k1 :=
      if !cfg.SMP || z_is_thread_queued (k.threads thread) then
        queue_thread cfg (set (dequeue_thread cfg k thread)) thread
      else set k
    (need_sched, update_cache cfg k1 1)
  else (need_sched, set k)

/-- `z_impl_k_thread_deadline_set(tid, deadline)`; `now` is what
`k_cycle_get_32()` returns. -/
def z_impl_k_thread_deadline_set (cfg : Config) (k : Kernel) (tid : Tid) (now : Nat)
    (deadline : Int) : Kernel :=
  let k1 := k.upd tid (fun x =>
    { x with prio_deadline := (((now : Int) + deadline) % 2 ^ 32).toNat })
  if z_is_thread_queued (k1.threads tid) then
    queue_thread cfg (dequeue_thread cfg k1 tid) tid
  else k1

/-- `z_waitq_head(wait_q)`: the head of the wait queue, `NULL` when it is
empty. -/
def z_waitq_head (k : Kernel) (w : WaitQ) : Tid := z_priq_dumb_best (k.waitq w)

/-- The loop of `unpend_all(wait_q)`, run for at most `fuel` passes. -/
def unpend_all_loop (cfg : Config) : Nat → Kernel → WaitQ → Kernel
  | 0, k, _ => k
  | fuel + 1, k, w =>
    let thread := z_waitq_head k w
    if thread ≠ NULL then
      let k1 := unpend_thread_no_timeout k thread
      let k2 := z_abort_thread_timeout k1 thread
      let k3 := arch_thread_return_value_set k2 thread 0
      let k4 := ready_thread cfg k3 thread
      unpend_all_loop cfg fuel k4 w
    else k

/-- `unpend_all(wait_q)`.  Every pass unlinks the head of the queue, so the
loop ends within as many passes as the queue has members. -/
def unpend_all (cfg : Config) (k : Kernel) (w : WaitQ) : Kernel :=
  unpend_all_loop cfg (k.waitq w).length k w

/-- `end_thread(thread)`. -/
def end_thread (cfg : Config) (k : Kernel) (thread : Tid) : Kernel :=
  if !(k.threads thread).thread_state.DEAD then
    let k1 := k.upd_state thread (fun s => { s with DEAD := true })
    let k2 := k1.upd_state thread (fun s => { s with ABORTING := false })
    let k3 := if z_is_thread_queued (k2.threads thread) then dequeue_thread cfg k2 thread else k2
    let k4 := if (k3.threads thread).pended_on ≠ none then unpend_thread_no_timeout k3 thread
      else k3
    let k5 := z_abort_thread_timeout k4 thread
    let k6 := unpend_all cfg k5 (WaitQ.join thread)
    update_cache cfg k6 1
  else k

/-! ## Next-thread selection on SMP -/

/-- The part of `next_up()` that both builds share, in front of
`#ifndef CONFIG_SMP`: the best thread of the run queue, replaced by the thread
remembered in `metairq_preempted` under the metairq-return rule; the state is
returned because the rule may clear the slot. -/
def next_up_common (cfg : Config) (k : Kernel) : Tid × Kernel :=
  let thread := _priq_run_best cfg k
  if cfg.NUM_METAIRQ_PRIORITIES > 0 && cfg.NUM_COOP_PRIORITIES > 0 then
    let mirqp := k.metairq_preempted
    if mirqp ≠ NULL ∧ (thread = NULL ∨ ¬ is_metairq cfg (k.threads thread) = true) then
      if ¬ z_is_thread_prevented_from_running (k.threads mirqp) = true then (mirqp, k)
      else (thread, { k with metairq_preempted := NULL })
    else (thread, k)
  else (thread, k)

/-- `next_up()` of an SMP build (`CONFIG_SMP` set): the chosen thread and the
state. -/
def next_up_smp (cfg : Config) (k : Kernel) : Tid × Kernel :=
  let r := next_up_common cfg k
  let k1 := if is_aborting (r.2.threads r.2.current) then end_thread cfg r.2 r.2.current
    else r.2
  let queued := z_is_thread_queued (k1.threads k1.current)
  let active := !z_is_thread_prevented_from_running (k1.threads k1.current)
  let thread1 := if r.1 = NULL then k1.idle_thread else r.1
  let thread2 :=
    if active then
      let cmp := z_sched_prio_cmp cfg (k1.threads k1.current) (k1.threads thread1)
      let t := if cmp > 0 ∨ (cmp = 0 ∧ k1.swap_ok = 0) then k1.current else thread1
      if !should_preempt cfg k1 t k1.swap_ok then k1.current else t
    else thread1
  let k2 :=
    if thread2 ≠ k1.current ∧ active = true ∧
        z_is_idle_thread_object cfg k1 k1.current = false ∧ queued = false then
      queue_thread cfg k1 k1.current
    else k1
  let k3 := if z_is_thread_queued (k2.threads thread2) then dequeue_thread cfg k2 thread2
    else k2
  (thread2, { k3 with swap_ok := 0 })

/-- The thread that the SMP branch of `next_up()` compares `_current` with:
the thread of the shared part, the idle thread when that is NULL. -/
def next_up_candidate (cfg : Config) (k : Kernel) : Tid :=
  if (next_up_common cfg k).1 = NULL then k.idle_thread else (next_up_common cfg k).1

/-! ## The context switch -/

/-- `z_requeue_current(curr)` (`CONFIG_SMP`). -/
def z_requeue_current (cfg : Config) (k : Kernel) (curr : Tid) : Kernel :=
  if z_is_thread_queued (k.threads curr) then
    { k with runq := z_priq_dumb_add cfg k.threads k.runq curr }
  else k

/-- `z_swap_next_thread()`: the chosen thread and the state. -/
def z_swap_next_thread (cfg : Config) (k : Kernel) : Tid × Kernel :=
  if cfg.SMP then next_up_smp cfg k else (k.cache, k)

/-- Modelled from the spec: `z_swap` is defined in a header that is not part
of the sources.  The switch is to the thread `z_swap_next_thread()` returns.
On a uniprocessor build that is the cached thread, which becomes the current
one (as in `z_get_next_switch_handle`).  On SMP it is the thread `next_up()`
chooses; when it differs from the old current the time slice is reset
(`CONFIG_TIMESLICING`), `swap_ok` is cleared, the thread becomes the current
one and the old current is handed to `z_requeue_current`, which is "called
out of z_swap() when CONFIG_SMP" (as the SMP branch of
`z_get_next_switch_handle` does with its own `_priq_run_add`). -/
def z_swap (cfg : Config) (k : Kernel) : Kernel :=
  if cfg.SMP then
    let old_thread := k.current
    let r := z_swap_next_thread cfg k
    if r.1 ≠ old_thread then
      let k1 := if cfg.TIMESLICING then z_reset_time_slice r.2 else r.2
      z_requeue_current cfg { k1 with swap_ok := 0, current := r.1 } old_thread
    else r.2
  else { k with current := k.cache }

/-- `z_reschedule(lock, key)`; `resched` is what `resched(key)` returns:
interrupts were unlocked by the key and the caller is not an ISR. -/
def z_reschedule (cfg : Config) (k : Kernel) (resched : Bool) : Kernel :=
  if resched && need_swap cfg k then z_swap cfg k else k

/-- `z_reschedule_irqlock(key)`. -/
def z_reschedule_irqlock (cfg : Config) (k : Kernel) (resched : Bool) : Kernel :=
  if resched then z_swap cfg k else k

/-- `z_impl_k_thread_suspend(thread)`. -/
def z_impl_k_thread_suspend (cfg : Config) (k : Kernel) (thread : Tid) (resched : Bool) :
    Kernel :=
  let k0 := z_abort_thread_timeout k thread
  let k1 := if z_is_thread_queued (k0.threads thread) then dequeue_thread cfg k0 thread else k0
  let k2 := z_mark_thread_as_suspended k1 thread
  let k3 := update_cache cfg k2 (if thread = k2.current then 1 else 0)
  if thread = k3.current then z_reschedule_irqlock cfg k3 resched else k3

/-- `z_impl_k_thread_resume(thread)`. -/
def z_impl_k_thread_resume (cfg : Config) (k : Kernel) (thread : Tid) (resched : Bool) :
    Kernel :=
  if !z_is_thread_suspended (k.threads thread) then k
  else
    let k1 := z_mark_thread_as_not_suspended k thread
    let k2 := ready_thread cfg k1 thread
    z_reschedule cfg k2 resched

/-- `z_impl_k_yield()`. -/
def z_impl_k_yield (cfg : Config) (k : Kernel) : Kernel :=
  let k1 := if !cfg.SMP || z_is_thread_queued (k.threads k.current) then
      dequeue_thread cfg k k.current
    else k
  let k2 := queue_thread cfg k1 k1.current
  z_swap cfg (update_cache cfg k2 1)

/-- `z_sched_wake(wait_q, swap_retval, swap_data)`: the returned flag and the
state. -/
def z_sched_wake (cfg : Config) (k : Kernel) (wait_q : WaitQ) (swap_retval : Int)
    (swap_data : Nat) : Bool × Kernel :=
  let thread := z_priq_dumb_best (k.waitq wait_q)
  if thread ≠ NULL then
    let k1 := z_thread_return_value_set_with_data k thread swap_retval swap_data
    let k2 := unpend_thread_no_timeout k1 thread
    let k3 := z_abort_thread_timeout k2 thread
    (true, ready_thread cfg k3 thread)
  else (false, k)

/-! ## Notions used to state the properties -/

/-- Offset of the deadline `d` from the start `base` of a window of the rolling
32-bit deadline space. -/
def deadline_offset (base d : Nat) : Nat := (d % 2 ^ 32 + 2 ^ 32 - base % 2 ^ 32) % 2 ^ 32

/-- Distance of two deadlines in the rolling 32-bit space: the shorter way
round. -/
def deadline_distance (d1 d2 : Nat) : Nat :=
  min (deadline_offset d1 d2) (deadline_offset d2 d1)

/-- The documented rule on deadlines: deadline scheduling is off, or all
deadlines lie in one window of `2 ^ 31` consecutive values of the 32-bit
space. -/
def deadlines_in_half_space (cfg : Config) (th : Tid → k_thread) : Prop :=
  cfg.SCHED_DEADLINE = false ∨
    ∃ base, ∀ t, deadline_offset base (th t).prio_deadline < 2 ^ 31

/-- A thread record with the given priority and deadline, not queued, not
pended, with no timeout. -/
def mk_thread (prio : Int) (deadline : Nat) : k_thread :=
  { prio := prio, sched_locked := 0, prio_deadline := deadline,
    thread_state := { DUMMY := false, PENDING := false, PRESTART := false, DEAD := false,
                      SUSPENDED := false, ABORTING := false, QUEUED := false },
    order_key := 0, cpu_mask := 0, pended_on := none, timeout_active := false,
    is_idle := false, swap_retval := 0, swap_data := 0 }

/-- A build with the list back-end on one CPU: deadline scheduling on, sixteen
cooperative priorities of which the top one is a meta-IRQ priority. -/
def cfg_deadline : Config :=
  { SMP := false, SCHED_DEADLINE := true, SCHED_CPU_MASK := false, SWAP_NONATOMIC := false,
    TIMESLICING := false, TICKLESS_KERNEL := false, NUM_METAIRQ_PRIORITIES := 1,
    NUM_COOP_PRIORITIES := 16 }

/-- A state with the run queue `runq` over the thread table `th`: thread 1 is
current and cached, no remembered thread, no wait queue populated, the idle
thread is thread 9. -/
def mk_kernel (th : Tid → k_thread) (runq : List Tid) : Kernel :=
  { threads := th, runq := runq, cache := 1, waitq := fun _ => [], current := 1,
    idle_thread := 9, metairq_preempted := NULL, swap_ok := 0, cpu_id := 0, slice_ticks := 0,
    slice_time := 0, slice_max_prio := 0, pending_current := NULL, z_idle_threads := 9,
    clock_elapsed := 0 }

/-- An operation on a priority queue. -/
inductive PriqOp where
  | add (t : Tid)
  | remove (t : Tid)
  deriving DecidableEq, Repr

/-- One `z_priq_dumb_add` or `z_priq_dumb_remove` call on the list `pq`. -/
def priq_dumb_step (cfg : Config) (th : Tid → k_thread) (pq : List Tid) : PriqOp → List Tid
  | PriqOp.add t => z_priq_dumb_add cfg th pq t
  | PriqOp.remove t => z_priq_dumb_remove pq t

/-- The list after a sequence of calls, starting from the empty list. -/
def priq_dumb_run (cfg : Config) (th : Tid → k_thread) (ops : List PriqOp) : List Tid :=
  ops.foldl (priq_dumb_step cfg th) []

/-- The threads added and not removed: the set after one more operation. -/
def resident_step (r : Tid → Bool) : PriqOp → Tid → Bool
  | PriqOp.add t => fun x => x == t || r x
  | PriqOp.remove t => fun x => x != t && r x

/-- The threads added and not removed by a sequence of operations. -/
def resident_after (ops : List PriqOp) : Tid → Bool :=
  ops.foldl resident_step (fun _ => false)

/-- A sequence of operations on distinct threads: every add is of a non-NULL
thread that is not resident, every remove is of a resident thread. -/
def valid_ops_from (r : Tid → Bool) : List PriqOp → Prop
  | [] => True
  | PriqOp.add t :: rest =>
    t ≠ NULL ∧ r t = false ∧ valid_ops_from (resident_step r (PriqOp.add t)) rest
  | PriqOp.remove t :: rest =>
    r t = true ∧ valid_ops_from (resident_step r (PriqOp.remove t)) rest

/-- A valid sequence of operations from the empty queue. -/
def valid_ops (ops : List PriqOp) : Prop := valid_ops_from (fun _ => false) ops

/-- The two order facts the list queue needs from the comparison. -/
def CmpOrder (cfg : Config) (th : Tid → k_thread) : Prop :=
  (∀ a b, ¬ 0 < z_sched_prio_cmp cfg (th a) (th b) → 0 ≤ z_sched_prio_cmp cfg (th b) (th a)) ∧
  (∀ a b c, 0 < z_sched_prio_cmp cfg (th a) (th b) → 0 ≤ z_sched_prio_cmp cfg (th b) (th c) →
    0 < z_sched_prio_cmp cfg (th a) (th c))

/-- The invariant of the list queue against the set `r` of resident threads. -/
def priq_inv (cfg : Config) (th : Tid → k_thread) (pq : List Tid) (r : Tid → Bool) : Prop :=
  (∀ t, t ∈ pq ↔ r t = true) ∧ pq.Nodup ∧
  pq.Pairwise (fun a b => 0 ≤ z_sched_prio_cmp cfg (th a) (th b)) ∧ NULL ∉ pq

/-- Four threads of priority 0; the deadlines of threads 1, 3 and 2 are a third
of the 32-bit space apart, thread 4 has the deadline of thread 1. -/
def th_cycle : Tid → k_thread := fun t =>
  match t with
  | 2 => mk_thread 0 2800000000
  | 3 => mk_thread 0 1400000000
  | _ => mk_thread 0 0

/-- One `z_priq_rb_add` of thread `x` followed by its `z_priq_rb_remove`. -/
def rb_add_remove (cfg : Config) (x : Tid) (s : (Tid → k_thread) × priq_rb) :
    (Tid → k_thread) × priq_rb :=
  ((z_priq_rb_add cfg s.1 s.2 x).1, z_priq_rb_remove (z_priq_rb_add cfg s.1 s.2 x).2 x)

/-- The tree queue that holds thread 1 alone (added first to the empty queue),
after `n` add/remove cycles of thread 4. -/
def rb_churn (cfg : Config) (n : Nat) : (Tid → k_thread) × priq_rb :=
  (rb_add_remove cfg 4)^[n]
    (z_priq_rb_add cfg (fun _ => mk_thread 0 0) { tree := [], next_order_key := 0 } 1)

/-- The ready-queue invariant: a thread is on the run queue iff its `QUEUED`
bit is set, and it is on the queue at most once. -/
def runq_inv (k : Kernel) : Prop :=
  (∀ t, t ∈ k.runq ↔ (k.threads t).thread_state.QUEUED = true) ∧ k.runq.Nodup

/-- No thread that has `pended_on` set or is a member of a wait queue is on the
run queue. -/
def waitq_excl (k : Kernel) : Prop :=
  ∀ t, ((k.threads t).pended_on ≠ none ∨ ∃ w, t ∈ k.waitq w) → t ∉ k.runq

/-- The operation leaves the run queue, the wait queues and every thread
record as they are. -/
def same_queues (k k' : Kernel) : Prop :=
  k'.runq = k.runq ∧ k'.threads = k.threads ∧ k'.waitq = k.waitq

/-- A state in which thread 1 is on the run queue with `QUEUED` set while its
`pended_on` still names a wait queue. -/
def k_stale : Kernel :=
  mk_kernel (fun t =>
    if t = 1 then
      { mk_thread 0 0 with
        thread_state := { (mk_thread 0 0).thread_state with QUEUED := true },
        pended_on := some (WaitQ.obj 0) }
    else mk_thread 0 0) [1]

/-- The thread record with its `QUEUED` bit cleared: what the scheduling
decisions read of a thread besides its queue membership. -/
def k_thread.unqueued (a : k_thread) : k_thread :=
  { a with thread_state := { a.thread_state with QUEUED := false } }

/-- The state of the scenario that refutes C7 as stated: thread 1 (cooperative,
priority -2) is current, cached and alone on the run queue; thread 5 has the
metairq priority -16, is not queued and is remembered in `metairq_preempted`;
thread 2 is a preemptible thread of priority 3 that is ready and not queued. -/
def k_slot : Kernel :=
  { mk_kernel (fun t =>
      if t = 1 then
        { mk_thread (-2) 0 with
          thread_state := { (mk_thread 0 0).thread_state with QUEUED := true } }
      else if t = 5 then mk_thread (-16) 0
      else mk_thread 3 0) [1] with
    metairq_preempted := 5 }

/-- The start of scenario S5: the cooperative thread 1 (priority -2) is
current, cached and alone on the run queue; thread 5 has the metairq priority
-16 and thread 3 the cooperative priority -3, both ready and not queued. -/
def k_s5 : Kernel :=
  mk_kernel (fun t =>
    if t = 1 then
      { mk_thread (-2) 0 with
        thread_state := { (mk_thread 0 0).thread_state with QUEUED := true } }
    else if t = 5 then mk_thread (-16) 0
    else mk_thread (-3) 0) [1]

/-! ## Waking and pending entry points -/

/-- `thread_active_elsewhere(thread)`: whether another CPU is running the
thread.  The records of the other CPUs are not part of the state; `elsewhere`
says whether one of them has the thread as its `current`. -/
def thread_active_elsewhere (cfg : Config) (elsewhere : Bool) : Bool :=
  cfg.SMP && elsewhere

/-- `z_ready_thread(thread)`. -/
def z_ready_thread (cfg : Config) (k : Kernel) (thread : Tid) (elsewhere : Bool) : Kernel :=
  if !thread_active_elsewhere cfg elsewhere then ready_thread cfg k thread else k

/-- Modelled from the spec: `z_add_thread_timeout` arms the thread's timeout
(the timeout list is not part of the sources). -/
def z_add_thread_timeout (k : Kernel) (t : Tid) : Kernel :=
  k.upd t (fun x => { x with timeout_active := true })

/-- `add_thread_timeout(thread, timeout)`; `forever` says whether the timeout
is `K_FOREVER`. -/
def add_thread_timeout (k : Kernel) (thread : Tid) (forever : Bool) : Kernel :=
  if !forever then z_add_thread_timeout k thread else k

/-- `pend(thread, wait_q, timeout)`. -/
def pend (cfg : Config) (k : Kernel) (thread : Tid) (wait_q : Option WaitQ) (forever : Bool) :
    Kernel :=
  add_thread_timeout (add_to_waitq_locked cfg k thread wait_q) thread forever

/-- `z_unpend_first_thread(wait_q)`: the returned thread and the state. -/
def z_unpend_first_thread (k : Kernel) (wait_q : WaitQ) : Tid × Kernel :=
  let thread := z_priq_dumb_best (k.waitq wait_q)
  if thread ≠ NULL then
    (thread, z_abort_thread_timeout (unpend_thread_no_timeout k thread) thread)
  else (thread, k)

/-- The value of `thread_state` that is `_THREAD_SUSPENDED` and no other bit. -/
def _THREAD_SUSPENDED : ThreadState :=
  { DUMMY := false, PENDING := false, PRESTART := false, DEAD := false, SUSPENDED := true,
    ABORTING := false, QUEUED := false }

/-- `z_impl_k_wakeup(thread)`.  `z_abort_thread_timeout` returns a negative
value when the timeout was not active; `in_isr` is `arch_is_in_isr()` and
`resched` what `resched(key)` gives in `z_reschedule_unlocked`. -/
def z_impl_k_wakeup (cfg : Config) (k : Kernel) (thread : Tid)
    (elsewhere in_isr resched : Bool) : Kernel :=
  if z_is_thread_pending (k.threads thread) then k
  else
    let inactive := !z_is_thread_timeout_active (k.threads thread)
    let k1 := z_abort_thread_timeout k thread
    if inactive && decide ((k1.threads thread).thread_state ≠ _THREAD_SUSPENDED) then k1
    else
      let k2 := z_mark_thread_as_not_suspended k1 thread
      let k3 := z_ready_thread cfg k2 thread elsewhere
      if !in_isr then z_reschedule_irqlock cfg k3 resched else k3

/-! ## Notions used to state the wait-queue properties -/

/-- Membership is exclusive: no member of a wait queue is on the run queue,
and no thread is a member of two wait queues. -/
def membership_excl (k : Kernel) : Prop :=
  (∀ t w, t ∈ k.waitq w → t ∉ k.runq) ∧
  (∀ t w1 w2, t ∈ k.waitq w1 → t ∈ k.waitq w2 → w1 = w2)

/-- Every member of a wait queue has its `PENDING` bit set. -/
def waiters_pending (k : Kernel) : Prop :=
  ∀ t w, t ∈ k.waitq w → (k.threads t).thread_state.PENDING = true

/-- Every thread on the run queue has its `QUEUED` bit set and, on SMP, is not
the current thread. -/
def runq_queued (cfg : Config) (k : Kernel) : Prop :=
  ∀ t, t ∈ k.runq →
    (k.threads t).thread_state.QUEUED = true ∧ (cfg.SMP = true → t ≠ k.current)

/-- The pended-state invariant at one thread: `PENDING` is set iff the thread
is a member of a wait queue, and `pended_on` names a queue iff the thread is a
member of that queue (so the thread is in at most one queue, and `pended_on`
is NULL iff it is in none). -/
def pend_ok (k : Kernel) (t : Tid) : Prop :=
  ((k.threads t).thread_state.PENDING = true ↔ ∃ w, t ∈ k.waitq w) ∧
  (∀ w, (k.threads t).pended_on = some w ↔ t ∈ k.waitq w)

/-- The pended-state invariant: it holds at every thread. -/
def pend_inv (k : Kernel) : Prop := ∀ t, pend_ok k t

/-- The build of `cfg_deadline` with SMP switched on. -/
def cfg_smp : Config := { cfg_deadline with SMP := true }

/-- A state with nothing queued and nothing pended: every thread is runnable
with priority 0, thread 1 is current. -/
def k_clean : Kernel := mk_kernel (fun _ => mk_thread 0 0) []

/-- The state `k_clean` with the wait queue of object 0 holding thread 2, whose
`PENDING` bit is clear. -/
def k_waiter : Kernel :=
  { k_clean with waitq := fun w => if w = WaitQ.obj 0 then [2] else [] }

/-- A state in which thread 2 is pended on the wait queue of object 0:
`PENDING` set, `pended_on` naming the queue, and the queue holding it. -/
def k_pended : Kernel :=
  { mk_kernel (fun t =>
      if t = 2 then
        { mk_thread 0 0 with
          thread_state := { (mk_thread 0 0).thread_state with PENDING := true },
          pended_on := some (WaitQ.obj 0) }
      else mk_thread 0 0) [] with
    waitq := fun w => if w = WaitQ.obj 0 then [2] else [] }

/-- No state bit other than `PENDING` prevents the thread from running:
`PRESTART`, `DEAD`, `DUMMY` and `SUSPENDED` are clear. -/
def no_other_block (a : k_thread) : Bool :=
  !(a.thread_state.PRESTART || a.thread_state.DEAD || a.thread_state.DUMMY ||
    a.thread_state.SUSPENDED)

/-- The state in which the timeout handler applies `ready_thread`, read off
the description of the handler: when `pended_on` is set the thread's node is
unlinked, `PENDING` is cleared and `pended_on` becomes NULL; in both cases
`PRESTART` and `SUSPENDED` are cleared. -/
def timeout_release (k : Kernel) (t : Tid) : Kernel :=
  { (if (k.threads t).pended_on ≠ none then k.unlink t else k) with
    threads := Function.update k.threads t
      { k.threads t with
        thread_state :=
          { (k.threads t).thread_state with
            PENDING := if (k.threads t).pended_on ≠ none then false
              else (k.threads t).thread_state.PENDING,
            PRESTART := false, SUSPENDED := false },
        pended_on := none } }

/-- The state `k_clean` after thread 2 was pended with a NULL wait queue:
`PENDING` is set and `pended_on` is NULL. -/
def k_pended_null : Kernel :=
  mk_kernel (fun t =>
    if t = 2 then
      { mk_thread 0 0 with
        thread_state := { (mk_thread 0 0).thread_state with PENDING := true } }
    else mk_thread 0 0) []

/-- The state `k_pended` after thread 2 was suspended while pended. -/
def k_pended_suspended : Kernel :=
  { mk_kernel (fun t =>
      if t = 2 then
        { mk_thread 0 0 with
          thread_state :=
            { (mk_thread 0 0).thread_state with PENDING := true, SUSPENDED := true },
          pended_on := some (WaitQ.obj 0) }
      else mk_thread 0 0) [] with
    waitq := fun w => if w = WaitQ.obj 0 then [2] else [] }

/-- A state of two threads of priority 0: thread 1, with deadline 100, is
current and alone on the run queue; thread 2, with the earlier deadline 50, is
ready and not queued. -/
def k_edf : Kernel :=
  mk_kernel (fun t =>
    if t = 1 then
      { mk_thread 0 100 with
        thread_state := { (mk_thread 0 0).thread_state with QUEUED := true } }
    else mk_thread 0 50) [1]

/-- The threads of `th_cycle`, all with `QUEUED` set, on the run queue in the
order in which adding thread 2, 1, 4 and then 3 leaves them. -/
def k_cycle : Kernel :=
  mk_kernel (fun t =>
    { th_cycle t with
      thread_state := { (th_cycle t).thread_state with QUEUED := true } }) [3, 2, 1, 4]

/-- Three threads of priority 5 and equal deadline on the run queue in the
order 1, 2, 3, followed by thread 9 of priority 15, all with `QUEUED` set;
thread 1 is current and cached. -/
def k_rr : Kernel :=
  mk_kernel (fun t =>
    if t = 1 ∨ t = 2 ∨ t = 3 then
      { mk_thread 5 0 with
        thread_state := { (mk_thread 0 0).thread_state with QUEUED := true } }
    else if t = 9 then
      { mk_thread 15 0 with
        thread_state := { (mk_thread 0 0).thread_state with QUEUED := true } }
    else mk_thread 5 0) [1, 2, 3, 9]

/-- The round-robin situation: the run queue is the list `l` of threads of
priority `p` and deadline `d`, followed by the list `low` of threads that are
lower than those of `l`; the queue holds distinct threads, those of `l`
non-NULL; the current thread is the head of the queue and no thread is
remembered in `metairq_preempted`. -/
def round_robin_state (cfg : Config) (k : Kernel) (l low : List Tid) (p : Int) (d : Nat) :
    Prop :=
  k.runq = l ++ low ∧ l ≠ [] ∧ (l ++ low).Nodup ∧ NULL ∉ l ∧
  k.current = z_priq_dumb_best l ∧ k.metairq_preempted = NULL ∧
  (∀ x ∈ l, (k.threads x).prio = p ∧ (k.threads x).prio_deadline % 2 ^ 32 = d) ∧
  (∀ x ∈ l, ∀ y ∈ low, 0 < z_sched_prio_cmp cfg (k.threads x) (k.threads y))

/-- Two threads of priority 5 on the run queue in the order 1, 2, both with
`QUEUED` set; thread 1, with the earlier deadline, is current and cached. -/
def k_rr_deadline : Kernel :=
  mk_kernel (fun t =>
    if t = 1 then
      { mk_thread 5 10 with
        thread_state := { (mk_thread 0 0).thread_state with QUEUED := true } }
    else
      { mk_thread 5 20 with
        thread_state := { (mk_thread 0 0).thread_state with QUEUED := true } }) [1, 2]

/-- Two cooperative threads of priority -2 on the run queue in the order 1, 2,
thread 1 current and cached; thread 5 has the metairq priority -16 and is
suspended. -/
def k_coop_pair : Kernel :=
  mk_kernel (fun t =>
    if t = 5 then
      { mk_thread (-16) 0 with
        thread_state := { (mk_thread 0 0).thread_state with SUSPENDED := true } }
    else if t = 1 ∨ t = 2 then
      { mk_thread (-2) 0 with
        thread_state := { (mk_thread 0 0).thread_state with QUEUED := true } }
    else mk_thread 0 0) [1, 2]

/-- A state in which the preemptible thread 1 (priority 5) is current, cached
and alone on the run queue while `metairq_preempted` names thread 3, a
runnable thread of priority 7; thread 2 has priority 2 and is ready and not
queued. -/
def k_slot_preempt : Kernel :=
  { mk_kernel (fun t =>
      if t = 1 then
        { mk_thread 5 0 with
          thread_state := { (mk_thread 0 0).thread_state with QUEUED := true } }
      else if t = 2 then mk_thread 2 0
      else mk_thread 7 0) [1] with
    metairq_preempted := 3 }

/-- The state `k_slot_preempt` with `metairq_preempted` NULL. -/
def k_preempt : Kernel := { k_slot_preempt with metairq_preempted := NULL }

/-- The step from `k` to `k'` adds no member to the run queue and to no wait
queue. -/
def lists_shrink (k k' : Kernel) : Prop :=
  (∀ x, x ∈ k'.runq → x ∈ k.runq) ∧ (∀ x w, x ∈ k'.waitq w → x ∈ k.waitq w)

/-- The step from `k` to `k'` leaves the pended state of thread `x` as it is:
its `PENDING` bit, its `pended_on` and its membership of every wait queue. -/
def pend_same_at (k k' : Kernel) (x : Tid) : Prop :=
  (k'.threads x).thread_state.PENDING = (k.threads x).thread_state.PENDING ∧
  (k'.threads x).pended_on = (k.threads x).pended_on ∧
  ∀ w, x ∈ k'.waitq w ↔ x ∈ k.waitq w

/-! ## Draining a wait queue, abort and join -/

/-- `z_unpend_thread_no_timeout(thread)`: `unpend_thread_no_timeout` under the
scheduler lock. -/
def z_unpend_thread_no_timeout (k : Kernel) (thread : Tid) : Kernel :=
  unpend_thread_no_timeout k thread

/-- `z_unpend_thread(thread)`. -/
def z_unpend_thread (k : Kernel) (thread : Tid) : Kernel :=
  z_abort_thread_timeout (z_unpend_thread_no_timeout k thread) thread

/-- The loop of `z_unpend_all(wait_q)` run for at most `fuel` passes, with the
value of `need_sched` so far: the returned value and the state, `none` when the
passes run out before the queue is empty.  `elsewhere t` says whether another
CPU is running thread `t` when it is passed to `z_ready_thread`. -/
def z_unpend_all_loop (cfg : Config) (elsewhere : Tid → Bool) (w : WaitQ) :
    Nat → Kernel → Int → Option (Int × Kernel)
  | 0, k, need_sched => if z_waitq_head k w ≠ NULL then none else some (need_sched, k)
  | fuel + 1, k, need_sched =>
    let thread := z_waitq_head k w
    if thread ≠ NULL then
      z_unpend_all_loop cfg elsewhere w fuel
        (z_ready_thread cfg (z_unpend_thread k thread) thread (elsewhere thread)) 1
    else some (need_sched, k)

/-- `z_unpend_all(wait_q)` run for at most `fuel` passes of its loop. -/
def z_unpend_all (cfg : Config) (elsewhere : Tid → Bool) (k : Kernel) (w : WaitQ)
    (fuel : Nat) : Option (Int × Kernel) :=
  z_unpend_all_loop cfg elsewhere w fuel k 0

/-- `z_thread_abort(thread)`: the state in which the call returns or hands the
CPU over, and whether it ends in `z_swap`.  `elsewhere` says whether another
CPU is running the thread, `in_isr` is `arch_is_in_isr()`.  The result is
`none` where the call spins in an ISR until another CPU has cleared
`ABORTING`. -/
def z_thread_abort (cfg : Config) (k : Kernel) (thread : Tid) (elsewhere in_isr : Bool) :
    Option (Kernel × Bool) :=
  if (k.threads thread).thread_state.DEAD then some (k, false)
  else if cfg.SMP then
    let k1 := if is_aborting (k.threads thread) && thread == k.current && in_isr then
        end_thread cfg k thread
      else k
    let active := thread_active_elsewhere cfg elsewhere
    let k2 := if active then k1.upd_state thread (fun s => { s with ABORTING := true })
      else k1
    if is_aborting (k2.threads thread) && thread != k2.current then
      if in_isr then none
      else if active then
        some (add_to_waitq_locked cfg k2 k2.current (some (WaitQ.join thread)), true)
      else some (k2, false)
    else
      let k3 := end_thread cfg k2 thread
      some (k3, thread == k3.current && !in_isr)
  else
    let k3 := end_thread cfg k thread
    some (k3, thread == k3.current && !in_isr)

/-- Modelled from the spec: `K_NO_WAIT`, the timeout of zero ticks
(`k_timeout_t` is declared in a header that is not part of the sources; a
timeout is its tick count). -/
def K_NO_WAIT : Int := 0

/-- Modelled from the spec: `K_FOREVER`, the timeout that never expires. -/
def K_FOREVER : Int := -1

/-- Modelled from the spec: the error number "busy". -/
def EBUSY : Int := 16

/-- Modelled from the spec: the error number "deadlock". -/
def EDEADLK : Int := 45

/-- Modelled from the spec: the error number "invalid". -/
def EINVAL : Int := 22

/-- `z_impl_k_thread_join(thread, timeout)`: the value returned without
blocking and the state; the value is `none` where the call pends `_current`
and enters `z_swap`, whose result it then returns. -/
def z_impl_k_thread_join (cfg : Config) (k : Kernel) (thread : Tid) (timeout : Int) :
    Option Int × Kernel :=
  if (k.threads thread).thread_state.DEAD then (some 0, k)
  else if timeout = K_NO_WAIT then (some (-EBUSY), k)
  else if thread = k.current ∨ (k.threads thread).pended_on = some (WaitQ.join k.current) then
    (some (-EDEADLK), k)
  else
    let k1 := add_to_waitq_locked cfg k k.current (some (WaitQ.join thread))
    (none, add_thread_timeout k1 k1.current (decide (timeout = K_FOREVER)))

/-! ## Time slicing -/

/-- Modelled from the spec: `z_is_prio_higher(prio1, prio2)` is declared in a
header that is not part of the sources; the numerically lower priority is the
higher one. -/
def z_is_prio_higher (prio1 prio2 : Int) : Bool := decide (prio1 < prio2)

/-- `sliceable(thread)`. -/
def sliceable (cfg : Config) (k : Kernel) (thread : Tid) : Bool :=
  is_preempt (k.threads thread) &&
    !z_is_thread_prevented_from_running (k.threads thread) &&
    !z_is_prio_higher (k.threads thread).prio k.slice_max_prio &&
    !z_is_idle_thread_object cfg k thread

/-- `z_time_slice(ticks)`. -/
def z_time_slice (cfg : Config) (k : Kernel) (ticks : Int) : Kernel :=
  if cfg.SWAP_NONATOMIC && k.pending_current == k.current then z_reset_time_slice k
  else
    let k0 := if cfg.SWAP_NONATOMIC then { k with pending_current := NULL } else k
    if k0.slice_time ≠ 0 && sliceable cfg k0 k0.current then
      if ticks ≥ k0.slice_ticks then
        z_reset_time_slice (move_thread_to_end_of_prio_q cfg k0 k0.current)
      else { k0 with slice_ticks := k0.slice_ticks - ticks }
    else { k0 with slice_ticks := 0 }

/-- Modelled from the spec: `k_ms_to_ticks_ceil32(ms)` is declared in a header
that is not part of the sources; it is the number of ticks of `ms`
milliseconds at `hz` ticks per second, rounded up, computed on 32-bit unsigned
values and stored in an `int`. -/
def k_ms_to_ticks_ceil32 (hz : Nat) (ms : Int) : Int :=
  wrap_int32 ((((ms % 2 ^ 32).toNat * hz + 999) / 1000 % 2 ^ 32 : Nat) : Int)

/-- `k_sched_time_slice_set(slice, prio)`; `hz` is
`CONFIG_SYS_CLOCK_TICKS_PER_SEC`. -/
def k_sched_time_slice_set (cfg : Config) (hz : Nat) (k : Kernel) (slice : Int) (prio : Int) :
    Kernel :=
  let k1 := { k with slice_ticks := 0 }
  let k2 := { k1 with slice_time := k_ms_to_ticks_ceil32 hz slice }
  let k3 := if cfg.TICKLESS_KERNEL && decide (slice > 0) then
      { k2 with slice_time := max 2 k2.slice_time }
    else k2
  let k4 := { k3 with slice_max_prio := prio }
  z_reset_time_slice k4

/-! ## CPU masks -/

/-- `cpu_mask_mod(thread, enable_mask, disable_mask)`: the returned value and
the state.  The masks are `uint32_t`; `base.cpu_mask` is a single byte. -/
def cpu_mask_mod (k : Kernel) (thread : Tid) (enable_mask disable_mask : Nat) : Int × Kernel :=
  if z_is_thread_prevented_from_running (k.threads thread) then
    let k1 := k.upd thread (fun x =>
      { x with cpu_mask := (x.cpu_mask ||| enable_mask % 2 ^ 32) % 256 })
    let k2 := k1.upd thread (fun x =>
      { x with cpu_mask := (x.cpu_mask &&& (0xffffffff ^^^ disable_mask % 2 ^ 32)) % 256 })
    (0, k2)
  else (-EINVAL, k)

/-- `BIT(n)`. -/
def BIT (n : Nat) : Nat := 2 ^ n

/-- `k_thread_cpu_mask_clear(thread)`. -/
def k_thread_cpu_mask_clear (k : Kernel) (thread : Tid) : Int × Kernel :=
  cpu_mask_mod k thread 0 0xffffffff

/-- `k_thread_cpu_mask_enable_all(thread)`. -/
def k_thread_cpu_mask_enable_all (k : Kernel) (thread : Tid) : Int × Kernel :=
  cpu_mask_mod k thread 0xffffffff 0

/-- `k_thread_cpu_mask_enable(thread, cpu)`. -/
def k_thread_cpu_mask_enable (k : Kernel) (thread : Tid) (cpu : Nat) : Int × Kernel :=
  cpu_mask_mod k thread (BIT cpu) 0

/-- `k_thread_cpu_mask_disable(thread, cpu)`. -/
def k_thread_cpu_mask_disable (k : Kernel) (thread : Tid) (cpu : Nat) : Int × Kernel :=
  cpu_mask_mod k thread 0 (BIT cpu)

/-- Three threads on the run queue in the order 1, 2, 3 on CPU 0; the
`cpu_mask` of thread 1 excludes CPU 0, those of threads 2 and 3 include it. -/
def k_mask : Kernel :=
  mk_kernel (fun t =>
    if t = 1 then
      { mk_thread 0 0 with
        thread_state := { (mk_thread 0 0).thread_state with QUEUED := true }, cpu_mask := 2 }
    else
      { mk_thread 0 0 with
        thread_state := { (mk_thread 0 0).thread_state with QUEUED := true }, cpu_mask := 1 })
    [1, 2, 3]

/-- The build of `cfg_deadline` as a tickless kernel with time slicing. -/
def cfg_tickless : Config := { cfg_deadline with TIMESLICING := true, TICKLESS_KERNEL := true }

/-- The build of `cfg_deadline` with time slicing, with regular ticks. -/
def cfg_slice : Config := { cfg_deadline with TIMESLICING := true }

/-- The state `k_rr` with time slicing set up: a slice of 10 ticks for every
priority from 0 down, 3 ticks of the running slice left, and one tick elapsed
since the last announcement. -/
def k_slice : Kernel :=
  { k_rr with slice_time := 10, slice_ticks := 3, slice_max_prio := 0, clock_elapsed := 1 }

/-- The state `k_rr_deadline` with a slice of 10 ticks, 3 of them left. -/
def k_slice_deadline : Kernel :=
  { k_rr_deadline with slice_time := 10, slice_ticks := 3, slice_max_prio := 0 }

/-- An SMP state with a slice of 10 ticks, 3 of them left: thread 1 is current
and, as the running thread, not on the run queue, which holds threads 2 and 3;
all threads have priority 0. -/
def k_slice_smp : Kernel :=
  { mk_kernel (fun t =>
      if t = 2 ∨ t = 3 then
        { mk_thread 0 0 with
          thread_state := { (mk_thread 0 0).thread_state with QUEUED := true } }
      else mk_thread 0 0) [2, 3] with
    slice_time := 10, slice_ticks := 3, slice_max_prio := 0 }

/-- The build of `cfg_smp` with time slicing. -/
def cfg_smp_slice : Config := { cfg_smp with TIMESLICING := true }

/-- A sequence of `z_time_slice` announcements with the given tick counts. -/
def z_time_slice_seq (cfg : Config) (k : Kernel) (ts : List Nat) : Kernel :=
  ts.foldl (fun (s : Kernel) (t : Nat) => z_time_slice cfg s (Int.ofNat t)) k

/-- A state for aborting thread 3: threads 1 (current) and 3 are queued, the
run queue is `[1, 3]`; threads 2 and 4 are pended on the join queue of thread
3, thread 4 was suspended while it waited; the swap return value of both is
still -11. -/
def k_joined : Kernel :=
  { mk_kernel (fun t =>
      if t = 1 ∨ t = 3 then
        { mk_thread 0 0 with
          thread_state := { (mk_thread 0 0).thread_state with QUEUED := true } }
      else if t = 2 then
        { mk_thread 0 0 with
          thread_state := { (mk_thread 0 0).thread_state with PENDING := true },
          pended_on := some (WaitQ.join 3), swap_retval := -11 }
      else if t = 4 then
        { mk_thread 0 0 with
          thread_state :=
            { (mk_thread 0 0).thread_state with PENDING := true, SUSPENDED := true },
          pended_on := some (WaitQ.join 3), swap_retval := -11 }
      else mk_thread 0 0) [1, 3] with
    waitq := fun w => if w = WaitQ.join 3 then [2, 4] else [] }

/-- The state `k_clean` with `ABORTING` set on thread 2, which no CPU runs. -/
def k_aborting : Kernel :=
  k_clean.upd_state 2 (fun s => { s with ABORTING := true })

/-- An SMP state in which thread 1, preemptible with priority 3, is current;
thread 2 of priority 5 is alone on the run queue; the cooperative thread 5 of
priority -2 is remembered in `metairq_preempted` and is runnable. -/
def k_smp_slot : Kernel :=
  { mk_kernel (fun t =>
      if t = 1 then mk_thread 3 0
      else if t = 2 then
        { mk_thread 5 0 with
          thread_state := { (mk_thread 0 0).thread_state with QUEUED := true } }
      else if t = 5 then mk_thread (-2) 0
      else mk_thread 0 0) [2] with
    metairq_preempted := 5 }

/-- An SMP state in which thread 2 is on the run queue with its `QUEUED` bit
clear. -/
def k_smp_stale : Kernel :=
  mk_kernel (fun t => if t = 1 then mk_thread 3 0 else mk_thread 0 0) [2]

/-- An SMP state in which the current thread 1 has `QUEUED` set and is on the
run queue: another CPU suspended and resumed it while it was running. -/
def k_smp_requeued : Kernel :=
  mk_kernel (fun t =>
    if t = 1 then
      { mk_thread 0 0 with
        thread_state := { (mk_thread 0 0).thread_state with QUEUED := true } }
    else mk_thread 0 0) [1]

/-- Three queued threads of priority 5 with the deadlines 10, 20 and 30, on the
run queue in that order; thread 1 is current. -/
def k_suspend : Kernel :=
  mk_kernel (fun t =>
    { mk_thread 5 (10 * t) with
      thread_state := { (mk_thread 0 0).thread_state with QUEUED := true } }) [1, 2, 3]

/-! ## The multi-queue priority queue (`CONFIG_SCHED_MULTIQ`) -/

/-- `struct _priq_mq`.  Modelled from the spec: the structure is declared in a
header that is not part of the sources; it is the array `queues` of 32 lists,
indexed by priority, and the occupancy `bitmask`, a 32-bit word.  The array is
kept as a function of the index. -/
structure priq_mq where
  queues : Nat → List Tid
  bitmask : Nat

/-- The index `thread->base.prio - K_HIGHEST_THREAD_PRIO` that `z_priq_mq_add`
and `z_priq_mq_remove` compute. -/
def priority_bit (cfg : Config) (th : Tid → k_thread) (thread : Tid) : Nat :=
  ((th thread).prio - cfg.K_HIGHEST_THREAD_PRIO).toNat

/-- The scan of `__builtin_ctz`: the first index from `i` on, within `fuel`
places, at which `x` has a bit set. -/
def ctz_scan (x : Nat) : Nat → Nat → Nat
  | 0, i => i
  | fuel + 1, i => if x.testBit i then i else ctz_scan x fuel (i + 1)

/-- Modelled from the spec: `__builtin_ctz`, a compiler builtin, counts the
trailing zero bits of a nonzero 32-bit word. -/
def __builtin_ctz (x : Nat) : Nat := ctz_scan x 32 0

/-- `z_priq_mq_add(pq, thread)`. -/
def z_priq_mq_add (cfg : Config) (th : Tid → k_thread) (pq : priq_mq) (thread : Tid) :
    priq_mq :=
  { queues := Function.update pq.queues (priority_bit cfg th thread)
      (pq.queues (priority_bit cfg th thread) ++ [thread]),
    bitmask := (pq.bitmask ||| BIT (priority_bit cfg th thread)) % 2 ^ 32 }

/-- `z_priq_mq_remove(pq, thread)`: the node is unlinked from the list that
holds it, and the bit of the thread's priority is cleared when the list of
that priority is empty. -/
def z_priq_mq_remove (cfg : Config) (th : Tid → k_thread) (pq : priq_mq) (thread : Tid) :
    priq_mq :=
  { queues := fun i => sys_dlist_remove (pq.queues i) thread,
    bitmask :=
      if sys_dlist_remove (pq.queues (priority_bit cfg th thread)) thread = [] then
        pq.bitmask &&& (0xffffffff ^^^ (BIT (priority_bit cfg th thread) % 2 ^ 32))
      else pq.bitmask }

/-- `z_priq_mq_best(pq)`. -/
def z_priq_mq_best (pq : priq_mq) : Tid :=
  if pq.bitmask = 0 then NULL
  else
    match pq.queues (__builtin_ctz pq.bitmask) with
    | [] => NULL
    | n :: _ => n

/-- One `z_priq_mq_add` or `z_priq_mq_remove` call. -/
def priq_mq_step (cfg : Config) (th : Tid → k_thread) (pq : priq_mq) : PriqOp → priq_mq
  | PriqOp.add t => z_priq_mq_add cfg th pq t
  | PriqOp.remove t => z_priq_mq_remove cfg th pq t

/-- The multi-queue after a sequence of calls, starting from the empty one. -/
def priq_mq_run (cfg : Config) (th : Tid → k_thread) (ops : List PriqOp) : priq_mq :=
  ops.foldl (priq_mq_step cfg th) { queues := fun _ => [], bitmask := 0 }

/-- One `z_priq_rb_add` or `z_priq_rb_remove` call on the thread table and the
tree. -/
def priq_rb_step (cfg : Config) (s : (Tid → k_thread) × priq_rb) :
    PriqOp → (Tid → k_thread) × priq_rb
  | PriqOp.add t => z_priq_rb_add cfg s.1 s.2 t
  | PriqOp.remove t => (s.1, z_priq_rb_remove s.2 t)

/-- The tree queue, and the thread table with the order keys it assigned, after
a sequence of calls starting from the empty tree. -/
def priq_rb_run (cfg : Config) (th : Tid → k_thread) (ops : List PriqOp) :
    (Tid → k_thread) × priq_rb :=
  ops.foldl (priq_rb_step cfg) (th, { tree := [], next_order_key := 0 })

/-- The resident threads in the order in which they were added, and the number
of adds since the queue was last empty. -/
def arrival_step (s : List Tid × Nat) : PriqOp → List Tid × Nat
  | PriqOp.add t => (s.1 ++ [t], s.2 + 1)
  | PriqOp.remove t =>
    (s.1.filter (fun n => n != t), if s.1.filter (fun n => n != t) = [] then 0 else s.2)

/-- The resident threads after a sequence of operations, earliest added
first. -/
def arrival_order (ops : List PriqOp) : List Tid := (ops.foldl arrival_step ([], 0)).1

/-- The number of adds since the queue was last empty. -/
def adds_since_empty (ops : List PriqOp) : Nat := (ops.foldl arrival_step ([], 0)).2

/-! ## Device initialisation (`kernel/device.c`) -/

/-- Modelled from the spec: `struct device_state` is declared in a header that
is not part of the sources.  `init_res` is the 8-bit unsigned field that the
clamp to `UINT8_MAX` is made for, `initialized` a flag. -/
structure device_state where
  init_res : Nat
  initialized : Bool
  deriving DecidableEq, Repr

/-- Modelled from the spec: `UINT8_MAX` of `<stdint.h>`. -/
def UINT8_MAX : Int := 255

/-- An init entry as the loop of `z_sys_init_run_level` sees it: the device
`entry->dev` (`none` for NULL) and the `int` that `entry->init(dev)` returns. -/
structure init_entry where
  dev : Option Nat
  rc : Int
  deriving DecidableEq, Repr

/-- The body of the loop of `z_sys_init_run_level` for one entry, on the table
of device states.  `-rc` is taken in 32-bit two's complement. -/
def z_sys_init_run_level_entry (devs : Nat → device_state) (entry : init_entry) :
    Nat → device_state :=
  match entry.dev with
  | none => devs
  | some dev =>
    let st := devs dev
    let st1 :=
      if entry.rc ≠ 0 then
        let rc1 := if entry.rc < 0 then wrap_int32 (-entry.rc) else entry.rc
        let rc2 := if rc1 > UINT8_MAX then UINT8_MAX else rc1
        { st with init_res := (rc2 % 2 ^ 8).toNat }
      else st
    Function.update devs dev { st1 with initialized := true }

/-- `z_sys_init_run_level(level)` over the entries of the level, in order. -/
def z_sys_init_run_level (devs : Nat → device_state) (entries : List init_entry) :
    Nat → device_state :=
  entries.foldl z_sys_init_run_level_entry devs

/-- `z_device_ready(dev)`. -/
def z_device_ready (devs : Nat → device_state) (dev : Option Nat) : Bool :=
  match dev with
  | none => false
  | some d => (devs d).initialized && (devs d).init_res == 0

/-- The invariant of the multi-queue against the list `A` of the resident
threads in order of arrival: list `i` holds the residents of index `i` in
order of arrival, and bit `i` of the 32-bit `bitmask` is set iff list `i` is
not empty. -/
def priq_mq_inv (cfg : Config) (th : Tid → k_thread) (pq : priq_mq) (A : List Tid) : Prop :=
  (∀ i, pq.queues i = A.filter (fun t => priority_bit cfg th t == i)) ∧
  pq.bitmask < 2 ^ 32 ∧
  (∀ i, i < 32 → (pq.bitmask.testBit i = true ↔ pq.queues i ≠ []))

/-- The invariant of the tree queue against the list `D` of the list back-end
and the count `c` of adds since the queue was last empty: the tree holds the
threads of `D` in the same order, `next_order_key` is `c`, the order keys of
the residents are below it, and the thread table differs from the initial
one `th` in order keys only. -/
def priq_rb_inv (th : Tid → k_thread) (s : (Tid → k_thread) × priq_rb) (D : List Tid)
    (c : Nat) : Prop :=
  s.2.tree = D ∧ s.2.next_order_key = c ∧
  (∀ x, (s.1 x).prio = (th x).prio ∧ (s.1 x).prio_deadline = (th x).prio_deadline) ∧
  (∀ x ∈ D, (s.1 x).order_key < c)

/-- The priorities fit the 32 lists of the multi-queue. -/
def prio_in_mq_range (cfg : Config) (th : Tid → k_thread) : Prop :=
  ∀ t, 0 ≤ (th t).prio - cfg.K_HIGHEST_THREAD_PRIO ∧ (th t).prio - cfg.K_HIGHEST_THREAD_PRIO ≤ 31

/-- A thread table with the priorities 0 to 3: thread `t` has priority
`t % 4`. -/
def th_mq : Tid → k_thread := fun t => mk_thread ((t % 4 : Nat) : Int) 0

/-- The build of `cfg_deadline` with deadline scheduling off. -/
def cfg_nodeadline : Config := { cfg_deadline with SCHED_DEADLINE := false }

/-- An SMP state that satisfies exclusive membership with every waiter
`PENDING`: the current thread 1 is on the wait queue of object 0 with `PENDING`
and `QUEUED` both set, thread 2 is alone on the run queue, thread 3 is
suspended. -/
def k_smp_waiter : Kernel :=
  { mk_kernel (fun t =>
      if t = 1 then
        { mk_thread 0 0 with
          thread_state := { (mk_thread 0 0).thread_state with PENDING := true, QUEUED := true },
          pended_on := some (WaitQ.obj 0) }
      else if t = 2 then
        { mk_thread 0 0 with
          thread_state := { (mk_thread 0 0).thread_state with QUEUED := true } }
      else if t = 3 then
        { mk_thread 0 0 with
          thread_state := { (mk_thread 0 0).thread_state with SUSPENDED := true } }
      else mk_thread 0 0) [2] with
    waitq := fun w => if w = WaitQ.obj 0 then [1] else [] }

/-! ## Properties of the priority comparison -/

theorem wrap_int32_of_small (x : Int) (h1 : -2 ^ 31 ≤ x) (h2 : x < 2 ^ 31) :
    wrap_int32 x = x := by
  unfold wrap_int32; omega

theorem wrap_sub_window (x y bb : Nat) (hx : x < 2 ^ 32) (hy : y < 2 ^ 32) (hb : bb < 2 ^ 32)
    (hox : (x + 2 ^ 32 - bb) % 2 ^ 32 < 2 ^ 31) (hoy : (y + 2 ^ 32 - bb) % 2 ^ 32 < 2 ^ 31) :
    wrap_int32 (((y + 2 ^ 32 - x) % 2 ^ 32 : Nat) : Int) =
      (((y + 2 ^ 32 - bb) % 2 ^ 32 : Nat) : Int) - (((x + 2 ^ 32 - bb) % 2 ^ 32 : Nat) : Int) := by
  unfold wrap_int32
  omega

theorem wrap_sub_ne_zero (x y : Nat) (hx : x < 2 ^ 32) (hy : y < 2 ^ 32) (h : x ≠ y) :
    wrap_int32 (((y + 2 ^ 32 - x) % 2 ^ 32 : Nat) : Int) ≠ 0 := by
  unfold wrap_int32
  omega

theorem z_sched_prio_cmp_unfold (cfg : Config) (a b : k_thread) :
    z_sched_prio_cmp cfg a b =
      if a.prio ≠ b.prio then wrap_int32 (b.prio - a.prio)
      else if cfg.SCHED_DEADLINE = true then
        if a.prio_deadline % 2 ^ 32 ≠ b.prio_deadline % 2 ^ 32 then
          wrap_int32 (((b.prio_deadline % 2 ^ 32 + 2 ^ 32 - a.prio_deadline % 2 ^ 32) % 2 ^ 32
            : Nat) : Int)
        else 0
      else 0 := rfl

/-- Under the documented deadline rule the comparison is the difference of the
keys (priority, then offset of the deadline in the window). -/
theorem z_sched_prio_cmp_eq_window (cfg : Config) (base : Nat) (a b : k_thread)
    (ha : a.wf) (hb : b.wf)
    (hoa : deadline_offset base a.prio_deadline < 2 ^ 31)
    (hob : deadline_offset base b.prio_deadline < 2 ^ 31) :
    z_sched_prio_cmp cfg a b =
      if a.prio ≠ b.prio then b.prio - a.prio
      else if cfg.SCHED_DEADLINE = true then
        (deadline_offset base b.prio_deadline : Int) - deadline_offset base a.prio_deadline
      else 0 := by
  unfold k_thread.wf int8_range at ha hb
  unfold deadline_offset at *
  rw [z_sched_prio_cmp_unfold]
  have hx : a.prio_deadline % 2 ^ 32 < 2 ^ 32 := Nat.mod_lt _ (by norm_num)
  have hy : b.prio_deadline % 2 ^ 32 < 2 ^ 32 := Nat.mod_lt _ (by norm_num)
  have hbb : base % 2 ^ 32 < 2 ^ 32 := Nat.mod_lt _ (by norm_num)
  generalize a.prio_deadline % 2 ^ 32 = x at *
  generalize b.prio_deadline % 2 ^ 32 = y at *
  generalize base % 2 ^ 32 = bb at *
  split_ifs with hp hd he
  · exact wrap_int32_of_small _ (by omega) (by omega)
  · exact wrap_sub_window x y bb hx hy hbb hoa hob
  · have : x = y := not_not.mp he
    subst this; omega
  · rfl

/-- C4: `z_sched_prio_cmp` compares the priority first.  For threads whose
priorities differ and lie in the `int8_t` range the result is the difference
`b2 - b1` itself (no `int32_t` overflow, no use of the deadlines), positive iff
thread 1 has the numerically smaller priority and negative iff it has the
larger one; the result is zero iff the priorities are equal and, with deadline
scheduling enabled, the deadlines are equal. -/
theorem z_sched_prio_cmp_priority_first (cfg : Config) (t1 t2 : k_thread)
    (h1 : t1.wf) (h2 : t2.wf) :
    (t1.prio ≠ t2.prio →
      z_sched_prio_cmp cfg t1 t2 = t2.prio - t1.prio ∧
      -2 ^ 31 ≤ t2.prio - t1.prio ∧ t2.prio - t1.prio < 2 ^ 31 ∧
      (0 < z_sched_prio_cmp cfg t1 t2 ↔ t1.prio < t2.prio) ∧
      (z_sched_prio_cmp cfg t1 t2 < 0 ↔ t2.prio < t1.prio)) ∧
    (z_sched_prio_cmp cfg t1 t2 = 0 ↔
      t1.prio = t2.prio ∧
        (cfg.SCHED_DEADLINE = true →
          t1.prio_deadline % 2 ^ 32 = t2.prio_deadline % 2 ^ 32)) := by
  unfold k_thread.wf int8_range at h1 h2
  rw [z_sched_prio_cmp_unfold]
  have hx : t1.prio_deadline % 2 ^ 32 < 2 ^ 32 := Nat.mod_lt _ (by norm_num)
  have hy : t2.prio_deadline % 2 ^ 32 < 2 ^ 32 := Nat.mod_lt _ (by norm_num)
  generalize t1.prio_deadline % 2 ^ 32 = x at *
  generalize t2.prio_deadline % 2 ^ 32 = y at *
  split_ifs with hp hd he
  · have hw := wrap_int32_of_small (t2.prio - t1.prio) (by omega) (by omega)
    rw [hw]
    refine ⟨fun _ => ⟨rfl, by omega, by omega, by omega, by omega⟩, ?_⟩
    constructor
    · intro h; omega
    · intro h; exact absurd h.1 hp
  · have hpe : t1.prio = t2.prio := not_not.mp hp
    refine ⟨fun h => absurd hpe h, ?_⟩
    constructor
    · intro h; exact absurd h (wrap_sub_ne_zero x y hx hy he)
    · intro h; exact absurd (h.2 hd) he
  · have hpe : t1.prio = t2.prio := not_not.mp hp
    exact ⟨fun h => absurd hpe h, fun _ => ⟨hpe, fun _ => not_not.mp he⟩, fun _ => rfl⟩
  · have hpe : t1.prio = t2.prio := not_not.mp hp
    exact ⟨fun h => absurd hpe h, fun _ => ⟨hpe, fun h => absurd h hd⟩, fun _ => rfl⟩

/-- Witness of C4 at priorities -3 and 5. -/
theorem z_sched_prio_cmp_priority_first_witness :
    z_sched_prio_cmp cfg_deadline (mk_thread (-3) 7) (mk_thread 5 1) = 8 :=
  ((z_sched_prio_cmp_priority_first cfg_deadline (mk_thread (-3) 7) (mk_thread 5 1)
    (by decide) (by decide)).1 (by decide)).1.trans (by decide)

/-- C5 as stated fails at distance exactly `2 ^ 31`: for two threads of equal
priority with deadlines `0` and `2 ^ 31` both comparisons are negative. -/
theorem z_sched_prio_cmp_half_range_counterexample :
    (mk_thread 0 0).prio = (mk_thread 0 (2 ^ 31)).prio ∧
    deadline_distance (mk_thread 0 0).prio_deadline (mk_thread 0 (2 ^ 31)).prio_deadline
      ≤ 2 ^ 31 ∧
    z_sched_prio_cmp cfg_deadline (mk_thread 0 0) (mk_thread 0 (2 ^ 31)) < 0 ∧
    z_sched_prio_cmp cfg_deadline (mk_thread 0 (2 ^ 31)) (mk_thread 0 0) < 0 ∧
    ¬ (0 < z_sched_prio_cmp cfg_deadline (mk_thread 0 0) (mk_thread 0 (2 ^ 31)) ↔
        z_sched_prio_cmp cfg_deadline (mk_thread 0 (2 ^ 31)) (mk_thread 0 0) < 0) := by
  decide

/-- C5 (amended): with deadline scheduling enabled, for threads of equal
priority whose deadlines lie in one window of fewer than `2 ^ 31` consecutive
values, `z_sched_prio_cmp` is positive iff thread 1 has the earlier deadline,
`cmp(a, b) > 0` iff `cmp(b, a) < 0`, and `cmp > 0` is transitive. -/
theorem z_sched_prio_cmp_deadline_order (cfg : Config) (base : Nat) (a b c : k_thread)
    (hd : cfg.SCHED_DEADLINE = true) (hab : a.prio = b.prio) (hbc : b.prio = c.prio)
    (ha : deadline_offset base a.prio_deadline < 2 ^ 31)
    (hb : deadline_offset base b.prio_deadline < 2 ^ 31)
    (hc : deadline_offset base c.prio_deadline < 2 ^ 31) :
    (0 < z_sched_prio_cmp cfg a b ↔
      deadline_offset base a.prio_deadline < deadline_offset base b.prio_deadline) ∧
    (0 < z_sched_prio_cmp cfg a b ↔ z_sched_prio_cmp cfg b a < 0) ∧
    (0 < z_sched_prio_cmp cfg a b → 0 < z_sched_prio_cmp cfg b c →
      0 < z_sched_prio_cmp cfg a c) := by
  have hac : a.prio = c.prio := hab.trans hbc
  have key : ∀ u v : k_thread, u.prio = v.prio →
      deadline_offset base u.prio_deadline < 2 ^ 31 →
      deadline_offset base v.prio_deadline < 2 ^ 31 →
      z_sched_prio_cmp cfg u v =
        (deadline_offset base v.prio_deadline : Int) - deadline_offset base u.prio_deadline := by
    intro u v huv hu hv
    unfold deadline_offset at *
    rw [z_sched_prio_cmp_unfold]
    have hx : u.prio_deadline % 2 ^ 32 < 2 ^ 32 := Nat.mod_lt _ (by norm_num)
    have hy : v.prio_deadline % 2 ^ 32 < 2 ^ 32 := Nat.mod_lt _ (by norm_num)
    have hbb : base % 2 ^ 32 < 2 ^ 32 := Nat.mod_lt _ (by norm_num)
    generalize u.prio_deadline % 2 ^ 32 = x at *
    generalize v.prio_deadline % 2 ^ 32 = y at *
    generalize base % 2 ^ 32 = bb at *
    split_ifs with hp he
    · exact absurd huv hp
    · exact wrap_sub_window x y bb hx hy hbb hu hv
    · have : x = y := not_not.mp he
      subst this; omega
  rw [key a b hab ha hb, key b a hab.symm hb ha, key b c hbc hb hc, key a c hac ha hc]
  refine ⟨by omega, by omega, by omega⟩

/-- Witness of the amended C5 at the deadlines 10, 20 and 30. -/
theorem z_sched_prio_cmp_deadline_order_witness :
    0 < z_sched_prio_cmp cfg_deadline (mk_thread 0 10) (mk_thread 0 20) :=
  (z_sched_prio_cmp_deadline_order cfg_deadline 0 (mk_thread 0 10) (mk_thread 0 20)
    (mk_thread 0 30) rfl rfl rfl (by decide) (by decide) (by decide)).1.2 (by decide)

/-! ## Preemption policy and next-thread selection -/

/-- C6: `should_preempt(target, preempt_ok)` is true iff `preempt_ok` is
nonzero, or `_current` is prevented from running, or `CONFIG_SWAP_NONATOMIC` is
enabled and the target has an active timeout, or `is_preempt(_current)`, or the
target is a metairq; in particular it is true for every metairq target. -/
theorem should_preempt_iff (cfg : Config) (k : Kernel) (target : Tid) (preempt_ok : Int) :
    (should_preempt cfg k target preempt_ok = true ↔
      (preempt_ok ≠ 0 ∨
       z_is_thread_prevented_from_running (k.threads k.current) = true ∨
       (cfg.SWAP_NONATOMIC = true ∧ z_is_thread_timeout_active (k.threads target) = true) ∨
       is_preempt (k.threads k.current) = true ∨
       is_metairq cfg (k.threads target) = true)) ∧
    (is_metairq cfg (k.threads target) = true →
      should_preempt cfg k target preempt_ok = true) := by
  have h : should_preempt cfg k target preempt_ok = true ↔
      (preempt_ok ≠ 0 ∨
       z_is_thread_prevented_from_running (k.threads k.current) = true ∨
       (cfg.SWAP_NONATOMIC = true ∧ z_is_thread_timeout_active (k.threads target) = true) ∨
       is_preempt (k.threads k.current) = true ∨
       is_metairq cfg (k.threads target) = true) := by
    unfold should_preempt
    by_cases h1 : preempt_ok = 0
    · by_cases h2 : z_is_thread_prevented_from_running (k.threads k.current) = true
      · simp [h1, h2]
      · by_cases h3 : (cfg.SWAP_NONATOMIC && z_is_thread_timeout_active (k.threads target)) = true
        · have h3' := h3
          rw [Bool.and_eq_true] at h3'
          simp [h1, h3'.1, h3'.2]
        · have h3' : ¬ (cfg.SWAP_NONATOMIC = true ∧
              z_is_thread_timeout_active (k.threads target) = true) := by
            rwa [Bool.and_eq_true] at h3
          simp only [h1, h2, h3, h3', ne_eq, not_true_eq_false, if_false, false_or,
            Bool.or_eq_true, ite_eq_left_iff, Bool.false_eq_true, imp_false, not_not]
    · simp [h1]
  exact ⟨h, fun hm => h.mpr (Or.inr (Or.inr (Or.inr (Or.inr hm))))⟩

/-- C8: `next_up()` of a uniprocessor build with metairq and cooperative
priorities enabled.  With `best` the queue's best thread and the override
condition "the `metairq_preempted` slot is non-NULL and `best` is NULL or not a
metairq": when the override applies and the remembered thread is not prevented
from running it is returned and the slot is unchanged; when the override
applies and the remembered thread is prevented from running the slot is set to
NULL and `best` is returned if non-NULL, else `idle_thread`; when the override
does not apply `best` is returned if non-NULL, else `idle_thread`, and the slot
is unchanged.  The result is not NULL when `idle_thread` is not NULL. -/
theorem next_up_spec (cfg : Config) (k : Kernel)
    (hm : 0 < cfg.NUM_METAIRQ_PRIORITIES) (hc : 0 < cfg.NUM_COOP_PRIORITIES) :
    (k.metairq_preempted ≠ NULL ∧
      (_priq_run_best cfg k = NULL ∨ is_metairq cfg (k.threads (_priq_run_best cfg k)) = false) →
      z_is_thread_prevented_from_running (k.threads k.metairq_preempted) = false →
        next_up cfg k = (k.metairq_preempted, k)) ∧
    (k.metairq_preempted ≠ NULL ∧
      (_priq_run_best cfg k = NULL ∨ is_metairq cfg (k.threads (_priq_run_best cfg k)) = false) →
      z_is_thread_prevented_from_running (k.threads k.metairq_preempted) = true →
        next_up cfg k =
          (if _priq_run_best cfg k ≠ NULL then _priq_run_best cfg k else k.idle_thread,
           { k with metairq_preempted := NULL })) ∧
    (¬ (k.metairq_preempted ≠ NULL ∧
      (_priq_run_best cfg k = NULL ∨ is_metairq cfg (k.threads (_priq_run_best cfg k)) = false)) →
        next_up cfg k =
          (if _priq_run_best cfg k ≠ NULL then _priq_run_best cfg k else k.idle_thread, k)) ∧
    (k.idle_thread ≠ NULL → (next_up cfg k).1 ≠ NULL) := by
  have hen : (decide (cfg.NUM_METAIRQ_PRIORITIES > 0) && decide (cfg.NUM_COOP_PRIORITIES > 0))
      = true := by simp [hm, hc]
  refine ⟨?_, ?_, ?_, ?_⟩
  · intro ho hp
    have ho' : k.metairq_preempted ≠ NULL ∧ (_priq_run_best cfg k = NULL ∨
        ¬ is_metairq cfg (k.threads (_priq_run_best cfg k)) = true) := by
      simpa using ho
    unfold next_up
    dsimp only
    have hnp : ¬ z_is_thread_prevented_from_running (k.threads k.metairq_preempted) = true := by
      simp [hp]
    rw [if_pos hen, if_pos ho', if_pos hnp]
    exact Prod.ext (if_pos ho.1) rfl
  · intro ho hp
    have ho' : k.metairq_preempted ≠ NULL ∧ (_priq_run_best cfg k = NULL ∨
        ¬ is_metairq cfg (k.threads (_priq_run_best cfg k)) = true) := by
      simpa using ho
    unfold next_up
    dsimp only
    rw [if_pos hen, if_pos ho', if_neg (not_not.mpr hp)]
  · intro ho
    have ho' : ¬ (k.metairq_preempted ≠ NULL ∧ (_priq_run_best cfg k = NULL ∨
        ¬ is_metairq cfg (k.threads (_priq_run_best cfg k)) = true)) := by
      simpa using ho
    unfold next_up
    dsimp only
    rw [if_pos hen, if_neg ho']
  · intro hi
    unfold next_up
    dsimp only
    rw [if_pos hen]
    split_ifs <;> simp_all

/-- Witness of C8: with an empty run queue and no remembered thread the idle
thread is chosen. -/
theorem next_up_spec_witness :
    (next_up cfg_deadline (mk_kernel (fun _ => mk_thread 0 0) [])).1 = 9 :=
  (congrArg Prod.fst ((next_up_spec cfg_deadline (mk_kernel (fun _ => mk_thread 0 0) [])
    (by decide) (by decide)).2.2.1 (by decide))).trans (by decide)

/-! ## The list priority queue -/

theorem z_sched_prio_cmp_eq_nodeadline (cfg : Config) (a b : k_thread)
    (ha : a.wf) (hb : b.wf) (hd : cfg.SCHED_DEADLINE = false) :
    z_sched_prio_cmp cfg a b = if a.prio ≠ b.prio then b.prio - a.prio else 0 := by
  unfold k_thread.wf int8_range at ha hb
  rw [z_sched_prio_cmp_unfold]
  simp only [hd, Bool.false_eq_true, if_false]
  split_ifs with hp
  · exact wrap_int32_of_small _ (by omega) (by omega)
  · rfl

theorem z_sched_prio_cmp_self (cfg : Config) (a : k_thread) : z_sched_prio_cmp cfg a a = 0 := by
  rw [z_sched_prio_cmp_unfold]; simp

theorem z_sched_prio_cmp_eq_zero (cfg : Config) (a b : k_thread) (hp : a.prio = b.prio)
    (hd : a.prio_deadline % 2 ^ 32 = b.prio_deadline % 2 ^ 32) :
    z_sched_prio_cmp cfg a b = 0 := by
  rw [z_sched_prio_cmp_unfold, if_neg (not_not.mpr hp)]
  split_ifs with h1 h2
  · exact absurd hd h2
  · rfl
  · rfl

theorem cmpOrder_of_rule (cfg : Config) (th : Tid → k_thread) (hwf : ∀ t, (th t).wf)
    (hdl : deadlines_in_half_space cfg th) : CmpOrder cfg th := by
  rcases hdl with hd | ⟨base, hb⟩
  · constructor
    · intro a b
      rw [z_sched_prio_cmp_eq_nodeadline cfg _ _ (hwf a) (hwf b) hd,
        z_sched_prio_cmp_eq_nodeadline cfg _ _ (hwf b) (hwf a) hd]
      split_ifs <;> omega
    · intro a b c
      rw [z_sched_prio_cmp_eq_nodeadline cfg _ _ (hwf a) (hwf b) hd,
        z_sched_prio_cmp_eq_nodeadline cfg _ _ (hwf b) (hwf c) hd,
        z_sched_prio_cmp_eq_nodeadline cfg _ _ (hwf a) (hwf c) hd]
      split_ifs <;> omega
  · constructor
    · intro a b
      rw [z_sched_prio_cmp_eq_window cfg base _ _ (hwf a) (hwf b) (hb a) (hb b),
        z_sched_prio_cmp_eq_window cfg base _ _ (hwf b) (hwf a) (hb b) (hb a)]
      split_ifs <;> omega
    · intro a b c
      rw [z_sched_prio_cmp_eq_window cfg base _ _ (hwf a) (hwf b) (hb a) (hb b),
        z_sched_prio_cmp_eq_window cfg base _ _ (hwf b) (hwf c) (hb b) (hb c),
        z_sched_prio_cmp_eq_window cfg base _ _ (hwf a) (hwf c) (hb a) (hb c)]
      split_ifs <;> omega

theorem mem_z_priq_dumb_add (cfg : Config) (th : Tid → k_thread) (pq : List Tid) (t x : Tid) :
    x ∈ z_priq_dumb_add cfg th pq t ↔ x = t ∨ x ∈ pq := by
  induction pq with
  | nil => simp [z_priq_dumb_add]
  | cons y rest ih =>
    unfold z_priq_dumb_add
    split_ifs
    · simp
    · simp only [List.mem_cons, ih]
      tauto

theorem nodup_z_priq_dumb_add (cfg : Config) (th : Tid → k_thread) (pq : List Tid) (t : Tid)
    (hn : pq.Nodup) (ht : t ∉ pq) : (z_priq_dumb_add cfg th pq t).Nodup := by
  induction pq with
  | nil => simp [z_priq_dumb_add]
  | cons y rest ih =>
    have hy : y ∉ rest := (List.nodup_cons.mp hn).1
    have hr : rest.Nodup := (List.nodup_cons.mp hn).2
    have hty : t ≠ y := fun h => ht (h ▸ List.mem_cons_self _ _)
    have htr : t ∉ rest := fun h => ht (List.mem_cons_of_mem _ h)
    unfold z_priq_dumb_add
    split_ifs
    · exact List.nodup_cons.mpr ⟨ht, hn⟩
    · refine List.nodup_cons.mpr ⟨?_, ih hr htr⟩
      rw [mem_z_priq_dumb_add]
      rintro (h | h)
      · exact hty h.symm
      · exact hy h

theorem sublist_z_priq_dumb_add (cfg : Config) (th : Tid → k_thread) (pq : List Tid) (t : Tid) :
    List.Sublist pq (z_priq_dumb_add cfg th pq t) := by
  induction pq with
  | nil => simp
  | cons y rest ih =>
    unfold z_priq_dumb_add
    split_ifs
    · exact List.sublist_cons_self _ _
    · exact ih.cons₂ _

theorem pairwise_z_priq_dumb_add (cfg : Config) (th : Tid → k_thread) (ho : CmpOrder cfg th)
    (pq : List Tid) (t : Tid)
    (hs : pq.Pairwise (fun a b => 0 ≤ z_sched_prio_cmp cfg (th a) (th b))) :
    (z_priq_dumb_add cfg th pq t).Pairwise
      (fun a b => 0 ≤ z_sched_prio_cmp cfg (th a) (th b)) := by
  induction pq with
  | nil => simp [z_priq_dumb_add]
  | cons y rest ih =>
    have hy := (List.pairwise_cons.mp hs).1
    have hr := (List.pairwise_cons.mp hs).2
    unfold z_priq_dumb_add
    split_ifs with hc
    · refine List.pairwise_cons.mpr ⟨?_, hs⟩
      intro u hu
      rcases List.mem_cons.mp hu with h | h
      · subst h; exact le_of_lt hc
      · exact le_of_lt (ho.2 t y u hc (hy u h))
    · refine List.pairwise_cons.mpr ⟨?_, ih hr⟩
      intro u hu
      rcases (mem_z_priq_dumb_add cfg th rest t u).mp hu with h | h
      · subst h; exact ho.1 _ _ hc
      · exact hy u h

theorem mem_z_priq_dumb_remove (pq : List Tid) (t x : Tid) :
    x ∈ z_priq_dumb_remove pq t ↔ x ∈ pq ∧ x ≠ t := by
  simp [z_priq_dumb_remove, sys_dlist_remove]

theorem sublist_z_priq_dumb_remove (pq : List Tid) (t : Tid) :
    List.Sublist (z_priq_dumb_remove pq t) pq := by
  unfold z_priq_dumb_remove sys_dlist_remove
  exact List.filter_sublist _

theorem priq_inv_step (cfg : Config) (th : Tid → k_thread) (ho : CmpOrder cfg th)
    (pq : List Tid) (r : Tid → Bool) (op : PriqOp) (rest : List PriqOp)
    (hi : priq_inv cfg th pq r) (hv : valid_ops_from r (op :: rest)) :
    priq_inv cfg th (priq_dumb_step cfg th pq op) (resident_step r op) ∧
      valid_ops_from (resident_step r op) rest := by
  obtain ⟨hm, hn, hs, h0⟩ := hi
  cases op with
  | add t =>
    obtain ⟨ht0, htr, hrest⟩ := hv
    have htn : t ∉ pq := by
      intro h; rw [hm t, htr] at h; exact absurd h (by decide)
    refine ⟨⟨?_, ?_, ?_, ?_⟩, hrest⟩
    · intro x
      simp only [priq_dumb_step, resident_step, mem_z_priq_dumb_add, hm x, Bool.or_eq_true,
        beq_iff_eq]
    · exact nodup_z_priq_dumb_add cfg th pq t hn htn
    · exact pairwise_z_priq_dumb_add cfg th ho pq t hs
    · simp only [priq_dumb_step, mem_z_priq_dumb_add]
      rintro (h | h)
      · exact ht0 h.symm
      · exact h0 h
  | remove t =>
    obtain ⟨_, hrest⟩ := hv
    refine ⟨⟨?_, ?_, ?_, ?_⟩, hrest⟩
    · intro x
      simp only [priq_dumb_step, resident_step, mem_z_priq_dumb_remove, hm x,
        Bool.and_eq_true, bne_iff_ne, ne_eq]
      tauto
    · exact hn.sublist (sublist_z_priq_dumb_remove pq t)
    · exact hs.sublist (sublist_z_priq_dumb_remove pq t)
    · intro h
      exact h0 ((mem_z_priq_dumb_remove pq t NULL).mp h).1

theorem priq_inv_run (cfg : Config) (th : Tid → k_thread) (ho : CmpOrder cfg th)
    (ops : List PriqOp) :
    ∀ (pq : List Tid) (r : Tid → Bool), priq_inv cfg th pq r → valid_ops_from r ops →
      priq_inv cfg th (ops.foldl (priq_dumb_step cfg th) pq) (ops.foldl resident_step r) := by
  induction ops with
  | nil => intro pq r hi _; exact hi
  | cons op rest ih =>
    intro pq r hi hv
    have h := priq_inv_step cfg th ho pq r op rest hi hv
    exact ih _ _ h.1 h.2

theorem priq_inv_nil (cfg : Config) (th : Tid → k_thread) :
    priq_inv cfg th [] (fun _ => false) := by
  refine ⟨?_, List.nodup_nil, List.Pairwise.nil, ?_⟩
  · intro t; simp
  · simp

theorem z_priq_dumb_best_spec (cfg : Config) (th : Tid → k_thread) (pq : List Tid)
    (hs : pq.Pairwise (fun a b => 0 ≤ z_sched_prio_cmp cfg (th a) (th b))) (h0 : NULL ∉ pq) :
    (z_priq_dumb_best pq = NULL ↔ pq = []) ∧
    (pq ≠ [] → z_priq_dumb_best pq ∈ pq ∧
      ∀ u ∈ pq, 0 ≤ z_sched_prio_cmp cfg (th (z_priq_dumb_best pq)) (th u)) := by
  cases pq with
  | nil => simp [z_priq_dumb_best]
  | cons x rest =>
    have hx : x ≠ NULL := fun h => h0 (h ▸ List.mem_cons_self _ _)
    refine ⟨by simp [z_priq_dumb_best, hx], fun _ => ⟨by simp [z_priq_dumb_best], ?_⟩⟩
    intro u hu
    show 0 ≤ z_sched_prio_cmp cfg (th x) (th u)
    rcases List.mem_cons.mp hu with h | h
    · subst h; rw [z_sched_prio_cmp_self]
    · exact (List.pairwise_cons.mp hs).1 u h

/-- C1: after every sequence of `z_priq_dumb_add` / `z_priq_dumb_remove` calls
from the empty list (adds of distinct non-NULL threads, removes of resident
threads, priorities in the `int8_t` range, deadline scheduling off or all
deadlines in one half of the 32-bit space) the list holds exactly the threads
added and not removed, each once, with `z_sched_prio_cmp(earlier, later) >= 0`
for every pair; `z_priq_dumb_best` returns NULL iff the list is empty and
otherwise a resident `t` with `z_sched_prio_cmp(t, u) >= 0` for every resident
`u`. -/
theorem priq_dumb_sequence (cfg : Config) (th : Tid → k_thread) (ops : List PriqOp)
    (hwf : ∀ t, (th t).wf) (hdl : deadlines_in_half_space cfg th) (hv : valid_ops ops) :
    (∀ t, t ∈ priq_dumb_run cfg th ops ↔ resident_after ops t = true) ∧
    (priq_dumb_run cfg th ops).Nodup ∧
    (priq_dumb_run cfg th ops).Pairwise
      (fun a b => 0 ≤ z_sched_prio_cmp cfg (th a) (th b)) ∧
    (z_priq_dumb_best (priq_dumb_run cfg th ops) = NULL ↔ priq_dumb_run cfg th ops = []) ∧
    (priq_dumb_run cfg th ops ≠ [] →
      resident_after ops (z_priq_dumb_best (priq_dumb_run cfg th ops)) = true ∧
      ∀ u, resident_after ops u = true →
        0 ≤ z_sched_prio_cmp cfg (th (z_priq_dumb_best (priq_dumb_run cfg th ops))) (th u)) := by
  have ho := cmpOrder_of_rule cfg th hwf hdl
  have hi := priq_inv_run cfg th ho ops [] (fun _ => false) (priq_inv_nil cfg th) hv
  obtain ⟨hm, hn, hs, h0⟩ := hi
  have hb := z_priq_dumb_best_spec cfg th _ hs h0
  refine ⟨hm, hn, hs, hb.1, fun hne => ⟨(hm _).mp (hb.2 hne).1, fun u hu => ?_⟩⟩
  exact (hb.2 hne).2 u ((hm u).mpr hu)

/-- Witness of C1 on the sequence add 1, add 2, remove 1. -/
theorem priq_dumb_sequence_witness :
    (priq_dumb_run cfg_deadline (fun _ => mk_thread 0 0)
      [PriqOp.add 1, PriqOp.add 2, PriqOp.remove 1]).Nodup :=
  (priq_dumb_sequence cfg_deadline (fun _ => mk_thread 0 0)
    [PriqOp.add 1, PriqOp.add 2, PriqOp.remove 1] (fun _ => (by decide : (mk_thread 0 0).wf))
    (Or.inr ⟨0, fun _ =>
      (by decide : deadline_offset 0 (mk_thread 0 0).prio_deadline < 2 ^ 31)⟩)
    ⟨by decide, rfl, by decide, rfl, rfl, trivial⟩).2.1

theorem valid_ops_from_append (xs ys : List PriqOp) :
    ∀ r, valid_ops_from r (xs ++ ys) ↔
      valid_ops_from r xs ∧ valid_ops_from (xs.foldl resident_step r) ys := by
  induction xs with
  | nil => intro r; simp [valid_ops_from]
  | cons op rest ih =>
    intro r
    cases op with
    | add t =>
      show (t ≠ NULL ∧ r t = false ∧
          valid_ops_from (resident_step r (PriqOp.add t)) (rest ++ ys)) ↔
        (t ≠ NULL ∧ r t = false ∧ valid_ops_from (resident_step r (PriqOp.add t)) rest) ∧
          valid_ops_from (rest.foldl resident_step (resident_step r (PriqOp.add t))) ys
      rw [ih]; tauto
    | remove t =>
      show (r t = true ∧ valid_ops_from (resident_step r (PriqOp.remove t)) (rest ++ ys)) ↔
        (r t = true ∧ valid_ops_from (resident_step r (PriqOp.remove t)) rest) ∧
          valid_ops_from (rest.foldl resident_step (resident_step r (PriqOp.remove t))) ys
      rw [ih]; tauto

theorem mem_foldl_priq_dumb_step (cfg : Config) (th : Tid → k_thread) (a : Tid)
    (ops : List PriqOp) :
    ∀ pq, a ∈ pq → PriqOp.remove a ∉ ops → a ∈ ops.foldl (priq_dumb_step cfg th) pq := by
  induction ops with
  | nil => intro pq h _; exact h
  | cons op rest ih =>
    intro pq h hn
    have hop : PriqOp.remove a ≠ op := fun e => hn (e ▸ List.mem_cons_self _ _)
    have hrest : PriqOp.remove a ∉ rest := fun e => hn (List.mem_cons_of_mem _ e)
    refine ih _ ?_ hrest
    cases op with
    | add t => exact (mem_z_priq_dumb_add cfg th pq t a).mpr (Or.inr h)
    | remove t =>
      refine (mem_z_priq_dumb_remove pq t a).mpr ⟨h, ?_⟩
      intro e; exact hop (by rw [e])

theorem fifo_z_priq_dumb_add (cfg : Config) (th : Tid → k_thread) (ho : CmpOrder cfg th)
    (pq : List Tid) (a b : Tid)
    (hs : pq.Pairwise (fun x y => 0 ≤ z_sched_prio_cmp cfg (th x) (th y)))
    (ha : a ∈ pq) (hba : ¬ 0 < z_sched_prio_cmp cfg (th b) (th a)) :
    List.Sublist [a, b] (z_priq_dumb_add cfg th pq b) := by
  induction pq with
  | nil => simp at ha
  | cons x rest ih =>
    have hx := (List.pairwise_cons.mp hs).1
    have hr := (List.pairwise_cons.mp hs).2
    unfold z_priq_dumb_add
    split_ifs with hc
    · rcases List.mem_cons.mp ha with h | h
      · subst h; exact absurd hc hba
      · exact absurd (ho.2 b x a hc (hx a h)) hba
    · rcases List.mem_cons.mp ha with h | h
      · subst h
        refine List.Sublist.cons₂ _ ?_
        exact List.singleton_sublist.mpr ((mem_z_priq_dumb_add cfg th rest b b).mpr (Or.inl rfl))
      · exact (ih hr h).cons _

theorem sublist_pair_foldl (cfg : Config) (th : Tid → k_thread) (a b : Tid)
    (ops : List PriqOp) :
    ∀ pq, List.Sublist [a, b] pq → PriqOp.remove a ∉ ops → PriqOp.remove b ∉ ops →
      List.Sublist [a, b] (ops.foldl (priq_dumb_step cfg th) pq) := by
  induction ops with
  | nil => intro pq h _ _; exact h
  | cons op rest ih =>
    intro pq h hna hnb
    have hopa : PriqOp.remove a ≠ op := fun e => hna (e ▸ List.mem_cons_self _ _)
    have hopb : PriqOp.remove b ≠ op := fun e => hnb (e ▸ List.mem_cons_self _ _)
    refine ih _ ?_ (fun e => hna (List.mem_cons_of_mem _ e))
      (fun e => hnb (List.mem_cons_of_mem _ e))
    cases op with
    | add t => exact h.trans (sublist_z_priq_dumb_add cfg th pq t)
    | remove t =>
      have hta : a ≠ t := fun e => hopa (by rw [e])
      have htb : b ≠ t := fun e => hopb (by rw [e])
      have hf := List.Sublist.filter (fun n => n != t) h
      simpa [priq_dumb_step, z_priq_dumb_remove, sys_dlist_remove, hta, htb] using hf

/-- C2 as stated fails with deadline scheduling enabled when other threads'
deadlines are spread over more than half of the 32-bit space: after add 2,
add 1, add 3, add 4 (threads 1 and 4 of equal priority and equal deadline,
thread 1 added first, nothing removed) thread 4 is at the head of the list, in
front of thread 1, and `z_priq_dumb_best` returns it. -/
theorem priq_dumb_fifo_counterexample :
    valid_ops [PriqOp.add 2, PriqOp.add 1, PriqOp.add 3, PriqOp.add 4] ∧
    (th_cycle 1).prio = (th_cycle 4).prio ∧
    (th_cycle 1).prio_deadline = (th_cycle 4).prio_deadline ∧
    priq_dumb_run cfg_deadline th_cycle
      [PriqOp.add 2, PriqOp.add 1, PriqOp.add 3, PriqOp.add 4] = [4, 3, 2, 1] ∧
    z_priq_dumb_best (priq_dumb_run cfg_deadline th_cycle
      [PriqOp.add 2, PriqOp.add 1, PriqOp.add 3, PriqOp.add 4]) = 4 := by
  refine ⟨⟨by decide, rfl, by decide, rfl, by decide, rfl, by decide, rfl, trivial⟩,
    rfl, rfl, by decide, by decide⟩

/-- C2 (amended): in the list back-end, with priorities in the `int8_t` range
and deadline scheduling off or all deadlines in one half of the 32-bit space,
for every two threads `a` and `b` of equal priority and equal deadline where
`a` was added before `b` and neither has been removed since, `a` precedes `b`
in the list whatever other adds and removes happened in between, and
`z_priq_dumb_best` does not return `b`. -/
theorem priq_dumb_fifo (cfg : Config) (th : Tid → k_thread) (p1 p2 p3 : List PriqOp)
    (a b : Tid) (hwf : ∀ t, (th t).wf) (hdl : deadlines_in_half_space cfg th)
    (hv : valid_ops (p1 ++ PriqOp.add a :: (p2 ++ PriqOp.add b :: p3)))
    (h2 : PriqOp.remove a ∉ p2) (h3a : PriqOp.remove a ∉ p3) (h3b : PriqOp.remove b ∉ p3)
    (hp : (th a).prio = (th b).prio)
    (hd : (th a).prio_deadline % 2 ^ 32 = (th b).prio_deadline % 2 ^ 32) :
    List.Sublist [a, b]
      (priq_dumb_run cfg th (p1 ++ PriqOp.add a :: (p2 ++ PriqOp.add b :: p3))) ∧
    z_priq_dumb_best
      (priq_dumb_run cfg th (p1 ++ PriqOp.add a :: (p2 ++ PriqOp.add b :: p3))) ≠ b := by
  have ho := cmpOrder_of_rule cfg th hwf hdl
  have hall := priq_inv_run cfg th ho _ [] (fun _ => false) (priq_inv_nil cfg th) hv
  unfold valid_ops at hv
  rw [valid_ops_from_append] at hv
  obtain ⟨hv1, hv2⟩ := hv
  have hi1 := priq_inv_run cfg th ho p1 [] (fun _ => false) (priq_inv_nil cfg th) hv1
  have hs2 := priq_inv_step cfg th ho _ _ (PriqOp.add a) _ hi1 hv2
  obtain ⟨hi2, hv3⟩ := hs2
  rw [valid_ops_from_append] at hv3
  obtain ⟨hv3, hv4⟩ := hv3
  have hi3 := priq_inv_run cfg th ho p2 _ _ hi2 hv3
  have ha2 : a ∈ priq_dumb_step cfg th (p1.foldl (priq_dumb_step cfg th) []) (PriqOp.add a) :=
    (mem_z_priq_dumb_add cfg th _ a a).mpr (Or.inl rfl)
  have ha3 := mem_foldl_priq_dumb_step cfg th a p2 _ ha2 h2
  have hcmp : ¬ 0 < z_sched_prio_cmp cfg (th b) (th a) := by
    rw [z_sched_prio_cmp_eq_zero cfg _ _ hp.symm hd.symm]
    exact lt_irrefl 0
  have h4 := fifo_z_priq_dumb_add cfg th ho _ a b hi3.2.2.1 ha3 hcmp
  have h5 := sublist_pair_foldl cfg th a b p3 _ h4 h3a h3b
  have hrun : priq_dumb_run cfg th (p1 ++ PriqOp.add a :: (p2 ++ PriqOp.add b :: p3)) =
      p3.foldl (priq_dumb_step cfg th)
        (z_priq_dumb_add cfg th
          (p2.foldl (priq_dumb_step cfg th)
            (priq_dumb_step cfg th (p1.foldl (priq_dumb_step cfg th) []) (PriqOp.add a))) b) := by
    simp [priq_dumb_run, List.foldl_append, priq_dumb_step]
  have hab : a ≠ b := by
    intro e
    subst e
    have hb3 : (p2.foldl resident_step
        (resident_step (p1.foldl resident_step (fun _ => false)) (PriqOp.add a))) a = false :=
      hv4.2.1
    rw [(hi3.1 a).mp ha3] at hb3
    exact absurd hb3 (by decide)
  have hnd : (priq_dumb_run cfg th (p1 ++ PriqOp.add a :: (p2 ++ PriqOp.add b :: p3))).Nodup :=
    hall.2.1
  rw [hrun] at hnd ⊢
  refine ⟨h5, ?_⟩
  generalize p3.foldl (priq_dumb_step cfg th) _ = l at h5 hnd
  cases l with
  | nil => simp at h5
  | cons x rest =>
    intro hx
    have hxb : x = b := hx
    subst hxb
    have hsub : List.Sublist [a, x] rest := by
      cases h5 with
      | cons _ h => exact h
      | cons₂ _ h => exact absurd rfl hab
    have hmem : x ∈ rest := hsub.subset (by simp)
    exact (List.nodup_cons.mp hnd).1 hmem

/-- Witness of the amended C2 on add 1, add 2. -/
theorem priq_dumb_fifo_witness :
    List.Sublist [1, 2]
      (priq_dumb_run cfg_deadline (fun _ => mk_thread 0 0)
        ([] ++ PriqOp.add 1 :: ([] ++ PriqOp.add 2 :: []))) :=
  (priq_dumb_fifo cfg_deadline (fun _ => mk_thread 0 0) [] [] [] 1 2 (fun _ => (by decide : (mk_thread 0 0).wf))
    (Or.inr ⟨0, fun _ =>
      (by decide : deadline_offset 0 (mk_thread 0 0).prio_deadline < 2 ^ 31)⟩)
    ⟨by decide, rfl, by decide, rfl, trivial⟩
    (by simp) (by simp) (by simp) rfl rfl).1

/-! ## The tree priority queue -/

theorem rb_add_remove_step (cfg : Config) (th : Tid → k_thread) (m : Nat)
    (hm : m + 1 < 2 ^ 32) :
    rb_add_remove cfg 4 (th, { tree := [1], next_order_key := m }) =
      (Function.update th 4 { th 4 with order_key := m },
        { tree := [1], next_order_key := m + 1 }) := by
  have hmod : (m + 1) % 2 ^ 32 = m + 1 := Nat.mod_eq_of_lt hm
  unfold rb_add_remove z_priq_rb_add
  simp only [hmod, Nat.succ_ne_zero, if_false]
  unfold z_priq_rb_remove
  have hf : ∀ lt : Tid → Tid → Bool,
      (rb_insert lt [1] 4).filter (fun n => n != 4) = [1] := by
    intro lt
    unfold rb_insert
    split_ifs
    · decide
    · unfold rb_insert; decide
  simp only [hf]
  simp

theorem rb_churn_eq (cfg : Config) (n : Nat) (hn : n + 2 < 2 ^ 32) :
    rb_churn cfg (n + 1) =
      (Function.update (fun _ => mk_thread 0 0) 4 { mk_thread 0 0 with order_key := n + 1 },
        { tree := [1], next_order_key := n + 2 }) := by
  have h0 : z_priq_rb_add cfg (fun _ => mk_thread 0 0) { tree := [], next_order_key := 0 } 1 =
      ((fun _ => mk_thread 0 0), { tree := [1], next_order_key := 1 }) := by
    unfold z_priq_rb_add
    have : Function.update (fun _ : Tid => mk_thread 0 0) 1
        { (fun _ : Tid => mk_thread 0 0) 1 with order_key := 0 } = fun _ => mk_thread 0 0 :=
      Function.update_eq_self 1 _
    simp [this, rb_insert]
  induction n with
  | zero =>
    unfold rb_churn
    rw [h0, Function.iterate_one, rb_add_remove_step cfg _ 1 (by norm_num)]
  | succ k ih =>
    have ih' := ih (by omega)
    unfold rb_churn at ih' ⊢
    rw [Function.iterate_succ_apply', ih', rb_add_remove_step cfg _ (k + 2) (by omega)]
    simp [Function.update_idem]

/-- C3 (the code at the failing input): start from the empty tree queue, add
thread 1, run `2 ^ 32 - 2` add/remove cycles of thread 4 (thread 1 stays
resident, so `next_order_key` reaches `2 ^ 32 - 1`), then add thread 2 and
then thread 3, all of equal priority and deadline.  The add of thread 2 wraps
`next_order_key`: thread 2 keeps the key `2 ^ 32 - 1` while the resident is
renumbered from zero, and thread 3 gets the key 1.  So
`z_priq_rb_lessthan(2, 3)` is false and `z_priq_rb_lessthan(3, 2)` is true
although thread 2 was added first, and once thread 1 is removed
`z_priq_rb_best` returns thread 3. -/
theorem priq_rb_wraparound_breaks_fifo :
    (rb_churn cfg_deadline (2 ^ 32 - 2)).2 = { tree := [1], next_order_key := 2 ^ 32 - 1 } ∧
    ((z_priq_rb_add cfg_deadline (rb_churn cfg_deadline (2 ^ 32 - 2)).1
        (rb_churn cfg_deadline (2 ^ 32 - 2)).2 2).1 2).order_key = 2 ^ 32 - 1 ∧
    z_priq_rb_lessthan cfg_deadline
      (z_priq_rb_add cfg_deadline
        (z_priq_rb_add cfg_deadline (rb_churn cfg_deadline (2 ^ 32 - 2)).1
          (rb_churn cfg_deadline (2 ^ 32 - 2)).2 2).1
        (z_priq_rb_add cfg_deadline (rb_churn cfg_deadline (2 ^ 32 - 2)).1
          (rb_churn cfg_deadline (2 ^ 32 - 2)).2 2).2 3).1 2 3 = false ∧
    z_priq_rb_lessthan cfg_deadline
      (z_priq_rb_add cfg_deadline
        (z_priq_rb_add cfg_deadline (rb_churn cfg_deadline (2 ^ 32 - 2)).1
          (rb_churn cfg_deadline (2 ^ 32 - 2)).2 2).1
        (z_priq_rb_add cfg_deadline (rb_churn cfg_deadline (2 ^ 32 - 2)).1
          (rb_churn cfg_deadline (2 ^ 32 - 2)).2 2).2 3).1 3 2 = true ∧
    z_priq_rb_best (z_priq_rb_remove
      (z_priq_rb_add cfg_deadline
        (z_priq_rb_add cfg_deadline (rb_churn cfg_deadline (2 ^ 32 - 2)).1
          (rb_churn cfg_deadline (2 ^ 32 - 2)).2 2).1
        (z_priq_rb_add cfg_deadline (rb_churn cfg_deadline (2 ^ 32 - 2)).1
          (rb_churn cfg_deadline (2 ^ 32 - 2)).2 2).2 3).2 1) = 3 := by
  have h := rb_churn_eq cfg_deadline (2 ^ 32 - 3) (by norm_num)
  have e : 2 ^ 32 - 3 + 1 = 2 ^ 32 - 2 := by norm_num
  rw [e] at h
  rw [h]
  decide

/-! ## Frame lemmas of the scheduler core -/

theorem same_queues_refl (k : Kernel) : same_queues k k := ⟨rfl, rfl, rfl⟩

theorem same_queues_trans {k1 k2 k3 : Kernel} (h1 : same_queues k1 k2)
    (h2 : same_queues k2 k3) : same_queues k1 k3 :=
  ⟨h2.1.trans h1.1, h2.2.1.trans h1.2.1, h2.2.2.trans h1.2.2⟩

theorem next_up_same_queues (cfg : Config) (k : Kernel) : same_queues k (next_up cfg k).2 := by
  unfold next_up
  dsimp only
  split_ifs <;> exact ⟨rfl, rfl, rfl⟩

theorem next_up_current (cfg : Config) (k : Kernel) : (next_up cfg k).2.current = k.current := by
  unfold next_up
  dsimp only
  split_ifs <;> rfl

theorem z_reset_time_slice_same_queues (k : Kernel) : same_queues k (z_reset_time_slice k) := by
  unfold z_reset_time_slice
  split_ifs <;> exact ⟨rfl, rfl, rfl⟩

theorem update_metairq_preempt_same_queues (cfg : Config) (k : Kernel) (thread : Tid) :
    same_queues k (update_metairq_preempt cfg k thread) := by
  unfold update_metairq_preempt
  split_ifs <;> exact ⟨rfl, rfl, rfl⟩

theorem update_cache_same_queues (cfg : Config) (k : Kernel) (preempt_ok : Int) :
    same_queues k (update_cache cfg k preempt_ok) := by
  unfold update_cache
  dsimp only
  have h1 := next_up_same_queues cfg k
  split_ifs
  · exact ⟨rfl, rfl, rfl⟩
  · exact same_queues_trans h1 (same_queues_trans (z_reset_time_slice_same_queues _)
      (update_metairq_preempt_same_queues cfg _ _))
  · exact same_queues_trans h1 (update_metairq_preempt_same_queues cfg _ _)
  · exact h1

/-- On a uniprocessor build the switch makes the cached thread the current
one. -/
theorem z_swap_up (cfg : Config) (k : Kernel) (hsmp : cfg.SMP = false) :
    z_swap cfg k = { k with current := k.cache } := by
  unfold z_swap
  simp [hsmp]

theorem z_swap_same_queues (cfg : Config) (k : Kernel) (hsmp : cfg.SMP = false) :
    same_queues k (z_swap cfg k) := by
  rw [z_swap_up cfg k hsmp]
  exact ⟨rfl, rfl, rfl⟩

theorem z_reschedule_same_queues (cfg : Config) (k : Kernel) (resched : Bool)
    (hsmp : cfg.SMP = false) : same_queues k (z_reschedule cfg k resched) := by
  unfold z_reschedule
  split_ifs
  · exact z_swap_same_queues cfg k hsmp
  · exact ⟨rfl, rfl, rfl⟩

theorem z_reschedule_irqlock_same_queues (cfg : Config) (k : Kernel) (resched : Bool)
    (hsmp : cfg.SMP = false) : same_queues k (z_reschedule_irqlock cfg k resched) := by
  unfold z_reschedule_irqlock
  split_ifs
  · exact z_swap_same_queues cfg k hsmp
  · exact ⟨rfl, rfl, rfl⟩

theorem runq_inv_of_same_queues {k k' : Kernel} (h : same_queues k k') (hi : runq_inv k) :
    runq_inv k' := by
  unfold runq_inv at *
  rw [h.1, h.2.1]
  exact hi

theorem waitq_excl_of_same_queues {k k' : Kernel} (h : same_queues k k') (he : waitq_excl k) :
    waitq_excl k' := by
  unfold waitq_excl at *
  rw [h.1, h.2.1, h.2.2]
  exact he

/-! ## The ready-queue invariant -/

theorem upd_threads_same (k : Kernel) (t : Tid) (f : k_thread → k_thread) :
    (k.upd t f).threads t = f (k.threads t) := by
  simp [Kernel.upd]

theorem upd_threads_other (k : Kernel) (t x : Tid) (f : k_thread → k_thread) (h : x ≠ t) :
    (k.upd t f).threads x = k.threads x := by
  simp [Kernel.upd, Function.update_noteq h]

theorem upd_same_lists (k : Kernel) (t : Tid) (f : k_thread → k_thread) :
    (k.upd t f).runq = k.runq ∧ (k.upd t f).waitq = k.waitq := ⟨rfl, rfl⟩

theorem runq_inv_upd (k : Kernel) (t : Tid) (f : k_thread → k_thread)
    (hf : ∀ x, (f x).thread_state.QUEUED = x.thread_state.QUEUED) (hi : runq_inv k) :
    runq_inv (k.upd t f) := by
  refine ⟨fun x => ?_, hi.2⟩
  show x ∈ k.runq ↔ ((k.upd t f).threads x).thread_state.QUEUED = true
  by_cases h : x = t
  · subst h; rw [upd_threads_same, hf]; exact hi.1 x
  · rw [upd_threads_other k t x f h]; exact hi.1 x

theorem runq_inv_upd_state (k : Kernel) (t : Tid) (f : ThreadState → ThreadState)
    (hf : ∀ s, (f s).QUEUED = s.QUEUED) (hi : runq_inv k) : runq_inv (k.upd_state t f) :=
  runq_inv_upd k t _ (fun x => hf x.thread_state) hi

theorem waitq_excl_upd (k : Kernel) (t : Tid) (f : k_thread → k_thread)
    (hf : ∀ x, (f x).pended_on = x.pended_on ∨ (f x).pended_on = none) (he : waitq_excl k) :
    waitq_excl (k.upd t f) := by
  intro x hx
  show x ∉ k.runq
  apply he x
  rcases hx with hx | hx
  · left
    by_cases h : x = t
    · subst h
      rw [upd_threads_same] at hx
      rcases hf (k.threads x) with e | e
      · rwa [e] at hx
      · exact absurd e hx
    · rwa [upd_threads_other k t x f h] at hx
  · right; exact hx

theorem waitq_excl_upd_state (k : Kernel) (t : Tid) (f : ThreadState → ThreadState)
    (he : waitq_excl k) : waitq_excl (k.upd_state t f) :=
  waitq_excl_upd k t _ (fun _ => Or.inl rfl) he

theorem mem_unlink_runq (k : Kernel) (t x : Tid) :
    x ∈ (k.unlink t).runq ↔ x ∈ k.runq ∧ x ≠ t :=
  mem_z_priq_dumb_remove k.runq t x

theorem mem_unlink_waitq (k : Kernel) (t x : Tid) (w : WaitQ) :
    x ∈ (k.unlink t).waitq w ↔ x ∈ k.waitq w ∧ x ≠ t :=
  mem_z_priq_dumb_remove (k.waitq w) t x

theorem unlink_runq_of_not_mem (k : Kernel) (t : Tid) (h : t ∉ k.runq) :
    (k.unlink t).runq = k.runq := by
  show z_priq_dumb_remove k.runq t = k.runq
  unfold z_priq_dumb_remove sys_dlist_remove
  rw [List.filter_eq_self]
  intro a ha
  simp only [bne_iff_ne, ne_eq]
  intro e; exact h (e ▸ ha)

theorem queue_thread_eq (cfg : Config) (k : Kernel) (t : Tid) (h : cfg.SMP = false) :
    queue_thread cfg k t =
      { k.upd_state t (fun s => { s with QUEUED := true }) with
        runq := z_priq_dumb_add cfg (k.upd_state t (fun s => { s with QUEUED := true })).threads
          k.runq t } := by
  unfold queue_thread should_queue_thread
  simp [h]
  rfl

theorem dequeue_thread_eq (cfg : Config) (k : Kernel) (t : Tid) (h : cfg.SMP = false) :
    dequeue_thread cfg k t = (k.upd_state t (fun s => { s with QUEUED := false })).unlink t := by
  unfold dequeue_thread should_queue_thread
  simp [h]

theorem runq_inv_queue_thread (cfg : Config) (k : Kernel) (t : Tid) (h : cfg.SMP = false)
    (hi : runq_inv k) (hq : (k.threads t).thread_state.QUEUED = false) :
    runq_inv (queue_thread cfg k t) := by
  rw [queue_thread_eq cfg k t h]
  have htn : t ∉ k.runq := by
    intro hm; rw [(hi.1 t).mp hm] at hq; exact absurd hq (by decide)
  refine ⟨fun x => ?_, nodup_z_priq_dumb_add cfg _ k.runq t hi.2 htn⟩
  show x ∈ z_priq_dumb_add cfg _ k.runq t ↔
    ((k.upd_state t (fun s => { s with QUEUED := true })).threads x).thread_state.QUEUED = true
  rw [mem_z_priq_dumb_add]
  by_cases hx : x = t
  · subst hx
    simp [Kernel.upd_state, upd_threads_same]
  · rw [Kernel.upd_state, upd_threads_other k t x _ hx]
    simp [hx, hi.1 x]

theorem dequeue_thread_queued (cfg : Config) (k : Kernel) (t : Tid) (h : cfg.SMP = false) :
    ((dequeue_thread cfg k t).threads t).thread_state.QUEUED = false := by
  rw [dequeue_thread_eq cfg k t h]
  show ((k.upd_state t (fun s => { s with QUEUED := false })).threads t).thread_state.QUEUED
    = false
  simp [Kernel.upd_state, upd_threads_same]

theorem runq_inv_dequeue_thread (cfg : Config) (k : Kernel) (t : Tid) (h : cfg.SMP = false)
    (hi : runq_inv k) : runq_inv (dequeue_thread cfg k t) := by
  rw [dequeue_thread_eq cfg k t h]
  refine ⟨fun x => ?_, hi.2.sublist (sublist_z_priq_dumb_remove k.runq t)⟩
  rw [mem_unlink_runq]
  show x ∈ k.runq ∧ x ≠ t ↔
    ((k.upd_state t (fun s => { s with QUEUED := false })).threads x).thread_state.QUEUED = true
  by_cases hx : x = t
  · subst hx
    simp [Kernel.upd_state, upd_threads_same]
  · rw [Kernel.upd_state, upd_threads_other k t x _ hx]
    simp [hx, hi.1 x]

theorem waitq_excl_unlink (k : Kernel) (t : Tid) (he : waitq_excl k) :
    waitq_excl (k.unlink t) := by
  intro x hx hr
  have hr' := ((mem_unlink_runq k t x).mp hr).1
  refine he x ?_ hr'
  rcases hx with hx | ⟨w, hw⟩
  · exact Or.inl hx
  · exact Or.inr ⟨w, ((mem_unlink_waitq k t x w).mp hw).1⟩

theorem waitq_excl_dequeue_thread (cfg : Config) (k : Kernel) (t : Tid) (h : cfg.SMP = false)
    (he : waitq_excl k) : waitq_excl (dequeue_thread cfg k t) := by
  rw [dequeue_thread_eq cfg k t h]
  exact waitq_excl_unlink _ t (waitq_excl_upd_state k t _ he)

theorem runq_inv_unpend (k : Kernel) (t : Tid) (hi : runq_inv k)
    (hq : (k.threads t).thread_state.QUEUED = false) :
    runq_inv (unpend_thread_no_timeout k t) := by
  have htn : t ∉ k.runq := by
    intro hm; rw [(hi.1 t).mp hm] at hq; exact absurd hq (by decide)
  have h1 : runq_inv (k.unlink t) := by
    refine ⟨fun x => ?_, ?_⟩
    · rw [unlink_runq_of_not_mem k t htn]; exact hi.1 x
    · rw [unlink_runq_of_not_mem k t htn]; exact hi.2
  unfold unpend_thread_no_timeout z_mark_thread_as_not_pending
  exact runq_inv_upd _ t _ (fun _ => rfl) (runq_inv_upd_state _ t _ (fun _ => rfl) h1)

theorem unpend_pended_on (k : Kernel) (t : Tid) :
    ((unpend_thread_no_timeout k t).threads t).pended_on = none := by
  unfold unpend_thread_no_timeout
  simp [upd_threads_same]

theorem unpend_not_mem_waitq (k : Kernel) (t : Tid) (w : WaitQ) :
    t ∉ (unpend_thread_no_timeout k t).waitq w := by
  unfold unpend_thread_no_timeout z_mark_thread_as_not_pending
  show t ∉ (k.unlink t).waitq w
  rw [mem_unlink_waitq]
  exact fun h => h.2 rfl

theorem waitq_excl_unpend (k : Kernel) (t : Tid) (he : waitq_excl k) :
    waitq_excl (unpend_thread_no_timeout k t) := by
  unfold unpend_thread_no_timeout z_mark_thread_as_not_pending
  exact waitq_excl_upd _ t _ (fun _ => Or.inr rfl)
    (waitq_excl_upd_state _ t _ (waitq_excl_unlink k t he))

theorem z_priq_dumb_best_mem (pq : List Tid) (h : z_priq_dumb_best pq ≠ NULL) :
    z_priq_dumb_best pq ∈ pq := by
  cases pq with
  | nil => exact absurd rfl h
  | cons x rest => exact List.mem_cons_self _ _

theorem queued_false_of_excl (k : Kernel) (t : Tid) (hi : runq_inv k) (he : waitq_excl k)
    (h : (k.threads t).pended_on ≠ none ∨ ∃ w, t ∈ k.waitq w) :
    (k.threads t).thread_state.QUEUED = false := by
  have hn := he t h
  rw [hi.1 t] at hn
  simpa using hn

theorem waitq_excl_queue_thread (cfg : Config) (k : Kernel) (t : Tid) (h : cfg.SMP = false)
    (he : waitq_excl k) (hp : (k.threads t).pended_on = none) (hw : ∀ w, t ∉ k.waitq w) :
    waitq_excl (queue_thread cfg k t) := by
  rw [queue_thread_eq cfg k t h]
  intro x hx
  show x ∉ z_priq_dumb_add cfg _ k.runq t
  rw [mem_z_priq_dumb_add]
  have hx' : ((k.upd_state t (fun s => { s with QUEUED := true })).threads x).pended_on ≠ none ∨
      ∃ w, x ∈ k.waitq w := hx
  by_cases hxt : x = t
  · subst hxt
    rcases hx' with hx' | ⟨w, hx'⟩
    · rw [Kernel.upd_state, upd_threads_same] at hx'
      exact absurd hp hx'
    · exact absurd hx' (hw w)
  · rw [Kernel.upd_state, upd_threads_other k t x _ hxt] at hx'
    rintro (e | e)
    · exact hxt e
    · exact he x hx' e

theorem runq_inv_ready_thread (cfg : Config) (k : Kernel) (t : Tid) (h : cfg.SMP = false)
    (hi : runq_inv k) : runq_inv (ready_thread cfg k t) := by
  unfold ready_thread
  split_ifs with hc
  · have hq : (k.threads t).thread_state.QUEUED = false := by
      simp only [z_is_thread_queued, Bool.and_eq_true, Bool.not_eq_true'] at hc
      exact hc.1
    exact runq_inv_of_same_queues (update_cache_same_queues cfg _ 0)
      (runq_inv_queue_thread cfg k t h hi hq)
  · exact hi

theorem waitq_excl_ready_thread (cfg : Config) (k : Kernel) (t : Tid) (h : cfg.SMP = false)
    (he : waitq_excl k) (hp : (k.threads t).pended_on = none) (hw : ∀ w, t ∉ k.waitq w) :
    waitq_excl (ready_thread cfg k t) := by
  unfold ready_thread
  split_ifs
  · exact waitq_excl_of_same_queues (update_cache_same_queues cfg _ 0)
      (waitq_excl_queue_thread cfg k t h he hp hw)
  · exact he

theorem runq_inv_cond_dequeue (cfg : Config) (k : Kernel) (t : Tid) (c : Bool)
    (h : cfg.SMP = false) (hi : runq_inv k) :
    runq_inv (if c = true then dequeue_thread cfg k t else k) := by
  split_ifs
  · exact runq_inv_dequeue_thread cfg k t h hi
  · exact hi

theorem cond_dequeue_queued (cfg : Config) (k : Kernel) (t : Tid) (h : cfg.SMP = false) :
    ((if z_is_thread_queued (k.threads t) = true then dequeue_thread cfg k t else k).threads
      t).thread_state.QUEUED = false := by
  split_ifs with hc
  · exact dequeue_thread_queued cfg k t h
  · simpa [z_is_thread_queued] using hc

theorem runq_inv_unready_thread (cfg : Config) (k : Kernel) (t : Tid) (h : cfg.SMP = false)
    (hi : runq_inv k) : runq_inv (unready_thread cfg k t) := by
  unfold unready_thread
  exact runq_inv_of_same_queues (update_cache_same_queues cfg _ _)
    (runq_inv_cond_dequeue cfg k t _ h hi)

theorem runq_inv_move_thread_to_end_of_prio_q (cfg : Config) (k : Kernel) (t : Tid)
    (h : cfg.SMP = false) (hi : runq_inv k) :
    runq_inv (move_thread_to_end_of_prio_q cfg k t) := by
  unfold move_thread_to_end_of_prio_q
  exact runq_inv_of_same_queues (update_cache_same_queues cfg _ _)
    (runq_inv_queue_thread cfg _ t h (runq_inv_cond_dequeue cfg k t _ h hi)
      (cond_dequeue_queued cfg k t h))

theorem runq_inv_ite {c : Prop} [Decidable c] {a b : Kernel} (ha : runq_inv a)
    (hb : runq_inv b) : runq_inv (if c then a else b) := by
  split_ifs
  · exact ha
  · exact hb

theorem runq_inv_z_impl_k_thread_suspend (cfg : Config) (k : Kernel) (t : Tid)
    (resched : Bool) (h : cfg.SMP = false) (hi : runq_inv k) :
    runq_inv (z_impl_k_thread_suspend cfg k t resched) := by
  unfold z_impl_k_thread_suspend
  have h0 : runq_inv (z_abort_thread_timeout k t) := runq_inv_upd k t _ (fun _ => rfl) hi
  have h1 := runq_inv_cond_dequeue cfg (z_abort_thread_timeout k t) t
    (z_is_thread_queued ((z_abort_thread_timeout k t).threads t)) h h0
  have h2 := runq_inv_upd_state _ t (fun s => { s with SUSPENDED := true }) (fun _ => rfl) h1
  have h3 : ∀ p, runq_inv (update_cache cfg (z_mark_thread_as_suspended
      (if z_is_thread_queued ((z_abort_thread_timeout k t).threads t) = true then
        dequeue_thread cfg (z_abort_thread_timeout k t) t
      else z_abort_thread_timeout k t) t) p) :=
    fun p => runq_inv_of_same_queues (update_cache_same_queues cfg _ p) h2
  dsimp only
  exact runq_inv_ite (runq_inv_of_same_queues (z_reschedule_irqlock_same_queues cfg _ _ h) (h3 _))
    (h3 _)

theorem runq_inv_z_impl_k_thread_resume (cfg : Config) (k : Kernel) (t : Tid)
    (resched : Bool) (h : cfg.SMP = false) (hi : runq_inv k) :
    runq_inv (z_impl_k_thread_resume cfg k t resched) := by
  unfold z_impl_k_thread_resume
  split_ifs
  · exact hi
  · exact runq_inv_of_same_queues (z_reschedule_same_queues cfg _ _ h)
      (runq_inv_ready_thread cfg _ t h
        (runq_inv_upd_state k t (fun s => { s with SUSPENDED := false }) (fun _ => rfl) hi))

theorem runq_inv_add_to_waitq_locked (cfg : Config) (k : Kernel) (t : Tid)
    (wait_q : Option WaitQ) (h : cfg.SMP = false) (hi : runq_inv k) :
    runq_inv (add_to_waitq_locked cfg k t wait_q) := by
  unfold add_to_waitq_locked
  have h1 := runq_inv_unready_thread cfg k t h hi
  have h2 := runq_inv_upd_state _ t (fun s => { s with PENDING := true }) (fun _ => rfl) h1
  cases wait_q with
  | none => exact h2
  | some w =>
    have h3 := runq_inv_upd _ t (fun x => { x with pended_on := some w }) (fun _ => rfl) h2
    exact h3

theorem runq_inv_z_set_prio (cfg : Config) (k : Kernel) (t : Tid) (prio : Int)
    (h : cfg.SMP = false) (hi : runq_inv k) : runq_inv (z_set_prio cfg k t prio).2 := by
  unfold z_set_prio
  dsimp only
  split_ifs with hc hq
  · have h1 := runq_inv_dequeue_thread cfg k t h hi
    have h2 := runq_inv_upd _ t (fun x => { x with prio := wrap_int8 prio }) (fun _ => rfl) h1
    have hq' : (((dequeue_thread cfg k t).upd t
        (fun x => { x with prio := wrap_int8 prio })).threads t).thread_state.QUEUED = false := by
      rw [upd_threads_same]
      exact dequeue_thread_queued cfg k t h
    exact runq_inv_of_same_queues (update_cache_same_queues cfg _ 1)
      (runq_inv_queue_thread cfg _ t h h2 hq')
  · simp [h] at hq
  · exact runq_inv_upd _ t _ (fun _ => rfl) hi

theorem runq_inv_z_impl_k_thread_deadline_set (cfg : Config) (k : Kernel) (t : Tid)
    (now : Nat) (deadline : Int) (h : cfg.SMP = false) (hi : runq_inv k) :
    runq_inv (z_impl_k_thread_deadline_set cfg k t now deadline) := by
  unfold z_impl_k_thread_deadline_set
  dsimp only
  have h1 := runq_inv_upd k t
    (fun x => { x with prio_deadline := (((now : Int) + deadline) % 2 ^ 32).toNat })
    (fun _ => rfl) hi
  split_ifs
  · exact runq_inv_queue_thread cfg _ t h (runq_inv_dequeue_thread cfg _ t h h1)
      (dequeue_thread_queued cfg _ t h)
  · exact h1

theorem dequeue_thread_current (cfg : Config) (k : Kernel) (t : Tid) :
    (dequeue_thread cfg k t).current = k.current := by
  unfold dequeue_thread
  dsimp only
  split_ifs <;> rfl

theorem runq_inv_z_impl_k_yield (cfg : Config) (k : Kernel) (h : cfg.SMP = false)
    (hi : runq_inv k) : runq_inv (z_impl_k_yield cfg k) := by
  unfold z_impl_k_yield
  have hc : (!cfg.SMP || z_is_thread_queued (k.threads k.current)) = true := by simp [h]
  simp only [hc, if_true]
  rw [dequeue_thread_current]
  exact runq_inv_of_same_queues (z_swap_same_queues cfg _ h)
    (runq_inv_of_same_queues (update_cache_same_queues cfg _ 1)
      (runq_inv_queue_thread cfg _ _ h (runq_inv_dequeue_thread cfg k _ h hi)
        (dequeue_thread_queued cfg k _ h)))

theorem runq_inv_z_thread_timeout (cfg : Config) (k : Kernel) (t : Tid) (h : cfg.SMP = false)
    (hi : runq_inv k) (he : waitq_excl k) : runq_inv (z_thread_timeout cfg k t) := by
  unfold z_thread_timeout
  dsimp only
  refine runq_inv_ite ?_ hi
  refine runq_inv_ready_thread cfg _ t h ?_
  refine runq_inv_upd_state _ t _ (fun _ => rfl) ?_
  refine runq_inv_upd_state _ t _ (fun _ => rfl) ?_
  by_cases hp : (k.threads t).pended_on ≠ none
  · rw [if_pos hp]
    exact runq_inv_unpend k t hi (queued_false_of_excl k t hi he (Or.inl hp))
  · rw [if_neg hp]
    exact hi

theorem runq_inv_z_sched_wake (cfg : Config) (k : Kernel) (wq : WaitQ) (swap_retval : Int)
    (swap_data : Nat) (h : cfg.SMP = false) (hi : runq_inv k) (he : waitq_excl k) :
    runq_inv (z_sched_wake cfg k wq swap_retval swap_data).2 := by
  unfold z_sched_wake
  dsimp only
  by_cases hne : z_priq_dumb_best (k.waitq wq) ≠ NULL
  · rw [if_pos hne]
    have hmem := z_priq_dumb_best_mem _ hne
    have hq := queued_false_of_excl k _ hi he (Or.inr ⟨wq, hmem⟩)
    refine runq_inv_ready_thread cfg _ _ h ?_
    refine runq_inv_upd _ _ _ (fun _ => rfl) ?_
    refine runq_inv_unpend _ _ (runq_inv_upd _ _ _ (fun _ => rfl) hi) ?_
    unfold z_thread_return_value_set_with_data
    rw [upd_threads_same]
    exact hq
  · rw [if_neg hne]
    exact hi

theorem unpend_all_loop_inv (cfg : Config) (w : WaitQ) (h : cfg.SMP = false) :
    ∀ (fuel : Nat) (k : Kernel), runq_inv k → waitq_excl k →
      runq_inv (unpend_all_loop cfg fuel k w) ∧ waitq_excl (unpend_all_loop cfg fuel k w) := by
  intro fuel
  induction fuel with
  | zero => intro k hi he; exact ⟨hi, he⟩
  | succ n ih =>
    intro k hi he
    unfold unpend_all_loop
    dsimp only
    by_cases hne : z_waitq_head k w ≠ NULL
    · rw [if_pos hne]
      have hmem : z_waitq_head k w ∈ k.waitq w := z_priq_dumb_best_mem _ hne
      have hq := queued_false_of_excl k _ hi he (Or.inr ⟨w, hmem⟩)
      have hi1 := runq_inv_unpend k _ hi hq
      have he1 := waitq_excl_unpend k (z_waitq_head k w) he
      have hi3 : runq_inv (arch_thread_return_value_set (z_abort_thread_timeout
          (unpend_thread_no_timeout k (z_waitq_head k w)) (z_waitq_head k w))
          (z_waitq_head k w) 0) :=
        runq_inv_upd _ _ _ (fun _ => rfl) (runq_inv_upd _ _ _ (fun _ => rfl) hi1)
      have he3 : waitq_excl (arch_thread_return_value_set (z_abort_thread_timeout
          (unpend_thread_no_timeout k (z_waitq_head k w)) (z_waitq_head k w))
          (z_waitq_head k w) 0) :=
        waitq_excl_upd _ _ _ (fun _ => Or.inl rfl)
          (waitq_excl_upd _ _ _ (fun _ => Or.inl rfl) he1)
      have hp3 : ((arch_thread_return_value_set (z_abort_thread_timeout
          (unpend_thread_no_timeout k (z_waitq_head k w)) (z_waitq_head k w))
          (z_waitq_head k w) 0).threads (z_waitq_head k w)).pended_on = none := by
        unfold arch_thread_return_value_set z_abort_thread_timeout
        rw [upd_threads_same, upd_threads_same]
        exact unpend_pended_on k _
      have hw3 : ∀ w', z_waitq_head k w ∉ (arch_thread_return_value_set
          (z_abort_thread_timeout (unpend_thread_no_timeout k (z_waitq_head k w))
            (z_waitq_head k w)) (z_waitq_head k w) 0).waitq w' :=
        fun w' => unpend_not_mem_waitq k _ w'
      exact ih _ (runq_inv_ready_thread cfg _ _ h hi3)
        (waitq_excl_ready_thread cfg _ _ h he3 hp3 hw3)
    · rw [if_neg hne]
      exact ⟨hi, he⟩

theorem runq_inv_end_thread (cfg : Config) (k : Kernel) (t : Tid) (h : cfg.SMP = false)
    (hi : runq_inv k) (he : waitq_excl k) : runq_inv (end_thread cfg k t) := by
  unfold end_thread
  dsimp only
  refine runq_inv_ite ?_ hi
  refine runq_inv_of_same_queues (update_cache_same_queues cfg _ 1) ?_
  have hi2 : runq_inv ((k.upd_state t (fun s => { s with DEAD := true })).upd_state t
      (fun s => { s with ABORTING := false })) :=
    runq_inv_upd_state _ t _ (fun _ => rfl) (runq_inv_upd_state _ t _ (fun _ => rfl) hi)
  have he2 : waitq_excl ((k.upd_state t (fun s => { s with DEAD := true })).upd_state t
      (fun s => { s with ABORTING := false })) :=
    waitq_excl_upd_state _ t _ (waitq_excl_upd_state _ t _ he)
  generalize (k.upd_state t (fun s => { s with DEAD := true })).upd_state t
      (fun s => { s with ABORTING := false }) = k2 at hi2 he2 ⊢
  have hi3 := runq_inv_cond_dequeue cfg k2 t (z_is_thread_queued (k2.threads t)) h hi2
  have hq3 := cond_dequeue_queued cfg k2 t h
  have he3 : waitq_excl (if z_is_thread_queued (k2.threads t) = true then
      dequeue_thread cfg k2 t else k2) := by
    split_ifs
    · exact waitq_excl_dequeue_thread cfg k2 t h he2
    · exact he2
  generalize (if z_is_thread_queued (k2.threads t) = true then
      dequeue_thread cfg k2 t else k2) = k3 at hi3 hq3 he3 ⊢
  have hi4 : runq_inv (if (k3.threads t).pended_on ≠ none then
      unpend_thread_no_timeout k3 t else k3) :=
    runq_inv_ite (runq_inv_unpend k3 t hi3 hq3) hi3
  have he4 : waitq_excl (if (k3.threads t).pended_on ≠ none then
      unpend_thread_no_timeout k3 t else k3) := by
    split_ifs
    · exact waitq_excl_unpend k3 t he3
    · exact he3
  generalize (if (k3.threads t).pended_on ≠ none then
      unpend_thread_no_timeout k3 t else k3) = k4 at hi4 he4 ⊢
  have hi5 : runq_inv (z_abort_thread_timeout k4 t) := runq_inv_upd _ _ _ (fun _ => rfl) hi4
  have he5 : waitq_excl (z_abort_thread_timeout k4 t) :=
    waitq_excl_upd _ _ _ (fun _ => Or.inl rfl) he4
  exact (unpend_all_loop_inv cfg (WaitQ.join t) h _ _ hi5 he5).1

/-- C10 as stated fails for `z_thread_timeout` in a state that satisfies the
invariant while a queued thread's `pended_on` is set: `unpend_thread_no_timeout`
unlinks the thread's queue node, which is on the run queue, and leaves `QUEUED`
set. -/
theorem runq_inv_counterexample :
    runq_inv k_stale ∧
    (z_thread_timeout cfg_deadline k_stale 1).runq = [] ∧
    ((z_thread_timeout cfg_deadline k_stale 1).threads 1).thread_state.QUEUED = true ∧
    ¬ runq_inv (z_thread_timeout cfg_deadline k_stale 1) := by
  have h2 : (z_thread_timeout cfg_deadline k_stale 1).runq = [] := by decide
  have h3 : ((z_thread_timeout cfg_deadline k_stale 1).threads 1).thread_state.QUEUED = true := by
    decide
  refine ⟨⟨fun t => ?_, by decide⟩, h2, h3, ?_⟩
  · show t ∈ [1] ↔ _
    by_cases ht : t = 1
    · subst ht; decide
    · simp [k_stale, mk_kernel, ht, mk_thread]
  · intro hinv
    have := (hinv.1 1).mpr h3
    rw [h2] at this
    exact absurd this (by simp)

/-- C10 (amended): on a uniprocessor build the invariant "a thread is on the
run queue iff its `QUEUED` bit is set, and at most once" is preserved by
`ready_thread`, `unready_thread`, `move_thread_to_end_of_prio_q`,
`z_impl_k_thread_suspend`, `z_impl_k_thread_resume`, `add_to_waitq_locked`,
`z_set_prio`, `z_impl_k_thread_deadline_set` and `z_impl_k_yield` applied to
any thread in any state satisfying it, and by `z_thread_timeout`,
`z_sched_wake` and `end_thread` in any such state in which no thread that has
`pended_on` set or is a member of a wait queue is on the run queue. -/
theorem runq_inv_preserved (cfg : Config) (k : Kernel) (hsmp : cfg.SMP = false)
    (hi : runq_inv k) (thread : Tid) (wait_q : Option WaitQ) (wq : WaitQ) (prio : Int)
    (now : Nat) (deadline : Int) (swap_retval : Int) (swap_data : Nat) (resched : Bool) :
    runq_inv (ready_thread cfg k thread) ∧
    runq_inv (unready_thread cfg k thread) ∧
    runq_inv (move_thread_to_end_of_prio_q cfg k thread) ∧
    runq_inv (z_impl_k_thread_suspend cfg k thread resched) ∧
    runq_inv (z_impl_k_thread_resume cfg k thread resched) ∧
    runq_inv (add_to_waitq_locked cfg k thread wait_q) ∧
    runq_inv (z_set_prio cfg k thread prio).2 ∧
    runq_inv (z_impl_k_thread_deadline_set cfg k thread now deadline) ∧
    runq_inv (z_impl_k_yield cfg k) ∧
    (waitq_excl k →
      runq_inv (z_thread_timeout cfg k thread) ∧
      runq_inv (z_sched_wake cfg k wq swap_retval swap_data).2 ∧
      runq_inv (end_thread cfg k thread)) :=
  ⟨runq_inv_ready_thread cfg k thread hsmp hi,
   runq_inv_unready_thread cfg k thread hsmp hi,
   runq_inv_move_thread_to_end_of_prio_q cfg k thread hsmp hi,
   runq_inv_z_impl_k_thread_suspend cfg k thread resched hsmp hi,
   runq_inv_z_impl_k_thread_resume cfg k thread resched hsmp hi,
   runq_inv_add_to_waitq_locked cfg k thread wait_q hsmp hi,
   runq_inv_z_set_prio cfg k thread prio hsmp hi,
   runq_inv_z_impl_k_thread_deadline_set cfg k thread now deadline hsmp hi,
   runq_inv_z_impl_k_yield cfg k hsmp hi,
   fun he => ⟨runq_inv_z_thread_timeout cfg k thread hsmp hi he,
     runq_inv_z_sched_wake cfg k wq swap_retval swap_data hsmp hi he,
     runq_inv_end_thread cfg k thread hsmp hi he⟩⟩

/-- Witness of the amended C10 on the state with an empty run queue. -/
theorem runq_inv_preserved_witness :
    runq_inv (ready_thread cfg_deadline (mk_kernel (fun _ => mk_thread 0 0) []) 2) ∧
    runq_inv (end_thread cfg_deadline (mk_kernel (fun _ => mk_thread 0 0) []) 2) :=
  ⟨(runq_inv_preserved cfg_deadline (mk_kernel (fun _ => mk_thread 0 0) []) rfl
      ⟨fun t => by simp [mk_kernel, mk_thread], by simp [mk_kernel]⟩
      2 none (WaitQ.obj 0) 0 0 0 0 0 false).1,
   ((runq_inv_preserved cfg_deadline (mk_kernel (fun _ => mk_thread 0 0) []) rfl
      ⟨fun t => by simp [mk_kernel, mk_thread], by simp [mk_kernel]⟩
      2 none (WaitQ.obj 0) 0 0 0 0 0 false).2.2.2.2.2.2.2.2.2
      (fun t _ => by simp [mk_kernel])).2.2⟩

/-! ## Cooperative threads keep the CPU -/

theorem queue_thread_threads (cfg : Config) (k : Kernel) (t : Tid) (h : cfg.SMP = false) :
    (queue_thread cfg k t).threads =
      Function.update k.threads t
        { k.threads t with thread_state := { (k.threads t).thread_state with QUEUED := true } } := by
  rw [queue_thread_eq cfg k t h]
  rfl

theorem queue_thread_unqueued (cfg : Config) (k : Kernel) (t x : Tid) (h : cfg.SMP = false) :
    ((queue_thread cfg k t).threads x).unqueued = (k.threads x).unqueued := by
  rw [queue_thread_threads cfg k t h]
  by_cases hx : x = t
  · subst hx; rw [Function.update_same]; rfl
  · rw [Function.update_noteq hx]

theorem queue_thread_fields (cfg : Config) (k : Kernel) (t : Tid) (h : cfg.SMP = false) :
    (queue_thread cfg k t).current = k.current ∧
    (queue_thread cfg k t).metairq_preempted = k.metairq_preempted ∧
    (queue_thread cfg k t).idle_thread = k.idle_thread ∧
    (queue_thread cfg k t).z_idle_threads = k.z_idle_threads ∧
    (queue_thread cfg k t).cache = k.cache := by
  rw [queue_thread_eq cfg k t h]
  exact ⟨rfl, rfl, rfl, rfl, rfl⟩

theorem is_metairq_unqueued (cfg : Config) (a : k_thread) :
    is_metairq cfg a.unqueued = is_metairq cfg a := rfl

theorem is_preempt_unqueued (a : k_thread) : is_preempt a.unqueued = is_preempt a := rfl

theorem prevented_unqueued (a : k_thread) :
    z_is_thread_prevented_from_running a.unqueued = z_is_thread_prevented_from_running a := rfl

theorem is_metairq_congr (cfg : Config) {a b : k_thread} (h : a.unqueued = b.unqueued) :
    is_metairq cfg a = is_metairq cfg b := by
  rw [← is_metairq_unqueued cfg a, h, is_metairq_unqueued]

theorem is_preempt_congr {a b : k_thread} (h : a.unqueued = b.unqueued) :
    is_preempt a = is_preempt b := by
  rw [← is_preempt_unqueued a, h, is_preempt_unqueued]

theorem prevented_congr {a b : k_thread} (h : a.unqueued = b.unqueued) :
    z_is_thread_prevented_from_running a = z_is_thread_prevented_from_running b := by
  rw [← prevented_unqueued a, h, prevented_unqueued]

theorem queue_thread_runq (cfg : Config) (k : Kernel) (t : Tid) (h : cfg.SMP = false) :
    (queue_thread cfg k t).runq = z_priq_dumb_add cfg (queue_thread cfg k t).threads k.runq t := by
  rw [queue_thread_eq cfg k t h]

theorem priq_run_best_mem (cfg : Config) (k : Kernel) (h : _priq_run_best cfg k ≠ NULL) :
    _priq_run_best cfg k ∈ k.runq := by
  unfold _priq_run_best at h ⊢
  split_ifs at h ⊢ with hm
  · unfold _priq_dumb_mask_best at h ⊢
    cases hf : k.runq.find? (fun t => (k.threads t).cpu_mask.testBit k.cpu_id) with
    | none => rw [hf] at h; exact absurd rfl h
    | some x => exact List.mem_of_find?_eq_some hf
  · exact z_priq_dumb_best_mem _ h

theorem next_up_fst_cases (cfg : Config) (k : Kernel) :
    ((next_up cfg k).1 = k.metairq_preempted ∧ k.metairq_preempted ≠ NULL) ∨
    ((next_up cfg k).1 = _priq_run_best cfg k ∧ _priq_run_best cfg k ≠ NULL) ∨
    ((next_up cfg k).1 = k.idle_thread ∧ _priq_run_best cfg k = NULL) := by
  unfold next_up
  dsimp only
  split_ifs <;> simp_all

theorem z_priq_dumb_add_ne_nil (cfg : Config) (th : Tid → k_thread) (pq : List Tid) (t : Tid) :
    z_priq_dumb_add cfg th pq t ≠ [] := by
  intro h
  have : t ∈ z_priq_dumb_add cfg th pq t := (mem_z_priq_dumb_add cfg th pq t t).mpr (Or.inl rfl)
  rw [h] at this
  exact absurd this (by simp)

theorem z_priq_dumb_best_mem_of_ne_nil (pq : List Tid) (h : pq ≠ []) :
    z_priq_dumb_best pq ∈ pq := by
  cases pq with
  | nil => exact absurd rfl h
  | cons x rest => exact List.mem_cons_self _ _

theorem should_preempt_false (cfg : Config) (k : Kernel) (thread : Tid)
    (hna : cfg.SWAP_NONATOMIC = false)
    (hrun : z_is_thread_prevented_from_running (k.threads k.current) = false)
    (hnp : is_preempt (k.threads k.current) = false)
    (hm : is_metairq cfg (k.threads thread) = false) :
    should_preempt cfg k thread 0 = false := by
  unfold should_preempt
  simp [hna, hrun, hnp, hm]

/-- C7 as stated fails when the `metairq_preempted` slot holds a metairq that
is not prevented from running: in `k_slot` thread 1 is current, cooperative,
not prevented from running and cached, no metairq is on the run queue and
thread 2 is not a metairq, yet `ready_thread(2)` sets the cache to thread 5. -/
theorem ready_thread_cache_counterexample :
    cfg_deadline.SMP = false ∧ cfg_deadline.SWAP_NONATOMIC = false ∧
    cfg_deadline.SCHED_CPU_MASK = false ∧
    z_is_thread_prevented_from_running (k_slot.threads k_slot.current) = false ∧
    is_preempt (k_slot.threads k_slot.current) = false ∧
    k_slot.cache = k_slot.current ∧
    (∀ x ∈ k_slot.runq, is_metairq cfg_deadline (k_slot.threads x) = false) ∧
    is_metairq cfg_deadline (k_slot.threads 2) = false ∧
    (ready_thread cfg_deadline k_slot 2).cache = 5 ∧
    (ready_thread cfg_deadline k_slot 2).cache ≠ (ready_thread cfg_deadline k_slot 2).current ∧
    need_swap cfg_deadline (ready_thread cfg_deadline k_slot 2) = true := by
  decide

/-- C7 (amended): on a uniprocessor build (no CPU masks) with
`CONFIG_SWAP_NONATOMIC` off, if `_current` is not prevented from running,
`is_preempt(_current)` is false, `ready_q.cache == _current`, no metairq thread
is on the run queue, and the `metairq_preempted` slot is NULL or holds a thread
that is not a metairq, then for every thread `t` that is not a metairq
`ready_thread(t)` leaves `ready_q.cache == _current`, so `need_swap()` stays
false, whatever the priority of `t`. -/
theorem ready_thread_keeps_cache (cfg : Config) (k : Kernel) (t : Tid)
    (hsmp : cfg.SMP = false) (hmask : cfg.SCHED_CPU_MASK = false)
    (hna : cfg.SWAP_NONATOMIC = false)
    (ht0 : t ≠ NULL) (hq0 : NULL ∉ k.runq)
    (hrun : z_is_thread_prevented_from_running (k.threads k.current) = false)
    (hnp : is_preempt (k.threads k.current) = false)
    (hcache : k.cache = k.current)
    (hq : ∀ x ∈ k.runq, is_metairq cfg (k.threads x) = false)
    (ht : is_metairq cfg (k.threads t) = false)
    (hslot : k.metairq_preempted = NULL ∨
      is_metairq cfg (k.threads k.metairq_preempted) = false) :
    (ready_thread cfg k t).cache = k.current ∧
    (ready_thread cfg k t).current = k.current ∧
    need_swap cfg (ready_thread cfg k t) = false := by
  have key : (ready_thread cfg k t).cache = k.current ∧
      (ready_thread cfg k t).current = k.current := by
    unfold ready_thread
    split_ifs with hc
    · have hf := queue_thread_fields cfg k t hsmp
      have hu := queue_thread_unqueued cfg k t
      have hr := queue_thread_runq cfg k t hsmp
      generalize hk' : queue_thread cfg k t = k' at hf hu hr
      have hmem : ∀ x, x ∈ k'.runq → x = t ∨ x ∈ k.runq := by
        intro x hx
        rw [hr] at hx
        exact (mem_z_priq_dumb_add cfg _ k.runq t x).mp hx
      have hbest : _priq_run_best cfg k' ≠ NULL := by
        have hne : k'.runq ≠ [] := by rw [hr]; exact z_priq_dumb_add_ne_nil cfg _ _ _
        have hb : _priq_run_best cfg k' = z_priq_dumb_best k'.runq := by
          unfold _priq_run_best; simp [hmask]
        rw [hb]
        intro e
        have hm := z_priq_dumb_best_mem_of_ne_nil _ hne
        rw [e] at hm
        rcases hmem _ hm with h1 | h1
        · exact ht0 h1.symm
        · exact hq0 h1
      have hmq : ∀ x, is_metairq cfg (k'.threads x) = is_metairq cfg (k.threads x) :=
        fun x => is_metairq_congr cfg (hu x hsmp)
      have hsq := next_up_same_queues cfg k'
      have hcur := next_up_current cfg k'
      have hnm : is_metairq cfg ((next_up cfg k').2.threads (next_up cfg k').1) = false := by
        rw [hsq.2.1]
        rcases next_up_fst_cases cfg k' with ⟨h1, h2⟩ | ⟨h1, h2⟩ | ⟨_, h2⟩
        · rw [h1, hmq, hf.2.1]
          rw [hf.2.1] at h2
          rcases hslot with hs | hs
          · exact absurd hs h2
          · exact hs
        · rw [h1, hmq]
          rcases hmem _ (priq_run_best_mem cfg k' h2) with e | e
          · rw [e]; exact ht
          · exact hq _ e
        · exact absurd h2 hbest
      have hsp : should_preempt cfg (next_up cfg k').2 (next_up cfg k').1 0 = false := by
        apply should_preempt_false cfg _ _ hna
        · rw [hsq.2.1, hcur, hf.1, prevented_congr (hu k.current hsmp)]; exact hrun
        · rw [hsq.2.1, hcur, hf.1, is_preempt_congr (hu k.current hsmp)]; exact hnp
        · exact hnm
      unfold update_cache
      dsimp only
      rw [if_neg (by simp [hsmp]), if_neg (by simp [hsp])]
      exact ⟨by rw [← hf.1]; exact hcur, by rw [← hf.1]; exact hcur⟩
    · exact ⟨hcache, rfl⟩
  refine ⟨key.1, key.2, ?_⟩
  unfold need_swap
  simp [hsmp, key.1, key.2]

/-- Witness of the amended C7: thread 2 (priority 3) is readied while the
cooperative thread 1 runs. -/
theorem ready_thread_keeps_cache_witness :
    (ready_thread cfg_deadline { k_slot with metairq_preempted := NULL } 2).cache = 1 :=
  (ready_thread_keeps_cache cfg_deadline { k_slot with metairq_preempted := NULL } 2
    rfl rfl rfl (by decide) (by decide) (by decide) (by decide) rfl (by decide) (by decide)
    (Or.inl rfl)).1

/-! ## The metairq return scenario -/

theorem z_sched_prio_cmp_pos_of_prio_lt (cfg : Config) (a b : k_thread) (ha : a.wf) (hb : b.wf)
    (h : a.prio < b.prio) : 0 < z_sched_prio_cmp cfg a b := by
  unfold k_thread.wf int8_range at ha hb
  rw [z_sched_prio_cmp_unfold, if_pos (ne_of_lt h),
    wrap_int32_of_small _ (by omega) (by omega)]
  omega

theorem z_sched_prio_cmp_not_pos_of_prio_gt (cfg : Config) (a b : k_thread) (ha : a.wf)
    (hb : b.wf) (h : b.prio < a.prio) : ¬ 0 < z_sched_prio_cmp cfg a b := by
  unfold k_thread.wf int8_range at ha hb
  rw [z_sched_prio_cmp_unfold, if_pos (ne_of_gt h),
    wrap_int32_of_small _ (by omega) (by omega)]
  omega

theorem prio_lt_of_metairq (cfg : Config) (a b : k_thread) (ha : is_metairq cfg a = true)
    (hb : is_metairq cfg b = false) : a.prio < b.prio := by
  unfold is_metairq at ha hb
  by_cases hn : cfg.NUM_METAIRQ_PRIORITIES > 0
  · rw [if_pos hn] at ha hb
    simp only [decide_eq_true_eq, decide_eq_false_iff_not, not_lt] at ha hb
    omega
  · rw [if_neg hn] at ha
    exact absurd ha (by decide)

theorem priq_run_best_cons (cfg : Config) (k : Kernel) (x : Tid) (rest : List Tid)
    (hmask : cfg.SCHED_CPU_MASK = false) (hrunq : k.runq = x :: rest) :
    _priq_run_best cfg k = x := by
  unfold _priq_run_best
  simp [hmask, hrunq, z_priq_dumb_best]

theorem next_up_of_slot_null (cfg : Config) (k : Kernel) (x : Tid) (rest : List Tid)
    (hmask : cfg.SCHED_CPU_MASK = false) (hrunq : k.runq = x :: rest) (hx : x ≠ NULL)
    (hslot : k.metairq_preempted = NULL) : next_up cfg k = (x, k) := by
  unfold next_up
  dsimp only
  rw [priq_run_best_cons cfg k x rest hmask hrunq]
  have hno : ¬ (k.metairq_preempted ≠ NULL ∧
      (x = NULL ∨ ¬ is_metairq cfg (k.threads x) = true)) := fun h => h.1 hslot
  rw [if_neg hno]
  split_ifs <;> rfl

theorem next_up_of_metairq_best (cfg : Config) (k : Kernel) (x : Tid) (rest : List Tid)
    (hmask : cfg.SCHED_CPU_MASK = false) (hrunq : k.runq = x :: rest) (hx : x ≠ NULL)
    (hmx : is_metairq cfg (k.threads x) = true) : next_up cfg k = (x, k) := by
  unfold next_up
  dsimp only
  rw [priq_run_best_cons cfg k x rest hmask hrunq]
  have hno : ¬ (k.metairq_preempted ≠ NULL ∧
      (x = NULL ∨ ¬ is_metairq cfg (k.threads x) = true)) := by
    rintro ⟨_, h | h⟩
    · exact hx h
    · exact h hmx
  rw [if_neg hno]
  split_ifs <;> rfl

theorem next_up_of_override (cfg : Config) (k : Kernel) (x : Tid) (rest : List Tid)
    (hm : 0 < cfg.NUM_METAIRQ_PRIORITIES) (hc : 0 < cfg.NUM_COOP_PRIORITIES)
    (hmask : cfg.SCHED_CPU_MASK = false) (hrunq : k.runq = x :: rest)
    (hslot : k.metairq_preempted ≠ NULL) (hnx : is_metairq cfg (k.threads x) = false)
    (hrun : z_is_thread_prevented_from_running (k.threads k.metairq_preempted) = false) :
    next_up cfg k = (k.metairq_preempted, k) := by
  have hen : (decide (cfg.NUM_METAIRQ_PRIORITIES > 0) && decide (cfg.NUM_COOP_PRIORITIES > 0))
      = true := by simp [hm, hc]
  have ho : k.metairq_preempted ≠ NULL ∧
      (x = NULL ∨ ¬ is_metairq cfg (k.threads x) = true) := ⟨hslot, Or.inr (by simp [hnx])⟩
  have hnp : ¬ z_is_thread_prevented_from_running (k.threads k.metairq_preempted) = true := by
    simp [hrun]
  unfold next_up
  dsimp only
  rw [priq_run_best_cons cfg k x rest hmask hrunq, if_pos hen, if_pos ho, if_pos hnp]
  exact Prod.ext (if_pos hslot) rfl

theorem update_metairq_preempt_reset (cfg : Config) (k : Kernel) (thread : Tid) :
    (update_metairq_preempt cfg (z_reset_time_slice k) thread).metairq_preempted =
      (update_metairq_preempt cfg k thread).metairq_preempted := by
  unfold update_metairq_preempt z_reset_time_slice z_is_idle_thread_object
  split_ifs <;> rfl

theorem update_metairq_preempt_fields (cfg : Config) (k : Kernel) (thread : Tid) :
    (update_metairq_preempt cfg k thread).current = k.current ∧
    (update_metairq_preempt cfg k thread).z_idle_threads = k.z_idle_threads := by
  unfold update_metairq_preempt
  split_ifs <;> exact ⟨rfl, rfl⟩

theorem z_reset_time_slice_fields (k : Kernel) :
    (z_reset_time_slice k).current = k.current ∧
    (z_reset_time_slice k).z_idle_threads = k.z_idle_threads := by
  unfold z_reset_time_slice
  split_ifs <;> exact ⟨rfl, rfl⟩

theorem update_cache_preempt (cfg : Config) (k : Kernel) (p : Int) (thread : Tid)
    (hsmp : cfg.SMP = false) (hnu : next_up cfg k = (thread, k))
    (hsp : should_preempt cfg k thread p = true) :
    (update_cache cfg k p).cache = thread ∧
    (update_cache cfg k p).metairq_preempted =
      (update_metairq_preempt cfg k thread).metairq_preempted ∧
    (update_cache cfg k p).current = k.current ∧
    (update_cache cfg k p).z_idle_threads = k.z_idle_threads := by
  unfold update_cache
  dsimp only
  rw [if_neg (by simp [hsmp]), hnu]
  dsimp only
  rw [if_pos hsp]
  by_cases hts : (cfg.TIMESLICING && thread != k.current) = true
  · rw [if_pos hts]
    refine ⟨rfl, update_metairq_preempt_reset cfg k thread, ?_, ?_⟩
    · exact (update_metairq_preempt_fields cfg _ thread).1.trans (z_reset_time_slice_fields k).1
    · exact (update_metairq_preempt_fields cfg _ thread).2.trans (z_reset_time_slice_fields k).2
  · rw [if_neg hts]
    exact ⟨rfl, rfl, (update_metairq_preempt_fields cfg k thread).1,
      (update_metairq_preempt_fields cfg k thread).2⟩

theorem update_metairq_preempt_record (cfg : Config) (k : Kernel) (thread : Tid)
    (hm : 0 < cfg.NUM_METAIRQ_PRIORITIES) (hc : 0 < cfg.NUM_COOP_PRIORITIES)
    (h1 : is_metairq cfg (k.threads thread) = true)
    (h2 : is_metairq cfg (k.threads k.current) = false)
    (h3 : is_preempt (k.threads k.current) = false) :
    (update_metairq_preempt cfg k thread).metairq_preempted = k.current := by
  unfold update_metairq_preempt
  simp [hm, hc, h1, h2, h3]

theorem update_metairq_preempt_keep (cfg : Config) (k : Kernel) (thread : Tid)
    (h1 : is_metairq cfg (k.threads thread) = true)
    (h2 : is_metairq cfg (k.threads k.current) = true) :
    (update_metairq_preempt cfg k thread).metairq_preempted = k.metairq_preempted := by
  unfold update_metairq_preempt
  simp [h1, h2]

theorem update_metairq_preempt_clear (cfg : Config) (k : Kernel) (thread : Tid)
    (hsmp : cfg.SMP = false)
    (hm : 0 < cfg.NUM_METAIRQ_PRIORITIES) (hc : 0 < cfg.NUM_COOP_PRIORITIES)
    (h1 : is_metairq cfg (k.threads thread) = false) (h2 : thread ≠ k.z_idle_threads) :
    (update_metairq_preempt cfg k thread).metairq_preempted = NULL := by
  unfold update_metairq_preempt z_is_idle_thread_object
  simp [hm, hc, h1, h2, hsmp]

theorem should_preempt_of_metairq (cfg : Config) (k : Kernel) (thread : Tid) (p : Int)
    (h : is_metairq cfg (k.threads thread) = true) : should_preempt cfg k thread p = true := by
  unfold should_preempt
  simp [h]

theorem should_preempt_of_ok (cfg : Config) (k : Kernel) (thread : Tid) :
    should_preempt cfg k thread 1 = true := by
  unfold should_preempt
  simp

theorem z_sched_prio_cmp_congr (cfg : Config) {a a' b b' : k_thread}
    (ha : a'.unqueued = a.unqueued) (hb : b'.unqueued = b.unqueued) :
    z_sched_prio_cmp cfg a' b' = z_sched_prio_cmp cfg a b := by
  have h : ∀ x y : k_thread, z_sched_prio_cmp cfg x y =
      z_sched_prio_cmp cfg x.unqueued y.unqueued := fun _ _ => rfl
  rw [h a' b', ha, hb, ← h a b]

theorem z_priq_dumb_add_congr (cfg : Config) (th th' : Tid → k_thread)
    (h : ∀ x, (th' x).unqueued = (th x).unqueued) (pq : List Tid) (t : Tid) :
    z_priq_dumb_add cfg th' pq t = z_priq_dumb_add cfg th pq t := by
  induction pq with
  | nil => rfl
  | cons y rest ih =>
    unfold z_priq_dumb_add
    rw [z_sched_prio_cmp_congr cfg (h t) (h y), ih]

theorem z_is_thread_ready_congr {a b : k_thread} (h : a.unqueued = b.unqueued) :
    z_is_thread_ready a = z_is_thread_ready b := by
  have e : ∀ x : k_thread, z_is_thread_ready x = z_is_thread_ready x.unqueued := fun _ => rfl
  rw [e a, h, ← e b]

theorem dequeue_thread_threads (cfg : Config) (k : Kernel) (t : Tid) (h : cfg.SMP = false) :
    (dequeue_thread cfg k t).threads =
      Function.update k.threads t
        { k.threads t with
          thread_state := { (k.threads t).thread_state with QUEUED := false } } := by
  rw [dequeue_thread_eq cfg k t h]
  rfl

theorem dequeue_thread_unqueued (cfg : Config) (k : Kernel) (t x : Tid) (h : cfg.SMP = false) :
    ((dequeue_thread cfg k t).threads x).unqueued = (k.threads x).unqueued := by
  rw [dequeue_thread_threads cfg k t h]
  by_cases hx : x = t
  · subst hx; rw [Function.update_same]; rfl
  · rw [Function.update_noteq hx]

theorem dequeue_thread_fields (cfg : Config) (k : Kernel) (t : Tid) (h : cfg.SMP = false) :
    (dequeue_thread cfg k t).current = k.current ∧
    (dequeue_thread cfg k t).metairq_preempted = k.metairq_preempted ∧
    (dequeue_thread cfg k t).idle_thread = k.idle_thread ∧
    (dequeue_thread cfg k t).z_idle_threads = k.z_idle_threads ∧
    (dequeue_thread cfg k t).cache = k.cache ∧
    (dequeue_thread cfg k t).runq = k.runq.filter (fun n => n != t) := by
  rw [dequeue_thread_eq cfg k t h]
  exact ⟨rfl, rfl, rfl, rfl, rfl, rfl⟩

theorem queue_thread_runq_eq (cfg : Config) (k : Kernel) (t : Tid) (h : cfg.SMP = false) :
    (queue_thread cfg k t).runq = z_priq_dumb_add cfg k.threads k.runq t := by
  rw [queue_thread_runq cfg k t h]
  exact z_priq_dumb_add_congr cfg k.threads _ (fun x => queue_thread_unqueued cfg k t x h) _ _

theorem ready_thread_fire (cfg : Config) (k : Kernel) (t : Tid)
    (hq : (k.threads t).thread_state.QUEUED = false)
    (hr : z_is_thread_ready (k.threads t) = true) :
    ready_thread cfg k t = update_cache cfg (queue_thread cfg k t) 0 := by
  unfold ready_thread
  rw [if_pos (by simp [z_is_thread_queued, hq, hr])]

theorem unready_thread_queued (cfg : Config) (k : Kernel) (t : Tid)
    (hq : (k.threads t).thread_state.QUEUED = true) :
    unready_thread cfg k t =
      update_cache cfg (dequeue_thread cfg k t) (if t = k.current then 1 else 0) := by
  unfold unready_thread
  dsimp only
  rw [if_pos (by simp [z_is_thread_queued, hq]), dequeue_thread_current]

theorem z_impl_k_yield_up (cfg : Config) (k : Kernel) (h : cfg.SMP = false) :
    z_impl_k_yield cfg k =
      z_swap cfg (update_cache cfg (queue_thread cfg (dequeue_thread cfg k k.current) k.current) 1) := by
  unfold z_impl_k_yield
  dsimp only
  rw [if_pos (by simp [h]), dequeue_thread_current]

/-- What `update_cache` leaves behind when the chosen thread may preempt. -/
theorem update_cache_chosen (cfg : Config) (k : Kernel) (p : Int) (thread : Tid)
    (hsmp : cfg.SMP = false) (hnu : next_up cfg k = (thread, k))
    (hsp : should_preempt cfg k thread p = true) :
    (update_cache cfg k p).cache = thread ∧
    (update_cache cfg k p).metairq_preempted =
      (update_metairq_preempt cfg k thread).metairq_preempted ∧
    (update_cache cfg k p).current = k.current ∧
    (update_cache cfg k p).z_idle_threads = k.z_idle_threads ∧
    (update_cache cfg k p).runq = k.runq ∧
    (update_cache cfg k p).threads = k.threads := by
  have h1 := update_cache_preempt cfg k p thread hsmp hnu hsp
  have h2 := update_cache_same_queues cfg k p
  exact ⟨h1.1, h1.2.1, h1.2.2.1, h1.2.2.2, h2.1, h2.2.1⟩

/-- C9: the metairq return scenario on a uniprocessor build (no CPU masks)
with metairq and cooperative priorities, where a context switch makes the
cached thread current.  Start with the cooperative non-metairq thread `C`
running and alone on the run queue (`cache == C`, `metairq_preempted == NULL`).
`ready_thread(M)` for a metairq `M` makes `cache == M` and records
`metairq_preempted == C`.  After the switch to `M`, `ready_thread(C')` for a
non-metairq `C'` of numerically smaller priority than `C` leaves `cache == M`
and the slot `== C`.  When `M` blocks (`unready_thread(M)`) the cache is `C`,
not `C'`, and the slot is cleared.  After the switch to `C`, `z_impl_k_yield`
by `C` makes `cache == C'`. -/
theorem metairq_return_scenario (cfg : Config) (k : Kernel) (C M C' : Tid)
    (hsmp : cfg.SMP = false) (hmask : cfg.SCHED_CPU_MASK = false)
    (hm : 0 < cfg.NUM_METAIRQ_PRIORITIES) (hc : 0 < cfg.NUM_COOP_PRIORITIES)
    (hC0 : C ≠ NULL) (hM0 : M ≠ NULL) (hC'0 : C' ≠ NULL)
    (hCM : C ≠ M) (hCC' : C ≠ C') (hMC' : M ≠ C')
    (hrunq : k.runq = [C]) (hcur : k.current = C) (hslot : k.metairq_preempted = NULL)
    (hidle : C ≠ k.z_idle_threads)
    (hwC : (k.threads C).wf) (hwM : (k.threads M).wf) (hwC' : (k.threads C').wf)
    (hMm : is_metairq cfg (k.threads M) = true)
    (hCm : is_metairq cfg (k.threads C) = false)
    (hCp : is_preempt (k.threads C) = false)
    (hC'm : is_metairq cfg (k.threads C') = false)
    (hprio : (k.threads C').prio < (k.threads C).prio)
    (hCrun : z_is_thread_prevented_from_running (k.threads C) = false)
    (hMq : (k.threads M).thread_state.QUEUED = false)
    (hMr : z_is_thread_ready (k.threads M) = true)
    (hC'q : (k.threads C').thread_state.QUEUED = false)
    (hC'r : z_is_thread_ready (k.threads C') = true) :
    ((ready_thread cfg k M).cache = M ∧ (ready_thread cfg k M).metairq_preempted = C) ∧
    ((ready_thread cfg (z_swap cfg (ready_thread cfg k M)) C').cache = M ∧
      (ready_thread cfg (z_swap cfg (ready_thread cfg k M)) C').metairq_preempted = C) ∧
    ((unready_thread cfg (ready_thread cfg (z_swap cfg (ready_thread cfg k M)) C') M).cache = C ∧
      (unready_thread cfg (ready_thread cfg (z_swap cfg (ready_thread cfg k M)) C') M).cache ≠ C' ∧
      (unready_thread cfg (ready_thread cfg (z_swap cfg (ready_thread cfg k M)) C')
        M).metairq_preempted = NULL) ∧
    (z_impl_k_yield cfg (z_swap cfg (unready_thread cfg
      (ready_thread cfg (z_swap cfg (ready_thread cfg k M)) C') M))).cache = C' := by
  -- the comparisons of the three threads
  have pMC : (k.threads M).prio < (k.threads C).prio := prio_lt_of_metairq cfg _ _ hMm hCm
  have pMC' : (k.threads M).prio < (k.threads C').prio := prio_lt_of_metairq cfg _ _ hMm hC'm
  have cMC := z_sched_prio_cmp_pos_of_prio_lt cfg _ _ hwM hwC pMC
  have cC'M := z_sched_prio_cmp_not_pos_of_prio_gt cfg _ _ hwC' hwM pMC'
  have cC'C := z_sched_prio_cmp_pos_of_prio_lt cfg _ _ hwC' hwC hprio
  have cCC' := z_sched_prio_cmp_not_pos_of_prio_gt cfg _ _ hwC hwC' hprio
  -- stage 1: ready_thread(M) while C runs
  have e1 := ready_thread_fire cfg k M hMq hMr
  have a1 : ∀ x, ((queue_thread cfg k M).threads x).unqueued = (k.threads x).unqueued :=
    fun x => queue_thread_unqueued cfg k M x hsmp
  have f1 := queue_thread_fields cfg k M hsmp
  have r1 : (queue_thread cfg k M).runq = [M, C] := by
    rw [queue_thread_runq_eq cfg k M hsmp, hrunq]
    simp [z_priq_dumb_add, cMC]
  have t1 := queue_thread_threads cfg k M hsmp
  have nu1 := next_up_of_slot_null cfg (queue_thread cfg k M) M [C] hmask r1 hM0
    (f1.2.1.trans hslot)
  have sp1 := should_preempt_of_metairq cfg (queue_thread cfg k M) M 0
    ((is_metairq_congr cfg (a1 M)).trans hMm)
  have u1 := update_cache_chosen cfg (queue_thread cfg k M) 0 M hsmp nu1 sp1
  have s1 : (update_metairq_preempt cfg (queue_thread cfg k M) M).metairq_preempted = C := by
    rw [update_metairq_preempt_record cfg _ M hm hc ((is_metairq_congr cfg (a1 M)).trans hMm)
      (by rw [f1.1, hcur]; exact (is_metairq_congr cfg (a1 C)).trans hCm)
      (by rw [f1.1, hcur]; exact (is_preempt_congr (a1 C)).trans hCp), f1.1, hcur]
  rw [← e1] at u1
  obtain ⟨u1c, u1s, _, u1i, u1r, u1t⟩ := u1
  rw [s1] at u1s
  rw [r1] at u1r
  rw [t1] at u1t
  have i1 : (ready_thread cfg k M).z_idle_threads = k.z_idle_threads := u1i.trans f1.2.2.2.1
  refine ⟨⟨u1c, u1s⟩, ?_⟩
  -- stage 2: the switch to M
  have hk2 : (z_swap cfg (ready_thread cfg k M)).runq = [M, C] ∧
      (z_swap cfg (ready_thread cfg k M)).current = M ∧
      (z_swap cfg (ready_thread cfg k M)).metairq_preempted = C ∧
      (z_swap cfg (ready_thread cfg k M)).z_idle_threads = k.z_idle_threads ∧
      (z_swap cfg (ready_thread cfg k M)).threads = Function.update k.threads M
        { k.threads M with
          thread_state := { (k.threads M).thread_state with QUEUED := true } } :=
    by rw [z_swap_up cfg _ hsmp]; exact ⟨u1r, u1c, u1s, i1, u1t⟩
  generalize z_swap cfg (ready_thread cfg k M) = k2 at hk2 ⊢
  obtain ⟨r2, c2, s2, i2, t2⟩ := hk2
  have a2 : ∀ x, (k2.threads x).unqueued = (k.threads x).unqueued := by
    intro x
    rw [t2]
    by_cases hx : x = M
    · subst hx; rw [Function.update_same]; rfl
    · rw [Function.update_noteq hx]
  have q2M : (k2.threads M).thread_state.QUEUED = true := by
    rw [t2, Function.update_same]
  have q2C' : (k2.threads C').thread_state.QUEUED = false := by
    rw [t2, Function.update_noteq (Ne.symm hMC')]; exact hC'q
  -- stage 3: ready_thread(C') while M runs
  have e3 := ready_thread_fire cfg k2 C' q2C' ((z_is_thread_ready_congr (a2 C')).trans hC'r)
  have a3 : ∀ x, ((queue_thread cfg k2 C').threads x).unqueued = (k.threads x).unqueued :=
    fun x => (queue_thread_unqueued cfg k2 C' x hsmp).trans (a2 x)
  have f3 := queue_thread_fields cfg k2 C' hsmp
  have r3 : (queue_thread cfg k2 C').runq = [M, C', C] := by
    rw [queue_thread_runq_eq cfg k2 C' hsmp, r2, z_priq_dumb_add_congr cfg k.threads k2.threads a2]
    simp [z_priq_dumb_add, cC'M, cC'C]
  have t3 := queue_thread_threads cfg k2 C' hsmp
  have m3 : is_metairq cfg ((queue_thread cfg k2 C').threads M) = true :=
    (is_metairq_congr cfg (a3 M)).trans hMm
  have nu3 := next_up_of_metairq_best cfg (queue_thread cfg k2 C') M [C', C] hmask r3 hM0 m3
  have sp3 := should_preempt_of_metairq cfg (queue_thread cfg k2 C') M 0 m3
  have u3 := update_cache_chosen cfg (queue_thread cfg k2 C') 0 M hsmp nu3 sp3
  have s3 : (update_metairq_preempt cfg (queue_thread cfg k2 C') M).metairq_preempted = C := by
    rw [update_metairq_preempt_keep cfg _ M m3 (by rw [f3.1, c2]; exact m3), f3.2.1, s2]
  rw [← e3] at u3
  obtain ⟨u3c, u3s, u3cur, u3i, u3r, u3t⟩ := u3
  rw [s3] at u3s
  rw [r3] at u3r
  rw [f3.1, c2] at u3cur
  have i3 : (ready_thread cfg k2 C').z_idle_threads = k.z_idle_threads :=
    u3i.trans (f3.2.2.2.1.trans i2)
  have a3' : ∀ x, ((ready_thread cfg k2 C').threads x).unqueued = (k.threads x).unqueued := by
    intro x; rw [u3t]; exact a3 x
  have q3M : ((ready_thread cfg k2 C').threads M).thread_state.QUEUED = true := by
    rw [u3t, t3, Function.update_noteq hMC']; exact q2M
  refine ⟨⟨u3c, u3s⟩, ?_⟩
  generalize ready_thread cfg k2 C' = k3 at u3c u3s u3cur i3 u3r a3' q3M ⊢
  -- stage 4: M blocks
  have e4 := unready_thread_queued cfg k3 M q3M
  rw [u3cur, if_pos rfl] at e4
  have a4 : ∀ x, ((dequeue_thread cfg k3 M).threads x).unqueued = (k.threads x).unqueued :=
    fun x => (dequeue_thread_unqueued cfg k3 M x hsmp).trans (a3' x)
  have f4 := dequeue_thread_fields cfg k3 M hsmp
  have r4 : (dequeue_thread cfg k3 M).runq = [C', C] := by
    rw [f4.2.2.2.2.2, u3r]
    simp [Ne.symm hMC', hCM]
  have nu4 := next_up_of_override cfg (dequeue_thread cfg k3 M) C' [C] hm hc hmask r4
    (by rw [f4.2.1, u3s]; exact hC0)
    ((is_metairq_congr cfg (a4 C')).trans hC'm)
    (by rw [f4.2.1, u3s]; exact (prevented_congr (a4 C)).trans hCrun)
  rw [f4.2.1, u3s] at nu4
  have u4 := update_cache_chosen cfg (dequeue_thread cfg k3 M) 1 C hsmp nu4
    (should_preempt_of_ok cfg _ C)
  have s4 : (update_metairq_preempt cfg (dequeue_thread cfg k3 M) C).metairq_preempted = NULL :=
    update_metairq_preempt_clear cfg _ C hsmp hm hc ((is_metairq_congr cfg (a4 C)).trans hCm)
      (by rw [f4.2.2.2.1, i3]; exact hidle)
  rw [← e4] at u4
  obtain ⟨u4c, u4s, _, u4i, u4r, u4t⟩ := u4
  rw [s4] at u4s
  rw [r4] at u4r
  have i4 : (unready_thread cfg k3 M).z_idle_threads = k.z_idle_threads :=
    u4i.trans (f4.2.2.2.1.trans i3)
  have a4' : ∀ x, ((unready_thread cfg k3 M).threads x).unqueued = (k.threads x).unqueued := by
    intro x; rw [u4t]; exact a4 x
  refine ⟨⟨u4c, by rw [u4c]; exact hCC', u4s⟩, ?_⟩
  -- stage 5: the switch to C
  have hk5 : (z_swap cfg (unready_thread cfg k3 M)).runq = [C', C] ∧
      (z_swap cfg (unready_thread cfg k3 M)).current = C ∧
      (z_swap cfg (unready_thread cfg k3 M)).metairq_preempted = NULL ∧
      (∀ x, ((z_swap cfg (unready_thread cfg k3 M)).threads x).unqueued = (k.threads x).unqueued) :=
    by rw [z_swap_up cfg _ hsmp]; exact ⟨u4r, u4c, u4s, a4'⟩
  generalize z_swap cfg (unready_thread cfg k3 M) = k5 at hk5 ⊢
  obtain ⟨r5, c5, s5, a5⟩ := hk5
  -- stage 6: C yields
  rw [z_impl_k_yield_up cfg k5 hsmp, c5]
  have f6d := dequeue_thread_fields cfg k5 C hsmp
  have a6d : ∀ x, ((dequeue_thread cfg k5 C).threads x).unqueued = (k.threads x).unqueued :=
    fun x => (dequeue_thread_unqueued cfg k5 C x hsmp).trans (a5 x)
  have r6d : (dequeue_thread cfg k5 C).runq = [C'] := by
    rw [f6d.2.2.2.2.2, r5]
    have hb : (C' != C) = true := bne_iff_ne.mpr (Ne.symm hCC')
    simp [List.filter, hb]
  have f6 := queue_thread_fields cfg (dequeue_thread cfg k5 C) C hsmp
  have r6 : (queue_thread cfg (dequeue_thread cfg k5 C) C).runq = [C', C] := by
    rw [queue_thread_runq_eq cfg _ C hsmp, r6d,
      z_priq_dumb_add_congr cfg k.threads (dequeue_thread cfg k5 C).threads a6d]
    simp [z_priq_dumb_add, cCC']
  have nu6 := next_up_of_slot_null cfg (queue_thread cfg (dequeue_thread cfg k5 C) C) C' [C]
    hmask r6 hC'0 (f6.2.1.trans (f6d.2.1.trans s5))
  have u6 := update_cache_chosen cfg (queue_thread cfg (dequeue_thread cfg k5 C) C) 1 C' hsmp nu6
    (should_preempt_of_ok cfg _ C')
  rw [z_swap_up cfg _ hsmp]
  exact u6.1

/-- Witness of C9 on scenario S5 (C = thread 1 at priority -2, M = thread 5 at
priority -16, C' = thread 3 at priority -3). -/
theorem metairq_return_scenario_witness :
    (unready_thread cfg_deadline
      (ready_thread cfg_deadline (z_swap cfg_deadline (ready_thread cfg_deadline k_s5 5)) 3) 5).cache = 1 ∧
    (z_impl_k_yield cfg_deadline (z_swap cfg_deadline (unready_thread cfg_deadline
      (ready_thread cfg_deadline (z_swap cfg_deadline (ready_thread cfg_deadline k_s5 5)) 3) 5))).cache = 3 :=
  ⟨(metairq_return_scenario cfg_deadline k_s5 1 5 3 rfl rfl (by decide) (by decide)
      (by decide) (by decide) (by decide) (by decide) (by decide) (by decide) rfl rfl rfl
      (by decide) (by decide) (by decide) (by decide) (by decide) (by decide) (by decide)
      (by decide) (by decide) (by decide) (by decide) (by decide) (by decide)
      (by decide)).2.2.1.1,
   (metairq_return_scenario cfg_deadline k_s5 1 5 3 rfl rfl (by decide) (by decide)
      (by decide) (by decide) (by decide) (by decide) (by decide) (by decide) rfl rfl rfl
      (by decide) (by decide) (by decide) (by decide) (by decide) (by decide) (by decide)
      (by decide) (by decide) (by decide) (by decide) (by decide) (by decide)
      (by decide)).2.2.2⟩

/-! ## Effects of the queue primitives on every build -/

theorem update_cache_current (cfg : Config) (k : Kernel) (p : Int) :
    (update_cache cfg k p).current = k.current := by
  unfold update_cache
  dsimp only
  split_ifs <;>
    simp [next_up_current, (update_metairq_preempt_fields _ _ _).1,
      (z_reset_time_slice_fields _).1]

theorem update_cache_threads (cfg : Config) (k : Kernel) (p : Int) :
    (update_cache cfg k p).threads = k.threads := (update_cache_same_queues cfg k p).2.1

theorem update_cache_runq (cfg : Config) (k : Kernel) (p : Int) :
    (update_cache cfg k p).runq = k.runq := (update_cache_same_queues cfg k p).1

theorem update_cache_waitq (cfg : Config) (k : Kernel) (p : Int) :
    (update_cache cfg k p).waitq = k.waitq := (update_cache_same_queues cfg k p).2.2

theorem queue_thread_threads_any (cfg : Config) (k : Kernel) (t : Tid) :
    (queue_thread cfg k t).threads =
      Function.update k.threads t
        { k.threads t with thread_state := { (k.threads t).thread_state with QUEUED := true } } := by
  unfold queue_thread
  dsimp only
  split_ifs <;> rfl

theorem queue_thread_waitq (cfg : Config) (k : Kernel) (t : Tid) :
    (queue_thread cfg k t).waitq = k.waitq := by
  unfold queue_thread
  dsimp only
  split_ifs <;> rfl

theorem queue_thread_current (cfg : Config) (k : Kernel) (t : Tid) :
    (queue_thread cfg k t).current = k.current := by
  unfold queue_thread
  dsimp only
  split_ifs <;> rfl

theorem upd_state_unqueued (k : Kernel) (t x : Tid) (b : Bool) :
    ((k.upd_state t (fun s => { s with QUEUED := b })).threads x).unqueued =
      (k.threads x).unqueued := by
  unfold Kernel.upd_state Kernel.upd
  by_cases hx : x = t
  · subst hx
    simp [k_thread.unqueued]
  · simp [Function.update_noteq hx]

/-- On a uniprocessor, and on SMP for a thread other than the current one,
`queue_thread` inserts the thread into the run queue. -/
theorem queue_thread_runq_of_should (cfg : Config) (k : Kernel) (t : Tid)
    (h : cfg.SMP = false ∨ t ≠ k.current) :
    (queue_thread cfg k t).runq = z_priq_dumb_add cfg k.threads k.runq t := by
  have hs : should_queue_thread cfg (k.upd_state t (fun s => { s with QUEUED := true })) t
      = true := by
    unfold should_queue_thread
    rcases h with h | h
    · simp [h]
    · have : (t != k.current) = true := bne_iff_ne.mpr h
      simp [Kernel.upd_state, Kernel.upd, this]
  have hc := z_priq_dumb_add_congr cfg k.threads
    (k.upd_state t (fun s => { s with QUEUED := true })).threads
    (fun x => upd_state_unqueued k t x true) k.runq t
  unfold queue_thread
  dsimp only
  rw [if_pos hs]
  split_ifs <;> exact hc

/-- On SMP the current thread is not inserted into the run queue. -/
theorem queue_thread_runq_of_current (cfg : Config) (k : Kernel) (t : Tid)
    (hs : cfg.SMP = true) (ht : t = k.current) :
    (queue_thread cfg k t).runq = k.runq := by
  have hq : should_queue_thread cfg (k.upd_state t (fun s => { s with QUEUED := true })) t
      = false := by
    unfold should_queue_thread
    simp [hs, Kernel.upd_state, Kernel.upd, ht]
  have hq' : ¬ should_queue_thread cfg (k.upd_state t (fun s => { s with QUEUED := true })) t
      = true := by
    rw [hq]
    simp
  unfold queue_thread
  dsimp only
  rw [if_neg hq']
  split_ifs <;> rfl

theorem mem_queue_thread_runq (cfg : Config) (k : Kernel) (t x : Tid)
    (h : x ∈ (queue_thread cfg k t).runq) : x = t ∨ x ∈ k.runq := by
  by_cases hc : cfg.SMP = false ∨ t ≠ k.current
  · rw [queue_thread_runq_of_should cfg k t hc] at h
    exact (mem_z_priq_dumb_add cfg k.threads k.runq t x).mp h
  · have h1 : cfg.SMP = true := by
      cases hsmp : cfg.SMP
      · exact absurd (Or.inl hsmp) hc
      · rfl
    have h2 : t = k.current := by
      by_contra hne
      exact hc (Or.inr hne)
    rw [queue_thread_runq_of_current cfg k t h1 h2] at h
    exact Or.inr h

theorem dequeue_thread_threads_any (cfg : Config) (k : Kernel) (t : Tid) :
    (dequeue_thread cfg k t).threads =
      Function.update k.threads t
        { k.threads t with
          thread_state := { (k.threads t).thread_state with QUEUED := false } } := by
  unfold dequeue_thread
  dsimp only
  split_ifs <;> rfl

/-- On a uniprocessor, and on SMP for a thread other than the current one,
`dequeue_thread` unlinks the thread. -/
theorem dequeue_thread_lists_of_should (cfg : Config) (k : Kernel) (t : Tid)
    (h : cfg.SMP = false ∨ t ≠ k.current) :
    (dequeue_thread cfg k t).runq = z_priq_dumb_remove k.runq t ∧
    (dequeue_thread cfg k t).waitq = fun w => z_priq_dumb_remove (k.waitq w) t := by
  have hs : should_queue_thread cfg (k.upd_state t (fun s => { s with QUEUED := false })) t
      = true := by
    unfold should_queue_thread
    rcases h with h | h
    · simp [h]
    · have : (t != k.current) = true := bne_iff_ne.mpr h
      simp [Kernel.upd_state, Kernel.upd, this]
  unfold dequeue_thread
  dsimp only
  rw [if_pos hs]
  exact ⟨rfl, rfl⟩

theorem mem_dequeue_thread_runq (cfg : Config) (k : Kernel) (t x : Tid)
    (h : x ∈ (dequeue_thread cfg k t).runq) : x ∈ k.runq := by
  unfold dequeue_thread at h
  dsimp only at h
  split_ifs at h
  · exact ((mem_unlink_runq _ t x).mp h).1
  · exact h

theorem mem_dequeue_thread_waitq (cfg : Config) (k : Kernel) (t x : Tid) (w : WaitQ)
    (h : x ∈ (dequeue_thread cfg k t).waitq w) : x ∈ k.waitq w := by
  unfold dequeue_thread at h
  dsimp only at h
  split_ifs at h
  · exact ((mem_unlink_waitq _ t x w).mp h).1
  · exact h

/-- Removing a thread's node changes no other thread's membership of a wait
queue. -/
theorem mem_dequeue_thread_waitq_other (cfg : Config) (k : Kernel) (t x : Tid) (w : WaitQ)
    (hx : x ≠ t) : x ∈ (dequeue_thread cfg k t).waitq w ↔ x ∈ k.waitq w := by
  unfold dequeue_thread
  dsimp only
  split_ifs
  · rw [mem_unlink_waitq]
    exact ⟨fun h => h.1, fun h => ⟨h, hx⟩⟩
  · exact Iff.rfl

theorem z_priq_dumb_remove_of_not_mem (pq : List Tid) (t : Tid) (h : t ∉ pq) :
    z_priq_dumb_remove pq t = pq := by
  unfold z_priq_dumb_remove sys_dlist_remove
  rw [List.filter_eq_self]
  intro a ha
  exact bne_iff_ne.mpr (fun hat => h (hat ▸ ha))

theorem z_priq_dumb_remove_add (cfg : Config) (th : Tid → k_thread) (pq : List Tid) (t : Tid) :
    z_priq_dumb_remove (z_priq_dumb_add cfg th pq t) t = z_priq_dumb_remove pq t := by
  unfold z_priq_dumb_remove sys_dlist_remove
  induction pq with
  | nil => simp [z_priq_dumb_add]
  | cons a rest ih =>
    unfold z_priq_dumb_add
    split_ifs
    · simp [List.filter]
    · simp only [List.filter_cons]
      rw [ih]

theorem ready_thread_skip (cfg : Config) (k : Kernel) (t : Tid)
    (h : ¬ ((k.threads t).thread_state.QUEUED = false ∧ z_is_thread_ready (k.threads t) = true)) :
    ready_thread cfg k t = k := by
  unfold ready_thread
  rw [if_neg]
  intro hc
  apply h
  simpa [z_is_thread_queued] using hc

theorem ready_thread_waitq (cfg : Config) (k : Kernel) (t : Tid) :
    (ready_thread cfg k t).waitq = k.waitq := by
  unfold ready_thread
  split_ifs
  · rw [update_cache_waitq, queue_thread_waitq]
  · rfl

theorem ready_thread_current (cfg : Config) (k : Kernel) (t : Tid) :
    (ready_thread cfg k t).current = k.current := by
  unfold ready_thread
  split_ifs
  · rw [update_cache_current, queue_thread_current]
  · rfl

theorem ready_thread_threads_fire (cfg : Config) (k : Kernel) (t : Tid)
    (hq : (k.threads t).thread_state.QUEUED = false)
    (hr : z_is_thread_ready (k.threads t) = true) :
    (ready_thread cfg k t).threads =
      Function.update k.threads t
        { k.threads t with thread_state := { (k.threads t).thread_state with QUEUED := true } } := by
  rw [ready_thread_fire cfg k t hq hr, update_cache_threads, queue_thread_threads_any]

theorem ready_thread_runq_fire (cfg : Config) (k : Kernel) (t : Tid)
    (hq : (k.threads t).thread_state.QUEUED = false)
    (hr : z_is_thread_ready (k.threads t) = true) (hs : cfg.SMP = false ∨ t ≠ k.current) :
    (ready_thread cfg k t).runq = z_priq_dumb_add cfg k.threads k.runq t := by
  rw [ready_thread_fire cfg k t hq hr, update_cache_runq, queue_thread_runq_of_should cfg k t hs]

theorem ready_thread_threads_other (cfg : Config) (k : Kernel) (t y : Tid) (h : y ≠ t) :
    (ready_thread cfg k t).threads y = k.threads y := by
  unfold ready_thread
  split_ifs
  · rw [update_cache_threads, queue_thread_threads_any, Function.update_noteq h]
  · rfl

theorem ready_thread_unqueued (cfg : Config) (k : Kernel) (t y : Tid) :
    ((ready_thread cfg k t).threads y).unqueued = (k.threads y).unqueued := by
  unfold ready_thread
  split_ifs
  · rw [update_cache_threads, queue_thread_threads_any]
    by_cases hy : y = t
    · subst hy
      simp [k_thread.unqueued]
    · rw [Function.update_noteq hy]
  · rfl

theorem ready_thread_queued_iff (cfg : Config) (k : Kernel) (t : Tid) :
    ((ready_thread cfg k t).threads t).thread_state.QUEUED = true ↔
      ((k.threads t).thread_state.QUEUED = true ∨ z_is_thread_ready (k.threads t) = true) := by
  by_cases h : (k.threads t).thread_state.QUEUED = false ∧ z_is_thread_ready (k.threads t) = true
  · rw [ready_thread_threads_fire cfg k t h.1 h.2]
    simp [h.2]
  · rw [ready_thread_skip cfg k t h]
    constructor
    · intro hq
      exact Or.inl hq
    · rintro (hq | hr)
      · exact hq
      · cases hq : (k.threads t).thread_state.QUEUED
        · exact absurd ⟨hq, hr⟩ h
        · rfl

/-- Whether `ready_thread` leaves the thread on the run queue, for a thread
that is not on it before: on a uniprocessor, and on SMP for a thread other
than the current one, exactly when the call queues the thread. -/
theorem mem_ready_thread_runq (cfg : Config) (k : Kernel) (t : Tid)
    (hs : cfg.SMP = false ∨ t ≠ k.current) (hn : t ∉ k.runq) :
    t ∈ (ready_thread cfg k t).runq ↔
      ((k.threads t).thread_state.QUEUED = false ∧ z_is_thread_ready (k.threads t) = true) := by
  by_cases h : (k.threads t).thread_state.QUEUED = false ∧ z_is_thread_ready (k.threads t) = true
  · rw [ready_thread_runq_fire cfg k t h.1 h.2 hs, mem_z_priq_dumb_add]
    exact ⟨fun _ => h, fun _ => Or.inl rfl⟩
  · rw [ready_thread_skip cfg k t h]
    exact ⟨fun hm => absurd hm hn, fun hc => absurd hc h⟩

/-- The state after `unpend_thread_no_timeout` and `z_abort_thread_timeout` of
one thread. -/
theorem unpend_abort_eq (k : Kernel) (t : Tid) :
    z_abort_thread_timeout (unpend_thread_no_timeout k t) t =
      { k.unlink t with
        threads := Function.update k.threads t
          { k.threads t with
            thread_state := { (k.threads t).thread_state with PENDING := false },
            pended_on := none, timeout_active := false } } := by
  unfold z_abort_thread_timeout unpend_thread_no_timeout z_mark_thread_as_not_pending
    Kernel.upd_state Kernel.upd Kernel.unlink
  simp

theorem z_priq_dumb_remove_head (x : Tid) (rest : List Tid) (h : x ∉ rest) :
    z_priq_dumb_remove (x :: rest) x = rest := by
  have hr := z_priq_dumb_remove_of_not_mem rest x h
  unfold z_priq_dumb_remove sys_dlist_remove at hr ⊢
  simp only [List.filter_cons, bne_self_eq_false, Bool.false_eq_true, if_false]
  exact hr

theorem unpend_thread_no_timeout_eq (k : Kernel) (t : Tid) :
    unpend_thread_no_timeout k t =
      { k.unlink t with
        threads := Function.update k.threads t
          { k.threads t with
            thread_state := { (k.threads t).thread_state with PENDING := false },
            pended_on := none } } := by
  unfold unpend_thread_no_timeout z_mark_thread_as_not_pending Kernel.upd_state Kernel.upd
    Kernel.unlink
  simp

/-- Where `z_priq_dumb_add` puts the thread: behind a prefix of residents none
of which is lower than it, and directly in front of the first resident that
is lower. -/
theorem z_priq_dumb_add_split (cfg : Config) (th : Tid → k_thread) (pq : List Tid) (t : Tid) :
    ∃ l1 l2, pq = l1 ++ l2 ∧ z_priq_dumb_add cfg th pq t = l1 ++ t :: l2 ∧
      (∀ x ∈ l1, ¬ 0 < z_sched_prio_cmp cfg (th t) (th x)) ∧
      (∀ y, l2.head? = some y → 0 < z_sched_prio_cmp cfg (th t) (th y)) := by
  induction pq with
  | nil => exact ⟨[], [], rfl, rfl, by simp, by simp⟩
  | cons a rest ih =>
    by_cases hc : z_sched_prio_cmp cfg (th t) (th a) > 0
    · refine ⟨[], a :: rest, rfl, ?_, by simp, ?_⟩
      · unfold z_priq_dumb_add
        rw [if_pos hc]
        rfl
      · intro y hy
        simp only [List.head?_cons, Option.some.injEq] at hy
        rw [← hy]
        exact hc
    · obtain ⟨l1, l2, h1, h2, h3, h4⟩ := ih
      refine ⟨a :: l1, l2, by rw [h1]; rfl, ?_, ?_, h4⟩
      · unfold z_priq_dumb_add
        rw [if_neg hc, h2]
        rfl
      · intro x hx
        rcases List.mem_cons.mp hx with hx | hx
        · rw [hx]
          exact hc
        · exact h3 x hx

/-- In an ordered list, when the thread is higher than the head it is higher
than every member. -/
theorem lower_of_head_lower (cfg : Config) (th : Tid → k_thread) (ho : CmpOrder cfg th)
    (l : List Tid) (t : Tid)
    (hs : l.Pairwise (fun a b => 0 ≤ z_sched_prio_cmp cfg (th a) (th b)))
    (hh : ∀ y, l.head? = some y → 0 < z_sched_prio_cmp cfg (th t) (th y)) :
    ∀ x ∈ l, 0 < z_sched_prio_cmp cfg (th t) (th x) := by
  cases l with
  | nil => simp
  | cons y r =>
    have hy := hh y rfl
    intro x hx
    rcases List.mem_cons.mp hx with hx | hx
    · rw [hx]
      exact hy
    · exact ho.2 t y x hy ((List.pairwise_cons.mp hs).1 x hx)

/-- The position `z_priq_dumb_add` gives the thread in an ordered list: every
resident behind it is lower than it, no resident in front of it is. -/
theorem z_priq_dumb_add_split_sorted (cfg : Config) (th : Tid → k_thread)
    (ho : CmpOrder cfg th) (pq : List Tid) (t : Tid)
    (hs : pq.Pairwise (fun a b => 0 ≤ z_sched_prio_cmp cfg (th a) (th b))) :
    ∃ l1 l2, pq = l1 ++ l2 ∧ z_priq_dumb_add cfg th pq t = l1 ++ t :: l2 ∧
      (∀ x ∈ l1, ¬ 0 < z_sched_prio_cmp cfg (th t) (th x)) ∧
      (∀ x ∈ l2, 0 < z_sched_prio_cmp cfg (th t) (th x)) := by
  obtain ⟨l1, l2, h1, h2, h3, h4⟩ := z_priq_dumb_add_split cfg th pq t
  refine ⟨l1, l2, h1, h2, h3, ?_⟩
  rw [h1] at hs
  exact lower_of_head_lower cfg th ho l2 t (List.pairwise_append.mp hs).2.1 h4

/-! ## Effects of `unready_thread` and `add_to_waitq_locked` on every build -/

theorem unready_thread_threads (cfg : Config) (k : Kernel) (t : Tid) :
    (unready_thread cfg k t).threads =
      Function.update k.threads t
        { k.threads t with
          thread_state := { (k.threads t).thread_state with QUEUED := false } } := by
  unfold unready_thread
  dsimp only
  rw [update_cache_threads]
  split_ifs with hq
  · exact dequeue_thread_threads_any cfg k t
  · have hq' : (k.threads t).thread_state.QUEUED = false := by
      simpa [z_is_thread_queued] using hq
    symm
    apply Function.update_eq_self_iff.mpr
    rw [← hq']

theorem unready_thread_current (cfg : Config) (k : Kernel) (t : Tid) :
    (unready_thread cfg k t).current = k.current := by
  unfold unready_thread
  dsimp only
  rw [update_cache_current]
  split_ifs
  · exact dequeue_thread_current cfg k t
  · rfl

theorem mem_unready_thread_runq (cfg : Config) (k : Kernel) (t x : Tid)
    (h : x ∈ (unready_thread cfg k t).runq) : x ∈ k.runq := by
  unfold unready_thread at h
  dsimp only at h
  rw [update_cache_runq] at h
  split_ifs at h
  · exact mem_dequeue_thread_runq cfg k t x h
  · exact h

theorem mem_unready_thread_waitq (cfg : Config) (k : Kernel) (t x : Tid) (w : WaitQ)
    (h : x ∈ (unready_thread cfg k t).waitq w) : x ∈ k.waitq w := by
  unfold unready_thread at h
  dsimp only at h
  rw [update_cache_waitq] at h
  split_ifs at h
  · exact mem_dequeue_thread_waitq cfg k t x w h
  · exact h

theorem mem_unready_thread_waitq_other (cfg : Config) (k : Kernel) (t x : Tid) (w : WaitQ)
    (hx : x ≠ t) : x ∈ (unready_thread cfg k t).waitq w ↔ x ∈ k.waitq w := by
  unfold unready_thread
  dsimp only
  rw [update_cache_waitq]
  split_ifs
  · exact mem_dequeue_thread_waitq_other cfg k t x w hx
  · exact Iff.rfl

theorem dequeue_thread_waitq_of_not_mem (cfg : Config) (k : Kernel) (t : Tid)
    (h : ∀ w, t ∉ k.waitq w) : (dequeue_thread cfg k t).waitq = k.waitq := by
  unfold dequeue_thread
  dsimp only
  split_ifs
  · funext w
    exact z_priq_dumb_remove_of_not_mem (k.waitq w) t (h w)
  · rfl

theorem unready_thread_waitq_of_not_mem (cfg : Config) (k : Kernel) (t : Tid)
    (h : ∀ w, t ∉ k.waitq w) : (unready_thread cfg k t).waitq = k.waitq := by
  unfold unready_thread
  dsimp only
  rw [update_cache_waitq]
  split_ifs
  · exact dequeue_thread_waitq_of_not_mem cfg k t h
  · rfl

/-- After `unready_thread` the thread is not on the run queue, when the run
queue held only threads with `QUEUED` set (and, on SMP, not the current
thread). -/
theorem unready_thread_not_mem_runq (cfg : Config) (k : Kernel) (t : Tid)
    (h : t ∈ k.runq →
      (k.threads t).thread_state.QUEUED = true ∧ (cfg.SMP = true → t ≠ k.current)) :
    t ∉ (unready_thread cfg k t).runq := by
  intro hm
  have hin : t ∈ k.runq := mem_unready_thread_runq cfg k t t hm
  obtain ⟨hq, hc⟩ := h hin
  have hs : cfg.SMP = false ∨ t ≠ k.current := by
    cases hsmp : cfg.SMP
    · exact Or.inl rfl
    · exact Or.inr (hc hsmp)
  rw [unready_thread_queued cfg k t hq, update_cache_runq,
    (dequeue_thread_lists_of_should cfg k t hs).1] at hm
  exact ((mem_z_priq_dumb_remove k.runq t t).mp hm).2 rfl

theorem add_to_waitq_locked_runq (cfg : Config) (k : Kernel) (t : Tid) (wq : Option WaitQ) :
    (add_to_waitq_locked cfg k t wq).runq = (unready_thread cfg k t).runq := by
  unfold add_to_waitq_locked
  cases wq <;> rfl

theorem add_to_waitq_locked_current (cfg : Config) (k : Kernel) (t : Tid)
    (wq : Option WaitQ) : (add_to_waitq_locked cfg k t wq).current = k.current := by
  rw [← unready_thread_current cfg k t]
  unfold add_to_waitq_locked
  cases wq <;> rfl

theorem add_to_waitq_locked_threads_other (cfg : Config) (k : Kernel) (t y : Tid)
    (wq : Option WaitQ) (h : y ≠ t) :
    (add_to_waitq_locked cfg k t wq).threads y = k.threads y := by
  have h1 : (unready_thread cfg k t).threads y = k.threads y := by
    rw [unready_thread_threads, Function.update_noteq h]
  rw [← h1]
  unfold add_to_waitq_locked z_mark_thread_as_pending Kernel.upd_state Kernel.upd
  cases wq <;> simp [Function.update_noteq h]

theorem add_to_waitq_locked_threads_some (cfg : Config) (k : Kernel) (t : Tid) (w : WaitQ) :
    (add_to_waitq_locked cfg k t (some w)).threads t =
      { k.threads t with
        thread_state := { (k.threads t).thread_state with QUEUED := false, PENDING := true },
        pended_on := some w } := by
  have h1 : (unready_thread cfg k t).threads t = { k.threads t with
      thread_state := { (k.threads t).thread_state with QUEUED := false } } := by
    rw [unready_thread_threads, Function.update_same]
  unfold add_to_waitq_locked z_mark_thread_as_pending Kernel.upd_state Kernel.upd
  simp [h1]

theorem add_to_waitq_locked_threads_none (cfg : Config) (k : Kernel) (t : Tid) :
    (add_to_waitq_locked cfg k t none).threads t =
      { k.threads t with
        thread_state := { (k.threads t).thread_state with QUEUED := false, PENDING := true } } := by
  have h1 : (unready_thread cfg k t).threads t = { k.threads t with
      thread_state := { (k.threads t).thread_state with QUEUED := false } } := by
    rw [unready_thread_threads, Function.update_same]
  unfold add_to_waitq_locked z_mark_thread_as_pending Kernel.upd_state Kernel.upd
  simp [h1]

theorem add_to_waitq_locked_waitq_none (cfg : Config) (k : Kernel) (t : Tid) :
    (add_to_waitq_locked cfg k t none).waitq = (unready_thread cfg k t).waitq := rfl

/-- With a non-NULL wait queue the thread is inserted into that queue by
`z_priq_dumb_add`; the other wait queues are as `unready_thread` left them. -/
theorem add_to_waitq_locked_waitq_some (cfg : Config) (k : Kernel) (t : Tid) (w : WaitQ) :
    ∃ th, (add_to_waitq_locked cfg k t (some w)).waitq =
      Function.update (unready_thread cfg k t).waitq w
        (z_priq_dumb_add cfg th ((unready_thread cfg k t).waitq w) t) :=
  ⟨_, rfl⟩

/-! ## Exclusive membership of the queues -/

theorem lists_shrink_refl (k : Kernel) : lists_shrink k k :=
  ⟨fun _ h => h, fun _ _ h => h⟩

theorem lists_shrink_trans {k1 k2 k3 : Kernel} (h1 : lists_shrink k1 k2)
    (h2 : lists_shrink k2 k3) : lists_shrink k1 k3 :=
  ⟨fun x h => h1.1 x (h2.1 x h), fun x w h => h1.2 x w (h2.2 x w h)⟩

theorem lists_shrink_of_same_queues {k k' : Kernel} (h : same_queues k k') :
    lists_shrink k k' := by
  obtain ⟨hr, _, hw⟩ := h
  exact ⟨fun x hx => by rw [← hr]; exact hx, fun x w hx => by rw [← hw]; exact hx⟩

theorem lists_shrink_upd (k : Kernel) (t : Tid) (f : k_thread → k_thread) :
    lists_shrink k (k.upd t f) :=
  ⟨fun _ h => h, fun _ _ h => h⟩

theorem lists_shrink_upd_state (k : Kernel) (t : Tid) (f : ThreadState → ThreadState) :
    lists_shrink k (k.upd_state t f) :=
  ⟨fun _ h => h, fun _ _ h => h⟩

theorem lists_shrink_unlink (k : Kernel) (t : Tid) : lists_shrink k (k.unlink t) :=
  ⟨fun x h => ((mem_unlink_runq k t x).mp h).1, fun x w h => ((mem_unlink_waitq k t x w).mp h).1⟩

theorem lists_shrink_dequeue_thread (cfg : Config) (k : Kernel) (t : Tid) :
    lists_shrink k (dequeue_thread cfg k t) :=
  ⟨fun x h => mem_dequeue_thread_runq cfg k t x h,
    fun x w h => mem_dequeue_thread_waitq cfg k t x w h⟩

theorem lists_shrink_unpend (k : Kernel) (t : Tid) :
    lists_shrink k (unpend_thread_no_timeout k t) := by
  rw [unpend_thread_no_timeout_eq]
  exact lists_shrink_unlink k t

theorem lists_shrink_update_cache (cfg : Config) (k : Kernel) (p : Int) :
    lists_shrink k (update_cache cfg k p) :=
  lists_shrink_of_same_queues (update_cache_same_queues cfg k p)

theorem lists_shrink_unready_thread (cfg : Config) (k : Kernel) (t : Tid) :
    lists_shrink k (unready_thread cfg k t) :=
  ⟨fun x h => mem_unready_thread_runq cfg k t x h,
    fun x w h => mem_unready_thread_waitq cfg k t x w h⟩

theorem membership_excl_of_shrink {k k' : Kernel} (h : membership_excl k)
    (hs : lists_shrink k k') : membership_excl k' :=
  ⟨fun t w hw hr => h.1 t w (hs.2 t w hw) (hs.1 t hr),
    fun t w1 w2 h1 h2 => h.2 t w1 w2 (hs.2 t w1 h1) (hs.2 t w2 h2)⟩

theorem membership_excl_queue_thread (cfg : Config) (k : Kernel) (t : Tid)
    (h : membership_excl k) (ht : ∀ w, t ∉ k.waitq w) :
    membership_excl (queue_thread cfg k t) := by
  refine ⟨?_, ?_⟩
  · intro x w hw hr
    rw [queue_thread_waitq] at hw
    rcases mem_queue_thread_runq cfg k t x hr with hx | hx
    · rw [hx] at hw
      exact ht w hw
    · exact h.1 x w hw hx
  · intro x w1 w2 h1 h2
    rw [queue_thread_waitq] at h1 h2
    exact h.2 x w1 w2 h1 h2

/-- `ready_thread` keeps membership exclusive when the thread is `PENDING` or
on no wait queue. -/
theorem membership_excl_ready_thread (cfg : Config) (k : Kernel) (t : Tid)
    (h : membership_excl k)
    (ht : (k.threads t).thread_state.PENDING = false → ∀ w, t ∉ k.waitq w) :
    membership_excl (ready_thread cfg k t) := by
  by_cases hf : (k.threads t).thread_state.QUEUED = false ∧
      z_is_thread_ready (k.threads t) = true
  · rw [ready_thread_fire cfg k t hf.1 hf.2]
    have hp : (k.threads t).thread_state.PENDING = false := by
      have hr := hf.2
      simp only [z_is_thread_ready, z_is_thread_prevented_from_running, Bool.not_eq_true',
        Bool.or_eq_false_iff] at hr
      exact hr.1.1.1.1.1
    exact membership_excl_of_shrink (membership_excl_queue_thread cfg k t h (ht hp))
      (lists_shrink_update_cache cfg _ 0)
  · rw [ready_thread_skip cfg k t hf]
    exact h

theorem membership_excl_unpend_all_loop (cfg : Config) (w : WaitQ) :
    ∀ (fuel : Nat) (k : Kernel), membership_excl k →
      membership_excl (unpend_all_loop cfg fuel k w) := by
  intro fuel
  induction fuel with
  | zero => intro k h; exact h
  | succ n ih =>
    intro k h
    unfold unpend_all_loop
    dsimp only
    split_ifs
    · apply ih
      apply membership_excl_ready_thread
      · exact membership_excl_of_shrink h
          (lists_shrink_trans (lists_shrink_unpend k _)
            (lists_shrink_trans (lists_shrink_upd _ _ _) (lists_shrink_upd _ _ _)))
      · intro _ w'
        exact unpend_not_mem_waitq k _ w'
    · exact h

theorem membership_excl_waitq_add (cfg : Config) (k : Kernel) (t : Tid) (w : WaitQ)
    (th : Tid → k_thread) (h : membership_excl k) (hr : t ∉ k.runq)
    (hw : ∀ w', t ∉ k.waitq w') :
    membership_excl
      { k with waitq := Function.update k.waitq w (z_priq_dumb_add cfg th (k.waitq w) t) } := by
  have hmem : ∀ x w', x ∈ Function.update k.waitq w (z_priq_dumb_add cfg th (k.waitq w) t) w' →
      (x = t ∧ w' = w) ∨ x ∈ k.waitq w' := by
    intro x w' hx
    by_cases hww : w' = w
    · subst hww
      rw [Function.update_same, mem_z_priq_dumb_add] at hx
      rcases hx with hx | hx
      · exact Or.inl ⟨hx, rfl⟩
      · exact Or.inr hx
    · rw [Function.update_noteq hww] at hx
      exact Or.inr hx
  refine ⟨?_, ?_⟩
  · intro x w' hx hxr
    rcases hmem x w' hx with ⟨hxt, _⟩ | hx
    · exact hr (hxt ▸ hxr)
    · exact h.1 x w' hx hxr
  · intro x w1 w2 h1 h2
    rcases hmem x w1 h1 with ⟨hx1, hw1⟩ | h1
    · rcases hmem x w2 h2 with ⟨_, hw2⟩ | h2
      · rw [hw1, hw2]
      · exact absurd (hx1 ▸ h2) (hw w2)
    · rcases hmem x w2 h2 with ⟨hx2, _⟩ | h2
      · exact absurd (hx2 ▸ h1) (hw w1)
      · exact h.2 x w1 w2 h1 h2

theorem marks_pending (k : Kernel) (t : Tid) :
    ((z_mark_thread_as_not_suspended (z_mark_thread_as_started k t) t).threads t
      ).thread_state.PENDING = (k.threads t).thread_state.PENDING := by
  unfold z_mark_thread_as_not_suspended z_mark_thread_as_started Kernel.upd_state Kernel.upd
  simp

theorem membership_excl_z_thread_timeout (cfg : Config) (k : Kernel) (t : Tid)
    (h : membership_excl k) (hp : waiters_pending k) :
    membership_excl (z_thread_timeout cfg k t) := by
  unfold z_thread_timeout
  dsimp only
  split_ifs with hk hpo
  · apply membership_excl_ready_thread
    · exact membership_excl_of_shrink h
        (lists_shrink_trans (lists_shrink_unpend k t)
          (lists_shrink_trans (lists_shrink_upd_state _ _ _) (lists_shrink_upd_state _ _ _)))
    · intro _ w
      exact unpend_not_mem_waitq k t w
  · apply membership_excl_ready_thread
    · exact membership_excl_of_shrink h
        (lists_shrink_trans (lists_shrink_upd_state _ _ _) (lists_shrink_upd_state _ _ _))
    · intro hpe w hm
      rw [marks_pending] at hpe
      have := hp t w hm
      rw [hpe] at this
      exact Bool.noConfusion this
  · exact h

theorem membership_excl_ite {c : Prop} [Decidable c] {a b : Kernel}
    (ha : membership_excl a) (hb : membership_excl b) :
    membership_excl (if c then a else b) := by
  split_ifs
  · exact ha
  · exact hb

theorem lists_shrink_ite {c : Prop} [Decidable c] {k a b : Kernel}
    (ha : lists_shrink k a) (hb : lists_shrink k b) : lists_shrink k (if c then a else b) := by
  split_ifs
  · exact ha
  · exact hb

theorem membership_excl_end_thread (cfg : Config) (k : Kernel) (t : Tid)
    (h : membership_excl k) : membership_excl (end_thread cfg k t) := by
  unfold end_thread
  dsimp only
  refine membership_excl_ite ?_ h
  refine membership_excl_of_shrink ?_ (lists_shrink_update_cache cfg _ 1)
  apply membership_excl_unpend_all_loop
  refine membership_excl_of_shrink h ?_
  exact lists_shrink_trans (lists_shrink_upd_state _ _ _)
    (lists_shrink_trans (lists_shrink_upd_state _ _ _)
      (lists_shrink_trans
        (lists_shrink_ite (lists_shrink_dequeue_thread cfg _ t) (lists_shrink_refl _))
        (lists_shrink_trans
          (lists_shrink_ite (lists_shrink_unpend _ t) (lists_shrink_refl _))
          (lists_shrink_upd _ _ _))))

theorem z_priq_dumb_remove_idem (l : List Tid) (t : Tid) :
    z_priq_dumb_remove (z_priq_dumb_remove l t) t = z_priq_dumb_remove l t := by
  unfold z_priq_dumb_remove sys_dlist_remove
  rw [List.filter_filter]
  simp

/-- The state of `end_thread` before the join queue is drained. -/
theorem end_thread_pre_eq (cfg : Config) (k : Kernel) (t : Tid) :
    z_abort_thread_timeout
      (if ((if z_is_thread_queued
              (((k.upd_state t (fun s => { s with DEAD := true })).upd_state t
                (fun s => { s with ABORTING := false })).threads t) then
            dequeue_thread cfg ((k.upd_state t (fun s => { s with DEAD := true })).upd_state t
              (fun s => { s with ABORTING := false })) t
          else (k.upd_state t (fun s => { s with DEAD := true })).upd_state t
              (fun s => { s with ABORTING := false })).threads t).pended_on ≠ none then
        unpend_thread_no_timeout
          (if z_is_thread_queued
              (((k.upd_state t (fun s => { s with DEAD := true })).upd_state t
                (fun s => { s with ABORTING := false })).threads t) then
            dequeue_thread cfg ((k.upd_state t (fun s => { s with DEAD := true })).upd_state t
              (fun s => { s with ABORTING := false })) t
          else (k.upd_state t (fun s => { s with DEAD := true })).upd_state t
              (fun s => { s with ABORTING := false })) t
      else
        (if z_is_thread_queued
              (((k.upd_state t (fun s => { s with DEAD := true })).upd_state t
                (fun s => { s with ABORTING := false })).threads t) then
            dequeue_thread cfg ((k.upd_state t (fun s => { s with DEAD := true })).upd_state t
              (fun s => { s with ABORTING := false })) t
          else (k.upd_state t (fun s => { s with DEAD := true })).upd_state t
              (fun s => { s with ABORTING := false }))) t =
    { (if ((k.threads t).thread_state.QUEUED = true ∧ should_queue_thread cfg k t = true) ∨
          (k.threads t).pended_on ≠ none then k.unlink t else k) with
      threads := Function.update k.threads t
        { k.threads t with
          thread_state :=
            { (k.threads t).thread_state with
              DEAD := true, ABORTING := false, QUEUED := false,
              PENDING := if (k.threads t).pended_on ≠ none then false
                         else (k.threads t).thread_state.PENDING },
          pended_on := none, timeout_active := false } } := by
  cases hq : (k.threads t).thread_state.QUEUED <;>
  cases hsq : should_queue_thread cfg k t <;>
  cases hp : (k.threads t).pended_on <;>
  simp [z_abort_thread_timeout, unpend_thread_no_timeout, z_mark_thread_as_not_pending,
    dequeue_thread, z_is_thread_queued, Kernel.upd_state, Kernel.upd, Kernel.unlink, hq, hp,
    should_queue_thread, z_priq_dumb_remove_idem] <;>
  simp [should_queue_thread] at hsq <;> simp [hsq, z_priq_dumb_remove_idem]

theorem end_thread_eq (cfg : Config) (k : Kernel) (t : Tid)
    (hd : (k.threads t).thread_state.DEAD = false) :
    end_thread cfg k t =
      update_cache cfg
        (unpend_all cfg
          { (if ((k.threads t).thread_state.QUEUED = true ∧ should_queue_thread cfg k t = true) ∨
                (k.threads t).pended_on ≠ none then k.unlink t else k) with
            threads := Function.update k.threads t
              { k.threads t with
                thread_state :=
                  { (k.threads t).thread_state with
                    DEAD := true, ABORTING := false, QUEUED := false,
                    PENDING := if (k.threads t).pended_on ≠ none then false
                               else (k.threads t).thread_state.PENDING },
                pended_on := none, timeout_active := false } }
          (WaitQ.join t)) 1 := by
  unfold end_thread
  rw [if_pos (by rw [hd]; rfl)]
  exact congrArg (fun s => update_cache cfg (unpend_all cfg s (WaitQ.join t)) 1)
    (end_thread_pre_eq cfg k t)

theorem end_thread_of_dead (cfg : Config) (k : Kernel) (t : Tid)
    (hd : (k.threads t).thread_state.DEAD = true) : end_thread cfg k t = k := by
  unfold end_thread
  rw [if_neg (by rw [hd]; simp)]

theorem next_up_common_fields (cfg : Config) (k : Kernel) :
    (next_up_common cfg k).2.threads = k.threads ∧
    (next_up_common cfg k).2.runq = k.runq ∧
    (next_up_common cfg k).2.current = k.current ∧
    (next_up_common cfg k).2.swap_ok = k.swap_ok ∧
    (next_up_common cfg k).2.idle_thread = k.idle_thread ∧
    (next_up_common cfg k).2.z_idle_threads = k.z_idle_threads ∧
    (next_up_common cfg k).2.waitq = k.waitq := by
  unfold next_up_common
  dsimp only
  split_ifs <;> exact ⟨rfl, rfl, rfl, rfl, rfl, rfl, rfl⟩

/-! ### The context switch -/

theorem membership_excl_of_lists {k k' : Kernel} (h : membership_excl k)
    (hr : k'.runq = k.runq) (hw : k'.waitq = k.waitq) : membership_excl k' :=
  membership_excl_of_shrink h
    ⟨fun x hx => by rw [← hr]; exact hx, fun x w hx => by rw [← hw]; exact hx⟩

/-- One pass of the loop of `unpend_all`, before `ready_thread`, leaves a dead
thread dead and unqueued. -/
theorem join_release_dead (k : Kernel) (t x : Tid)
    (hd : (k.threads t).thread_state.DEAD = true)
    (hq : (k.threads t).thread_state.QUEUED = false) :
    ((arch_thread_return_value_set (z_abort_thread_timeout (unpend_thread_no_timeout k x) x)
      x 0).threads t).thread_state.DEAD = true ∧
    ((arch_thread_return_value_set (z_abort_thread_timeout (unpend_thread_no_timeout k x) x)
      x 0).threads t).thread_state.QUEUED = false ∧
    (arch_thread_return_value_set (z_abort_thread_timeout (unpend_thread_no_timeout k x) x)
      x 0).current = k.current := by
  unfold arch_thread_return_value_set z_abort_thread_timeout unpend_thread_no_timeout
    z_mark_thread_as_not_pending Kernel.upd_state Kernel.upd Kernel.unlink
  by_cases hx : t = x
  · subst hx
    simp [hd, hq]
  · simp [Function.update_noteq hx, hd, hq]

/-- `ready_thread` does not queue a dead thread. -/
theorem ready_thread_dead (cfg : Config) (k : Kernel) (t x : Tid)
    (hd : (k.threads t).thread_state.DEAD = true)
    (hq : (k.threads t).thread_state.QUEUED = false) :
    ((ready_thread cfg k x).threads t).thread_state.DEAD = true ∧
    ((ready_thread cfg k x).threads t).thread_state.QUEUED = false := by
  by_cases hx : t = x
  · subst hx
    rw [ready_thread_skip cfg k t (by
      rintro ⟨_, hr⟩
      simp [z_is_thread_ready, z_is_thread_prevented_from_running, hd] at hr)]
    exact ⟨hd, hq⟩
  · rw [ready_thread_threads_other cfg k x t hx]
    exact ⟨hd, hq⟩

theorem unpend_all_loop_dead (cfg : Config) (w : WaitQ) (t : Tid) :
    ∀ (fuel : Nat) (k : Kernel), (k.threads t).thread_state.DEAD = true →
      (k.threads t).thread_state.QUEUED = false →
      ((unpend_all_loop cfg fuel k w).threads t).thread_state.DEAD = true ∧
      ((unpend_all_loop cfg fuel k w).threads t).thread_state.QUEUED = false ∧
      (unpend_all_loop cfg fuel k w).current = k.current := by
  intro fuel
  induction fuel with
  | zero => intro k hd hq; exact ⟨hd, hq, rfl⟩
  | succ n ih =>
    intro k hd hq
    unfold unpend_all_loop
    dsimp only
    split_ifs
    · obtain ⟨h1, h2, h3⟩ := join_release_dead k t (z_waitq_head k w) hd hq
      obtain ⟨h4, h5⟩ := ready_thread_dead cfg _ t (z_waitq_head k w) h1 h2
      obtain ⟨h6, h7, h8⟩ := ih _ h4 h5
      exact ⟨h6, h7, by rw [h8, ready_thread_current, h3]⟩
    · exact ⟨hd, hq, rfl⟩

/-- After `end_thread` the thread is dead and not queued, and `_current` is as
before. -/
theorem end_thread_dead (cfg : Config) (k : Kernel) (t : Tid)
    (hd : (k.threads t).thread_state.DEAD = false) :
    ((end_thread cfg k t).threads t).thread_state.DEAD = true ∧
    ((end_thread cfg k t).threads t).thread_state.QUEUED = false ∧
    (end_thread cfg k t).current = k.current := by
  rw [end_thread_eq cfg k t hd, update_cache_threads, update_cache_current]
  unfold unpend_all
  have h := unpend_all_loop_dead cfg (WaitQ.join t) t
  refine ⟨(h _ _ ?_ ?_).1, (h _ _ ?_ ?_).2.1, ((h _ _ ?_ ?_).2.2).trans ?_⟩
  all_goals first
    | (split_ifs <;> rfl)
    | simp

/-- The SMP `next_up()` in three steps: the state `K1` after the abort check,
the state `K2` after the logical re-queue of `_current` (made only when
`_current` is active and is not the choice), and the removal of the choice
`th2` from the queue. -/
theorem next_up_smp_shape (cfg : Config) (k : Kernel) :
    ∃ (K1 : Kernel) (th2 : Tid) (K2 : Kernel),
      K1 = (if is_aborting ((next_up_common cfg k).2.threads (next_up_common cfg k).2.current)
              = true then
            end_thread cfg (next_up_common cfg k).2 (next_up_common cfg k).2.current
          else (next_up_common cfg k).2) ∧
      (K2 = K1 ∨ (K2 = queue_thread cfg K1 K1.current ∧ th2 ≠ K1.current ∧
        z_is_thread_prevented_from_running (K1.threads K1.current) = false)) ∧
      next_up_smp cfg k =
        (th2, { (if z_is_thread_queued (K2.threads th2) = true then dequeue_thread cfg K2 th2
                 else K2) with swap_ok := 0 }) := by
  unfold next_up_smp
  dsimp only
  generalize (if is_aborting ((next_up_common cfg k).2.threads (next_up_common cfg k).2.current)
      = true then end_thread cfg (next_up_common cfg k).2 (next_up_common cfg k).2.current
    else (next_up_common cfg k).2) = K1
  generalize (if (next_up_common cfg k).1 = NULL then K1.idle_thread
    else (next_up_common cfg k).1) = thread1
  generalize (if (!z_is_thread_prevented_from_running (K1.threads K1.current)) = true then
      if (!should_preempt cfg K1
            (if z_sched_prio_cmp cfg (K1.threads K1.current) (K1.threads thread1) > 0 ∨
                z_sched_prio_cmp cfg (K1.threads K1.current) (K1.threads thread1) = 0 ∧
                  K1.swap_ok = 0 then K1.current else thread1) K1.swap_ok) = true then
        K1.current
      else if z_sched_prio_cmp cfg (K1.threads K1.current) (K1.threads thread1) > 0 ∨
            z_sched_prio_cmp cfg (K1.threads K1.current) (K1.threads thread1) = 0 ∧
              K1.swap_ok = 0 then K1.current else thread1
    else thread1) = th2
  by_cases hc : th2 ≠ K1.current ∧
      (!z_is_thread_prevented_from_running (K1.threads K1.current)) = true ∧
      z_is_idle_thread_object cfg K1 K1.current = false ∧
      z_is_thread_queued (K1.threads K1.current) = false
  · rw [if_pos hc]
    exact ⟨K1, th2, _, rfl, Or.inr ⟨rfl, hc.1, by simpa using hc.2.1⟩, rfl⟩
  · rw [if_neg hc]
    exact ⟨K1, th2, K1, rfl, Or.inl rfl, rfl⟩

/-- The SMP `next_up()` keeps membership exclusive: it inserts no thread into a
list. -/
theorem membership_excl_next_up_smp (cfg : Config) (k : Kernel) (hsmp : cfg.SMP = true)
    (h : membership_excl k) : membership_excl (next_up_smp cfg k).2 := by
  obtain ⟨K1, th2, K2, hK1, hK2, he⟩ := next_up_smp_shape cfg k
  have hf := next_up_common_fields cfg k
  have h0 : membership_excl (next_up_common cfg k).2 :=
    membership_excl_of_lists h hf.2.1 hf.2.2.2.2.2.2
  have h1 : membership_excl K1 := by
    rw [hK1]
    exact membership_excl_ite (membership_excl_end_thread cfg _ _ h0) h0
  have h2 : membership_excl K2 := by
    rcases hK2 with hK2 | ⟨hK2, _, _⟩
    · rw [hK2]
      exact h1
    · rw [hK2]
      exact membership_excl_of_lists h1
        (queue_thread_runq_of_current cfg K1 K1.current hsmp rfl) (queue_thread_waitq cfg K1 _)
  rw [he]
  exact membership_excl_of_lists
    (membership_excl_ite (membership_excl_of_shrink h2 (lists_shrink_dequeue_thread cfg K2 th2))
      h2) rfl rfl

theorem cond_dequeue_other (cfg : Config) (k : Kernel) (t y : Tid) (hy : y ≠ t) :
    (if z_is_thread_queued (k.threads t) = true then dequeue_thread cfg k t else k).threads y =
      k.threads y ∧
    ∀ w, y ∈ (if z_is_thread_queued (k.threads t) = true then dequeue_thread cfg k t
        else k).waitq w → y ∈ k.waitq w := by
  split_ifs
  · refine ⟨?_, fun w hw => mem_dequeue_thread_waitq cfg k t y w hw⟩
    rw [dequeue_thread_threads_any, Function.update_noteq hy]
  · exact ⟨rfl, fun _ hw => hw⟩

/-- The old current thread after the SMP `next_up()` chose another thread: when
`_current`, if it is a member of a wait queue, is prevented from running and
has `QUEUED` clear, then it is still not both a member of a wait queue and
`QUEUED`. -/
theorem next_up_smp_old_current (cfg : Config) (k : Kernel)
    (hne : (next_up_smp cfg k).1 ≠ k.current)
    (hcur : ∀ w, k.current ∈ k.waitq w →
      z_is_thread_prevented_from_running (k.threads k.current) = true ∧
      (k.threads k.current).thread_state.QUEUED = false) :
    ∀ w, k.current ∈ (next_up_smp cfg k).2.waitq w →
      ((next_up_smp cfg k).2.threads k.current).thread_state.QUEUED = false := by
  obtain ⟨K1, th2, K2, hK1, hK2, he⟩ := next_up_smp_shape cfg k
  have hf := next_up_common_fields cfg k
  rw [he] at hne ⊢
  have hne' : k.current ≠ th2 := fun h => hne h.symm
  have hK1c : K1.current = k.current ∧
      (((K1.threads k.current).thread_state.QUEUED = false ∧
          z_is_thread_prevented_from_running (K1.threads k.current) = true) ∨
        (K1.threads = k.threads ∧ K1.waitq = k.waitq)) := by
    rw [hK1, hf.2.2.1]
    split_ifs
    · by_cases hd : ((next_up_common cfg k).2.threads k.current).thread_state.DEAD = true
      · rw [end_thread_of_dead cfg _ _ hd]
        exact ⟨hf.2.2.1, Or.inr ⟨hf.1, hf.2.2.2.2.2.2⟩⟩
      · have hd' : ((next_up_common cfg k).2.threads k.current).thread_state.DEAD = false := by
          simpa using hd
        obtain ⟨e1, e2, e3⟩ := end_thread_dead cfg _ _ hd'
        rw [hf.2.2.1] at e3
        refine ⟨e3, Or.inl ⟨e2, ?_⟩⟩
        simp [z_is_thread_prevented_from_running, e1]
    · exact ⟨hf.2.2.1, Or.inr ⟨hf.1, hf.2.2.2.2.2.2⟩⟩
  obtain ⟨hc1, hcase⟩ := hK1c
  obtain ⟨ho1, ho2⟩ := cond_dequeue_other cfg K2 th2 k.current hne'
  intro w hw
  have hw2 : k.current ∈ K2.waitq w := ho2 w hw
  show ((if z_is_thread_queued (K2.threads th2) = true then dequeue_thread cfg K2 th2
    else K2).threads k.current).thread_state.QUEUED = false
  rw [ho1]
  rcases hK2 with hK2 | ⟨hK2, _, hact⟩
  · rw [hK2] at hw2 ⊢
    rcases hcase with ⟨hq, _⟩ | ⟨ht, hwq⟩
    · exact hq
    · rw [hwq] at hw2
      rw [ht]
      exact (hcur w hw2).2
  · rw [hc1] at hact
    rw [hK2, queue_thread_waitq] at hw2
    rcases hcase with ⟨_, hp⟩ | ⟨ht, hwq⟩
    · rw [hp] at hact
      exact Bool.noConfusion hact
    · rw [hwq] at hw2
      rw [ht] at hact
      rw [(hcur w hw2).1] at hact
      exact Bool.noConfusion hact

/-- The context switch keeps membership exclusive; on SMP, where the old
current thread is re-inserted into the run queue when it has `QUEUED` set,
provided that `_current`, if it is a member of a wait queue, is prevented from
running and has `QUEUED` clear. -/
theorem membership_excl_z_swap (cfg : Config) (k : Kernel) (h : membership_excl k)
    (hcur : cfg.SMP = true → ∀ w, k.current ∈ k.waitq w →
      z_is_thread_prevented_from_running (k.threads k.current) = true ∧
      (k.threads k.current).thread_state.QUEUED = false) :
    membership_excl (z_swap cfg k) := by
  by_cases hsmp : cfg.SMP = true
  · have h1 := membership_excl_next_up_smp cfg k hsmp h
    unfold z_swap z_swap_next_thread
    rw [if_pos hsmp]
    dsimp only
    rw [if_pos hsmp]
    by_cases hne : (next_up_smp cfg k).1 ≠ k.current
    · rw [if_pos hne]
      have h2 := next_up_smp_old_current cfg k hne (hcur hsmp)
      have hsq : same_queues (next_up_smp cfg k).2
          (if cfg.TIMESLICING = true then z_reset_time_slice (next_up_smp cfg k).2
            else (next_up_smp cfg k).2) := by
        split_ifs
        · exact z_reset_time_slice_same_queues _
        · exact ⟨rfl, rfl, rfl⟩
      generalize (if cfg.TIMESLICING = true then z_reset_time_slice (next_up_smp cfg k).2
        else (next_up_smp cfg k).2) = k1 at hsq ⊢
      obtain ⟨hr, ht, hw⟩ := hsq
      unfold z_requeue_current
      dsimp only
      split_ifs with hq
      · refine ⟨?_, ?_⟩
        · intro x w hxw hxr
          have hxw' : x ∈ (next_up_smp cfg k).2.waitq w := by
            rw [← hw]
            exact hxw
          have hxr' : x ∈ z_priq_dumb_add cfg k1.threads k1.runq k.current := hxr
          rcases (mem_z_priq_dumb_add cfg _ _ _ x).mp hxr' with hx | hx
          · rw [hx] at hxw'
            have hq0 := h2 w hxw'
            have hq1 : (k1.threads k.current).thread_state.QUEUED = true := by
              simpa [z_is_thread_queued] using hq
            rw [ht, hq0] at hq1
            exact Bool.noConfusion hq1
          · rw [hr] at hx
            exact h1.1 x w hxw' hx
        · intro x w1 w2 hx1 hx2
          have hx1' : x ∈ k1.waitq w1 := hx1
          have hx2' : x ∈ k1.waitq w2 := hx2
          rw [hw] at hx1' hx2'
          exact h1.2 x w1 w2 hx1' hx2'
      · exact membership_excl_of_lists h1 hr hw
    · rw [if_neg hne]
      exact h1
  · have hs : cfg.SMP = false := by simpa using hsmp
    exact membership_excl_of_shrink h (lists_shrink_of_same_queues (z_swap_same_queues cfg k hs))

theorem not_suspended_bits (k : Kernel) (t y : Tid) :
    ((z_mark_thread_as_not_suspended k t).threads y).thread_state.PENDING =
      (k.threads y).thread_state.PENDING ∧
    ((z_mark_thread_as_not_suspended k t).threads y).thread_state.QUEUED =
      (k.threads y).thread_state.QUEUED := by
  unfold z_mark_thread_as_not_suspended Kernel.upd_state Kernel.upd
  by_cases hy : y = t
  · subst hy
    simp
  · simp [Function.update_noteq hy]

theorem abort_timeout_bits (k : Kernel) (t y : Tid) :
    ((z_abort_thread_timeout k t).threads y).thread_state = (k.threads y).thread_state := by
  unfold z_abort_thread_timeout Kernel.upd
  by_cases hy : y = t
  · subst hy
    simp
  · simp [Function.update_noteq hy]

/-- `ready_thread` leaves the record of a pending thread as it is. -/
theorem ready_thread_threads_of_pending (cfg : Config) (k : Kernel) (t y : Tid)
    (hp : (k.threads y).thread_state.PENDING = true) :
    (ready_thread cfg k t).threads y = k.threads y := by
  by_cases hy : y = t
  · subst hy
    rw [ready_thread_skip cfg k y (by
      rintro ⟨_, hr⟩
      simp [z_is_thread_ready, z_is_thread_prevented_from_running, hp] at hr)]
  · exact ready_thread_threads_other cfg k t y hy

/-- After `ready_thread`, a current thread that is a member of a wait queue is
still pending and not queued, when it was before. -/
theorem current_waiter_ready_thread (cfg : Config) (k : Kernel) (t : Tid)
    (hcur : ∀ w, k.current ∈ k.waitq w →
      (k.threads k.current).thread_state.PENDING = true ∧
      (k.threads k.current).thread_state.QUEUED = false) :
    ∀ w, (ready_thread cfg k t).current ∈ (ready_thread cfg k t).waitq w →
      z_is_thread_prevented_from_running
        ((ready_thread cfg k t).threads (ready_thread cfg k t).current) = true ∧
      ((ready_thread cfg k t).threads (ready_thread cfg k t).current).thread_state.QUEUED
        = false := by
  intro w hw
  rw [ready_thread_current, ready_thread_waitq] at hw
  obtain ⟨h1, h2⟩ := hcur w hw
  rw [ready_thread_current, ready_thread_threads_of_pending cfg k t k.current h1]
  exact ⟨by simp [z_is_thread_prevented_from_running, h1], h2⟩

theorem membership_excl_z_impl_k_thread_resume (cfg : Config) (k : Kernel) (t : Tid)
    (resched : Bool) (h : membership_excl k) (hp : waiters_pending k)
    (hq : cfg.SMP = true → ∀ w, k.current ∈ k.waitq w →
      (k.threads k.current).thread_state.QUEUED = false) :
    membership_excl (z_impl_k_thread_resume cfg k t resched) := by
  unfold z_impl_k_thread_resume
  dsimp only
  split_ifs
  · exact h
  · have hr : membership_excl (ready_thread cfg (z_mark_thread_as_not_suspended k t) t) := by
      apply membership_excl_ready_thread
      · exact membership_excl_of_shrink h (lists_shrink_upd_state _ _ _)
      · intro hpe w hm
        have hpe' : (k.threads t).thread_state.PENDING = false := by
          unfold z_mark_thread_as_not_suspended Kernel.upd_state Kernel.upd at hpe
          simpa using hpe
        have := hp t w hm
        rw [hpe'] at this
        exact Bool.noConfusion this
    unfold z_reschedule
    split_ifs
    · apply membership_excl_z_swap cfg _ hr
      intro hsmp
      apply current_waiter_ready_thread
      intro w hw
      have hw' : k.current ∈ k.waitq w := hw
      have hb := not_suspended_bits k t k.current
      exact ⟨hb.1.trans (hp _ w hw'), hb.2.trans (hq hsmp w hw')⟩
    · exact hr

theorem membership_excl_z_impl_k_wakeup (cfg : Config) (k : Kernel) (t : Tid)
    (elsewhere in_isr resched : Bool) (h : membership_excl k) (hp : waiters_pending k)
    (hq : cfg.SMP = true → ∀ w, k.current ∈ k.waitq w →
      (k.threads k.current).thread_state.QUEUED = false) :
    membership_excl (z_impl_k_wakeup cfg k t elsewhere in_isr resched) := by
  have hk2 : membership_excl
      (z_mark_thread_as_not_suspended (z_abort_thread_timeout k t) t) :=
    membership_excl_of_shrink h
      (lists_shrink_trans (lists_shrink_upd _ _ _) (lists_shrink_upd_state _ _ _))
  have hc2 : cfg.SMP = true →
      ∀ w, (z_mark_thread_as_not_suspended (z_abort_thread_timeout k t) t).current ∈
          (z_mark_thread_as_not_suspended (z_abort_thread_timeout k t) t).waitq w →
        ((z_mark_thread_as_not_suspended (z_abort_thread_timeout k t) t).threads
          (z_mark_thread_as_not_suspended (z_abort_thread_timeout k t) t).current
          ).thread_state.PENDING = true ∧
        ((z_mark_thread_as_not_suspended (z_abort_thread_timeout k t) t).threads
          (z_mark_thread_as_not_suspended (z_abort_thread_timeout k t) t).current
          ).thread_state.QUEUED = false := by
    intro hsmp w hw
    have hw' : k.current ∈ k.waitq w := hw
    have hb := not_suspended_bits (z_abort_thread_timeout k t) t k.current
    have ha := abort_timeout_bits k t k.current
    rw [ha] at hb
    exact ⟨hb.1.trans (hp _ w hw'), hb.2.trans (hq hsmp w hw')⟩
  have hk3 : membership_excl (z_ready_thread cfg
      (z_mark_thread_as_not_suspended (z_abort_thread_timeout k t) t) t elsewhere) := by
    unfold z_ready_thread
    split_ifs
    · apply membership_excl_ready_thread _ _ _ hk2
      intro hpe w hm
      have hpe' : (k.threads t).thread_state.PENDING = false := by
        unfold z_mark_thread_as_not_suspended z_abort_thread_timeout Kernel.upd_state
          Kernel.upd at hpe
        simpa using hpe
      have := hp t w hm
      rw [hpe'] at this
      exact Bool.noConfusion this
    · exact hk2
  have hc3 : cfg.SMP = true →
      ∀ w, (z_ready_thread cfg
          (z_mark_thread_as_not_suspended (z_abort_thread_timeout k t) t) t elsewhere).current ∈
          (z_ready_thread cfg
            (z_mark_thread_as_not_suspended (z_abort_thread_timeout k t) t) t elsewhere).waitq w →
        z_is_thread_prevented_from_running ((z_ready_thread cfg
          (z_mark_thread_as_not_suspended (z_abort_thread_timeout k t) t) t elsewhere).threads
          (z_ready_thread cfg
            (z_mark_thread_as_not_suspended (z_abort_thread_timeout k t) t) t elsewhere).current)
          = true ∧
        ((z_ready_thread cfg
          (z_mark_thread_as_not_suspended (z_abort_thread_timeout k t) t) t elsewhere).threads
          (z_ready_thread cfg
            (z_mark_thread_as_not_suspended (z_abort_thread_timeout k t) t) t elsewhere).current
          ).thread_state.QUEUED = false := by
    intro hsmp
    unfold z_ready_thread
    split_ifs
    · exact current_waiter_ready_thread cfg _ t (hc2 hsmp)
    · intro w hw
      obtain ⟨h1, h2⟩ := hc2 hsmp w hw
      exact ⟨by simp [z_is_thread_prevented_from_running, h1], h2⟩
  unfold z_impl_k_wakeup
  dsimp only
  split_ifs
  · exact h
  · exact membership_excl_of_shrink h (lists_shrink_upd _ _ _)
  · unfold z_reschedule_irqlock
    split_ifs
    · exact membership_excl_z_swap cfg _ hk3 hc3
    · exact hk3
  · exact hk3

/-- The end of `z_impl_k_thread_suspend`, from the state `X` in which the
thread has been marked suspended. -/
theorem membership_excl_suspend_tail (cfg : Config) (X : Kernel) (t : Tid) (resched : Bool)
    (p : Int) (hX : membership_excl X)
    (hst : z_is_thread_prevented_from_running (X.threads t) = true ∧
      (X.threads t).thread_state.QUEUED = false) :
    membership_excl
      (if t = (update_cache cfg X p).current then
        z_reschedule_irqlock cfg (update_cache cfg X p) resched
      else update_cache cfg X p) := by
  have h3 : membership_excl (update_cache cfg X p) :=
    membership_excl_of_shrink hX (lists_shrink_update_cache cfg X p)
  by_cases hc : t = (update_cache cfg X p).current
  · rw [if_pos hc]
    unfold z_reschedule_irqlock
    by_cases hr : resched = true
    · rw [if_pos hr]
      apply membership_excl_z_swap cfg _ h3
      intro _ w _
      rw [← hc, update_cache_threads]
      exact hst
    · rw [if_neg hr]
      exact h3
  · rw [if_neg hc]
    exact h3

theorem membership_excl_z_impl_k_thread_suspend (cfg : Config) (k : Kernel) (t : Tid)
    (resched : Bool) (h : membership_excl k) :
    membership_excl (z_impl_k_thread_suspend cfg k t resched) := by
  have h2 : membership_excl (z_mark_thread_as_suspended
      (if z_is_thread_queued ((z_abort_thread_timeout k t).threads t)
        then dequeue_thread cfg (z_abort_thread_timeout k t) t
        else z_abort_thread_timeout k t) t) :=
    membership_excl_of_shrink h
      (lists_shrink_trans (lists_shrink_upd _ _ _)
        (lists_shrink_trans
          (lists_shrink_ite (lists_shrink_dequeue_thread cfg _ t) (lists_shrink_refl _))
          (lists_shrink_upd_state _ _ _)))
  have hst : z_is_thread_prevented_from_running ((z_mark_thread_as_suspended
          (if z_is_thread_queued ((z_abort_thread_timeout k t).threads t)
            then dequeue_thread cfg (z_abort_thread_timeout k t) t
            else z_abort_thread_timeout k t) t).threads t) = true ∧
      ((z_mark_thread_as_suspended
          (if z_is_thread_queued ((z_abort_thread_timeout k t).threads t)
            then dequeue_thread cfg (z_abort_thread_timeout k t) t
            else z_abort_thread_timeout k t) t).threads t).thread_state.QUEUED = false := by
    by_cases hq : z_is_thread_queued ((z_abort_thread_timeout k t).threads t) = true
    · rw [if_pos hq]
      simp [z_mark_thread_as_suspended, Kernel.upd_state, Kernel.upd,
        dequeue_thread_threads_any, z_is_thread_prevented_from_running]
    · rw [if_neg hq]
      have hq' : ((z_abort_thread_timeout k t).threads t).thread_state.QUEUED = false := by
        simpa [z_is_thread_queued] using hq
      simp [z_mark_thread_as_suspended, Kernel.upd_state, Kernel.upd,
        z_is_thread_prevented_from_running, hq']
  unfold z_impl_k_thread_suspend
  dsimp only
  exact membership_excl_suspend_tail cfg _ t resched _ h2 hst

theorem membership_excl_z_unpend_first_thread (k : Kernel) (w : WaitQ)
    (h : membership_excl k) : membership_excl (z_unpend_first_thread k w).2 := by
  unfold z_unpend_first_thread
  dsimp only
  split_ifs
  · exact membership_excl_of_shrink h
      (lists_shrink_trans (lists_shrink_unpend k _) (lists_shrink_upd _ _ _))
  · exact h

theorem membership_excl_z_sched_wake (cfg : Config) (k : Kernel) (w : WaitQ) (rv : Int)
    (d : Nat) (h : membership_excl k) : membership_excl (z_sched_wake cfg k w rv d).2 := by
  unfold z_sched_wake
  dsimp only
  split_ifs
  · apply membership_excl_ready_thread
    · exact membership_excl_of_shrink h
        (lists_shrink_trans (lists_shrink_upd _ _ _)
          (lists_shrink_trans (lists_shrink_unpend _ _) (lists_shrink_upd _ _ _)))
    · intro _ w'
      exact unpend_not_mem_waitq _ _ w'
  · exact h

theorem membership_excl_add_to_waitq_locked (cfg : Config) (k : Kernel) (t : Tid)
    (wq : Option WaitQ) (h : membership_excl k) (hp : waiters_pending k)
    (hq : runq_queued cfg k) (hnp : (k.threads t).thread_state.PENDING = false) :
    membership_excl (add_to_waitq_locked cfg k t wq) := by
  cases wq with
  | none =>
    exact membership_excl_of_shrink h
      (lists_shrink_trans (lists_shrink_unready_thread cfg k t) (lists_shrink_upd_state _ _ _))
  | some w =>
    have h3 : membership_excl ((z_mark_thread_as_pending (unready_thread cfg k t) t).upd t
        (fun x => { x with pended_on := some w })) :=
      membership_excl_of_shrink h
        (lists_shrink_trans (lists_shrink_unready_thread cfg k t)
          (lists_shrink_trans (lists_shrink_upd_state _ _ _) (lists_shrink_upd _ _ _)))
    have hr : t ∉ ((z_mark_thread_as_pending (unready_thread cfg k t) t).upd t
        (fun x => { x with pended_on := some w })).runq :=
      unready_thread_not_mem_runq cfg k t (hq t)
    have hw : ∀ w', t ∉ ((z_mark_thread_as_pending (unready_thread cfg k t) t).upd t
        (fun x => { x with pended_on := some w })).waitq w' := by
      intro w' hm
      have := hp t w' (mem_unready_thread_waitq cfg k t t w' hm)
      rw [hnp] at this
      exact Bool.noConfusion this
    exact membership_excl_waitq_add cfg _ t w _ h3 hr hw

/-- C11 as stated fails in two ways.  For `ready_thread`, in a state that
satisfies the invariant while a member of a wait queue has `PENDING` clear: in
`k_waiter` thread 2 is on the wait queue of object 0 and on no other list, and
`ready_thread(2)` puts it on the run queue as well.  And on SMP for
`z_impl_k_thread_resume` and `z_impl_k_wakeup`, which end in a context switch:
in `k_smp_waiter` the invariant holds and every waiter is `PENDING`, but the
current thread 1 is on the wait queue of object 0 with `QUEUED` set, and the
switch away from it inserts it into the run queue. -/
theorem membership_excl_counterexample :
    (membership_excl k_waiter ∧ ¬ membership_excl (ready_thread cfg_deadline k_waiter 2)) ∧
    (cfg_smp.SMP = true ∧ membership_excl k_smp_waiter ∧ waiters_pending k_smp_waiter ∧
      ¬ membership_excl (z_impl_k_thread_resume cfg_smp k_smp_waiter 3 true) ∧
      ¬ membership_excl (z_impl_k_wakeup cfg_smp k_smp_waiter 3 false false true)) := by
  refine ⟨⟨⟨?_, ?_⟩, ?_⟩, rfl, ⟨?_, ?_⟩, ?_, ?_, ?_⟩
  · intro t w _ hr
    simp [k_waiter, k_clean, mk_kernel] at hr
  · intro t w1 w2 h1 h2
    have e1 : w1 = WaitQ.obj 0 := by
      by_contra hne
      simp [k_waiter, hne] at h1
    have e2 : w2 = WaitQ.obj 0 := by
      by_contra hne
      simp [k_waiter, hne] at h2
    rw [e1, e2]
  · intro h
    exact h.1 2 (WaitQ.obj 0) (by decide) (by decide)
  · intro t w hw hr
    have e1 : w = WaitQ.obj 0 := by
      by_contra hne
      simp [k_smp_waiter, hne] at hw
    subst e1
    have e2 : t = 1 := by simpa [k_smp_waiter] using hw
    subst e2
    simp [k_smp_waiter, mk_kernel] at hr
  · intro t w1 w2 h1 h2
    have e1 : w1 = WaitQ.obj 0 := by
      by_contra hne
      simp [k_smp_waiter, hne] at h1
    have e2 : w2 = WaitQ.obj 0 := by
      by_contra hne
      simp [k_smp_waiter, hne] at h2
    rw [e1, e2]
  · intro t w hw
    have e1 : w = WaitQ.obj 0 := by
      by_contra hne
      simp [k_smp_waiter, hne] at hw
    subst e1
    have e2 : t = 1 := by simpa [k_smp_waiter] using hw
    subst e2
    decide
  · intro h
    exact h.1 1 (WaitQ.obj 0) (by decide) (by decide)
  · intro h
    exact h.1 1 (WaitQ.obj 0) (by decide) (by decide)

/-- C11 (amended): the invariant "no member of a wait queue is on the run
queue, and no thread is a member of two wait queues" is preserved, from every
state, by `unpend_thread_no_timeout`, `z_unpend_first_thread`, `z_sched_wake`,
`z_impl_k_thread_suspend` and `end_thread`.  From states in which every member
of a wait queue has `PENDING` set it is preserved by `ready_thread` and
`z_thread_timeout`; by `z_impl_k_thread_resume` and `z_impl_k_wakeup` when in
addition, on SMP, the current thread does not have `QUEUED` set while it is a
member of a wait queue; and by `add_to_waitq_locked` called on a thread that
is not pending when in addition every thread on the run queue has `QUEUED`
set (and on SMP is not the current thread). -/
theorem membership_excl_preserved (cfg : Config) (k : Kernel) (h : membership_excl k)
    (thread : Tid) (wq : Option WaitQ) (w : WaitQ) (rv : Int) (d : Nat)
    (elsewhere in_isr resched : Bool) :
    membership_excl (unpend_thread_no_timeout k thread) ∧
    membership_excl (z_unpend_first_thread k w).2 ∧
    membership_excl (z_sched_wake cfg k w rv d).2 ∧
    membership_excl (z_impl_k_thread_suspend cfg k thread resched) ∧
    membership_excl (end_thread cfg k thread) ∧
    (waiters_pending k →
      membership_excl (ready_thread cfg k thread) ∧
      membership_excl (z_thread_timeout cfg k thread) ∧
      ((cfg.SMP = true → ∀ w', k.current ∈ k.waitq w' →
          (k.threads k.current).thread_state.QUEUED = false) →
        membership_excl (z_impl_k_thread_resume cfg k thread resched) ∧
        membership_excl (z_impl_k_wakeup cfg k thread elsewhere in_isr resched)) ∧
      (runq_queued cfg k → (k.threads thread).thread_state.PENDING = false →
        membership_excl (add_to_waitq_locked cfg k thread wq))) :=
  ⟨membership_excl_of_shrink h (lists_shrink_unpend k thread),
    membership_excl_z_unpend_first_thread k w h,
    membership_excl_z_sched_wake cfg k w rv d h,
    membership_excl_z_impl_k_thread_suspend cfg k thread resched h,
    membership_excl_end_thread cfg k thread h,
    fun hp =>
      ⟨membership_excl_ready_thread cfg k thread h (fun hpe w' hm => by
          have := hp thread w' hm
          rw [hpe] at this
          exact Bool.noConfusion this),
        membership_excl_z_thread_timeout cfg k thread h hp,
        fun hc =>
          ⟨membership_excl_z_impl_k_thread_resume cfg k thread resched h hp hc,
            membership_excl_z_impl_k_wakeup cfg k thread elsewhere in_isr resched h hp hc⟩,
        fun hq hnp => membership_excl_add_to_waitq_locked cfg k thread wq h hp hq hnp⟩⟩

/-- Witness of C11 on `k_pended`: on a uniprocessor build for `z_sched_wake`
and `add_to_waitq_locked`, on an SMP build for `z_impl_k_thread_resume`. -/
theorem membership_excl_preserved_witness :
    membership_excl k_pended ∧ waiters_pending k_pended ∧ runq_queued cfg_deadline k_pended ∧
    membership_excl (z_sched_wake cfg_deadline k_pended (WaitQ.obj 0) 0 0).2 ∧
    membership_excl (add_to_waitq_locked cfg_deadline k_pended 3 (some (WaitQ.obj 0))) ∧
    membership_excl (z_impl_k_thread_resume cfg_smp k_pended 3 true) :=
  have he : membership_excl k_pended :=
    ⟨fun t w _ hr => by simp [k_pended, mk_kernel] at hr,
      fun t w1 w2 h1 h2 => by
        have e1 : w1 = WaitQ.obj 0 := by
          by_contra hne
          simp [k_pended, hne] at h1
        have e2 : w2 = WaitQ.obj 0 := by
          by_contra hne
          simp [k_pended, hne] at h2
        rw [e1, e2]⟩
  have hp : waiters_pending k_pended := fun t w hm => by
    have e1 : w = WaitQ.obj 0 := by
      by_contra hne
      simp [k_pended, hne] at hm
    subst e1
    have e2 : t = 2 := by simpa [k_pended] using hm
    subst e2
    decide
  have hq : runq_queued cfg_deadline k_pended := fun t hr => by
    simp [k_pended, mk_kernel] at hr
  ⟨he, hp, hq,
    (membership_excl_preserved cfg_deadline k_pended he 3 (some (WaitQ.obj 0)) (WaitQ.obj 0)
      0 0 false false false).2.2.1,
    ((membership_excl_preserved cfg_deadline k_pended he 3 (some (WaitQ.obj 0)) (WaitQ.obj 0)
      0 0 false false false).2.2.2.2.2 hp).2.2.2 hq (by decide),
    (((membership_excl_preserved cfg_smp k_pended he 3 (some (WaitQ.obj 0)) (WaitQ.obj 0)
      0 0 false false true).2.2.2.2.2 hp).2.2.1 (fun _ _ _ => by decide)).1⟩

/-! ## The pended-state invariant -/

theorem pend_same_at_refl (k : Kernel) (x : Tid) : pend_same_at k k x :=
  ⟨rfl, rfl, fun _ => Iff.rfl⟩

theorem pend_same_at_trans {k1 k2 k3 : Kernel} {x : Tid} (h1 : pend_same_at k1 k2 x)
    (h2 : pend_same_at k2 k3 x) : pend_same_at k1 k3 x :=
  ⟨h2.1.trans h1.1, h2.2.1.trans h1.2.1, fun w => (h2.2.2 w).trans (h1.2.2 w)⟩

theorem pend_ok_of_same {k k' : Kernel} {x : Tid} (hs : pend_same_at k k' x)
    (h : pend_ok k x) : pend_ok k' x := by
  obtain ⟨hP, hO, hM⟩ := hs
  refine ⟨?_, ?_⟩
  · rw [hP, h.1]
    exact ⟨fun ⟨w, hw⟩ => ⟨w, (hM w).mpr hw⟩, fun ⟨w, hw⟩ => ⟨w, (hM w).mp hw⟩⟩
  · intro w
    rw [hO, h.2 w]
    exact (hM w).symm

theorem pend_inv_of_same {k k' : Kernel} (hs : ∀ x, pend_same_at k k' x) (h : pend_inv k) :
    pend_inv k' := fun x => pend_ok_of_same (hs x) (h x)

theorem pend_ok_clear {k : Kernel} {x : Tid}
    (hP : (k.threads x).thread_state.PENDING = false) (hO : (k.threads x).pended_on = none)
    (hM : ∀ w, x ∉ k.waitq w) : pend_ok k x := by
  refine ⟨?_, ?_⟩
  · rw [hP]
    exact ⟨fun hc => Bool.noConfusion hc, fun ⟨w, hw⟩ => absurd hw (hM w)⟩
  · intro w
    rw [hO]
    exact ⟨fun hc => Option.noConfusion hc, fun hw => absurd hw (hM w)⟩

/-- A thread that satisfies the invariant with `pended_on` NULL is not
`PENDING` and on no wait queue. -/
theorem pend_ok_none {k : Kernel} {x : Tid} (h : pend_ok k x)
    (hO : (k.threads x).pended_on = none) :
    (k.threads x).thread_state.PENDING = false ∧ ∀ w, x ∉ k.waitq w := by
  have hM : ∀ w, x ∉ k.waitq w := fun w hw => by
    have := (h.2 w).mpr hw
    rw [hO] at this
    exact Option.noConfusion this
  refine ⟨?_, hM⟩
  cases hp : (k.threads x).thread_state.PENDING
  · rfl
  · obtain ⟨w, hw⟩ := h.1.mp hp
    exact absurd hw (hM w)

/-- A thread that satisfies the invariant with `PENDING` clear is on no wait
queue and has `pended_on` NULL. -/
theorem pend_ok_not_pending {k : Kernel} {x : Tid} (h : pend_ok k x)
    (hP : (k.threads x).thread_state.PENDING = false) :
    (k.threads x).pended_on = none ∧ ∀ w, x ∉ k.waitq w := by
  have hM : ∀ w, x ∉ k.waitq w := fun w hw => by
    have := h.1.mpr ⟨w, hw⟩
    rw [hP] at this
    exact Bool.noConfusion this
  refine ⟨?_, hM⟩
  cases ho : (k.threads x).pended_on with
  | none => rfl
  | some w => exact absurd ((h.2 w).mp ho) (hM w)

theorem pend_same_at_of_same_queues {k k' : Kernel} (h : same_queues k k') (x : Tid) :
    pend_same_at k k' x := by
  obtain ⟨_, ht, hw⟩ := h
  rw [pend_same_at, ht, hw]
  exact ⟨rfl, rfl, fun _ => Iff.rfl⟩

theorem pend_same_at_upd (k : Kernel) (t x : Tid) (f : k_thread → k_thread)
    (hP : (f (k.threads t)).thread_state.PENDING = (k.threads t).thread_state.PENDING)
    (hO : (f (k.threads t)).pended_on = (k.threads t).pended_on) :
    pend_same_at k (k.upd t f) x := by
  by_cases hx : x = t
  · subst hx
    exact ⟨by rw [upd_threads_same]; exact hP, by rw [upd_threads_same]; exact hO,
      fun _ => Iff.rfl⟩
  · exact ⟨by rw [upd_threads_other k t x f hx], by rw [upd_threads_other k t x f hx],
      fun _ => Iff.rfl⟩

theorem pend_same_at_upd_state (k : Kernel) (t x : Tid) (f : ThreadState → ThreadState)
    (hP : (f (k.threads t).thread_state).PENDING = (k.threads t).thread_state.PENDING) :
    pend_same_at k (k.upd_state t f) x :=
  pend_same_at_upd k t x _ hP rfl

theorem pend_same_at_of_unqueued {k k' : Kernel} {x : Tid}
    (ht : (k'.threads x).unqueued = (k.threads x).unqueued) (hw : k'.waitq = k.waitq) :
    pend_same_at k k' x := by
  have h1 := congrArg (fun a => a.thread_state.PENDING) ht
  have h2 := congrArg (fun a => a.pended_on) ht
  simp only [k_thread.unqueued] at h1 h2
  refine ⟨h1, h2, fun w => ?_⟩
  rw [hw]

theorem pend_same_at_ready_thread (cfg : Config) (k : Kernel) (t x : Tid) :
    pend_same_at k (ready_thread cfg k t) x :=
  pend_same_at_of_unqueued (ready_thread_unqueued cfg k t x) (ready_thread_waitq cfg k t)

theorem pend_same_at_update_cache (cfg : Config) (k : Kernel) (p : Int) (x : Tid) :
    pend_same_at k (update_cache cfg k p) x :=
  pend_same_at_of_same_queues (update_cache_same_queues cfg k p) x

/-- Unlinking a thread's node leaves the pended state of every other thread,
and of the thread itself when it is on no wait queue. -/
theorem pend_same_at_dequeue_thread (cfg : Config) (k : Kernel) (t x : Tid)
    (h : x ≠ t ∨ ∀ w, t ∉ k.waitq w) : pend_same_at k (dequeue_thread cfg k t) x := by
  refine ⟨?_, ?_, ?_⟩
  · rw [dequeue_thread_threads_any]
    by_cases hx : x = t
    · subst hx
      simp
    · rw [Function.update_noteq hx]
  · rw [dequeue_thread_threads_any]
    by_cases hx : x = t
    · subst hx
      simp
    · rw [Function.update_noteq hx]
  · intro w
    rcases h with h | h
    · exact mem_dequeue_thread_waitq_other cfg k t x w h
    · rw [dequeue_thread_waitq_of_not_mem cfg k t h]

theorem pend_same_at_unready_thread (cfg : Config) (k : Kernel) (t x : Tid)
    (h : x ≠ t ∨ ∀ w, t ∉ k.waitq w) : pend_same_at k (unready_thread cfg k t) x := by
  unfold unready_thread
  dsimp only
  refine pend_same_at_trans ?_ (pend_same_at_update_cache cfg _ _ x)
  split_ifs
  · exact pend_same_at_dequeue_thread cfg k t x h
  · exact pend_same_at_refl k x

/-- `unpend_thread_no_timeout(t)` establishes the invariant at `t` and keeps
it at every other thread. -/
theorem pend_inv_unpend (k : Kernel) (t : Tid) (h : ∀ x, x ≠ t → pend_ok k x) :
    pend_inv (unpend_thread_no_timeout k t) := by
  intro x
  by_cases hx : x = t
  · subst hx
    apply pend_ok_clear
    · rw [unpend_thread_no_timeout_eq]
      simp
    · exact unpend_pended_on k x
    · exact fun w => unpend_not_mem_waitq k x w
  · refine pend_ok_of_same ?_ (h x hx)
    rw [unpend_thread_no_timeout_eq]
    refine ⟨?_, ?_, ?_⟩
    · simp [Function.update_noteq hx]
    · simp [Function.update_noteq hx]
    · intro w
      show x ∈ (k.unlink t).waitq w ↔ x ∈ k.waitq w
      rw [mem_unlink_waitq]
      exact ⟨fun hm => hm.1, fun hm => ⟨hm, hx⟩⟩

theorem pend_inv_upd (k : Kernel) (t : Tid) (f : k_thread → k_thread)
    (hP : (f (k.threads t)).thread_state.PENDING = (k.threads t).thread_state.PENDING)
    (hO : (f (k.threads t)).pended_on = (k.threads t).pended_on) (h : pend_inv k) :
    pend_inv (k.upd t f) :=
  pend_inv_of_same (fun x => pend_same_at_upd k t x f hP hO) h

theorem pend_inv_ready_thread (cfg : Config) (k : Kernel) (t : Tid) (h : pend_inv k) :
    pend_inv (ready_thread cfg k t) :=
  pend_inv_of_same (fun x => pend_same_at_ready_thread cfg k t x) h

theorem pend_inv_ite {c : Prop} [Decidable c] {a b : Kernel} (ha : pend_inv a)
    (hb : pend_inv b) : pend_inv (if c then a else b) := by
  split_ifs
  · exact ha
  · exact hb

theorem pend_inv_z_abort_thread_timeout (k : Kernel) (t : Tid) (h : pend_inv k) :
    pend_inv (z_abort_thread_timeout k t) := by
  unfold z_abort_thread_timeout
  exact pend_inv_upd k t _ rfl rfl h

theorem pend_inv_arch_thread_return_value_set (k : Kernel) (t : Tid) (v : Int)
    (h : pend_inv k) : pend_inv (arch_thread_return_value_set k t v) := by
  unfold arch_thread_return_value_set
  exact pend_inv_upd k t _ rfl rfl h

theorem pend_inv_z_thread_return_value_set_with_data (k : Kernel) (t : Tid) (v : Int)
    (d : Nat) (h : pend_inv k) : pend_inv (z_thread_return_value_set_with_data k t v d) := by
  unfold z_thread_return_value_set_with_data
  exact pend_inv_upd k t _ rfl rfl h

theorem pend_inv_z_mark_thread_as_started (k : Kernel) (t : Tid) (h : pend_inv k) :
    pend_inv (z_mark_thread_as_started k t) := by
  unfold z_mark_thread_as_started Kernel.upd_state
  exact pend_inv_upd k t _ rfl rfl h

theorem pend_inv_z_mark_thread_as_not_suspended (k : Kernel) (t : Tid) (h : pend_inv k) :
    pend_inv (z_mark_thread_as_not_suspended k t) := by
  unfold z_mark_thread_as_not_suspended Kernel.upd_state
  exact pend_inv_upd k t _ rfl rfl h

theorem pend_inv_z_unpend_first_thread (k : Kernel) (w : WaitQ) (h : pend_inv k) :
    pend_inv (z_unpend_first_thread k w).2 := by
  unfold z_unpend_first_thread
  dsimp only
  split_ifs
  · exact pend_inv_z_abort_thread_timeout _ _ (pend_inv_unpend k _ (fun x _ => h x))
  · exact h

theorem pend_inv_z_sched_wake (cfg : Config) (k : Kernel) (w : WaitQ) (rv : Int) (d : Nat)
    (h : pend_inv k) : pend_inv (z_sched_wake cfg k w rv d).2 := by
  unfold z_sched_wake
  dsimp only
  split_ifs
  · apply pend_inv_ready_thread
    apply pend_inv_z_abort_thread_timeout
    exact pend_inv_unpend _ _
      (fun x _ => pend_inv_z_thread_return_value_set_with_data k _ rv d h x)
  · exact h

theorem pend_inv_z_thread_timeout (cfg : Config) (k : Kernel) (t : Tid) (h : pend_inv k) :
    pend_inv (z_thread_timeout cfg k t) := by
  unfold z_thread_timeout
  dsimp only
  refine pend_inv_ite ?_ h
  apply pend_inv_ready_thread
  apply pend_inv_z_mark_thread_as_not_suspended
  apply pend_inv_z_mark_thread_as_started
  exact pend_inv_ite (pend_inv_unpend k t (fun x _ => h x)) h

theorem pend_inv_unpend_all_loop (cfg : Config) (w : WaitQ) :
    ∀ (fuel : Nat) (k : Kernel), pend_inv k → pend_inv (unpend_all_loop cfg fuel k w) := by
  intro fuel
  induction fuel with
  | zero => intro k h; exact h
  | succ n ih =>
    intro k h
    unfold unpend_all_loop
    dsimp only
    split_ifs
    · apply ih
      apply pend_inv_ready_thread
      apply pend_inv_arch_thread_return_value_set
      apply pend_inv_z_abort_thread_timeout
      exact pend_inv_unpend k _ (fun x _ => h x)
    · exact h

theorem pend_inv_end_thread (cfg : Config) (k : Kernel) (t : Tid) (h : pend_inv k) :
    pend_inv (end_thread cfg k t) := by
  unfold end_thread
  dsimp only
  refine pend_inv_ite ?_ h
  refine pend_inv_of_same (fun x => pend_same_at_update_cache cfg _ 1 x) ?_
  apply pend_inv_unpend_all_loop
  apply pend_inv_z_abort_thread_timeout
  have h2 : pend_inv ((k.upd_state t (fun s => { s with DEAD := true })).upd_state t
      (fun s => { s with ABORTING := false })) :=
    pend_inv_of_same (fun x => pend_same_at_upd_state _ t x _ rfl)
      (pend_inv_of_same (fun x => pend_same_at_upd_state k t x _ rfl) h)
  generalize (k.upd_state t (fun s => { s with DEAD := true })).upd_state t
      (fun s => { s with ABORTING := false }) = k2 at h2 ⊢
  have h3s : ∀ x, (x ≠ t ∨ ∀ w, t ∉ k2.waitq w) → pend_same_at k2
      (if z_is_thread_queued (k2.threads t) = true then dequeue_thread cfg k2 t else k2) x := by
    intro x hx
    split_ifs
    · exact pend_same_at_dequeue_thread cfg k2 t x hx
    · exact pend_same_at_refl k2 x
  have h3p : ((if z_is_thread_queued (k2.threads t) = true then dequeue_thread cfg k2 t
      else k2).threads t).pended_on = (k2.threads t).pended_on := by
    split_ifs
    · rw [dequeue_thread_threads_any]
      simp
    · rfl
  generalize (if z_is_thread_queued (k2.threads t) = true then dequeue_thread cfg k2 t
      else k2) = k3 at h3s h3p ⊢
  by_cases hpo : (k3.threads t).pended_on ≠ none
  · rw [if_pos hpo]
    exact pend_inv_unpend k3 t (fun x hx => pend_ok_of_same (h3s x (Or.inl hx)) (h2 x))
  · rw [if_neg hpo]
    have hn : (k2.threads t).pended_on = none := by
      rw [← h3p]
      exact not_not.mp hpo
    have hM := (pend_ok_none (h2 t) hn).2
    exact fun x => pend_ok_of_same (h3s x (Or.inr hM)) (h2 x)

theorem pend_inv_add_to_waitq_locked (cfg : Config) (k : Kernel) (t : Tid) (w : WaitQ)
    (h : pend_inv k) (hnp : (k.threads t).thread_state.PENDING = false) :
    pend_inv (add_to_waitq_locked cfg k t (some w)) := by
  obtain ⟨_, hM⟩ := pend_ok_not_pending (h t) hnp
  obtain ⟨th, hth⟩ := add_to_waitq_locked_waitq_some cfg k t w
  rw [unready_thread_waitq_of_not_mem cfg k t hM] at hth
  intro x
  by_cases hx : x = t
  · subst hx
    refine ⟨?_, ?_⟩
    · rw [add_to_waitq_locked_threads_some]
      refine ⟨fun _ => ⟨w, ?_⟩, fun _ => rfl⟩
      rw [hth, Function.update_same, mem_z_priq_dumb_add]
      exact Or.inl rfl
    · intro w'
      rw [add_to_waitq_locked_threads_some, hth]
      by_cases hww : w' = w
      · subst hww
        rw [Function.update_same, mem_z_priq_dumb_add]
        exact ⟨fun _ => Or.inl rfl, fun _ => rfl⟩
      · rw [Function.update_noteq hww]
        constructor
        · intro hc
          exact absurd (Option.some.inj hc).symm hww
        · intro hm
          exact absurd hm (hM w')
  · refine pend_ok_of_same ⟨?_, ?_, ?_⟩ (h x)
    · rw [add_to_waitq_locked_threads_other cfg k t x (some w) hx]
    · rw [add_to_waitq_locked_threads_other cfg k t x (some w) hx]
    · intro w'
      rw [hth]
      by_cases hww : w' = w
      · subst hww
        rw [Function.update_same, mem_z_priq_dumb_add]
        exact ⟨fun hm => hm.resolve_left hx, fun hm => Or.inr hm⟩
      · rw [Function.update_noteq hww]

theorem pend_inv_add_thread_timeout (k : Kernel) (t : Tid) (forever : Bool)
    (h : pend_inv k) : pend_inv (add_thread_timeout k t forever) := by
  unfold add_thread_timeout z_add_thread_timeout
  exact pend_inv_ite (pend_inv_upd k t _ rfl rfl h) h

theorem pend_inv_k_clean : pend_inv k_clean :=
  fun _ => pend_ok_clear rfl rfl (fun _ => by simp [k_clean, mk_kernel])

theorem pend_inv_k_pended : pend_inv k_pended := by
  intro x
  by_cases hx : x = 2
  · subst hx
    refine ⟨⟨fun _ => ⟨WaitQ.obj 0, by decide⟩, fun _ => by decide⟩, ?_⟩
    intro w
    by_cases hw : w = WaitQ.obj 0
    · subst hw
      exact ⟨fun _ => by decide, fun _ => by decide⟩
    · constructor
      · intro hc
        have : (k_pended.threads 2).pended_on = some (WaitQ.obj 0) := by decide
        rw [this] at hc
        exact absurd (Option.some.inj hc).symm hw
      · intro hm
        simp [k_pended, hw] at hm
  · apply pend_ok_clear
    · simp [k_pended, mk_kernel, hx, mk_thread]
    · simp [k_pended, mk_kernel, hx, mk_thread]
    · intro w hm
      by_cases hw : w = WaitQ.obj 0
      · subst hw
        have : x = 2 := by simpa [k_pended] using hm
        exact hx this
      · simp [k_pended, hw] at hm

/-- C12 as stated fails for `add_to_waitq_locked` in two ways.  With a NULL
wait queue the thread gets `PENDING` set while it is on no wait queue and
`pended_on` stays NULL (thread 2 in `k_clean`).  And when the thread is already
pended on another queue it ends up on two wait queues (thread 2 in `k_pended`,
pended on the queue of object 0 and added to the queue of object 1). -/
theorem pend_inv_counterexample :
    (pend_inv k_clean ∧ ¬ pend_inv (add_to_waitq_locked cfg_deadline k_clean 2 none)) ∧
    (pend_inv k_pended ∧
      ¬ pend_inv (add_to_waitq_locked cfg_deadline k_pended 2 (some (WaitQ.obj 1)))) := by
  refine ⟨⟨pend_inv_k_clean, ?_⟩, ⟨pend_inv_k_pended, ?_⟩⟩
  · intro h
    obtain ⟨w, hw⟩ := (h 2).1.mp (by decide)
    rw [add_to_waitq_locked_waitq_none,
      unready_thread_waitq_of_not_mem cfg_deadline k_clean 2
        (fun _ => by simp [k_clean, mk_kernel])] at hw
    simp [k_clean, mk_kernel] at hw
  · intro h
    have h1 := ((h 2).2 (WaitQ.obj 0)).mpr (by decide)
    have h2 := ((h 2).2 (WaitQ.obj 1)).mpr (by decide)
    rw [h1] at h2
    exact absurd (Option.some.inj h2) (by decide)

/-- C12 (amended): the invariant "a thread has `PENDING` set iff it is a
member of a wait queue, and `pended_on` names a queue iff the thread is a
member of that queue" is preserved, from every state that satisfies it, by
`unpend_thread_no_timeout`, `z_unpend_first_thread`, `z_sched_wake`,
`z_thread_timeout` and `end_thread`, and by `add_to_waitq_locked` and `pend`
called with a non-NULL wait queue on a thread that is not pending. -/
theorem pend_inv_preserved (cfg : Config) (k : Kernel) (h : pend_inv k) (thread : Tid)
    (w : WaitQ) (rv : Int) (d : Nat) (forever : Bool) :
    pend_inv (unpend_thread_no_timeout k thread) ∧
    pend_inv (z_unpend_first_thread k w).2 ∧
    pend_inv (z_sched_wake cfg k w rv d).2 ∧
    pend_inv (z_thread_timeout cfg k thread) ∧
    pend_inv (end_thread cfg k thread) ∧
    ((k.threads thread).thread_state.PENDING = false →
      pend_inv (add_to_waitq_locked cfg k thread (some w)) ∧
      pend_inv (pend cfg k thread (some w) forever)) :=
  ⟨pend_inv_unpend k thread (fun x _ => h x),
    pend_inv_z_unpend_first_thread k w h,
    pend_inv_z_sched_wake cfg k w rv d h,
    pend_inv_z_thread_timeout cfg k thread h,
    pend_inv_end_thread cfg k thread h,
    fun hnp =>
      ⟨pend_inv_add_to_waitq_locked cfg k thread w h hnp,
        pend_inv_add_thread_timeout _ thread forever
          (pend_inv_add_to_waitq_locked cfg k thread w h hnp)⟩⟩

theorem pend_inv_preserved_witness :
    pend_inv k_pended ∧ (k_pended.threads 3).thread_state.PENDING = false ∧
    pend_inv (z_thread_timeout cfg_deadline k_pended 2) ∧
    pend_inv (pend cfg_deadline k_pended 3 (some (WaitQ.obj 0)) false) :=
  ⟨pend_inv_k_pended, by decide,
    (pend_inv_preserved cfg_deadline k_pended pend_inv_k_pended 2 (WaitQ.obj 0) 0 0
      false).2.2.2.1,
    ((pend_inv_preserved cfg_deadline k_pended pend_inv_k_pended 3 (WaitQ.obj 0) 0 0
      false).2.2.2.2.2 (by decide)).2⟩

/-! ## Pending and unpending a thread -/

/-- C13 as stated fails on an SMP build for the current thread: thread 1 is
current, not pending and has no blocking state bit and no timeout; after
`add_to_waitq_locked(1, w)` and `unpend_thread_no_timeout(1)` a following
`ready_thread(1)` sets `QUEUED` but does not insert the thread into the run
queue. -/
theorem pend_unpend_round_trip_smp_counterexample :
    k_clean.current = 1 ∧
    (k_clean.threads 1).thread_state.PENDING = false ∧
    no_other_block (k_clean.threads 1) = true ∧
    (k_clean.threads 1).timeout_active = false ∧
    1 ∉ (ready_thread cfg_smp
      (unpend_thread_no_timeout
        (add_to_waitq_locked cfg_smp k_clean 1 (some (WaitQ.obj 0))) 1) 1).runq ∧
    ((ready_thread cfg_smp
      (unpend_thread_no_timeout
        (add_to_waitq_locked cfg_smp k_clean 1 (some (WaitQ.obj 0))) 1) 1).threads 1
      ).thread_state.QUEUED = true := by
  decide

/-- C13 (amended): for a thread `t` that is on no wait queue and a non-NULL
wait queue `w`, `add_to_waitq_locked(t, w)` followed by
`unpend_thread_no_timeout(t)` leaves `t` with `PENDING` clear, `pended_on` NULL
and `QUEUED` clear, leaves `w` and every other wait queue with the same
members in the same order, and changes no other thread's record.  A following
`ready_thread(t)` sets `QUEUED` iff `t` has no other blocking state bit and no
active timeout, and, on a uniprocessor or when `t` is not the current thread,
`t` is on the run queue afterwards under the same condition. -/
theorem pend_unpend_round_trip (cfg : Config) (k : Kernel) (t : Tid) (w : WaitQ)
    (hw : ∀ w', t ∉ k.waitq w') :
    ((unpend_thread_no_timeout (add_to_waitq_locked cfg k t (some w)) t).threads t
      ).thread_state.PENDING = false ∧
    ((unpend_thread_no_timeout (add_to_waitq_locked cfg k t (some w)) t).threads t
      ).pended_on = none ∧
    ((unpend_thread_no_timeout (add_to_waitq_locked cfg k t (some w)) t).threads t
      ).thread_state.QUEUED = false ∧
    (unpend_thread_no_timeout (add_to_waitq_locked cfg k t (some w)) t).waitq = k.waitq ∧
    (∀ y, y ≠ t →
      (unpend_thread_no_timeout (add_to_waitq_locked cfg k t (some w)) t).threads y =
        k.threads y) ∧
    (((ready_thread cfg
        (unpend_thread_no_timeout (add_to_waitq_locked cfg k t (some w)) t) t).threads t
        ).thread_state.QUEUED = true ↔
      (no_other_block (k.threads t) = true ∧ (k.threads t).timeout_active = false)) ∧
    ((cfg.SMP = false ∨ t ≠ k.current) →
      (t ∈ (ready_thread cfg
          (unpend_thread_no_timeout (add_to_waitq_locked cfg k t (some w)) t) t).runq ↔
        (no_other_block (k.threads t) = true ∧ (k.threads t).timeout_active = false))) := by
  generalize hk5 : unpend_thread_no_timeout (add_to_waitq_locked cfg k t (some w)) t = k5
  have h5t : k5.threads t = { k.threads t with
      thread_state := { (k.threads t).thread_state with QUEUED := false, PENDING := false },
      pended_on := none } := by
    rw [← hk5, unpend_thread_no_timeout_eq]
    simp [add_to_waitq_locked_threads_some]
  have h5o : ∀ y, y ≠ t → k5.threads y = k.threads y := by
    intro y hy
    rw [← hk5, unpend_thread_no_timeout_eq]
    simp [Function.update_noteq hy, add_to_waitq_locked_threads_other cfg k t y (some w) hy]
  have h5w : k5.waitq = k.waitq := by
    obtain ⟨th, hth⟩ := add_to_waitq_locked_waitq_some cfg k t w
    rw [unready_thread_waitq_of_not_mem cfg k t hw] at hth
    rw [← hk5, unpend_thread_no_timeout_eq]
    funext w'
    show z_priq_dumb_remove ((add_to_waitq_locked cfg k t (some w)).waitq w') t = k.waitq w'
    rw [hth]
    by_cases hww : w' = w
    · subst hww
      rw [Function.update_same, z_priq_dumb_remove_add]
      exact z_priq_dumb_remove_of_not_mem _ t (hw w')
    · rw [Function.update_noteq hww]
      exact z_priq_dumb_remove_of_not_mem _ t (hw w')
  have h5r : t ∉ k5.runq := by
    rw [← hk5, unpend_thread_no_timeout_eq]
    intro hm
    exact ((mem_unlink_runq _ t t).mp hm).2 rfl
  have h5c : k5.current = k.current := by
    rw [← hk5, unpend_thread_no_timeout_eq]
    exact add_to_waitq_locked_current cfg k t (some w)
  have h5ready : z_is_thread_ready (k5.threads t) = true ↔
      (no_other_block (k.threads t) = true ∧ (k.threads t).timeout_active = false) := by
    rw [h5t]
    simp [z_is_thread_ready, z_is_thread_prevented_from_running, z_is_thread_timeout_active,
      no_other_block]
  have h5q : (k5.threads t).thread_state.QUEUED = false := by rw [h5t]
  refine ⟨by rw [h5t], by rw [h5t], h5q, h5w, h5o, ?_, ?_⟩
  · rw [ready_thread_queued_iff, h5q, ← h5ready]
    simp
  · intro hs
    rw [mem_ready_thread_runq cfg k5 t (by rw [h5c]; exact hs) h5r, ← h5ready]
    simp [h5q]

theorem pend_unpend_round_trip_witness :
    (∀ w', 2 ∉ k_clean.waitq w') ∧
    (unpend_thread_no_timeout
      (add_to_waitq_locked cfg_deadline k_clean 2 (some (WaitQ.obj 0))) 2).waitq =
        k_clean.waitq ∧
    2 ∈ (ready_thread cfg_deadline
      (unpend_thread_no_timeout
        (add_to_waitq_locked cfg_deadline k_clean 2 (some (WaitQ.obj 0))) 2) 2).runq :=
  ⟨fun _ => by simp [k_clean, mk_kernel],
    (pend_unpend_round_trip cfg_deadline k_clean 2 (WaitQ.obj 0)
      (fun _ => by simp [k_clean, mk_kernel])).2.2.2.1,
    ((pend_unpend_round_trip cfg_deadline k_clean 2 (WaitQ.obj 0)
      (fun _ => by simp [k_clean, mk_kernel])).2.2.2.2.2.2 (Or.inl rfl)).mpr
      ⟨by decide, by decide⟩⟩

/-! ## Readying a thread -/

/-- C14 as stated fails in two ways.  On an SMP build the current thread gets
`QUEUED` set but is not inserted into the run queue; and with deadline
scheduling a thread is inserted in front of a resident of equal priority whose
deadline is later (thread 2 in front of thread 1 in `k_edf`). -/
theorem ready_thread_position_counterexample :
    ((k_clean.threads 1).thread_state.QUEUED = false ∧
      z_is_thread_ready (k_clean.threads 1) = true ∧
      1 ∉ (ready_thread cfg_smp k_clean 1).runq) ∧
    ((k_edf.threads 2).thread_state.QUEUED = false ∧
      z_is_thread_ready (k_edf.threads 2) = true ∧
      (k_edf.threads 2).prio = (k_edf.threads 1).prio ∧
      k_edf.runq = [1] ∧
      (ready_thread cfg_deadline k_edf 2).runq = [2, 1]) := by
  decide

/-- C14 (amended): `ready_thread(t)`.  If `QUEUED` is clear and
`z_is_thread_ready(t)` holds, the call is `queue_thread` followed by
`update_cache(0)`: afterwards `t` has `QUEUED` set and is otherwise unchanged,
no other thread's record and no wait queue changes, and on SMP `swap_ok` is
0.  On a uniprocessor, and on SMP when `t` is not the current thread, `t` is
inserted into the run queue with the residents keeping their order: no
resident in front of `t` is lower than `t` under `z_sched_prio_cmp`, the
resident directly behind `t` is lower, and when the queue was ordered every
resident behind `t` is lower, so that `t` is behind all residents of equal
priority and deadline.  On SMP the current thread is not inserted.  In every
other case the whole state is unchanged.  `ready_thread` is idempotent. -/
theorem ready_thread_spec (cfg : Config) (k : Kernel) (t : Tid) :
    ((k.threads t).thread_state.QUEUED = false → z_is_thread_ready (k.threads t) = true →
      ready_thread cfg k t = update_cache cfg (queue_thread cfg k t) 0 ∧
      (ready_thread cfg k t).threads t =
        { k.threads t with
          thread_state := { (k.threads t).thread_state with QUEUED := true } } ∧
      (∀ y, y ≠ t → (ready_thread cfg k t).threads y = k.threads y) ∧
      (ready_thread cfg k t).waitq = k.waitq ∧
      (cfg.SMP = true → (ready_thread cfg k t).swap_ok = 0) ∧
      (cfg.SMP = true → t = k.current → (ready_thread cfg k t).runq = k.runq) ∧
      ((cfg.SMP = false ∨ t ≠ k.current) →
        ∃ l1 l2, k.runq = l1 ++ l2 ∧ (ready_thread cfg k t).runq = l1 ++ t :: l2 ∧
          (∀ x ∈ l1, ¬ 0 < z_sched_prio_cmp cfg (k.threads t) (k.threads x)) ∧
          (∀ y, l2.head? = some y → 0 < z_sched_prio_cmp cfg (k.threads t) (k.threads y)) ∧
          (CmpOrder cfg k.threads →
            k.runq.Pairwise
              (fun a b => 0 ≤ z_sched_prio_cmp cfg (k.threads a) (k.threads b)) →
            ∀ x ∈ l2, 0 < z_sched_prio_cmp cfg (k.threads t) (k.threads x)))) ∧
    (¬ ((k.threads t).thread_state.QUEUED = false ∧ z_is_thread_ready (k.threads t) = true) →
      ready_thread cfg k t = k) ∧
    ready_thread cfg (ready_thread cfg k t) t = ready_thread cfg k t := by
  refine ⟨?_, ready_thread_skip cfg k t, ?_⟩
  · intro hq hr
    refine ⟨ready_thread_fire cfg k t hq hr, ?_, ?_, ready_thread_waitq cfg k t, ?_, ?_, ?_⟩
    · rw [ready_thread_threads_fire cfg k t hq hr, Function.update_same]
    · intro y hy
      exact ready_thread_threads_other cfg k t y hy
    · intro hs
      rw [ready_thread_fire cfg k t hq hr]
      unfold update_cache
      simp [hs]
    · intro hs ht
      rw [ready_thread_fire cfg k t hq hr, update_cache_runq,
        queue_thread_runq_of_current cfg k t hs ht]
    · intro hs
      rw [ready_thread_runq_fire cfg k t hq hr hs]
      obtain ⟨l1, l2, h1, h2, h3, h4⟩ := z_priq_dumb_add_split cfg k.threads k.runq t
      refine ⟨l1, l2, h1, h2, h3, h4, ?_⟩
      intro ho hsort
      rw [h1] at hsort
      exact lower_of_head_lower cfg k.threads ho l2 t (List.pairwise_append.mp hsort).2.1 h4
  · by_cases h : (k.threads t).thread_state.QUEUED = false ∧
        z_is_thread_ready (k.threads t) = true
    · apply ready_thread_skip
      intro hc
      have hq : ((ready_thread cfg k t).threads t).thread_state.QUEUED = true :=
        (ready_thread_queued_iff cfg k t).mpr (Or.inr h.2)
      rw [hq] at hc
      exact Bool.noConfusion hc.1
    · rw [ready_thread_skip cfg k t h]
      exact ready_thread_skip cfg k t h

theorem ready_thread_spec_witness :
    (k_edf.threads 2).thread_state.QUEUED = false ∧
    z_is_thread_ready (k_edf.threads 2) = true ∧
    ((ready_thread cfg_deadline k_edf 2).threads 2).thread_state.QUEUED = true ∧
    ready_thread cfg_deadline (ready_thread cfg_deadline k_edf 2) 2 =
      ready_thread cfg_deadline k_edf 2 :=
  ⟨by decide, by decide,
    by
      rw [((ready_thread_spec cfg_deadline k_edf 2).1 (by decide) (by decide)).2.1],
    (ready_thread_spec cfg_deadline k_edf 2).2.2⟩

/-! ## Moving a thread to the end of its priority -/

theorem move_thread_to_end_of_prio_q_queued (cfg : Config) (k : Kernel) (t : Tid)
    (hq : (k.threads t).thread_state.QUEUED = true) :
    move_thread_to_end_of_prio_q cfg k t =
      update_cache cfg (queue_thread cfg (dequeue_thread cfg k t) t)
        (if t = (queue_thread cfg (dequeue_thread cfg k t) t).current then 1 else 0) := by
  unfold move_thread_to_end_of_prio_q
  dsimp only
  rw [if_pos (by simpa [z_is_thread_queued] using hq)]

theorem move_thread_to_end_of_prio_q_runq (cfg : Config) (k : Kernel) (t : Tid)
    (hsmp : cfg.SMP = false) (hq : (k.threads t).thread_state.QUEUED = true) :
    (move_thread_to_end_of_prio_q cfg k t).runq =
      z_priq_dumb_add cfg k.threads (z_priq_dumb_remove k.runq t) t := by
  rw [move_thread_to_end_of_prio_q_queued cfg k t hq, update_cache_runq,
    queue_thread_runq_eq cfg _ t hsmp, (dequeue_thread_fields cfg k t hsmp).2.2.2.2.2]
  exact z_priq_dumb_add_congr cfg k.threads _
    (fun x => dequeue_thread_unqueued cfg k t x hsmp) _ t

/-- C15 as stated fails with deadline scheduling enabled when the deadlines
are spread over more than half of the 32-bit space.  The queue `[3, 2, 1, 4]`
of `k_cycle` is what adding thread 2, 1, 4 and 3 produces; threads 1 and 4 have
equal priority and deadline; moving the queued thread 4 to the end of its
priority puts it at the head, in front of thread 1. -/
theorem move_thread_to_end_of_prio_q_counterexample :
    priq_dumb_run cfg_deadline th_cycle
      [PriqOp.add 2, PriqOp.add 1, PriqOp.add 4, PriqOp.add 3] = k_cycle.runq ∧
    (k_cycle.threads 4).thread_state.QUEUED = true ∧ 4 ∈ k_cycle.runq ∧
    (k_cycle.threads 1).prio = (k_cycle.threads 4).prio ∧
    (k_cycle.threads 1).prio_deadline = (k_cycle.threads 4).prio_deadline ∧
    (move_thread_to_end_of_prio_q cfg_deadline k_cycle 4).runq = [4, 3, 2, 1] := by
  decide

/-- C15 (amended): on a uniprocessor build with the list back-end, with
priorities in the `int8_t` range, deadline scheduling off or all deadlines in
one half of the 32-bit space, and a run queue that is ordered by
`z_sched_prio_cmp` and holds each thread once: for a queued thread `t`,
`move_thread_to_end_of_prio_q(t)` leaves a run queue with the same members,
each once, in which the other threads keep their order, everything in front of
`t` is not lower than `t` and everything behind `t` is lower; so `t` sits after
every resident of equal priority and deadline and before every resident of
lower priority.  `QUEUED` is set on `t` afterwards. -/
theorem move_thread_to_end_of_prio_q_spec (cfg : Config) (k : Kernel) (t : Tid)
    (hsmp : cfg.SMP = false) (hwf : ∀ x, (k.threads x).wf)
    (hdl : deadlines_in_half_space cfg k.threads)
    (hs : k.runq.Pairwise (fun a b => 0 ≤ z_sched_prio_cmp cfg (k.threads a) (k.threads b)))
    (hn : k.runq.Nodup) (hq : (k.threads t).thread_state.QUEUED = true) (ht : t ∈ k.runq) :
    (∀ x, x ∈ (move_thread_to_end_of_prio_q cfg k t).runq ↔ x ∈ k.runq) ∧
    (move_thread_to_end_of_prio_q cfg k t).runq.Nodup ∧
    ((move_thread_to_end_of_prio_q cfg k t).threads t).thread_state.QUEUED = true ∧
    ∃ l1 l2, z_priq_dumb_remove k.runq t = l1 ++ l2 ∧
      (move_thread_to_end_of_prio_q cfg k t).runq = l1 ++ t :: l2 ∧
      (∀ x ∈ l1, ¬ 0 < z_sched_prio_cmp cfg (k.threads t) (k.threads x)) ∧
      (∀ x ∈ l2, 0 < z_sched_prio_cmp cfg (k.threads t) (k.threads x)) ∧
      (∀ x ∈ k.runq, x ≠ t → (k.threads x).prio = (k.threads t).prio →
        (k.threads x).prio_deadline % 2 ^ 32 = (k.threads t).prio_deadline % 2 ^ 32 →
        x ∈ l1 ∧ x ∉ l2) ∧
      (∀ x ∈ k.runq, (k.threads t).prio < (k.threads x).prio → x ∈ l2 ∧ x ∉ l1) := by
  have ho : CmpOrder cfg k.threads := cmpOrder_of_rule cfg k.threads hwf hdl
  have hrun := move_thread_to_end_of_prio_q_runq cfg k t hsmp hq
  have hsr : (z_priq_dumb_remove k.runq t).Pairwise
      (fun a b => 0 ≤ z_sched_prio_cmp cfg (k.threads a) (k.threads b)) :=
    List.Pairwise.sublist (sublist_z_priq_dumb_remove k.runq t) hs
  have hnr : (z_priq_dumb_remove k.runq t).Nodup :=
    List.Nodup.sublist (sublist_z_priq_dumb_remove k.runq t) hn
  have htr : t ∉ z_priq_dumb_remove k.runq t := fun hm =>
    ((mem_z_priq_dumb_remove k.runq t t).mp hm).2 rfl
  refine ⟨?_, ?_, ?_, ?_⟩
  · intro x
    rw [hrun, mem_z_priq_dumb_add, mem_z_priq_dumb_remove]
    constructor
    · rintro (hx | hx)
      · rw [hx]
        exact ht
      · exact hx.1
    · intro hx
      by_cases hxt : x = t
      · exact Or.inl hxt
      · exact Or.inr ⟨hx, hxt⟩
  · rw [hrun]
    exact nodup_z_priq_dumb_add cfg k.threads _ t hnr htr
  · rw [move_thread_to_end_of_prio_q_queued cfg k t hq, update_cache_threads,
      queue_thread_threads_any]
    simp
  · obtain ⟨l1, l2, h1, h2, h3, h4⟩ :=
      z_priq_dumb_add_split_sorted cfg k.threads ho (z_priq_dumb_remove k.runq t) t hsr
    refine ⟨l1, l2, h1, by rw [hrun, h2], h3, h4, ?_, ?_⟩
    · intro x hx hxt hp hd
      have hc : z_sched_prio_cmp cfg (k.threads t) (k.threads x) = 0 :=
        z_sched_prio_cmp_eq_zero cfg _ _ hp.symm hd.symm
      have hx2 : x ∉ l2 := fun hm => by
        have := h4 x hm
        omega
      have hxm : x ∈ l1 ++ l2 := by
        rw [← h1]
        exact (mem_z_priq_dumb_remove k.runq t x).mpr ⟨hx, hxt⟩
      rcases List.mem_append.mp hxm with hm | hm
      · exact ⟨hm, hx2⟩
      · exact absurd hm hx2
    · intro x hx hp
      have hc : 0 < z_sched_prio_cmp cfg (k.threads t) (k.threads x) :=
        z_sched_prio_cmp_pos_of_prio_lt cfg _ _ (hwf t) (hwf x) hp
      have hxt : x ≠ t := fun h => by
        rw [h] at hp
        omega
      have hx1 : x ∉ l1 := fun hm => h3 x hm hc
      have hxm : x ∈ l1 ++ l2 := by
        rw [← h1]
        exact (mem_z_priq_dumb_remove k.runq t x).mpr ⟨hx, hxt⟩
      rcases List.mem_append.mp hxm with hm | hm
      · exact absurd hm hx1
      · exact ⟨hm, hx1⟩

theorem move_thread_to_end_of_prio_q_spec_witness :
    (k_rr.threads 1).thread_state.QUEUED = true ∧ 1 ∈ k_rr.runq ∧
    (move_thread_to_end_of_prio_q cfg_deadline k_rr 1).runq.Nodup ∧
    (move_thread_to_end_of_prio_q cfg_deadline k_rr 1).runq = [2, 3, 1, 9] :=
  ⟨by decide, by decide,
    (move_thread_to_end_of_prio_q_spec cfg_deadline k_rr 1 rfl
      (fun x => by
        simp only [k_rr, mk_kernel]
        split_ifs <;> decide)
      (Or.inr ⟨0, fun x => by
        simp only [k_rr, mk_kernel]
        split_ifs <;> decide⟩)
      (by decide) (by decide) (by decide) (by decide)).2.1,
    by decide⟩

/-! ## Round robin by yielding -/

theorem is_metairq_of_prio_eq (cfg : Config) (a b : k_thread) (h : a.prio = b.prio) :
    is_metairq cfg a = is_metairq cfg b := by
  unfold is_metairq
  rw [h]

/-- Choosing a thread of the same metairq class as the current thread leaves
an empty `metairq_preempted` slot empty. -/
theorem update_metairq_preempt_null (cfg : Config) (k : Kernel) (thread : Tid)
    (hslot : k.metairq_preempted = NULL)
    (hm : is_metairq cfg (k.threads thread) = is_metairq cfg (k.threads k.current)) :
    (update_metairq_preempt cfg k thread).metairq_preempted = NULL := by
  unfold update_metairq_preempt
  split_ifs with h1 h2 h3
  · rw [hm] at h2
    simp at h2
  · rfl
  · exact hslot
  · exact hslot

theorem unqueued_prio {a b : k_thread} (h : a.unqueued = b.unqueued) : a.prio = b.prio := by
  have := congrArg k_thread.prio h
  simpa [k_thread.unqueued] using this

theorem unqueued_prio_deadline {a b : k_thread} (h : a.unqueued = b.unqueued) :
    a.prio_deadline = b.prio_deadline := by
  have := congrArg k_thread.prio_deadline h
  simpa [k_thread.unqueued] using this

theorem z_priq_dumb_add_segment (cfg : Config) (th : Tid → k_thread) (l1 l2 : List Tid)
    (t : Tid) (h1 : ∀ x ∈ l1, ¬ 0 < z_sched_prio_cmp cfg (th t) (th x))
    (h2 : ∀ y ∈ l2, 0 < z_sched_prio_cmp cfg (th t) (th y)) :
    z_priq_dumb_add cfg th (l1 ++ l2) t = l1 ++ t :: l2 := by
  induction l1 with
  | nil =>
    cases l2 with
    | nil => rfl
    | cons y r =>
      show z_priq_dumb_add cfg th (y :: r) t = t :: y :: r
      unfold z_priq_dumb_add
      rw [if_pos (h2 y (List.mem_cons_self y r))]
  | cons a rest ih =>
    show z_priq_dumb_add cfg th (a :: (rest ++ l2)) t = a :: (rest ++ t :: l2)
    unfold z_priq_dumb_add
    rw [if_neg (h1 a (List.mem_cons_self a rest)),
      ih (fun x hx => h1 x (List.mem_cons_of_mem a hx))]

/-- One yield in the round-robin situation rotates the threads of the
yielding priority by one place and makes the new head the cached and the
current thread. -/
theorem z_impl_k_yield_rotate (cfg : Config) (k : Kernel) (l low : List Tid) (p : Int)
    (d : Nat) (hsmp : cfg.SMP = false) (hmask : cfg.SCHED_CPU_MASK = false)
    (h : round_robin_state cfg k l low p d) :
    round_robin_state cfg (z_impl_k_yield cfg k) (l.rotate 1) low p d ∧
    (z_impl_k_yield cfg k).cache = z_priq_dumb_best (l.rotate 1) := by
  obtain ⟨hrunq, hne, hnd, h0, hcur, hslot, heq, hlow⟩ := h
  obtain ⟨t1, rest, hl⟩ := List.exists_cons_of_ne_nil hne
  subst hl
  have hc1 : k.current = t1 := hcur
  have ht1 : t1 ∉ rest ++ low := (List.nodup_cons.mp hnd).1
  have hrot : (t1 :: rest).rotate 1 = rest ++ [t1] := by
    rw [List.rotate_cons_succ, List.rotate_zero]
  rw [hrot, z_impl_k_yield_up cfg k hsmp, z_swap_up cfg _ hsmp, hc1]
  generalize hkd : dequeue_thread cfg k t1 = kd
  generalize hkq : queue_thread cfg kd t1 = kq
  have hdf := dequeue_thread_fields cfg k t1 hsmp
  rw [hkd] at hdf
  have hqf := queue_thread_fields cfg kd t1 hsmp
  rw [hkq] at hqf
  have hun : ∀ x, (kq.threads x).unqueued = (k.threads x).unqueued := by
    intro x
    rw [← hkq, queue_thread_unqueued cfg kd t1 x hsmp, ← hkd,
      dequeue_thread_unqueued cfg k t1 x hsmp]
  have hdr : kd.runq = rest ++ low := by
    rw [hdf.2.2.2.2.2, hrunq]
    exact z_priq_dumb_remove_head t1 (rest ++ low) ht1
  have hcmp : ∀ x ∈ rest, ¬ 0 < z_sched_prio_cmp cfg (k.threads t1) (k.threads x) := by
    intro x hx
    have e1 := heq t1 (List.mem_cons_self t1 rest)
    have e2 := heq x (List.mem_cons_of_mem t1 hx)
    rw [z_sched_prio_cmp_eq_zero cfg _ _ (e1.1.trans e2.1.symm) (e1.2.trans e2.2.symm)]
    omega
  have hqr : kq.runq = (rest ++ [t1]) ++ low := by
    rw [← hkq, queue_thread_runq_eq cfg kd t1 hsmp, hdr,
      z_priq_dumb_add_congr cfg k.threads kd.threads
        (fun x => by rw [← hkd]; exact dequeue_thread_unqueued cfg k t1 x hsmp) (rest ++ low) t1,
      z_priq_dumb_add_segment cfg k.threads rest low t1 hcmp
        (hlow t1 (List.mem_cons_self t1 rest))]
    simp
  have hqc : kq.current = t1 := by rw [hqf.1, hdf.1, hc1]
  have hqs : kq.metairq_preempted = NULL := by rw [hqf.2.1, hdf.2.1, hslot]
  obtain ⟨x, r, hxr⟩ := List.exists_cons_of_ne_nil
    (List.append_ne_nil_of_right_ne_nil rest (List.cons_ne_nil t1 []))
  have hxm : x ∈ t1 :: rest := by
    have : x ∈ rest ++ [t1] := by rw [hxr]; exact List.mem_cons_self x r
    rcases List.mem_append.mp this with hm | hm
    · exact List.mem_cons_of_mem t1 hm
    · rw [List.mem_singleton.mp hm]
      exact List.mem_cons_self t1 rest
  have hx0 : x ≠ NULL := fun hx => h0 (hx ▸ hxm)
  have hqr' : kq.runq = x :: (r ++ low) := by
    rw [hqr, hxr]
    rfl
  have hnu : next_up cfg kq = (x, kq) :=
    next_up_of_slot_null cfg kq x (r ++ low) hmask hqr' hx0 hqs
  have huc := update_cache_chosen cfg kq 1 x hsmp hnu (should_preempt_of_ok cfg kq x)
  have hmq : is_metairq cfg (kq.threads x) = is_metairq cfg (kq.threads kq.current) := by
    rw [hqc]
    apply is_metairq_of_prio_eq
    rw [unqueued_prio (hun x), unqueued_prio (hun t1), (heq x hxm).1,
      (heq t1 (List.mem_cons_self t1 rest)).1]
  have hbest : z_priq_dumb_best (rest ++ [t1]) = x := by rw [hxr]; rfl
  have hmemrot : ∀ y, y ∈ rest ++ [t1] ↔ y ∈ t1 :: rest := by
    intro y
    rw [← hrot, List.mem_rotate]
  refine ⟨⟨?_, ?_, ?_, ?_, ?_, ?_, ?_, ?_⟩, ?_⟩
  · show (update_cache cfg kq 1).runq = (rest ++ [t1]) ++ low
    rw [huc.2.2.2.2.1, hqr]
  · exact List.append_ne_nil_of_right_ne_nil rest (List.cons_ne_nil t1 [])
  · have hperm : List.Perm ((rest ++ [t1]) ++ low) ((t1 :: rest) ++ low) := by
      rw [← hrot]
      exact List.Perm.append_right low (List.rotate_perm (t1 :: rest) 1)
    exact hperm.nodup_iff.mpr hnd
  · rw [hmemrot]
    exact h0
  · show (update_cache cfg kq 1).cache = z_priq_dumb_best (rest ++ [t1])
    rw [huc.1, hbest]
  · show (update_cache cfg kq 1).metairq_preempted = NULL
    rw [huc.2.1]
    exact update_metairq_preempt_null cfg kq x hqs hmq
  · intro y hy
    show ((update_cache cfg kq 1).threads y).prio = p ∧
      ((update_cache cfg kq 1).threads y).prio_deadline % 2 ^ 32 = d
    rw [huc.2.2.2.2.2, unqueued_prio (hun y), unqueued_prio_deadline (hun y)]
    exact heq y ((hmemrot y).mp hy)
  · intro y hy z hz
    show 0 < z_sched_prio_cmp cfg ((update_cache cfg kq 1).threads y)
      ((update_cache cfg kq 1).threads z)
    rw [huc.2.2.2.2.2, z_sched_prio_cmp_congr cfg (hun y) (hun z)]
    exact hlow y ((hmemrot y).mp hy) z hz
  · show (update_cache cfg kq 1).cache = z_priq_dumb_best (rest ++ [t1])
    rw [huc.1, hbest]

theorem z_impl_k_yield_iterate (cfg : Config) (l low : List Tid) (p : Int) (d : Nat)
    (hsmp : cfg.SMP = false) (hmask : cfg.SCHED_CPU_MASK = false) :
    ∀ (i : Nat) (k : Kernel), round_robin_state cfg k l low p d →
      round_robin_state cfg ((z_impl_k_yield cfg)^[i] k) (l.rotate i) low p d := by
  intro i
  induction i with
  | zero =>
    intro k h
    rw [List.rotate_zero]
    exact h
  | succ n ih =>
    intro k h
    rw [Function.iterate_succ_apply', ← List.rotate_rotate]
    exact (z_impl_k_yield_rotate cfg _ _ low p d hsmp hmask (ih k h)).1

theorem z_priq_dumb_best_rotate (l : List Tid) (i : Nat) (hi : i < l.length) :
    z_priq_dumb_best (l.rotate i) = l.get ⟨i, hi⟩ := by
  rw [List.rotate_eq_drop_append_take (Nat.le_of_lt hi), List.drop_eq_getElem_cons hi]
  rfl

/-- C16 as stated fails in two ways.  With deadline scheduling the threads of
equal priority are ordered by deadline: in `k_rr_deadline` the yielding thread
1 has the earlier deadline, is re-inserted in front of thread 2 and stays
cached.  And the yielding thread stays cached when it is remembered in
`metairq_preempted`: from `k_coop_pair`, readying the metairq thread 5 and
suspending it again before a context switch leaves thread 1 remembered, and the
yield of thread 1 rotates the queue but caches thread 1 again. -/
theorem z_impl_k_yield_round_robin_counterexample :
    (k_rr_deadline.runq = [1, 2] ∧ k_rr_deadline.current = 1 ∧
      k_rr_deadline.metairq_preempted = NULL ∧
      (k_rr_deadline.threads 1).prio = (k_rr_deadline.threads 2).prio ∧
      (z_impl_k_yield cfg_deadline k_rr_deadline).runq = [1, 2] ∧
      (z_impl_k_yield cfg_deadline k_rr_deadline).cache = 1) ∧
    ((z_impl_k_thread_suspend cfg_deadline
        (z_impl_k_thread_resume cfg_deadline k_coop_pair 5 false) 5 false).runq = [1, 2] ∧
      (z_impl_k_thread_suspend cfg_deadline
        (z_impl_k_thread_resume cfg_deadline k_coop_pair 5 false) 5 false).current = 1 ∧
      (z_impl_k_thread_suspend cfg_deadline
        (z_impl_k_thread_resume cfg_deadline k_coop_pair 5 false) 5 false).metairq_preempted
        = 1 ∧
      (z_impl_k_yield cfg_deadline
        (z_impl_k_thread_suspend cfg_deadline
          (z_impl_k_thread_resume cfg_deadline k_coop_pair 5 false) 5 false)).runq = [2, 1] ∧
      (z_impl_k_yield cfg_deadline
        (z_impl_k_thread_suspend cfg_deadline
          (z_impl_k_thread_resume cfg_deadline k_coop_pair 5 false) 5 false)).cache = 1) := by
  decide

/-- C16 (amended): on a uniprocessor build without CPU masks, where a context
switch makes the cached thread current: if the run queue holds the distinct
non-NULL threads `l = [t1, ..., tn]`, `n ≥ 1`, all of one priority and one
deadline, followed only by threads that are lower (`low`), `_current` is `t1`
and `metairq_preempted` is NULL, then `z_impl_k_yield` leaves the queue as
`[t2, ..., tn, t1]` followed by `low`, with the cache at its head (`t2`, or
`t1` when `n = 1`); after `i` yields the queue is `l` rotated by `i` places,
followed by `low`, and its head is current, so `n` consecutive yields run
`t1`, ..., `tn` in order and restore the original queue and `_current == t1`. -/
theorem z_impl_k_yield_round_robin (cfg : Config) (k : Kernel) (l low : List Tid) (p : Int)
    (d : Nat) (hsmp : cfg.SMP = false) (hmask : cfg.SCHED_CPU_MASK = false)
    (h : round_robin_state cfg k l low p d) :
    (∀ t1 rest, l = t1 :: rest →
      (z_impl_k_yield cfg k).runq = rest ++ [t1] ++ low ∧
      (z_impl_k_yield cfg k).cache = z_priq_dumb_best (rest ++ [t1]) ∧
      (z_impl_k_yield cfg k).current = (z_impl_k_yield cfg k).cache) ∧
    (∀ i, ((z_impl_k_yield cfg)^[i] k).runq = l.rotate i ++ low ∧
      ((z_impl_k_yield cfg)^[i] k).current = z_priq_dumb_best (l.rotate i)) ∧
    (∀ i (hi : i < l.length), ((z_impl_k_yield cfg)^[i] k).current = l.get ⟨i, hi⟩) ∧
    ((z_impl_k_yield cfg)^[l.length] k).runq = k.runq ∧
    ((z_impl_k_yield cfg)^[l.length] k).current = k.current := by
  have hit := fun i => z_impl_k_yield_iterate cfg l low p d hsmp hmask i k h
  refine ⟨?_, ?_, ?_, ?_, ?_⟩
  · intro t1 rest hl
    have h1 := z_impl_k_yield_rotate cfg k l low p d hsmp hmask h
    have hrot : l.rotate 1 = rest ++ [t1] := by
      rw [hl, List.rotate_cons_succ, List.rotate_zero]
    rw [hrot] at h1
    refine ⟨h1.1.1, h1.2, ?_⟩
    rw [h1.2]
    exact h1.1.2.2.2.2.1
  · intro i
    exact ⟨(hit i).1, (hit i).2.2.2.2.1⟩
  · intro i hi
    rw [(hit i).2.2.2.2.1]
    exact z_priq_dumb_best_rotate l i hi
  · have := (hit l.length).1
    rw [List.rotate_length] at this
    rw [this, h.1]
  · have := (hit l.length).2.2.2.2.1
    rw [List.rotate_length] at this
    rw [this]
    exact h.2.2.2.2.1.symm

theorem z_impl_k_yield_round_robin_witness :
    round_robin_state cfg_deadline k_rr [1, 2, 3] [9] 5 0 ∧
    (z_impl_k_yield cfg_deadline k_rr).runq = [2, 3, 1, 9] ∧
    (z_impl_k_yield cfg_deadline k_rr).cache = 2 ∧
    ((z_impl_k_yield cfg_deadline)^[3] k_rr).runq = k_rr.runq :=
  ⟨⟨rfl, by decide, by decide, by decide, rfl, rfl, by decide, by decide⟩,
    ((z_impl_k_yield_round_robin cfg_deadline k_rr [1, 2, 3] [9] 5 0 rfl rfl
      ⟨rfl, by decide, by decide, by decide, rfl, rfl, by decide, by decide⟩).1
        1 [2, 3] rfl).1,
    ((z_impl_k_yield_round_robin cfg_deadline k_rr [1, 2, 3] [9] 5 0 rfl rfl
      ⟨rfl, by decide, by decide, by decide, rfl, rfl, by decide, by decide⟩).1
        1 [2, 3] rfl).2.1,
    (z_impl_k_yield_round_robin cfg_deadline k_rr [1, 2, 3] [9] 5 0 rfl rfl
      ⟨rfl, by decide, by decide, by decide, rfl, rfl, by decide, by decide⟩).2.2.2.1⟩

/-! ## Priority preemption -/

theorem should_preempt_of_is_preempt (cfg : Config) (k : Kernel) (thread : Tid) (p : Int)
    (h : is_preempt (k.threads k.current) = true) : should_preempt cfg k thread p = true := by
  unfold should_preempt
  simp [h]

/-- Choosing a thread while the current thread is preemptible leaves an empty
`metairq_preempted` slot empty. -/
theorem update_metairq_preempt_null_of_preempt (cfg : Config) (k : Kernel) (thread : Tid)
    (hslot : k.metairq_preempted = NULL) (hp : is_preempt (k.threads k.current) = true) :
    (update_metairq_preempt cfg k thread).metairq_preempted = NULL := by
  unfold update_metairq_preempt
  split_ifs with h1 h2 h3
  · simp [hp] at h2
  · rfl
  · exact hslot
  · exact hslot

theorem add_to_waitq_locked_cache (cfg : Config) (k : Kernel) (t : Tid) (wq : Option WaitQ) :
    (add_to_waitq_locked cfg k t wq).cache = (unready_thread cfg k t).cache := by
  unfold add_to_waitq_locked
  cases wq <;> rfl

/-- C17 as stated fails when `metairq_preempted` names a runnable thread: in
`k_slot_preempt` the preemptible thread 1 is current and cached, thread 2 is
ready, not queued and higher than every resident, yet `ready_thread(2)` caches
the remembered thread 3. -/
theorem priority_preemption_counterexample :
    k_slot_preempt.current = 1 ∧ k_slot_preempt.cache = 1 ∧
    z_is_thread_prevented_from_running (k_slot_preempt.threads 1) = false ∧
    is_preempt (k_slot_preempt.threads 1) = true ∧
    (k_slot_preempt.threads 2).thread_state.QUEUED = false ∧
    z_is_thread_ready (k_slot_preempt.threads 2) = true ∧
    (∀ x ∈ k_slot_preempt.runq,
      0 < z_sched_prio_cmp cfg_deadline (k_slot_preempt.threads 2) (k_slot_preempt.threads x)) ∧
    (ready_thread cfg_deadline k_slot_preempt 2).cache = 3 := by
  decide

/-- C17 (amended): on a uniprocessor build without CPU masks, with
`metairq_preempted` NULL.  Let `_current` be `L`, preemptible, cached and at
the head of the run queue, and let `H` be a non-NULL thread that is ready, not
queued, not on the run queue and higher than every resident under
`z_sched_prio_cmp`.  Then `ready_thread(H)` puts `H` at the head of the run
queue and sets `cache == H`, so `need_swap` is true.  After the switch to `H`,
when `H` blocks through `unready_thread(H)` or `add_to_waitq_locked(H, w)`, `L`
is the best resident again and `cache == L`. -/
theorem priority_preemption (cfg : Config) (k : Kernel) (L H : Tid) (rest : List Tid)
    (wq : Option WaitQ)
    (hsmp : cfg.SMP = false) (hmask : cfg.SCHED_CPU_MASK = false)
    (hcur : k.current = L) (_hcache : k.cache = L)
    (hLp : is_preempt (k.threads L) = true)
    (hslot : k.metairq_preempted = NULL)
    (hrunq : k.runq = L :: rest) (hL0 : L ≠ NULL) (hH0 : H ≠ NULL)
    (hHq : (k.threads H).thread_state.QUEUED = false)
    (hHr : z_is_thread_ready (k.threads H) = true) (hHn : H ∉ k.runq)
    (hcmp : ∀ x ∈ k.runq, 0 < z_sched_prio_cmp cfg (k.threads H) (k.threads x)) :
    (ready_thread cfg k H).cache = H ∧
    need_swap cfg (ready_thread cfg k H) = true ∧
    (ready_thread cfg k H).runq = H :: L :: rest ∧
    (z_swap cfg (ready_thread cfg k H)).current = H ∧
    (unready_thread cfg (z_swap cfg (ready_thread cfg k H)) H).cache = L ∧
    (unready_thread cfg (z_swap cfg (ready_thread cfg k H)) H).runq = L :: rest ∧
    (add_to_waitq_locked cfg (z_swap cfg (ready_thread cfg k H)) H wq).cache = L := by
  have hHL : H ≠ L := fun h => hHn (by rw [hrunq, h]; exact List.mem_cons_self L rest)
  generalize hkq : queue_thread cfg k H = kq
  have hqf := queue_thread_fields cfg k H hsmp
  rw [hkq] at hqf
  have hqr : kq.runq = H :: L :: rest := by
    rw [← hkq, queue_thread_runq_eq cfg k H hsmp, hrunq]
    unfold z_priq_dumb_add
    rw [if_pos (hcmp L (by rw [hrunq]; exact List.mem_cons_self L rest))]
  have hqc : kq.current = L := by rw [hqf.1, hcur]
  have hqs : kq.metairq_preempted = NULL := by rw [hqf.2.1, hslot]
  have hqt : kq.threads = Function.update k.threads H
      { k.threads H with
        thread_state := { (k.threads H).thread_state with QUEUED := true } } := by
    rw [← hkq, queue_thread_threads_any]
  have hqp : is_preempt (kq.threads kq.current) = true := by
    rw [hqc, hqt, Function.update_noteq (Ne.symm hHL)]
    exact hLp
  have hnu : next_up cfg kq = (H, kq) :=
    next_up_of_slot_null cfg kq H (L :: rest) hmask hqr hH0 hqs
  have huc := update_cache_chosen cfg kq 0 H hsmp hnu
    (should_preempt_of_is_preempt cfg kq H 0 hqp)
  have hr : ready_thread cfg k H = update_cache cfg kq 0 := by
    rw [ready_thread_fire cfg k H hHq hHr, hkq]
  rw [hr, z_swap_up cfg _ hsmp]
  generalize hk1 : update_cache cfg kq 0 = k1 at huc ⊢
  have h1s : k1.metairq_preempted = NULL := by
    rw [huc.2.1]
    exact update_metairq_preempt_null_of_preempt cfg kq H hqs hqp
  have h1r : k1.runq = H :: L :: rest := by rw [huc.2.2.2.2.1, hqr]
  have h1q : (({ k1 with current := k1.cache } : Kernel).threads H).thread_state.QUEUED = true := by
    show (k1.threads H).thread_state.QUEUED = true
    rw [huc.2.2.2.2.2, hqt, Function.update_same]
  have h2c : ({ k1 with current := k1.cache } : Kernel).current = H := huc.1
  have hun : unready_thread cfg ({ k1 with current := k1.cache } : Kernel) H =
      update_cache cfg (dequeue_thread cfg ({ k1 with current := k1.cache } : Kernel) H) 1 := by
    rw [unready_thread_queued cfg ({ k1 with current := k1.cache } : Kernel) H h1q, h2c, if_pos rfl]
  generalize hkd : dequeue_thread cfg ({ k1 with current := k1.cache } : Kernel) H = kd at hun
  have hdf := dequeue_thread_fields cfg ({ k1 with current := k1.cache } : Kernel) H hsmp
  rw [hkd] at hdf
  have hHr' : H ∉ L :: rest := by
    rw [← hrunq]
    exact hHn
  have hdr : kd.runq = L :: rest := by
    rw [hdf.2.2.2.2.2]
    show z_priq_dumb_remove k1.runq H = L :: rest
    rw [h1r]
    exact z_priq_dumb_remove_head H (L :: rest) hHr'
  have hds : kd.metairq_preempted = NULL := by
    rw [hdf.2.1]
    exact h1s
  have hnu2 : next_up cfg kd = (L, kd) :=
    next_up_of_slot_null cfg kd L rest hmask hdr hL0 hds
  have huc2 := update_cache_chosen cfg kd 1 L hsmp hnu2 (should_preempt_of_ok cfg kd L)
  refine ⟨huc.1, ?_, h1r, h2c, ?_, ?_, ?_⟩
  · unfold need_swap
    rw [huc.1, huc.2.2.1, hqc]
    simp [hsmp, hHL]
  · rw [hun]
    exact huc2.1
  · rw [hun, huc2.2.2.2.2.1, hdr]
  · rw [add_to_waitq_locked_cache, hun]
    exact huc2.1

theorem priority_preemption_witness :
    is_preempt (k_preempt.threads 1) = true ∧
    z_is_thread_ready (k_preempt.threads 2) = true ∧
    (ready_thread cfg_deadline k_preempt 2).cache = 2 ∧
    (unready_thread cfg_deadline (z_swap cfg_deadline (ready_thread cfg_deadline k_preempt 2)) 2).cache = 1 :=
  ⟨by decide, by decide,
    (priority_preemption cfg_deadline k_preempt 1 2 [] none rfl rfl rfl rfl (by decide) rfl
      rfl (by decide) (by decide) (by decide) (by decide) (by decide) (by decide)).1,
    (priority_preemption cfg_deadline k_preempt 1 2 [] none rfl rfl rfl rfl (by decide) rfl
      rfl (by decide) (by decide) (by decide) (by decide) (by decide) (by decide)).2.2.2.2.1⟩

/-! ## The timeout handler -/

theorem z_thread_timeout_eq (cfg : Config) (k : Kernel) (t : Tid)
    (hd : (k.threads t).thread_state.DEAD = false)
    (ha : (k.threads t).thread_state.ABORTING = false) :
    z_thread_timeout cfg k t = ready_thread cfg (timeout_release k t) t := by
  have hk : (!((k.threads t).thread_state.DEAD || (k.threads t).thread_state.ABORTING)) =
      true := by simp [hd, ha]
  unfold z_thread_timeout
  dsimp only
  rw [if_pos hk]
  by_cases hp : (k.threads t).pended_on ≠ none
  · rw [if_pos hp]
    have he : z_mark_thread_as_not_suspended
        (z_mark_thread_as_started (unpend_thread_no_timeout k t) t) t = timeout_release k t := by
      rw [unpend_thread_no_timeout_eq]
      unfold z_mark_thread_as_started z_mark_thread_as_not_suspended Kernel.upd_state Kernel.upd
        timeout_release
      simp [hp]
    rw [he]
  · rw [if_neg hp]
    have hn : (k.threads t).pended_on = none := not_not.mp hp
    have he : z_mark_thread_as_not_suspended (z_mark_thread_as_started k t) t =
        timeout_release k t := by
      unfold z_mark_thread_as_started z_mark_thread_as_not_suspended Kernel.upd_state Kernel.upd
        timeout_release
      simp [hn]
    rw [he]

/-- C18 as stated fails: for a thread that is `PENDING` with `pended_on` NULL
(the state left by pending with a NULL wait queue) and neither `DEAD` nor
`ABORTING`, the handler leaves `PENDING` set, and the thread is not readied. -/
theorem z_thread_timeout_pending_counterexample :
    (k_pended_null.threads 2).thread_state.DEAD = false ∧
    (k_pended_null.threads 2).thread_state.ABORTING = false ∧
    (k_pended_null.threads 2).thread_state.PENDING = true ∧
    (k_pended_null.threads 2).pended_on = none ∧
    ((z_thread_timeout cfg_deadline k_pended_null 2).threads 2).thread_state.PENDING = true ∧
    (z_thread_timeout cfg_deadline k_pended_null 2).runq = [] := by
  decide

/-- C18 (amended): `z_thread_timeout(thread)` leaves the whole state unchanged
when the thread is `DEAD` or `ABORTING`.  Otherwise it applies `ready_thread`
to the state in which `PRESTART` and `SUSPENDED` of the thread are cleared,
`pended_on` is NULL and, only when `pended_on` was non-NULL, the thread is
unlinked from its wait queue and `PENDING` is cleared; with `pended_on` NULL
the `PENDING` bit and the queues are left as they are.  No other thread's
record changes before `ready_thread` runs. -/
theorem z_thread_timeout_spec (cfg : Config) (k : Kernel) (t : Tid) :
    (((k.threads t).thread_state.DEAD = true ∨ (k.threads t).thread_state.ABORTING = true) →
      z_thread_timeout cfg k t = k) ∧
    ((k.threads t).thread_state.DEAD = false → (k.threads t).thread_state.ABORTING = false →
      z_thread_timeout cfg k t = ready_thread cfg (timeout_release k t) t ∧
      ((timeout_release k t).threads t).thread_state.PRESTART = false ∧
      ((timeout_release k t).threads t).thread_state.SUSPENDED = false ∧
      ((timeout_release k t).threads t).pended_on = none ∧
      (∀ x, x ≠ t → (timeout_release k t).threads x = k.threads x) ∧
      ((k.threads t).pended_on ≠ none →
        ((timeout_release k t).threads t).thread_state.PENDING = false ∧
        (∀ w, t ∉ (timeout_release k t).waitq w) ∧
        (∀ w, (timeout_release k t).waitq w = z_priq_dumb_remove (k.waitq w) t)) ∧
      ((k.threads t).pended_on = none →
        ((timeout_release k t).threads t).thread_state.PENDING =
          (k.threads t).thread_state.PENDING ∧
        (timeout_release k t).waitq = k.waitq ∧ (timeout_release k t).runq = k.runq)) := by
  refine ⟨?_, ?_⟩
  · intro h
    unfold z_thread_timeout
    rcases h with h | h <;> simp [h]
  · intro hd ha
    refine ⟨z_thread_timeout_eq cfg k t hd ha, ?_, ?_, ?_, ?_, ?_, ?_⟩
    · simp [timeout_release]
    · simp [timeout_release]
    · simp [timeout_release]
    · intro x hx
      simp [timeout_release, Function.update_noteq hx]
    · intro hp
      refine ⟨by simp [timeout_release, hp], ?_, ?_⟩
      · intro w hw
        have : t ∈ (k.unlink t).waitq w := by simpa [timeout_release, hp] using hw
        exact ((mem_unlink_waitq k t t w).mp this).2 rfl
      · intro w
        simp [timeout_release, hp, Kernel.unlink]
    · intro hp
      simp [timeout_release, hp]

theorem z_thread_timeout_spec_witness :
    ((z_thread_timeout cfg_deadline k_pended 2).threads 2).thread_state.PENDING = false ∧
    (z_thread_timeout cfg_deadline k_pended 2).runq = [2] ∧
    z_thread_timeout cfg_deadline k_pended 2 =
      ready_thread cfg_deadline (timeout_release k_pended 2) 2 :=
  ⟨by decide, by decide,
    ((z_thread_timeout_spec cfg_deadline k_pended 2).2 (by decide) (by decide)).1⟩

/-! ## Taking the first waiter off a wait queue -/

/-- C19: `z_unpend_first_thread(wait_q)`, for a wait queue without NULL
entries whose members are on the queue once and not on the run queue.  On an
empty queue it returns NULL and changes no state.  On a non-empty queue it
returns the thread `_priq_wait_best` selects, the head of the list (maximal
under `z_sched_prio_cmp` when the list is ordered); afterwards that thread is
no longer in the queue, has `PENDING` clear, `pended_on` NULL and no timeout,
its `QUEUED` bit and the run queue are as before, the other waiters keep their
order, and no other thread's record changes. -/
theorem z_unpend_first_thread_spec (cfg : Config) (k : Kernel) (w : WaitQ)
    (h0 : NULL ∉ k.waitq w) (hn : (k.waitq w).Nodup) (hx : ∀ x ∈ k.waitq w, x ∉ k.runq) :
    (k.waitq w = [] → z_unpend_first_thread k w = (NULL, k)) ∧
    (∀ x rest, k.waitq w = x :: rest →
      (z_unpend_first_thread k w).1 = x ∧
      x = z_priq_dumb_best (k.waitq w) ∧
      ((k.waitq w).Pairwise
          (fun a b => 0 ≤ z_sched_prio_cmp cfg (k.threads a) (k.threads b)) →
        ∀ u ∈ k.waitq w, 0 ≤ z_sched_prio_cmp cfg (k.threads x) (k.threads u)) ∧
      (z_unpend_first_thread k w).2.waitq w = rest ∧
      x ∉ (z_unpend_first_thread k w).2.waitq w ∧
      ((z_unpend_first_thread k w).2.threads x).thread_state.PENDING = false ∧
      ((z_unpend_first_thread k w).2.threads x).pended_on = none ∧
      ((z_unpend_first_thread k w).2.threads x).timeout_active = false ∧
      ((z_unpend_first_thread k w).2.threads x).thread_state.QUEUED =
        (k.threads x).thread_state.QUEUED ∧
      (z_unpend_first_thread k w).2.runq = k.runq ∧
      (∀ y, y ≠ x → (z_unpend_first_thread k w).2.threads y = k.threads y)) := by
  refine ⟨?_, ?_⟩
  · intro he
    unfold z_unpend_first_thread
    simp [he, z_priq_dumb_best]
  · intro x rest hw
    have hb : z_priq_dumb_best (k.waitq w) = x := by rw [hw]; rfl
    have hxm : x ∈ k.waitq w := by rw [hw]; exact List.mem_cons_self x rest
    have hxne : x ≠ NULL := fun h => h0 (h ▸ hxm)
    have hxr : x ∉ rest := by
      rw [hw] at hn
      exact (List.nodup_cons.mp hn).1
    have hr : z_unpend_first_thread k w =
        (x, z_abort_thread_timeout (unpend_thread_no_timeout k x) x) := by
      unfold z_unpend_first_thread
      simp only [hb]
      rw [if_pos hxne]
    have hwq : (z_abort_thread_timeout (unpend_thread_no_timeout k x) x).waitq w = rest := by
      rw [unpend_abort_eq]
      show z_priq_dumb_remove (k.waitq w) x = rest
      rw [hw]
      exact z_priq_dumb_remove_head x rest hxr
    rw [hr]
    refine ⟨rfl, hb.symm, ?_, hwq, ?_, ?_, ?_, ?_, ?_, ?_, ?_⟩
    · intro hs u hu
      have h1 := (z_priq_dumb_best_spec cfg k.threads (k.waitq w) hs h0).2
        (by rw [hw]; exact List.cons_ne_nil x rest)
      rw [hb] at h1
      exact h1.2 u hu
    · show x ∉ (z_abort_thread_timeout (unpend_thread_no_timeout k x) x).waitq w
      rw [hwq]
      exact hxr
    · rw [unpend_abort_eq]
      simp
    · rw [unpend_abort_eq]
      simp
    · rw [unpend_abort_eq]
      simp
    · rw [unpend_abort_eq]
      simp
    · rw [unpend_abort_eq]
      show z_priq_dumb_remove k.runq x = k.runq
      exact z_priq_dumb_remove_of_not_mem k.runq x (hx x hxm)
    · intro y hy
      rw [unpend_abort_eq]
      simp [Function.update_noteq hy]

theorem z_unpend_first_thread_spec_witness :
    NULL ∉ k_pended.waitq (WaitQ.obj 0) ∧ (k_pended.waitq (WaitQ.obj 0)).Nodup ∧
    (z_unpend_first_thread k_pended (WaitQ.obj 0)).1 = 2 ∧
    (z_unpend_first_thread k_pended (WaitQ.obj 0)).2.waitq (WaitQ.obj 0) = [] ∧
    z_unpend_first_thread k_clean (WaitQ.obj 0) = (NULL, k_clean) :=
  ⟨by decide, by decide,
    ((z_unpend_first_thread_spec cfg_deadline k_pended (WaitQ.obj 0) (by decide) (by decide)
      (by decide)).2 2 [] rfl).1,
    ((z_unpend_first_thread_spec cfg_deadline k_pended (WaitQ.obj 0) (by decide) (by decide)
      (by decide)).2 2 [] rfl).2.2.2.1,
    (z_unpend_first_thread_spec cfg_deadline k_clean (WaitQ.obj 0) (by decide) (by decide)
      (by decide)).1 rfl⟩

/-! ## Waking the first waiter -/

/-- The state in which `z_sched_wake` applies `ready_thread`. -/
theorem z_sched_wake_pre_eq (k : Kernel) (x : Tid) (rv : Int) (d : Nat) :
    z_abort_thread_timeout
        (unpend_thread_no_timeout (z_thread_return_value_set_with_data k x rv d) x) x =
      { k.unlink x with
        threads := Function.update k.threads x
          { k.threads x with
            thread_state := { (k.threads x).thread_state with PENDING := false },
            pended_on := none, timeout_active := false, swap_retval := rv, swap_data := d } } := by
  rw [unpend_abort_eq]
  unfold z_thread_return_value_set_with_data Kernel.upd Kernel.unlink
  simp

/-- C20 as stated fails for a waiter that is also suspended: in `k_pended_suspended`
the wait queue of object 0 holds thread 2; `z_sched_wake` returns true and
takes the thread off the wait queue, but the thread is not put on the run
queue and its `QUEUED` bit stays clear. -/
theorem z_sched_wake_suspended_counterexample :
    k_pended_suspended.waitq (WaitQ.obj 0) = [2] ∧
    (z_sched_wake cfg_deadline k_pended_suspended (WaitQ.obj 0) 0 0).1 = true ∧
    (z_sched_wake cfg_deadline k_pended_suspended (WaitQ.obj 0) 0 0).2.waitq (WaitQ.obj 0) = [] ∧
    2 ∉ (z_sched_wake cfg_deadline k_pended_suspended (WaitQ.obj 0) 0 0).2.runq ∧
    ((z_sched_wake cfg_deadline k_pended_suspended (WaitQ.obj 0) 0 0).2.threads 2).thread_state.QUEUED
      = false := by
  decide

/-- C20 (amended): `z_sched_wake(wait_q, swap_retval, swap_data)`, for a wait
queue without NULL entries whose members are on the queue once.  On an empty
queue it returns false and changes no state.  Otherwise it returns true;
exactly the best waiter (the head) is removed from the queue, with `PENDING`
clear, `pended_on` NULL, no timeout, and `swap_retval` and `swap_data` set to
the arguments; no other thread's record changes.  The thread has `QUEUED` set
afterwards iff it was set before or no other state bit (`PRESTART`, `DEAD`,
`DUMMY`, `SUSPENDED`) blocks it, and, on a uniprocessor or when it is not the
current thread, it is on the run queue afterwards iff `QUEUED` was clear and no
other state bit blocks it. -/
theorem z_sched_wake_spec (cfg : Config) (k : Kernel) (w : WaitQ) (rv : Int) (d : Nat)
    (h0 : NULL ∉ k.waitq w) (hn : (k.waitq w).Nodup) :
    (k.waitq w = [] → z_sched_wake cfg k w rv d = (false, k)) ∧
    (∀ x rest, k.waitq w = x :: rest →
      (z_sched_wake cfg k w rv d).1 = true ∧
      x = z_priq_dumb_best (k.waitq w) ∧
      (z_sched_wake cfg k w rv d).2.waitq w = rest ∧
      x ∉ (z_sched_wake cfg k w rv d).2.waitq w ∧
      ((z_sched_wake cfg k w rv d).2.threads x).thread_state.PENDING = false ∧
      ((z_sched_wake cfg k w rv d).2.threads x).pended_on = none ∧
      ((z_sched_wake cfg k w rv d).2.threads x).timeout_active = false ∧
      ((z_sched_wake cfg k w rv d).2.threads x).swap_retval = rv ∧
      ((z_sched_wake cfg k w rv d).2.threads x).swap_data = d ∧
      (∀ y, y ≠ x → (z_sched_wake cfg k w rv d).2.threads y = k.threads y) ∧
      (((z_sched_wake cfg k w rv d).2.threads x).thread_state.QUEUED = true ↔
        ((k.threads x).thread_state.QUEUED = true ∨ no_other_block (k.threads x) = true)) ∧
      ((cfg.SMP = false ∨ x ≠ k.current) →
        (x ∈ (z_sched_wake cfg k w rv d).2.runq ↔
          ((k.threads x).thread_state.QUEUED = false ∧ no_other_block (k.threads x) = true)))) := by
  refine ⟨?_, ?_⟩
  · intro he
    unfold z_sched_wake
    simp [he, z_priq_dumb_best]
  · intro x rest hw
    have hb : z_priq_dumb_best (k.waitq w) = x := by rw [hw]; rfl
    have hxm : x ∈ k.waitq w := by rw [hw]; exact List.mem_cons_self x rest
    have hxne : x ≠ NULL := fun h => h0 (h ▸ hxm)
    have hxr : x ∉ rest := by
      rw [hw] at hn
      exact (List.nodup_cons.mp hn).1
    have hr : z_sched_wake cfg k w rv d =
        (true, ready_thread cfg (z_abort_thread_timeout
          (unpend_thread_no_timeout (z_thread_return_value_set_with_data k x rv d) x) x) x) := by
      unfold z_sched_wake
      simp only [hb]
      rw [if_pos hxne]
    rw [hr, z_sched_wake_pre_eq]
    generalize hk3 : ({ k.unlink x with
        threads := Function.update k.threads x
          { k.threads x with
            thread_state := { (k.threads x).thread_state with PENDING := false },
            pended_on := none, timeout_active := false, swap_retval := rv, swap_data := d } }
        : Kernel) = k3
    have h3t : k3.threads x = { k.threads x with
            thread_state := { (k.threads x).thread_state with PENDING := false },
            pended_on := none, timeout_active := false, swap_retval := rv, swap_data := d } := by
      rw [← hk3]
      simp
    have h3o : ∀ y, y ≠ x → k3.threads y = k.threads y := by
      intro y hy
      rw [← hk3]
      simp [Function.update_noteq hy]
    have h3w : k3.waitq w = rest := by
      rw [← hk3]
      show z_priq_dumb_remove (k.waitq w) x = rest
      rw [hw]
      exact z_priq_dumb_remove_head x rest hxr
    have h3r : x ∉ k3.runq := by
      rw [← hk3]
      intro hm
      exact ((mem_unlink_runq k x x).mp hm).2 rfl
    have h3c : k3.current = k.current := by
      rw [← hk3]
      rfl
    have h3q : (k3.threads x).thread_state.QUEUED = (k.threads x).thread_state.QUEUED := by
      rw [h3t]
    have h3ready : z_is_thread_ready (k3.threads x) = no_other_block (k.threads x) := by
      rw [h3t]
      simp [z_is_thread_ready, z_is_thread_prevented_from_running, z_is_thread_timeout_active,
        no_other_block]
    have hu : ((ready_thread cfg k3 x).threads x).unqueued = (k3.threads x).unqueued :=
      ready_thread_unqueued cfg k3 x x
    have hu1 := congrArg (fun a => a.thread_state.PENDING) hu
    have hu2 := congrArg (fun a => a.pended_on) hu
    have hu3 := congrArg (fun a => a.timeout_active) hu
    have hu4 := congrArg (fun a => a.swap_retval) hu
    have hu5 := congrArg (fun a => a.swap_data) hu
    simp only [k_thread.unqueued] at hu1 hu2 hu3 hu4 hu5
    refine ⟨rfl, hb.symm, ?_, ?_, ?_, ?_, ?_, ?_, ?_, ?_, ?_, ?_⟩
    · show (ready_thread cfg k3 x).waitq w = rest
      rw [ready_thread_waitq, h3w]
    · show x ∉ (ready_thread cfg k3 x).waitq w
      rw [ready_thread_waitq, h3w]
      exact hxr
    · show ((ready_thread cfg k3 x).threads x).thread_state.PENDING = false
      rw [hu1, h3t]
    · show ((ready_thread cfg k3 x).threads x).pended_on = none
      rw [hu2, h3t]
    · show ((ready_thread cfg k3 x).threads x).timeout_active = false
      rw [hu3, h3t]
    · show ((ready_thread cfg k3 x).threads x).swap_retval = rv
      rw [hu4, h3t]
    · show ((ready_thread cfg k3 x).threads x).swap_data = d
      rw [hu5, h3t]
    · intro y hy
      show (ready_thread cfg k3 x).threads y = k.threads y
      rw [ready_thread_threads_other cfg k3 x y hy, h3o y hy]
    · show ((ready_thread cfg k3 x).threads x).thread_state.QUEUED = true ↔ _
      rw [ready_thread_queued_iff, h3q, h3ready]
    · intro hs
      show x ∈ (ready_thread cfg k3 x).runq ↔ _
      rw [mem_ready_thread_runq cfg k3 x (by rw [h3c]; exact hs) h3r, h3q, h3ready]

theorem z_sched_wake_spec_witness :
    NULL ∉ k_pended.waitq (WaitQ.obj 0) ∧ (k_pended.waitq (WaitQ.obj 0)).Nodup ∧
    (z_sched_wake cfg_deadline k_pended (WaitQ.obj 0) 7 3).1 = true ∧
    (2 ∈ (z_sched_wake cfg_deadline k_pended (WaitQ.obj 0) 7 3).2.runq ↔
      ((k_pended.threads 2).thread_state.QUEUED = false ∧
        no_other_block (k_pended.threads 2) = true)) ∧
    2 ∈ (z_sched_wake cfg_deadline k_pended (WaitQ.obj 0) 7 3).2.runq :=
  ⟨by decide, by decide,
    ((z_sched_wake_spec cfg_deadline k_pended (WaitQ.obj 0) 7 3 (by decide) (by decide)).2
      2 [] rfl).1,
    ((z_sched_wake_spec cfg_deadline k_pended (WaitQ.obj 0) 7 3 (by decide) (by decide)).2
      2 [] rfl).2.2.2.2.2.2.2.2.2.2.2 (Or.inl rfl),
    by decide⟩

/-! ## Joining a thread -/

/-- C23: `z_impl_k_thread_join(thread, timeout)` decides its non-blocking
results in this order: 0 when the thread is `DEAD`, for every timeout;
otherwise `-EBUSY` when the timeout is `K_NO_WAIT` (also for
`thread == _current`); otherwise `-EDEADLK` when `thread == _current` or the
thread is pended on the join queue of `_current`.  In these three cases the
state is unchanged.  In the remaining case, and only then, `_current` is pended
on the join queue of the thread (`PENDING` set, `pended_on` naming the queue,
member of the queue), its timeout is armed unless the timeout is `K_FOREVER`,
and the call enters `z_swap`. -/
theorem z_impl_k_thread_join_spec (cfg : Config) (k : Kernel) (thread : Tid) (timeout : Int) :
    ((k.threads thread).thread_state.DEAD = true →
      z_impl_k_thread_join cfg k thread timeout = (some 0, k)) ∧
    ((k.threads thread).thread_state.DEAD = false → timeout = K_NO_WAIT →
      z_impl_k_thread_join cfg k thread timeout = (some (-EBUSY), k)) ∧
    ((k.threads thread).thread_state.DEAD = false → timeout ≠ K_NO_WAIT →
      (thread = k.current ∨ (k.threads thread).pended_on = some (WaitQ.join k.current)) →
      z_impl_k_thread_join cfg k thread timeout = (some (-EDEADLK), k)) ∧
    ((k.threads thread).thread_state.DEAD = false → timeout ≠ K_NO_WAIT →
      thread ≠ k.current → (k.threads thread).pended_on ≠ some (WaitQ.join k.current) →
      (z_impl_k_thread_join cfg k thread timeout).1 = none ∧
      (z_impl_k_thread_join cfg k thread timeout).2 =
        add_thread_timeout (add_to_waitq_locked cfg k k.current (some (WaitQ.join thread)))
          k.current (decide (timeout = K_FOREVER)) ∧
      ((z_impl_k_thread_join cfg k thread timeout).2.threads k.current).thread_state.PENDING
        = true ∧
      ((z_impl_k_thread_join cfg k thread timeout).2.threads k.current).pended_on =
        some (WaitQ.join thread) ∧
      k.current ∈ (z_impl_k_thread_join cfg k thread timeout).2.waitq (WaitQ.join thread) ∧
      (timeout ≠ K_FOREVER →
        ((z_impl_k_thread_join cfg k thread timeout).2.threads k.current).timeout_active
          = true)) := by
  refine ⟨?_, ?_, ?_, ?_⟩
  · intro hd
    unfold z_impl_k_thread_join
    rw [if_pos hd]
  · intro hd ht
    unfold z_impl_k_thread_join
    rw [if_neg (by rw [hd]; simp), if_pos ht]
  · intro hd ht hc
    unfold z_impl_k_thread_join
    rw [if_neg (by rw [hd]; simp), if_neg ht, if_pos hc]
  · intro hd ht hc hp
    have hno : ¬ (thread = k.current ∨
        (k.threads thread).pended_on = some (WaitQ.join k.current)) := by
      rintro (h | h)
      · exact hc h
      · exact hp h
    have hr : z_impl_k_thread_join cfg k thread timeout =
        (none, add_thread_timeout
          (add_to_waitq_locked cfg k k.current (some (WaitQ.join thread))) k.current
          (decide (timeout = K_FOREVER))) := by
      unfold z_impl_k_thread_join
      rw [if_neg (by rw [hd]; simp), if_neg ht, if_neg hno]
      dsimp only
      rw [add_to_waitq_locked_current]
    rw [hr]
    have hts := add_to_waitq_locked_threads_some cfg k k.current (WaitQ.join thread)
    obtain ⟨th, hth⟩ := add_to_waitq_locked_waitq_some cfg k k.current (WaitQ.join thread)
    refine ⟨rfl, rfl, ?_, ?_, ?_, ?_⟩
    · unfold add_thread_timeout z_add_thread_timeout
      split_ifs
      · rw [upd_threads_same, hts]
      · rw [hts]
    · unfold add_thread_timeout z_add_thread_timeout
      split_ifs
      · rw [upd_threads_same, hts]
      · rw [hts]
    · have hw : (add_thread_timeout
          (add_to_waitq_locked cfg k k.current (some (WaitQ.join thread))) k.current
          (decide (timeout = K_FOREVER))).waitq =
          (add_to_waitq_locked cfg k k.current (some (WaitQ.join thread))).waitq := by
        unfold add_thread_timeout z_add_thread_timeout
        split_ifs <;> rfl
      rw [hw, hth, Function.update_same, mem_z_priq_dumb_add]
      exact Or.inl rfl
    · intro hf
      unfold add_thread_timeout z_add_thread_timeout
      rw [if_pos (by simp [hf])]
      rw [upd_threads_same]

theorem z_impl_k_thread_join_spec_witness :
    z_impl_k_thread_join cfg_deadline k_clean 2 K_NO_WAIT = (some (-EBUSY), k_clean) ∧
    z_impl_k_thread_join cfg_deadline k_clean 1 5 = (some (-EDEADLK), k_clean) ∧
    (z_impl_k_thread_join cfg_deadline k_clean 2 K_FOREVER).1 = none :=
  ⟨(z_impl_k_thread_join_spec cfg_deadline k_clean 2 K_NO_WAIT).2.1 (by decide) rfl,
    (z_impl_k_thread_join_spec cfg_deadline k_clean 1 5).2.2.1 (by decide) (by decide)
      (Or.inl rfl),
    ((z_impl_k_thread_join_spec cfg_deadline k_clean 2 K_FOREVER).2.2.2 (by decide)
      (by decide) (by decide) (by decide)).1⟩

/-! ## Setting the time slice -/

theorem z_reset_time_slice_eq (k : Kernel) :
    z_reset_time_slice k =
      { k with slice_ticks := if k.slice_time ≠ 0 then k.slice_time + k.clock_elapsed
                              else k.slice_ticks } := by
  unfold z_reset_time_slice
  split_ifs <;> rfl

/-- C26 as stated fails for `slice == 0` on a tickless kernel: the clamp is
applied only when `slice > 0`, and the call that switches time slicing off
leaves `slice_time == 0`. -/
theorem k_sched_time_slice_set_counterexample :
    cfg_tickless.TICKLESS_KERNEL = true ∧
    (k_sched_time_slice_set cfg_tickless 100 k_clean 0 5).slice_time = 0 ∧
    ¬ 2 ≤ (k_sched_time_slice_set cfg_tickless 100 k_clean 0 5).slice_time := by
  decide

/-- C26 (amended): `k_sched_time_slice_set(slice, prio)` sets
`slice_max_prio = prio` and `slice_time` to the ceil-converted ticks of `slice`
milliseconds; on a tickless kernel and for `slice > 0` the value is clamped to
a minimum of 2, `slice_time == max(2, ticks(slice))`, hence `slice_time >= 2`
after every such call; for `slice <= 0`, and on a kernel with regular ticks,
`slice_time` is the converted value itself.  The CPU's `slice_ticks` is first
zeroed and then set by `z_reset_time_slice`: it is `slice_time` plus the
elapsed ticks when `slice_time` is nonzero and 0 otherwise.  Nothing else
changes. -/
theorem k_sched_time_slice_set_spec (cfg : Config) (hz : Nat) (k : Kernel) (slice prio : Int) :
    (k_sched_time_slice_set cfg hz k slice prio).slice_max_prio = prio ∧
    (cfg.TICKLESS_KERNEL = true → 0 < slice →
      (k_sched_time_slice_set cfg hz k slice prio).slice_time =
        max 2 (k_ms_to_ticks_ceil32 hz slice) ∧
      2 ≤ (k_sched_time_slice_set cfg hz k slice prio).slice_time) ∧
    ((cfg.TICKLESS_KERNEL = false ∨ slice ≤ 0) →
      (k_sched_time_slice_set cfg hz k slice prio).slice_time = k_ms_to_ticks_ceil32 hz slice) ∧
    (k_sched_time_slice_set cfg hz k slice prio).slice_ticks =
      (if (k_sched_time_slice_set cfg hz k slice prio).slice_time ≠ 0 then
        (k_sched_time_slice_set cfg hz k slice prio).slice_time + k.clock_elapsed
      else 0) ∧
    k_sched_time_slice_set cfg hz k slice prio =
      { k with slice_max_prio := (k_sched_time_slice_set cfg hz k slice prio).slice_max_prio,
               slice_time := (k_sched_time_slice_set cfg hz k slice prio).slice_time,
               slice_ticks := (k_sched_time_slice_set cfg hz k slice prio).slice_ticks } := by
  have hres : ∀ T, T = (if (cfg.TICKLESS_KERNEL && decide (slice > 0)) = true then
        max 2 (k_ms_to_ticks_ceil32 hz slice) else k_ms_to_ticks_ceil32 hz slice) →
      k_sched_time_slice_set cfg hz k slice prio =
        { k with slice_max_prio := prio, slice_time := T,
                 slice_ticks := if T ≠ 0 then T + k.clock_elapsed else 0 } := by
    intro T hT
    unfold k_sched_time_slice_set
    dsimp only
    rw [z_reset_time_slice_eq]
    by_cases hc : (cfg.TICKLESS_KERNEL && decide (slice > 0)) = true
    · rw [if_pos hc] at hT
      simp only [hc, if_true]
      rw [hT]
    · rw [if_neg hc] at hT
      simp only [hc, if_false]
      rw [hT]
      simp
  rw [hres _ rfl]
  refine ⟨rfl, ?_, ?_, rfl, rfl⟩
  · intro ht hs
    have hc : (cfg.TICKLESS_KERNEL && decide (slice > 0)) = true := by simp [ht, hs]
    show (if (cfg.TICKLESS_KERNEL && decide (slice > 0)) = true then
        max 2 (k_ms_to_ticks_ceil32 hz slice) else k_ms_to_ticks_ceil32 hz slice) = _ ∧ _
    rw [if_pos hc]
    exact ⟨rfl, le_max_left 2 _⟩
  · intro h
    have hc : ¬ (cfg.TICKLESS_KERNEL && decide (slice > 0)) = true := by
      rcases h with h | h
      · simp [h]
      · simp [not_lt.mpr h]
    show (if (cfg.TICKLESS_KERNEL && decide (slice > 0)) = true then
        max 2 (k_ms_to_ticks_ceil32 hz slice) else k_ms_to_ticks_ceil32 hz slice) = _
    rw [if_neg hc]

theorem k_sched_time_slice_set_spec_witness :
    cfg_tickless.TICKLESS_KERNEL = true ∧ (0 : Int) < 5 ∧
    (k_sched_time_slice_set cfg_tickless 100 k_clean 5 3).slice_time = 2 ∧
    2 ≤ (k_sched_time_slice_set cfg_tickless 100 k_clean 5 3).slice_time :=
  ⟨rfl, by decide, by decide,
    ((k_sched_time_slice_set_spec cfg_tickless 100 k_clean 5 3).2.1 rfl (by decide)).2⟩

/-! ## Changing a priority -/

theorem wrap_int8_of_range (p : Int) (h : int8_range p) : wrap_int8 p = p := by
  unfold int8_range at h
  unfold wrap_int8
  omega

theorem z_set_prio_fst (cfg : Config) (k : Kernel) (t : Tid) (prio : Int) :
    (z_set_prio cfg k t prio).1 = z_is_thread_ready (k.threads t) := by
  unfold z_set_prio
  dsimp only
  split_ifs <;> rfl

theorem z_set_prio_not_ready (cfg : Config) (k : Kernel) (t : Tid) (prio : Int)
    (h : z_is_thread_ready (k.threads t) = false) :
    (z_set_prio cfg k t prio).2 = k.upd t (fun x => { x with prio := wrap_int8 prio }) := by
  unfold z_set_prio
  dsimp only
  rw [if_neg (by rw [h]; simp)]

/-- On SMP a ready thread with `QUEUED` clear gets the new priority without
being requeued. -/
theorem z_set_prio_smp_unqueued (cfg : Config) (k : Kernel) (t : Tid) (prio : Int)
    (hs : cfg.SMP = true) (h : z_is_thread_ready (k.threads t) = true)
    (hq : (k.threads t).thread_state.QUEUED = false) :
    (z_set_prio cfg k t prio).2 =
      update_cache cfg (k.upd t (fun x => { x with prio := wrap_int8 prio })) 1 := by
  unfold z_set_prio
  dsimp only
  rw [if_pos h, if_neg (by simp [hs, z_is_thread_queued, hq])]

/-- On a uniprocessor a ready thread is requeued whatever its `QUEUED` bit. -/
theorem z_set_prio_requeue (cfg : Config) (k : Kernel) (t : Tid) (prio : Int)
    (hs : cfg.SMP = false ∨ (k.threads t).thread_state.QUEUED = true)
    (h : z_is_thread_ready (k.threads t) = true) :
    (z_set_prio cfg k t prio).2 =
      update_cache cfg
        (queue_thread cfg
          ((dequeue_thread cfg k t).upd t (fun x => { x with prio := wrap_int8 prio })) t) 1 := by
  unfold z_set_prio
  dsimp only
  rw [if_pos h, if_pos]
  rcases hs with hs | hs
  · simp [hs]
  · simp [z_is_thread_queued, hs]

/-- C28 as stated fails on a uniprocessor build: a ready thread whose `QUEUED`
bit is clear (thread 2 in `k_clean`) is put on the run queue by `z_set_prio`
and gets `QUEUED` set. -/
theorem z_set_prio_unqueued_counterexample :
    (k_clean.threads 2).thread_state.QUEUED = false ∧
    z_is_thread_ready (k_clean.threads 2) = true ∧ k_clean.runq = [] ∧
    (z_set_prio cfg_deadline k_clean 2 3).2.runq = [2] ∧
    ((z_set_prio cfg_deadline k_clean 2 3).2.threads 2).thread_state.QUEUED = true := by
  decide

/-- C28 (amended): `z_set_prio(thread, prio)` with `prio` in the `int8_t` range
of the field returns true iff `z_is_thread_ready(thread)` held on entry.  On a
thread that is not ready, on every build, and on a ready thread whose `QUEUED`
bit is clear on an SMP build, it just updates the priority: afterwards
`thread->base.prio == prio`, and the run queue, the wait queues, the thread's
`QUEUED` bit and every other thread are exactly as before (for the ready thread
on SMP `swap_ok` is set by `update_cache(1)`).  On a uniprocessor build a ready
thread whose `QUEUED` bit is clear is queued: it has `QUEUED` set and is on the
run queue afterwards. -/
theorem z_set_prio_just_updates (cfg : Config) (k : Kernel) (thread : Tid) (prio : Int)
    (hprio : int8_range prio) :
    ((z_set_prio cfg k thread prio).1 = true ↔ z_is_thread_ready (k.threads thread) = true) ∧
    (z_is_thread_ready (k.threads thread) = false →
      (z_set_prio cfg k thread prio).2 = k.upd thread (fun x => { x with prio := prio })) ∧
    (cfg.SMP = true → z_is_thread_ready (k.threads thread) = true →
      (k.threads thread).thread_state.QUEUED = false →
      (z_set_prio cfg k thread prio).2 =
        { k.upd thread (fun x => { x with prio := prio }) with swap_ok := 1 }) ∧
    ((z_is_thread_ready (k.threads thread) = false ∨
        (cfg.SMP = true ∧ (k.threads thread).thread_state.QUEUED = false)) →
      ((z_set_prio cfg k thread prio).2.threads thread).prio = prio ∧
      ((z_set_prio cfg k thread prio).2.threads thread).thread_state.QUEUED =
        (k.threads thread).thread_state.QUEUED ∧
      (z_set_prio cfg k thread prio).2.runq = k.runq ∧
      (z_set_prio cfg k thread prio).2.waitq = k.waitq ∧
      (∀ y, y ≠ thread → (z_set_prio cfg k thread prio).2.threads y = k.threads y)) ∧
    (cfg.SMP = false → z_is_thread_ready (k.threads thread) = true →
      (k.threads thread).thread_state.QUEUED = false →
      ((z_set_prio cfg k thread prio).2.threads thread).thread_state.QUEUED = true ∧
      thread ∈ (z_set_prio cfg k thread prio).2.runq) := by
  have hw := wrap_int8_of_range prio hprio
  have hnr : z_is_thread_ready (k.threads thread) = false →
      (z_set_prio cfg k thread prio).2 = k.upd thread (fun x => { x with prio := prio }) := by
    intro h
    rw [z_set_prio_not_ready cfg k thread prio h, hw]
  have hsmp : cfg.SMP = true → z_is_thread_ready (k.threads thread) = true →
      (k.threads thread).thread_state.QUEUED = false →
      (z_set_prio cfg k thread prio).2 =
        { k.upd thread (fun x => { x with prio := prio }) with swap_ok := 1 } := by
    intro hs h hq
    rw [z_set_prio_smp_unqueued cfg k thread prio hs h hq, hw]
    unfold update_cache
    rw [if_pos hs]
  refine ⟨by rw [z_set_prio_fst], hnr, hsmp, ?_, ?_⟩
  · intro h
    have hcases : (z_set_prio cfg k thread prio).2 =
          k.upd thread (fun x => { x with prio := prio }) ∨
        (z_set_prio cfg k thread prio).2 =
          { k.upd thread (fun x => { x with prio := prio }) with swap_ok := 1 } := by
      rcases h with h | ⟨hs, hq⟩
      · exact Or.inl (hnr h)
      · cases hr : z_is_thread_ready (k.threads thread)
        · exact Or.inl (hnr hr)
        · exact Or.inr (hsmp hs hr hq)
    rcases hcases with he | he
    · rw [he]
      refine ⟨by rw [upd_threads_same], by rw [upd_threads_same], rfl, rfl, ?_⟩
      intro y hy
      rw [upd_threads_other k thread y _ hy]
    · rw [he]
      refine ⟨?_, ?_, rfl, rfl, ?_⟩
      · show ((k.upd thread (fun x => { x with prio := prio })).threads thread).prio = prio
        rw [upd_threads_same]
      · show ((k.upd thread (fun x => { x with prio := prio })).threads thread
          ).thread_state.QUEUED = _
        rw [upd_threads_same]
      · intro y hy
        show (k.upd thread (fun x => { x with prio := prio })).threads y = k.threads y
        rw [upd_threads_other k thread y _ hy]
  · intro hs h _
    rw [z_set_prio_requeue cfg k thread prio (Or.inl hs) h, update_cache_threads,
      update_cache_runq, queue_thread_threads_any,
      queue_thread_runq_of_should cfg _ thread (Or.inl hs), mem_z_priq_dumb_add]
    exact ⟨by simp, Or.inl rfl⟩

theorem z_set_prio_just_updates_witness :
    int8_range 3 ∧
    z_is_thread_ready (k_pended.threads 2) = false ∧
    (z_set_prio cfg_deadline k_pended 2 3).2 = k_pended.upd 2 (fun x => { x with prio := 3 }) ∧
    (z_set_prio cfg_smp k_clean 2 3).2.runq = k_clean.runq :=
  ⟨by decide, by decide,
    (z_set_prio_just_updates cfg_deadline k_pended 2 3 (by decide)).2.1 (by decide),
    ((z_set_prio_just_updates cfg_smp k_clean 2 3 (by decide)).2.2.2.1
      (Or.inr ⟨rfl, by decide⟩)).2.2.1⟩

/-! ## Requeueing on a priority change -/

theorem deadlines_in_half_space_congr (cfg : Config) (th th' : Tid → k_thread)
    (h : ∀ x, (th' x).prio_deadline = (th x).prio_deadline)
    (hd : deadlines_in_half_space cfg th) : deadlines_in_half_space cfg th' := by
  rcases hd with hd | ⟨base, hb⟩
  · exact Or.inl hd
  · exact Or.inr ⟨base, fun t => by rw [h t]; exact hb t⟩

theorem queue_thread_unqueued_any (cfg : Config) (k : Kernel) (t x : Tid) :
    ((queue_thread cfg k t).threads x).unqueued = (k.threads x).unqueued := by
  rw [queue_thread_threads_any]
  by_cases hx : x = t
  · subst hx
    simp [k_thread.unqueued]
  · rw [Function.update_noteq hx]

/-- The thread table after `z_set_prio` has requeued the thread: the thread
has the new priority and `QUEUED` set, every other record is as before. -/
theorem z_set_prio_requeue_threads (cfg : Config) (k : Kernel) (t : Tid) (prio : Int)
    (hs : cfg.SMP = false ∨ (k.threads t).thread_state.QUEUED = true)
    (h : z_is_thread_ready (k.threads t) = true) :
    (z_set_prio cfg k t prio).2.threads =
      Function.update k.threads t
        { k.threads t with
          thread_state := { (k.threads t).thread_state with QUEUED := true },
          prio := wrap_int8 prio } := by
  rw [z_set_prio_requeue cfg k t prio hs h, update_cache_threads, queue_thread_threads_any]
  unfold Kernel.upd
  simp [dequeue_thread_threads_any]

theorem z_set_prio_requeue_runq (cfg : Config) (k : Kernel) (t : Tid) (prio : Int)
    (hS : cfg.SMP = false ∨ t ≠ k.current)
    (hs : cfg.SMP = false ∨ (k.threads t).thread_state.QUEUED = true)
    (h : z_is_thread_ready (k.threads t) = true) :
    (z_set_prio cfg k t prio).2.runq =
      z_priq_dumb_add cfg (z_set_prio cfg k t prio).2.threads (z_priq_dumb_remove k.runq t) t := by
  have hc : ((dequeue_thread cfg k t).upd t
      (fun x => { x with prio := wrap_int8 prio })).current = k.current :=
    dequeue_thread_current cfg k t
  have hun : ∀ x, ((z_set_prio cfg k t prio).2.threads x).unqueued =
      (((dequeue_thread cfg k t).upd t
        (fun x => { x with prio := wrap_int8 prio })).threads x).unqueued := by
    intro x
    rw [z_set_prio_requeue cfg k t prio hs h, update_cache_threads]
    exact queue_thread_unqueued_any cfg _ t x
  rw [z_priq_dumb_add_congr cfg _ _ hun]
  rw [z_set_prio_requeue cfg k t prio hs h, update_cache_runq,
    queue_thread_runq_of_should cfg _ t (by rw [hc]; exact hS)]
  show z_priq_dumb_add cfg _ (dequeue_thread cfg k t).runq t = _
  rw [(dequeue_thread_lists_of_should cfg k t hS).1]

/-- C27 as stated fails with deadline scheduling: threads of equal priority
are ordered by deadline.  In `k_rr_deadline` thread 1 is ready and queued and
has the earlier deadline; `z_set_prio(1, 5)` re-inserts it ahead of thread 2,
a resident of equal priority. -/
theorem z_set_prio_position_counterexample :
    z_is_thread_ready (k_rr_deadline.threads 1) = true ∧
    (k_rr_deadline.threads 1).thread_state.QUEUED = true ∧
    k_rr_deadline.runq = [1, 2] ∧
    ((z_set_prio cfg_deadline k_rr_deadline 1 5).2.threads 1).prio =
      ((z_set_prio cfg_deadline k_rr_deadline 1 5).2.threads 2).prio ∧
    (z_set_prio cfg_deadline k_rr_deadline 1 5).2.runq = [1, 2] := by
  decide

/-- C27 (amended): `z_set_prio(thread, prio)` on a thread that is ready and
queued, on a uniprocessor build or for a thread other than `_current`, with
`prio` and all priorities in the `int8_t` range, deadline scheduling off or all
deadlines in one half of the 32-bit space, and a run queue that is ordered and
holds each thread once.  The call returns true; it is `dequeue_thread`, the
store of the priority and `queue_thread`, followed by `update_cache(1)`.
Afterwards `thread->base.prio == prio`, the thread's record is otherwise as
before (`QUEUED` set) and no other thread's record changed; the thread is on
the run queue exactly once, the other threads keep their order, everything in
front of the thread is not lower than it under `z_sched_prio_cmp` and
everything behind it is lower, so that it is placed behind all residents of
equal priority and equal deadline and ahead of all of lower priority; the
queue is ordered by `z_sched_prio_cmp`. -/
theorem z_set_prio_requeues (cfg : Config) (k : Kernel) (thread : Tid) (prio : Int)
    (hS : cfg.SMP = false ∨ thread ≠ k.current) (hprio : int8_range prio)
    (hwf : ∀ x, (k.threads x).wf) (hdl : deadlines_in_half_space cfg k.threads)
    (hs : k.runq.Pairwise (fun a b => 0 ≤ z_sched_prio_cmp cfg (k.threads a) (k.threads b)))
    (hn : k.runq.Nodup) (hr : z_is_thread_ready (k.threads thread) = true)
    (hq : (k.threads thread).thread_state.QUEUED = true) :
    (z_set_prio cfg k thread prio).1 = true ∧
    (z_set_prio cfg k thread prio).2 =
      update_cache cfg
        (queue_thread cfg
          ((dequeue_thread cfg k thread).upd thread (fun x => { x with prio := prio })) thread)
        1 ∧
    (z_set_prio cfg k thread prio).2.threads thread = { k.threads thread with prio := prio } ∧
    (∀ y, y ≠ thread → (z_set_prio cfg k thread prio).2.threads y = k.threads y) ∧
    thread ∈ (z_set_prio cfg k thread prio).2.runq ∧
    (z_set_prio cfg k thread prio).2.runq.Nodup ∧
    (z_set_prio cfg k thread prio).2.runq.Pairwise
      (fun a b => 0 ≤ z_sched_prio_cmp cfg ((z_set_prio cfg k thread prio).2.threads a)
        ((z_set_prio cfg k thread prio).2.threads b)) ∧
    ∃ l1 l2, z_priq_dumb_remove k.runq thread = l1 ++ l2 ∧
      (z_set_prio cfg k thread prio).2.runq = l1 ++ thread :: l2 ∧
      (∀ x ∈ l1, ¬ 0 < z_sched_prio_cmp cfg ((z_set_prio cfg k thread prio).2.threads thread)
        ((z_set_prio cfg k thread prio).2.threads x)) ∧
      (∀ x ∈ l2, 0 < z_sched_prio_cmp cfg ((z_set_prio cfg k thread prio).2.threads thread)
        ((z_set_prio cfg k thread prio).2.threads x)) ∧
      (∀ x ∈ k.runq, x ≠ thread → (k.threads x).prio = prio →
        (k.threads x).prio_deadline % 2 ^ 32 = (k.threads thread).prio_deadline % 2 ^ 32 →
        x ∈ l1 ∧ x ∉ l2) ∧
      (∀ x ∈ k.runq, x ≠ thread → prio < (k.threads x).prio → x ∈ l2 ∧ x ∉ l1) := by
  have hw := wrap_int8_of_range prio hprio
  have hqs : cfg.SMP = false ∨ (k.threads thread).thread_state.QUEUED = true := Or.inr hq
  have hth := z_set_prio_requeue_threads cfg k thread prio hqs hr
  have hrun := z_set_prio_requeue_runq cfg k thread prio hS hqs hr
  rw [hw] at hth
  have hres := z_set_prio_requeue cfg k thread prio hqs hr
  rw [hw] at hres
  generalize hk' : (z_set_prio cfg k thread prio).2 = k' at hth hrun hres ⊢
  have htt : k'.threads thread = { k.threads thread with prio := prio } := by
    rw [hth, Function.update_same]
    have e : ({ (k.threads thread).thread_state with QUEUED := true } : ThreadState) =
        (k.threads thread).thread_state := by
      rw [← hq]
    rw [e]
  have hto : ∀ y, y ≠ thread → k'.threads y = k.threads y := by
    intro y hy
    rw [hth, Function.update_noteq hy]
  have hwf' : ∀ x, (k'.threads x).wf := by
    intro x
    by_cases hx : x = thread
    · rw [hx, htt]
      exact hprio
    · rw [hto x hx]
      exact hwf x
  have hdl' : deadlines_in_half_space cfg k'.threads := by
    apply deadlines_in_half_space_congr cfg k.threads k'.threads _ hdl
    intro x
    by_cases hx : x = thread
    · rw [hx, htt]
    · rw [hto x hx]
  have ho' : CmpOrder cfg k'.threads := cmpOrder_of_rule cfg k'.threads hwf' hdl'
  have hsr : (z_priq_dumb_remove k.runq thread).Pairwise
      (fun a b => 0 ≤ z_sched_prio_cmp cfg (k'.threads a) (k'.threads b)) := by
    refine List.Pairwise.imp_of_mem ?_
      (List.Pairwise.sublist (sublist_z_priq_dumb_remove k.runq thread) hs)
    intro a b ha hb hab
    rw [hto a ((mem_z_priq_dumb_remove k.runq thread a).mp ha).2,
      hto b ((mem_z_priq_dumb_remove k.runq thread b).mp hb).2]
    exact hab
  have hnr : (z_priq_dumb_remove k.runq thread).Nodup :=
    List.Nodup.sublist (sublist_z_priq_dumb_remove k.runq thread) hn
  have htr : thread ∉ z_priq_dumb_remove k.runq thread := fun hm =>
    ((mem_z_priq_dumb_remove k.runq thread thread).mp hm).2 rfl
  refine ⟨?_, hres, htt, hto, ?_, ?_, ?_, ?_⟩
  · rw [z_set_prio_fst]
    exact hr
  · rw [hrun, mem_z_priq_dumb_add]
    exact Or.inl rfl
  · rw [hrun]
    exact nodup_z_priq_dumb_add cfg k'.threads _ thread hnr htr
  · rw [hrun]
    exact pairwise_z_priq_dumb_add cfg k'.threads ho' _ thread hsr
  · obtain ⟨l1, l2, h1, h2, h3, h4⟩ :=
      z_priq_dumb_add_split_sorted cfg k'.threads ho' (z_priq_dumb_remove k.runq thread)
        thread hsr
    refine ⟨l1, l2, h1, by rw [hrun, h2], h3, h4, ?_, ?_⟩
    · intro x hx hxt hp hd
      have hc : z_sched_prio_cmp cfg (k'.threads thread) (k'.threads x) = 0 := by
        apply z_sched_prio_cmp_eq_zero
        · rw [htt, hto x hxt, hp]
        · rw [htt, hto x hxt, hd]
      have hx2 : x ∉ l2 := fun hm => by
        have := h4 x hm
        omega
      have hxm : x ∈ l1 ++ l2 := by
        rw [← h1]
        exact (mem_z_priq_dumb_remove k.runq thread x).mpr ⟨hx, hxt⟩
      rcases List.mem_append.mp hxm with hm | hm
      · exact ⟨hm, hx2⟩
      · exact absurd hm hx2
    · intro x hx hxt hp
      have hc : 0 < z_sched_prio_cmp cfg (k'.threads thread) (k'.threads x) := by
        apply z_sched_prio_cmp_pos_of_prio_lt cfg _ _ (hwf' thread) (hwf' x)
        rw [htt, hto x hxt]
        exact hp
      have hx1 : x ∉ l1 := fun hm => h3 x hm hc
      have hxm : x ∈ l1 ++ l2 := by
        rw [← h1]
        exact (mem_z_priq_dumb_remove k.runq thread x).mpr ⟨hx, hxt⟩
      rcases List.mem_append.mp hxm with hm | hm
      · exact absurd hm hx1
      · exact ⟨hm, hx1⟩

theorem z_set_prio_requeues_witness :
    int8_range 3 ∧ z_is_thread_ready (k_rr.threads 2) = true ∧
    (k_rr.threads 2).thread_state.QUEUED = true ∧
    (z_set_prio cfg_deadline k_rr 2 3).1 = true ∧
    (z_set_prio cfg_deadline k_rr 2 3).2.runq.Nodup ∧
    (z_set_prio cfg_deadline k_rr 2 3).2.runq = [2, 1, 3, 9] :=
  ⟨by decide, by decide, by decide,
    (z_set_prio_requeues cfg_deadline k_rr 2 3 (Or.inl rfl) (by decide)
      (fun x => by
        simp only [k_rr, mk_kernel]
        split_ifs <;> decide)
      (Or.inr ⟨0, fun x => by
        simp only [k_rr, mk_kernel]
        split_ifs <;> decide⟩)
      (by decide) (by decide) (by decide) (by decide)).1,
    (z_set_prio_requeues cfg_deadline k_rr 2 3 (Or.inl rfl) (by decide)
      (fun x => by
        simp only [k_rr, mk_kernel]
        split_ifs <;> decide)
      (Or.inr ⟨0, fun x => by
        simp only [k_rr, mk_kernel]
        split_ifs <;> decide⟩)
      (by decide) (by decide) (by decide) (by decide)).2.2.2.2.2.1,
    by decide⟩

/-! ## Changing a CPU mask -/

theorem and_mod_byte (a m : Nat) : ((a % 256) &&& m) % 256 = (a &&& m) % 256 := by
  have h : (256 : Nat) = 2 ^ 8 := by norm_num
  rw [h]
  apply Nat.eq_of_testBit_eq
  intro i
  simp only [Nat.testBit_mod_two_pow, Nat.testBit_and]
  cases decide (i < 8) <;> simp

theorem testBit_mask_formula (a e d i : Nat) (hi : i < 8) :
    (((a ||| e) &&& (0xffffffff ^^^ d)) % 256).testBit i =
      ((a.testBit i || e.testBit i) && !d.testBit i) := by
  have h : (256 : Nat) = 2 ^ 8 := by norm_num
  have hf : (0xffffffff : Nat) = 2 ^ 32 - 1 := by norm_num
  have hi32 : i < 32 := by omega
  rw [h, hf, Nat.testBit_mod_two_pow, Nat.testBit_and, Nat.testBit_or, Nat.testBit_xor,
    Nat.testBit_two_pow_sub_one]
  simp [hi, hi32]

/-- C29: `cpu_mask_mod(thread, enable_mask, disable_mask)` with `uint32_t`
masks.  If the thread is prevented from running the call returns 0 and the
state differs from the old one only in the thread's `cpu_mask`, which becomes
`(old | enable_mask) & ~disable_mask` truncated to the byte of the field (bit
`i < 8` is set iff it was set or is enabled, and is not disabled).  If the
thread is not prevented from running the call returns `-EINVAL` and the state
is unchanged.  `k_thread_cpu_mask_clear`, `_enable_all`, `_enable` and
`_disable` are this function with the masks `(0, 0xffffffff)`,
`(0xffffffff, 0)`, `(BIT(cpu), 0)` and `(0, BIT(cpu))`. -/
theorem cpu_mask_mod_spec (k : Kernel) (thread : Tid) (e d : Nat) (he : e < 2 ^ 32)
    (hd : d < 2 ^ 32) :
    (z_is_thread_prevented_from_running (k.threads thread) = true →
      (cpu_mask_mod k thread e d).1 = 0 ∧
      (cpu_mask_mod k thread e d).2 = k.upd thread (fun x =>
        { x with cpu_mask := ((x.cpu_mask ||| e) &&& (0xffffffff ^^^ d)) % 256 }) ∧
      (∀ i, i < 8 → ((cpu_mask_mod k thread e d).2.threads thread).cpu_mask.testBit i =
        (((k.threads thread).cpu_mask.testBit i || e.testBit i) && !d.testBit i)) ∧
      (∀ y, y ≠ thread → (cpu_mask_mod k thread e d).2.threads y = k.threads y) ∧
      (cpu_mask_mod k thread e d).2.runq = k.runq ∧
      (cpu_mask_mod k thread e d).2.waitq = k.waitq) ∧
    (z_is_thread_prevented_from_running (k.threads thread) = false →
      cpu_mask_mod k thread e d = (-EINVAL, k)) ∧
    k_thread_cpu_mask_clear k thread = cpu_mask_mod k thread 0 0xffffffff ∧
    k_thread_cpu_mask_enable_all k thread = cpu_mask_mod k thread 0xffffffff 0 ∧
    (∀ cpu, k_thread_cpu_mask_enable k thread cpu = cpu_mask_mod k thread (BIT cpu) 0) ∧
    (∀ cpu, k_thread_cpu_mask_disable k thread cpu = cpu_mask_mod k thread 0 (BIT cpu)) := by
  refine ⟨?_, ?_, rfl, rfl, fun _ => rfl, fun _ => rfl⟩
  · intro hp
    have hs : (cpu_mask_mod k thread e d).2 = k.upd thread (fun x =>
        { x with cpu_mask := ((x.cpu_mask ||| e) &&& (0xffffffff ^^^ d)) % 256 }) := by
      unfold cpu_mask_mod
      rw [if_pos hp, Nat.mod_eq_of_lt he, Nat.mod_eq_of_lt hd]
      unfold Kernel.upd
      simp [and_mod_byte]
    refine ⟨?_, hs, ?_, ?_, ?_, ?_⟩
    · unfold cpu_mask_mod
      rw [if_pos hp]
    · intro i hi
      rw [hs, upd_threads_same]
      exact testBit_mask_formula _ e d i hi
    · intro y hy
      rw [hs, upd_threads_other k thread y _ hy]
    · rw [hs]
      rfl
    · rw [hs]
      rfl
  · intro hp
    unfold cpu_mask_mod
    rw [if_neg (by rw [hp]; simp)]

theorem cpu_mask_mod_spec_witness :
    (5 : Nat) < 2 ^ 32 ∧ (4 : Nat) < 2 ^ 32 ∧
    z_is_thread_prevented_from_running (k_pended.threads 2) = true ∧
    (cpu_mask_mod k_pended 2 5 4).1 = 0 ∧
    cpu_mask_mod k_pended 3 5 4 = (-EINVAL, k_pended) :=
  ⟨by decide, by decide, by decide,
    ((cpu_mask_mod_spec k_pended 2 5 4 (by decide) (by decide)).1 (by decide)).1,
    (cpu_mask_mod_spec k_pended 3 5 4 (by decide) (by decide)).2.1 (by decide)⟩

/-! ## The best thread under CPU masks -/

theorem find_spec {α : Type} (p : α → Bool) (pq : List α) :
    (pq.find? p = none ∧ ∀ t ∈ pq, p t = false) ∨
    (∃ t pre post, pq.find? p = some t ∧ pq = pre ++ t :: post ∧ p t = true ∧
      ∀ x ∈ pre, p x = false) := by
  induction pq with
  | nil => exact Or.inl ⟨rfl, by simp⟩
  | cons a rest ih =>
    cases hpa : p a
    · rcases ih with ⟨hn, hall⟩ | ⟨t, pre, post, hf, hl, ht, hpre⟩
      · refine Or.inl ⟨by simp [List.find?, hpa, hn], ?_⟩
        intro t ht
        rcases List.mem_cons.mp ht with h | h
        · rw [h]; exact hpa
        · exact hall t h
      · refine Or.inr ⟨t, a :: pre, post, by simp [List.find?, hpa, hf], by rw [hl]; rfl, ht, ?_⟩
        intro x hx
        rcases List.mem_cons.mp hx with h | h
        · rw [h]; exact hpa
        · exact hpre x h
    · exact Or.inr ⟨a, [], rest, by simp [List.find?, hpa], rfl, hpa, by simp⟩

/-- C30: with `CONFIG_SCHED_CPU_MASK` on the list back-end, for a list without
NULL entries, `_priq_dumb_mask_best(pq)` is NULL iff no thread on the list has
the bit of the executing CPU set in its `cpu_mask`; otherwise it is the first
thread in list order with the bit set: every thread in front of it has the bit
clear, and in an ordered list it is maximal under `z_sched_prio_cmp` among the
threads with the bit set. -/
theorem priq_dumb_mask_best_spec (cfg : Config) (k : Kernel) (pq : List Tid) (h0 : NULL ∉ pq) :
    (_priq_dumb_mask_best k pq = NULL ↔
      ∀ t ∈ pq, (k.threads t).cpu_mask.testBit k.cpu_id = false) ∧
    (_priq_dumb_mask_best k pq ≠ NULL →
      (k.threads (_priq_dumb_mask_best k pq)).cpu_mask.testBit k.cpu_id = true ∧
      ∃ pre post, pq = pre ++ _priq_dumb_mask_best k pq :: post ∧
        (∀ x ∈ pre, (k.threads x).cpu_mask.testBit k.cpu_id = false) ∧
        (pq.Pairwise (fun a b => 0 ≤ z_sched_prio_cmp cfg (k.threads a) (k.threads b)) →
          ∀ u ∈ pq, (k.threads u).cpu_mask.testBit k.cpu_id = true →
            0 ≤ z_sched_prio_cmp cfg (k.threads (_priq_dumb_mask_best k pq)) (k.threads u))) := by
  rcases find_spec (fun t => (k.threads t).cpu_mask.testBit k.cpu_id) pq with
    ⟨hn, hall⟩ | ⟨t, pre, post, hf, hl, ht, hpre⟩
  · have hr : _priq_dumb_mask_best k pq = NULL := by
      unfold _priq_dumb_mask_best
      rw [hn]
    rw [hr]
    exact ⟨⟨fun _ => hall, fun _ => rfl⟩, fun h => absurd rfl h⟩
  · have hr : _priq_dumb_mask_best k pq = t := by
      unfold _priq_dumb_mask_best
      rw [hf]
    have htm : t ∈ pq := by
      rw [hl]
      exact List.mem_append_right pre (List.mem_cons_self t post)
    have ht0 : t ≠ NULL := fun h => h0 (h ▸ htm)
    rw [hr]
    refine ⟨⟨fun h => absurd h ht0, fun h => ?_⟩, fun _ => ⟨ht, pre, post, hl, hpre, ?_⟩⟩
    · have := h t htm
      rw [ht] at this
      exact Bool.noConfusion this
    · intro hs u hu hbit
      rw [hl] at hs hu
      rcases List.mem_append.mp hu with h | h
      · have := hpre u h
        simp only at this
        rw [hbit] at this
        exact Bool.noConfusion this
      · rcases List.mem_cons.mp h with h | h
        · rw [h, z_sched_prio_cmp_self]
        · exact (List.pairwise_cons.mp (List.pairwise_append.mp hs).2.1).1 u h

theorem priq_dumb_mask_best_spec_witness :
    NULL ∉ k_mask.runq ∧ _priq_dumb_mask_best k_mask k_mask.runq = 2 ∧
    (k_mask.threads (_priq_dumb_mask_best k_mask k_mask.runq)).cpu_mask.testBit k_mask.cpu_id
      = true :=
  ⟨by decide, by decide,
    ((priq_dumb_mask_best_spec cfg_deadline k_mask k_mask.runq (by decide)).2 (by decide)).1⟩

/-! ## Time slice expiry -/

theorem queue_thread_slice (cfg : Config) (k : Kernel) (t : Tid) :
    (queue_thread cfg k t).slice_time = k.slice_time ∧
    (queue_thread cfg k t).clock_elapsed = k.clock_elapsed := by
  unfold queue_thread
  dsimp only
  split_ifs <;> exact ⟨rfl, rfl⟩

theorem dequeue_thread_slice (cfg : Config) (k : Kernel) (t : Tid) :
    (dequeue_thread cfg k t).slice_time = k.slice_time ∧
    (dequeue_thread cfg k t).clock_elapsed = k.clock_elapsed := by
  unfold dequeue_thread
  dsimp only
  split_ifs <;> exact ⟨rfl, rfl⟩

theorem next_up_slice (cfg : Config) (k : Kernel) :
    (next_up cfg k).2.slice_time = k.slice_time ∧
    (next_up cfg k).2.clock_elapsed = k.clock_elapsed := by
  unfold next_up
  dsimp only
  split_ifs <;> exact ⟨rfl, rfl⟩

theorem z_reset_time_slice_slice (k : Kernel) :
    (z_reset_time_slice k).slice_time = k.slice_time ∧
    (z_reset_time_slice k).clock_elapsed = k.clock_elapsed := by
  rw [z_reset_time_slice_eq]
  exact ⟨rfl, rfl⟩

theorem update_metairq_preempt_slice (cfg : Config) (k : Kernel) (t : Tid) :
    (update_metairq_preempt cfg k t).slice_time = k.slice_time ∧
    (update_metairq_preempt cfg k t).clock_elapsed = k.clock_elapsed := by
  unfold update_metairq_preempt
  split_ifs <;> exact ⟨rfl, rfl⟩

theorem update_cache_slice (cfg : Config) (k : Kernel) (p : Int) :
    (update_cache cfg k p).slice_time = k.slice_time ∧
    (update_cache cfg k p).clock_elapsed = k.clock_elapsed := by
  unfold update_cache
  dsimp only
  split_ifs
  · exact ⟨rfl, rfl⟩
  · exact ⟨((update_metairq_preempt_slice cfg _ _).1.trans
        (z_reset_time_slice_slice _).1).trans (next_up_slice cfg k).1,
      ((update_metairq_preempt_slice cfg _ _).2.trans
        (z_reset_time_slice_slice _).2).trans (next_up_slice cfg k).2⟩
  · exact ⟨(update_metairq_preempt_slice cfg _ _).1.trans (next_up_slice cfg k).1,
      (update_metairq_preempt_slice cfg _ _).2.trans (next_up_slice cfg k).2⟩
  · exact next_up_slice cfg k

theorem move_thread_to_end_of_prio_q_slice (cfg : Config) (k : Kernel) (t : Tid) :
    (move_thread_to_end_of_prio_q cfg k t).slice_time = k.slice_time ∧
    (move_thread_to_end_of_prio_q cfg k t).clock_elapsed = k.clock_elapsed := by
  unfold move_thread_to_end_of_prio_q
  dsimp only
  split_ifs
  all_goals first
    | exact ⟨((update_cache_slice cfg _ _).1.trans (queue_thread_slice cfg _ t).1).trans
          (dequeue_thread_slice cfg k t).1,
        ((update_cache_slice cfg _ _).2.trans (queue_thread_slice cfg _ t).2).trans
          (dequeue_thread_slice cfg k t).2⟩
    | exact ⟨(update_cache_slice cfg _ _).1.trans (queue_thread_slice cfg _ t).1,
        (update_cache_slice cfg _ _).2.trans (queue_thread_slice cfg _ t).2⟩

/-- The announcement that uses up the slice: `move_thread_to_end_of_prio_q` on
the current thread, then `z_reset_time_slice`. -/
theorem z_time_slice_expire (cfg : Config) (k : Kernel) (ticks : Int)
    (hnp : cfg.SWAP_NONATOMIC = true → k.pending_current ≠ k.current)
    (hst : k.slice_time ≠ 0) (hsl : sliceable cfg k k.current = true)
    (hge : k.slice_ticks ≤ ticks) :
    z_time_slice cfg k ticks =
      z_reset_time_slice (move_thread_to_end_of_prio_q cfg
        { k with pending_current := if cfg.SWAP_NONATOMIC then NULL else k.pending_current }
        k.current) := by
  have hc1 : ¬ (cfg.SWAP_NONATOMIC && k.pending_current == k.current) = true := by
    intro h
    rw [Bool.and_eq_true] at h
    exact hnp h.1 (beq_iff_eq.mp h.2)
  unfold z_time_slice
  rw [if_neg hc1]
  cases hna : cfg.SWAP_NONATOMIC
  · have hc2 : (decide (k.slice_time ≠ 0) && sliceable cfg k k.current) = true := by
      simp [hst, hsl]
    simp only [Bool.false_eq_true, if_false]
    rw [if_pos hc2, if_pos hge]
  · have hc2 : (decide (({ k with pending_current := NULL } : Kernel).slice_time ≠ 0) &&
        sliceable cfg { k with pending_current := NULL }
          ({ k with pending_current := NULL } : Kernel).current) = true := by
      have : sliceable cfg { k with pending_current := NULL } k.current =
          sliceable cfg k k.current := rfl
      simp [hst, this, hsl]
    simp only [if_true]
    rw [if_pos hc2, if_pos hge]

/-- An announcement that leaves part of the slice: only the counter changes. -/
theorem z_time_slice_tick (cfg : Config) (k : Kernel) (ticks : Int)
    (hnp : cfg.SWAP_NONATOMIC = true → k.pending_current ≠ k.current)
    (hst : k.slice_time ≠ 0) (hsl : sliceable cfg k k.current = true)
    (hlt : ticks < k.slice_ticks) :
    z_time_slice cfg k ticks =
      { k with pending_current := if cfg.SWAP_NONATOMIC then NULL else k.pending_current,
               slice_ticks := k.slice_ticks - ticks } := by
  have hc1 : ¬ (cfg.SWAP_NONATOMIC && k.pending_current == k.current) = true := by
    intro h
    rw [Bool.and_eq_true] at h
    exact hnp h.1 (beq_iff_eq.mp h.2)
  have hng : ¬ k.slice_ticks ≤ ticks := not_le.mpr hlt
  unfold z_time_slice
  rw [if_neg hc1]
  cases hna : cfg.SWAP_NONATOMIC
  · have hc2 : (decide (k.slice_time ≠ 0) && sliceable cfg k k.current) = true := by
      simp [hst, hsl]
    simp only [Bool.false_eq_true, if_false]
    rw [if_pos hc2, if_neg hng]
  · have hc2 : (decide (({ k with pending_current := NULL } : Kernel).slice_time ≠ 0) &&
        sliceable cfg { k with pending_current := NULL }
          ({ k with pending_current := NULL } : Kernel).current) = true := by
      have : sliceable cfg { k with pending_current := NULL } k.current =
          sliceable cfg k k.current := rfl
      simp [hst, this, hsl]
    simp only [if_true]
    rw [if_pos hc2, if_neg hng]

theorem z_reset_time_slice_runq (k : Kernel) :
    (z_reset_time_slice k).runq = k.runq ∧ (z_reset_time_slice k).threads = k.threads ∧
    (z_reset_time_slice k).cache = k.cache ∧ (z_reset_time_slice k).current = k.current := by
  rw [z_reset_time_slice_eq]
  exact ⟨rfl, rfl, rfl, rfl⟩

theorem z_reset_time_slice_ticks (k : Kernel) (hst : k.slice_time ≠ 0) :
    (z_reset_time_slice k).slice_ticks = k.slice_time + k.clock_elapsed := by
  unfold z_reset_time_slice
  rw [if_pos hst]

theorem move_thread_to_end_of_prio_q_current (cfg : Config) (k : Kernel) :
    move_thread_to_end_of_prio_q cfg k k.current =
      update_cache cfg
        (queue_thread cfg
          (if z_is_thread_queued (k.threads k.current) then dequeue_thread cfg k k.current
           else k) k.current) 1 := by
  unfold move_thread_to_end_of_prio_q
  dsimp only
  by_cases hq : z_is_thread_queued (k.threads k.current) = true
  · rw [if_pos hq, queue_thread_current, dequeue_thread_current]
    simp
  · rw [if_neg hq, queue_thread_current]
    simp

/-- C24 as stated fails twice.  In `k_slice` the slice is 10 ticks, 3 are left
and `sys_clock_elapsed()` is 1: the announcement of 3 ticks rotates thread 1
behind threads 2 and 3 and resets the counter to 11, not 10.  On the SMP build
`cfg_smp_slice` the running thread 1 of `k_slice_smp` is not on the run queue
before the announcement and is not on it afterwards. -/
theorem z_time_slice_expiry_counterexample :
    k_slice.slice_time = 10 ∧ k_slice.slice_ticks = 3 ∧
    sliceable cfg_slice k_slice k_slice.current = true ∧
    (z_time_slice cfg_slice k_slice 3).runq = [2, 3, 1, 9] ∧
    (z_time_slice cfg_slice k_slice 3).slice_ticks = 11 ∧
    k_slice_smp.slice_time = 10 ∧ k_slice_smp.slice_ticks = 3 ∧
    sliceable cfg_smp_slice k_slice_smp k_slice_smp.current = true ∧
    k_slice_smp.current ∉ (z_time_slice cfg_smp_slice k_slice_smp 3).runq ∧
    (z_time_slice cfg_smp_slice k_slice_smp 3).runq = k_slice_smp.runq := by
  decide

/-- C24 (amended): in `z_time_slice(ticks)` with `slice_time != 0`, `_current`
sliceable and (with `CONFIG_SWAP_NONATOMIC`) `pending_current != _current`, if
`ticks >= slice_ticks` then `pending_current` is cleared (with
`CONFIG_SWAP_NONATOMIC`), `_current` is taken off the run queue if it is
`QUEUED` and passed to `queue_thread`, the cache is recomputed by
`update_cache(1)`, and `slice_ticks` is reset to
`slice_time + sys_clock_elapsed()`, with `slice_time` unchanged.  On a
uniprocessor build with the list back-end, `_current` queued, priorities in the
`int8_t` range, the deadline rule and an ordered duplicate-free run queue,
`_current` then sits behind every resident that is not lower and in front of
every resident that is lower, the other residents keeping their order. -/
theorem z_time_slice_expiry (cfg : Config) (k : Kernel) (ticks : Int)
    (hnp : cfg.SWAP_NONATOMIC = true → k.pending_current ≠ k.current)
    (hst : k.slice_time ≠ 0) (hsl : sliceable cfg k k.current = true)
    (hge : k.slice_ticks ≤ ticks) :
    z_time_slice cfg k ticks =
      z_reset_time_slice (update_cache cfg
        (queue_thread cfg
          (if z_is_thread_queued (k.threads k.current) then
            dequeue_thread cfg
              { k with pending_current :=
                  if cfg.SWAP_NONATOMIC then NULL else k.pending_current } k.current
           else { k with pending_current :=
                  if cfg.SWAP_NONATOMIC then NULL else k.pending_current })
          k.current) 1) ∧
    (z_time_slice cfg k ticks).slice_ticks = k.slice_time + k.clock_elapsed ∧
    (z_time_slice cfg k ticks).slice_time = k.slice_time ∧
    (cfg.SMP = false → (∀ x, (k.threads x).wf) → deadlines_in_half_space cfg k.threads →
      k.runq.Pairwise (fun a b => 0 ≤ z_sched_prio_cmp cfg (k.threads a) (k.threads b)) →
      k.runq.Nodup → (k.threads k.current).thread_state.QUEUED = true →
      ∃ l1 l2, z_priq_dumb_remove k.runq k.current = l1 ++ l2 ∧
        (z_time_slice cfg k ticks).runq = l1 ++ k.current :: l2 ∧
        (∀ x ∈ l1, ¬ 0 < z_sched_prio_cmp cfg (k.threads k.current) (k.threads x)) ∧
        (∀ x ∈ l2, 0 < z_sched_prio_cmp cfg (k.threads k.current) (k.threads x))) := by
  have he := z_time_slice_expire cfg k ticks hnp hst hsl hge
  have hm := move_thread_to_end_of_prio_q_slice cfg
    { k with pending_current := if cfg.SWAP_NONATOMIC then NULL else k.pending_current }
    k.current
  have hst2 : (move_thread_to_end_of_prio_q cfg
      { k with pending_current := if cfg.SWAP_NONATOMIC then NULL else k.pending_current }
      k.current).slice_time ≠ 0 := by
    rw [hm.1]
    exact hst
  refine ⟨?_, ?_, ?_, ?_⟩
  · rw [he]
    exact congrArg z_reset_time_slice (move_thread_to_end_of_prio_q_current cfg _)
  · rw [he, z_reset_time_slice_ticks _ hst2, hm.1, hm.2]
  · rw [he, (z_reset_time_slice_slice _).1, hm.1]
  · intro hsmp hwf hdl hs hn hq
    have ho : CmpOrder cfg k.threads := cmpOrder_of_rule cfg k.threads hwf hdl
    have hsr : (z_priq_dumb_remove k.runq k.current).Pairwise
        (fun a b => 0 ≤ z_sched_prio_cmp cfg (k.threads a) (k.threads b)) :=
      List.Pairwise.sublist (sublist_z_priq_dumb_remove k.runq k.current) hs
    obtain ⟨l1, l2, h1, h2, h3, h4⟩ :=
      z_priq_dumb_add_split_sorted cfg k.threads ho (z_priq_dumb_remove k.runq k.current)
        k.current hsr
    refine ⟨l1, l2, h1, ?_, h3, h4⟩
    have hr := move_thread_to_end_of_prio_q_runq cfg
      { k with pending_current := if cfg.SWAP_NONATOMIC then NULL else k.pending_current }
      k.current hsmp hq
    rw [he, (z_reset_time_slice_runq _).1]
    exact hr.trans h2

theorem z_time_slice_expiry_witness :
    sliceable cfg_slice k_slice k_slice.current = true ∧
    (z_time_slice cfg_slice k_slice 3).slice_ticks = 11 ∧
    (z_time_slice cfg_slice k_slice 3).slice_time = 10 :=
  ⟨by decide,
    (z_time_slice_expiry cfg_slice k_slice 3 (fun h => by cases h) (by decide) (by decide)
      (by decide)).2.1,
    (z_time_slice_expiry cfg_slice k_slice 3 (fun h => by cases h) (by decide) (by decide)
      (by decide)).2.2.1⟩

/-! ## Time slice bound -/

theorem z_time_slice_seq_nil (cfg : Config) (k : Kernel) : z_time_slice_seq cfg k [] = k := rfl

theorem z_time_slice_seq_append (cfg : Config) (k : Kernel) (pre : List Nat) (t : Nat) :
    z_time_slice_seq cfg k (pre ++ [t]) =
      z_time_slice cfg (z_time_slice_seq cfg k pre) (t : Int) := by
  unfold z_time_slice_seq
  rw [List.foldl_append]
  rfl

/-- Announcements that together stay below the slice counter only count it
down (and clear `pending_current` on a `CONFIG_SWAP_NONATOMIC` build). -/
theorem z_time_slice_seq_prefix (cfg : Config) (k : Kernel)
    (hnp : cfg.SWAP_NONATOMIC = true → k.current ≠ NULL ∧ k.pending_current ≠ k.current)
    (hst : k.slice_time ≠ 0) (hsl : sliceable cfg k k.current = true) (pre : List Nat)
    (hlt : (pre.sum : Int) < k.slice_ticks) :
    z_time_slice_seq cfg k pre =
      { k with slice_ticks := k.slice_ticks - (pre.sum : Int),
               pending_current :=
                 if cfg.SWAP_NONATOMIC = true ∧ pre ≠ [] then NULL else k.pending_current } := by
  induction pre using List.reverseRecOn with
  | nil =>
    rw [z_time_slice_seq_nil]
    simp
  | append_singleton pre t ih =>
    have hsum : (((pre ++ [t]).sum : Nat) : Int) = (pre.sum : Int) + (t : Int) := by
      simp
    rw [hsum] at hlt
    have hpre : (pre.sum : Int) < k.slice_ticks := by omega
    rw [z_time_slice_seq_append, ih hpre, z_time_slice_tick cfg _ (t : Int)]
    · rw [hsum]
      cases hna : cfg.SWAP_NONATOMIC
      · simp
        omega
      · simp
        omega
    · intro hna
      show (if cfg.SWAP_NONATOMIC = true ∧ pre ≠ [] then NULL else k.pending_current) ≠ k.current
      split_ifs with h
      · exact fun he => (hnp hna).1 he.symm
      · exact (hnp hna).2
    · exact hst
    · exact hsl
    · show (t : Int) < k.slice_ticks - (pre.sum : Int)
      omega

/-- The announcement that brings the sum of ticks to the slice counter rotates
the current thread and resets the counter. -/
theorem z_time_slice_seq_rotate (cfg : Config) (k : Kernel)
    (hnp : cfg.SWAP_NONATOMIC = true → k.current ≠ NULL ∧ k.pending_current ≠ k.current)
    (hst : k.slice_time ≠ 0) (hsl : sliceable cfg k k.current = true) (pre : List Nat)
    (t : Nat) (hlt : (pre.sum : Int) < k.slice_ticks)
    (hge : k.slice_ticks ≤ (pre.sum : Int) + (t : Int)) :
    z_time_slice_seq cfg k (pre ++ [t]) =
      z_reset_time_slice (move_thread_to_end_of_prio_q cfg
        { k with slice_ticks := k.slice_ticks - (pre.sum : Int),
                 pending_current := if cfg.SWAP_NONATOMIC then NULL else k.pending_current }
        k.current) := by
  rw [z_time_slice_seq_append, z_time_slice_seq_prefix cfg k hnp hst hsl pre hlt,
    z_time_slice_expire cfg _ (t : Int)]
  · cases hna : cfg.SWAP_NONATOMIC <;> simp
  · intro hna
    show (if cfg.SWAP_NONATOMIC = true ∧ pre ≠ [] then NULL else k.pending_current) ≠ k.current
    split_ifs with h
    · exact fun he => (hnp hna).1 he.symm
    · exact (hnp hna).2
  · exact hst
  · exact hsl
  · show k.slice_ticks - (pre.sum : Int) ≤ (t : Int)
    omega

theorem z_impl_k_yield_eq_move (cfg : Config) (k : Kernel) (hsmp : cfg.SMP = false)
    (hq : (k.threads k.current).thread_state.QUEUED = true) :
    z_impl_k_yield cfg k = z_swap cfg (move_thread_to_end_of_prio_q cfg k k.current) := by
  rw [move_thread_to_end_of_prio_q_current]
  unfold z_impl_k_yield
  dsimp only
  have hq2 : z_is_thread_queued (k.threads k.current) = true := by
    simpa [z_is_thread_queued] using hq
  rw [if_pos hq2, if_pos (by simp [hsmp]), dequeue_thread_current]

/-- Moving the queued current thread to the end of its priority in the
round-robin situation rotates the threads of that priority by one place and
caches the new head. -/
theorem move_thread_to_end_of_prio_q_rotate (cfg : Config) (k : Kernel) (l low : List Tid)
    (p : Int) (d : Nat) (hsmp : cfg.SMP = false) (hmask : cfg.SCHED_CPU_MASK = false)
    (h : round_robin_state cfg k l low p d)
    (hq : (k.threads k.current).thread_state.QUEUED = true) :
    (move_thread_to_end_of_prio_q cfg k k.current).runq = l.rotate 1 ++ low ∧
    (move_thread_to_end_of_prio_q cfg k k.current).cache = z_priq_dumb_best (l.rotate 1) := by
  have hy := z_impl_k_yield_rotate cfg k l low p d hsmp hmask h
  rw [z_impl_k_yield_eq_move cfg k hsmp hq, z_swap_up cfg _ hsmp] at hy
  exact ⟨hy.1.1, hy.2⟩

/-- C25 as stated fails.  In `k_slice_deadline` threads 1 and 2 have priority 5
and are both sliceable, thread 1 runs with 3 ticks of its slice left; with
deadline scheduling thread 1 has the earlier deadline, so after three one-tick
announcements the queue is still `[1, 2]` and thread 1 is still the cache.
On a `CONFIG_SWAP_NONATOMIC` build with `pending_current == _current` the
announcement of 3 ticks does not rotate thread 1 of `k_slice` but resets the
counter.  On the SMP build the running thread 1 of `k_slice_smp` is not on the
run queue, which three ticks leave unchanged. -/
theorem z_time_slice_bound_counterexample :
    (k_slice_deadline.threads 1).prio = (k_slice_deadline.threads 2).prio ∧
    sliceable cfg_slice k_slice_deadline 1 = true ∧
    sliceable cfg_slice k_slice_deadline 2 = true ∧
    k_slice_deadline.current = 1 ∧ k_slice_deadline.slice_ticks = 3 ∧
    k_slice_deadline.runq = [1, 2] ∧
    (z_time_slice_seq cfg_slice k_slice_deadline [1, 1, 1]).runq = [1, 2] ∧
    (z_time_slice_seq cfg_slice k_slice_deadline [1, 1, 1]).cache = 1 ∧
    sliceable { cfg_slice with SWAP_NONATOMIC := true }
      { k_slice with pending_current := 1 } 1 = true ∧
    (z_time_slice_seq { cfg_slice with SWAP_NONATOMIC := true }
      { k_slice with pending_current := 1 } [3]).runq = k_slice.runq ∧
    (z_time_slice_seq { cfg_slice with SWAP_NONATOMIC := true }
      { k_slice with pending_current := 1 } [3]).slice_ticks = 11 ∧
    sliceable cfg_smp_slice k_slice_smp k_slice_smp.current = true ∧
    k_slice_smp.current ∉ (z_time_slice_seq cfg_smp_slice k_slice_smp [1, 1, 1]).runq := by
  decide

/-- C25 (amended): let `_current` be non-NULL and sliceable with slice counter
`s`, `slice_time != 0` and (with `CONFIG_SWAP_NONATOMIC`)
`pending_current != _current`.  A sequence of announcements
`z_time_slice(t_1)`, `z_time_slice(t_2)`, ... only counts `slice_ticks` down
(and clears `pending_current`) while `t_1 + ... + t_k < s` (so `s > 0`); the first
announcement with `t_1 + ... + t_k >= s` runs
`move_thread_to_end_of_prio_q(_current)` and resets `slice_ticks` to
`slice_time + sys_clock_elapsed()`.  Hence with `s = slice_time + e`, `e <= 1`
and one tick per announcement that happens at announcement number `s`, at most
`slice_time + 1`.  On a uniprocessor build without CPU masks, when the run
queue starts with `_current` followed by a second thread `t2` of the same
priority and deadline, `_current` is queued and `metairq_preempted` is NULL,
that announcement puts `_current` behind the last thread of its priority and
deadline and makes `t2` the cache. -/
theorem z_time_slice_bound (cfg : Config) (k : Kernel)
    (hnp : cfg.SWAP_NONATOMIC = true → k.current ≠ NULL ∧ k.pending_current ≠ k.current)
    (hst : k.slice_time ≠ 0) (hsl : sliceable cfg k k.current = true) :
    (∀ pre : List Nat, (pre.sum : Int) < k.slice_ticks →
      z_time_slice_seq cfg k pre =
        { k with slice_ticks := k.slice_ticks - (pre.sum : Int),
                 pending_current :=
                   if cfg.SWAP_NONATOMIC = true ∧ pre ≠ [] then NULL
                   else k.pending_current }) ∧
    (∀ (pre : List Nat) (t : Nat), (pre.sum : Int) < k.slice_ticks →
      k.slice_ticks ≤ (pre.sum : Int) + (t : Int) →
      z_time_slice_seq cfg k (pre ++ [t]) =
        z_reset_time_slice (move_thread_to_end_of_prio_q cfg
          { k with slice_ticks := k.slice_ticks - (pre.sum : Int),
                   pending_current :=
                     if cfg.SWAP_NONATOMIC then NULL else k.pending_current }
          k.current) ∧
      (z_time_slice_seq cfg k (pre ++ [t])).slice_ticks = k.slice_time + k.clock_elapsed) ∧
    (∀ (n : Nat) (e : Int), k.slice_ticks = k.slice_time + e → e ≤ 1 →
      (n : Int) + 1 = k.slice_ticks →
      (n : Int) + 1 ≤ k.slice_time + 1 ∧
      (∀ m, m ≤ n → (z_time_slice_seq cfg k (List.replicate m 1)).runq = k.runq ∧
        (z_time_slice_seq cfg k (List.replicate m 1)).cache = k.cache) ∧
      z_time_slice_seq cfg k (List.replicate (n + 1) 1) =
        z_reset_time_slice (move_thread_to_end_of_prio_q cfg
          { k with slice_ticks := k.slice_ticks - (n : Int),
                   pending_current :=
                     if cfg.SWAP_NONATOMIC then NULL else k.pending_current }
          k.current)) ∧
    (cfg.SMP = false → cfg.SCHED_CPU_MASK = false →
      ∀ (t1 t2 : Tid) (rest low : List Tid) (p : Int) (d : Nat),
      round_robin_state cfg k (t1 :: t2 :: rest) low p d →
      (k.threads k.current).thread_state.QUEUED = true →
      ∀ (pre : List Nat) (t : Nat), (pre.sum : Int) < k.slice_ticks →
      k.slice_ticks ≤ (pre.sum : Int) + (t : Int) →
      k.current = t1 ∧
      (z_time_slice_seq cfg k pre).runq = t1 :: t2 :: rest ++ low ∧
      (z_time_slice_seq cfg k (pre ++ [t])).runq = t2 :: rest ++ t1 :: low ∧
      (z_time_slice_seq cfg k (pre ++ [t])).cache = t2) := by
  have hrot := z_time_slice_seq_rotate cfg k hnp hst hsl
  have hpre := z_time_slice_seq_prefix cfg k hnp hst hsl
  have hticks : ∀ (pre : List Nat) (t : Nat), (pre.sum : Int) < k.slice_ticks →
      k.slice_ticks ≤ (pre.sum : Int) + (t : Int) →
      (z_time_slice_seq cfg k (pre ++ [t])).slice_ticks = k.slice_time + k.clock_elapsed := by
    intro pre t h1 h2
    have hm := move_thread_to_end_of_prio_q_slice cfg
      { k with slice_ticks := k.slice_ticks - (pre.sum : Int),
               pending_current := if cfg.SWAP_NONATOMIC then NULL else k.pending_current }
      k.current
    rw [hrot pre t h1 h2, z_reset_time_slice_ticks _ (by rw [hm.1]; exact hst), hm.1, hm.2]
  refine ⟨hpre, fun pre t h1 h2 => ⟨hrot pre t h1 h2, hticks pre t h1 h2⟩, ?_, ?_⟩
  · intro n e he he1 hn
    have hsum : ∀ m : Nat, (((List.replicate m 1).sum : Nat) : Int) = (m : Int) := by
      intro m
      simp
    refine ⟨by omega, ?_, ?_⟩
    · intro m hm
      have hlt : (((List.replicate m 1).sum : Nat) : Int) < k.slice_ticks := by
        rw [hsum]
        omega
      rw [hpre _ hlt]
      exact ⟨rfl, rfl⟩
    · have hlt : (((List.replicate n 1).sum : Nat) : Int) < k.slice_ticks := by
        rw [hsum]
        omega
      have hge : k.slice_ticks ≤ (((List.replicate n 1).sum : Nat) : Int) + ((1 : Nat) : Int) := by
        rw [hsum]
        omega
      have h := hrot (List.replicate n 1) 1 hlt hge
      rw [hsum] at h
      rw [List.replicate_succ']
      exact h
  · intro hsmp hmask t1 t2 rest low p d hrr hq pre t h1 h2
    have hmv := move_thread_to_end_of_prio_q_rotate cfg
      { k with slice_ticks := k.slice_ticks - (pre.sum : Int),
               pending_current := if cfg.SWAP_NONATOMIC then NULL else k.pending_current }
      (t1 :: t2 :: rest) low p d hsmp hmask hrr hq
    have hr1 : (t1 :: t2 :: rest).rotate 1 = t2 :: rest ++ [t1] := by
      rw [List.rotate_cons_succ, List.rotate_zero]
    rw [hr1] at hmv
    refine ⟨hrr.2.2.2.2.1, ?_, ?_, ?_⟩
    · rw [hpre pre h1]
      exact hrr.1
    · rw [hrot pre t h1 h2, (z_reset_time_slice_runq _).1]
      refine hmv.1.trans ?_
      simp
    · rw [hrot pre t h1 h2, (z_reset_time_slice_runq _).2.2.1]
      exact hmv.2

theorem z_time_slice_bound_witness :
    sliceable cfg_slice k_slice k_slice.current = true ∧
    round_robin_state cfg_slice k_slice [1, 2, 3] [9] 5 0 ∧
    (z_time_slice_seq cfg_slice k_slice [1, 1]).runq = [1, 2, 3, 9] ∧
    (z_time_slice_seq cfg_slice k_slice ([1, 1] ++ [1])).runq = [2, 3, 1, 9] ∧
    (z_time_slice_seq cfg_slice k_slice ([1, 1] ++ [1])).cache = 2 :=
  ⟨by decide, ⟨rfl, by decide, by decide, by decide, rfl, rfl, by decide, by decide⟩,
    ((z_time_slice_bound cfg_slice k_slice (fun h => absurd h (by decide)) (by decide)
      (by decide)).2.2.2 rfl rfl 1 2 [3] [9] 5 0
      ⟨rfl, by decide, by decide, by decide, rfl, rfl, by decide, by decide⟩ (by decide)
      [1, 1] 1 (by decide) (by decide)).2.1,
    ((z_time_slice_bound cfg_slice k_slice (fun h => absurd h (by decide)) (by decide)
      (by decide)).2.2.2 rfl rfl 1 2 [3] [9] 5 0
      ⟨rfl, by decide, by decide, by decide, rfl, rfl, by decide, by decide⟩ (by decide)
      [1, 1] 1 (by decide) (by decide)).2.2.1,
    ((z_time_slice_bound cfg_slice k_slice (fun h => absurd h (by decide)) (by decide)
      (by decide)).2.2.2 rfl rfl 1 2 [3] [9] 5 0
      ⟨rfl, by decide, by decide, by decide, rfl, rfl, by decide, by decide⟩ (by decide)
      [1, 1] 1 (by decide) (by decide)).2.2.2⟩

/-! ## Unpending every thread of a wait queue -/

theorem z_unpend_thread_eq (k : Kernel) (t : Tid) :
    z_unpend_thread k t =
      { k.unlink t with
        threads := Function.update k.threads t
          { k.threads t with
            thread_state := { (k.threads t).thread_state with PENDING := false },
            pended_on := none, timeout_active := false } } :=
  unpend_abort_eq k t

theorem z_ready_thread_waitq (cfg : Config) (k : Kernel) (t : Tid) (e : Bool) :
    (z_ready_thread cfg k t e).waitq = k.waitq := by
  unfold z_ready_thread
  split_ifs
  · exact ready_thread_waitq cfg k t
  · rfl

theorem z_ready_thread_unqueued (cfg : Config) (k : Kernel) (t y : Tid) (e : Bool) :
    ((z_ready_thread cfg k t e).threads y).unqueued = (k.threads y).unqueued := by
  unfold z_ready_thread
  split_ifs
  · exact ready_thread_unqueued cfg k t y
  · rfl

theorem z_ready_thread_threads_other (cfg : Config) (k : Kernel) (t y : Tid) (e : Bool)
    (h : y ≠ t) : (z_ready_thread cfg k t e).threads y = k.threads y := by
  unfold z_ready_thread
  split_ifs
  · exact ready_thread_threads_other cfg k t y h
  · rfl

/-- One pass of the loop of `z_unpend_all`: the wait queues lose the thread,
the other threads are untouched, and the thread is left not pending, with no
wait queue and no timeout. -/
theorem unpend_ready_step (cfg : Config) (k : Kernel) (x : Tid) (e : Bool) :
    (∀ w, (z_ready_thread cfg (z_unpend_thread k x) x e).waitq w =
      z_priq_dumb_remove (k.waitq w) x) ∧
    (∀ y, y ≠ x → (z_ready_thread cfg (z_unpend_thread k x) x e).threads y = k.threads y) ∧
    ((z_ready_thread cfg (z_unpend_thread k x) x e).threads x).thread_state.PENDING = false ∧
    ((z_ready_thread cfg (z_unpend_thread k x) x e).threads x).pended_on = none ∧
    ((z_ready_thread cfg (z_unpend_thread k x) x e).threads x).timeout_active = false := by
  have hu := z_ready_thread_unqueued cfg (z_unpend_thread k x) x x e
  have ht : (z_unpend_thread k x).threads x =
      { k.threads x with
        thread_state := { (k.threads x).thread_state with PENDING := false },
        pended_on := none, timeout_active := false } := by
    rw [z_unpend_thread_eq]
    exact Function.update_same _ _ _
  rw [ht] at hu
  have h1 := congrArg (fun a : k_thread => a.thread_state.PENDING) hu
  have h2 := congrArg k_thread.pended_on hu
  have h3 := congrArg k_thread.timeout_active hu
  simp only [k_thread.unqueued] at h1 h2 h3
  refine ⟨?_, ?_, h1, h2, h3⟩
  · intro w
    rw [z_ready_thread_waitq, z_unpend_thread_eq]
    rfl
  · intro y hy
    rw [z_ready_thread_threads_other cfg _ x y e hy, z_unpend_thread_eq]
    exact Function.update_noteq hy _ _

theorem length_z_priq_dumb_remove_head (x : Tid) (rest : List Tid) :
    (z_priq_dumb_remove (x :: rest) x).length ≤ rest.length := by
  unfold z_priq_dumb_remove sys_dlist_remove
  rw [List.filter_cons_of_neg (by simp)]
  exact List.length_filter_le _ _

/-- The loop of `z_unpend_all` with at least as much fuel as the queue has
members. -/
theorem z_unpend_all_loop_spec (cfg : Config) (elsewhere : Tid → Bool) (w : WaitQ) :
    ∀ (fuel : Nat) (k : Kernel) (ns : Int), (k.waitq w).length ≤ fuel → NULL ∉ k.waitq w →
      ∃ k', z_unpend_all_loop cfg elsewhere w fuel k ns =
          some (if k.waitq w = [] then ns else 1, k') ∧
        (k.waitq w = [] → k' = k) ∧ k'.waitq w = [] ∧
        (∀ x ∈ k.waitq w, (k'.threads x).thread_state.PENDING = false ∧
          (k'.threads x).pended_on = none ∧ (k'.threads x).timeout_active = false) ∧
        (∀ y, y ∉ k.waitq w → k'.threads y = k.threads y) ∧
        ((k.waitq w).Nodup → k' = (k.waitq w).foldl
          (fun s x => z_ready_thread cfg (z_unpend_thread s x) x (elsewhere x)) k) := by
  intro fuel
  induction fuel with
  | zero =>
    intro k ns hlen _
    have hnil : k.waitq w = [] := List.length_eq_zero.mp (Nat.le_zero.mp hlen)
    refine ⟨k, ?_, fun _ => rfl, hnil, ?_, fun _ _ => rfl, ?_⟩
    · unfold z_unpend_all_loop z_waitq_head
      rw [hnil]
      simp [z_priq_dumb_best]
    · intro x hx
      rw [hnil] at hx
      cases hx
    · intro _
      rw [hnil]
      rfl
  | succ n ih =>
    intro k ns hlen h0
    cases hq : k.waitq w with
    | nil =>
      refine ⟨k, ?_, fun _ => rfl, hq, ?_, fun _ _ => rfl, ?_⟩
      · unfold z_unpend_all_loop z_waitq_head
        rw [hq]
        simp [z_priq_dumb_best]
      · intro x hx
        cases hx
      · intro _
        rfl
    | cons x rest =>
      have hx0 : x ≠ NULL := fun h => h0 (by rw [hq, h]; exact List.mem_cons_self _ _)
      have hhead : z_waitq_head k w = x := by
        unfold z_waitq_head
        rw [hq]
        rfl
      obtain ⟨hsw, hso, hs1, hs2, hs3⟩ := unpend_ready_step cfg k x (elsewhere x)
      generalize hk1 : z_ready_thread cfg (z_unpend_thread k x) x (elsewhere x) = k1
        at hsw hso hs1 hs2 hs3
      have hw1 : k1.waitq w = z_priq_dumb_remove (x :: rest) x := by
        rw [hsw w, hq]
      have hlen1 : (k1.waitq w).length ≤ n := by
        rw [hw1]
        have := length_z_priq_dumb_remove_head x rest
        rw [hq] at hlen
        simp only [List.length_cons] at hlen
        omega
      have hxn : x ∉ k1.waitq w := by
        rw [hw1]
        exact fun hm => ((mem_z_priq_dumb_remove _ x x).mp hm).2 rfl
      have h01 : NULL ∉ k1.waitq w := by
        rw [hw1]
        intro hm
        exact h0 (by rw [hq]; exact ((mem_z_priq_dumb_remove _ x NULL).mp hm).1)
      obtain ⟨k', he, _, hwe, hrel, hoth, hfold⟩ := ih k1 1 hlen1 h01
      refine ⟨k', ?_, ?_, hwe, ?_, ?_, ?_⟩
      · unfold z_unpend_all_loop
        dsimp only
        rw [hhead, if_pos hx0, hk1, he]
        simp
      · intro h
        cases h
      · intro y hy
        by_cases hyx : y = x
        · rw [hyx, hoth x hxn]
          exact ⟨hs1, hs2, hs3⟩
        · apply hrel
          rw [hw1]
          exact (mem_z_priq_dumb_remove _ x y).mpr ⟨hy, hyx⟩
      · intro y hy
        have hyx : y ≠ x := fun h => hy (by rw [h]; exact List.mem_cons_self _ _)
        have hy1 : y ∉ k1.waitq w := by
          rw [hw1]
          exact fun hm => hy ((mem_z_priq_dumb_remove _ x y).mp hm).1
        rw [hoth y hy1, hso y hyx]
      · intro hnd
        have hxr : x ∉ rest := (List.nodup_cons.mp hnd).1
        have hw2 : k1.waitq w = rest := by
          rw [hw1]
          exact z_priq_dumb_remove_head x rest hxr
        rw [hfold (by rw [hw2]; exact (List.nodup_cons.mp hnd).2), hw2, List.foldl_cons, hk1]

/-- C21: for a wait queue that holds no NULL entry, `z_unpend_all(wait_q)`
returns within as many passes as the queue has members; it returns 1 when the
queue was non-empty and 0, with the state unchanged, when it was empty;
afterwards the queue is empty, every thread that was on it has `PENDING` clear,
`pended_on` NULL and its timeout aborted, the threads that were not on it are
untouched, and (each thread being on the queue once) the final state is the
one reached by `z_unpend_thread` followed by `z_ready_thread` on each member
in queue order. -/
theorem z_unpend_all_spec (cfg : Config) (elsewhere : Tid → Bool) (k : Kernel) (w : WaitQ)
    (fuel : Nat) (h0 : NULL ∉ k.waitq w) (hf : (k.waitq w).length ≤ fuel) :
    ∃ k', z_unpend_all cfg elsewhere k w fuel =
        some (if k.waitq w = [] then 0 else 1, k') ∧
      (k.waitq w = [] → k' = k) ∧ k'.waitq w = [] ∧
      (∀ x ∈ k.waitq w, (k'.threads x).thread_state.PENDING = false ∧
        (k'.threads x).pended_on = none ∧ (k'.threads x).timeout_active = false) ∧
      (∀ y, y ∉ k.waitq w → k'.threads y = k.threads y) ∧
      ((k.waitq w).Nodup → k' = (k.waitq w).foldl
        (fun s x => z_ready_thread cfg (z_unpend_thread s x) x (elsewhere x)) k) :=
  z_unpend_all_loop_spec cfg elsewhere w fuel k 0 hf h0

theorem z_unpend_all_spec_witness :
    k_pended.waitq (WaitQ.obj 0) = [2] ∧
    ∃ k', z_unpend_all cfg_deadline (fun _ => false) k_pended (WaitQ.obj 0) 1 =
        some (if k_pended.waitq (WaitQ.obj 0) = [] then 0 else 1, k') ∧
      (k_pended.waitq (WaitQ.obj 0) = [] → k' = k_pended) ∧ k'.waitq (WaitQ.obj 0) = [] ∧
      (∀ x ∈ k_pended.waitq (WaitQ.obj 0), (k'.threads x).thread_state.PENDING = false ∧
        (k'.threads x).pended_on = none ∧ (k'.threads x).timeout_active = false) ∧
      (∀ y, y ∉ k_pended.waitq (WaitQ.obj 0) → k'.threads y = k_pended.threads y) ∧
      ((k_pended.waitq (WaitQ.obj 0)).Nodup → k' = (k_pended.waitq (WaitQ.obj 0)).foldl
        (fun s x => z_ready_thread cfg_deadline (z_unpend_thread s x) x false) k_pended) :=
  ⟨by decide,
    z_unpend_all_spec cfg_deadline (fun _ => false) k_pended (WaitQ.obj 0) 1 (by decide)
      (by decide)⟩

/-! ## Abort completeness -/

/-- What one pass of the loop of `unpend_all` does to the thread it takes off
the queue, before `ready_thread`. -/
theorem join_release_eq (k : Kernel) (x : Tid) :
    arch_thread_return_value_set
        (z_abort_thread_timeout (unpend_thread_no_timeout k x) x) x 0 =
      { k.unlink x with
        threads := Function.update k.threads x
          { k.threads x with
            thread_state := { (k.threads x).thread_state with PENDING := false },
            pended_on := none, timeout_active := false, swap_retval := 0 } } := by
  unfold arch_thread_return_value_set
  rw [unpend_abort_eq]
  unfold Kernel.upd
  simp

theorem mem_queue_thread_runq_of_mem (cfg : Config) (k : Kernel) (t y : Tid)
    (h : y ∈ k.runq) : y ∈ (queue_thread cfg k t).runq := by
  by_cases hc : cfg.SMP = false ∨ t ≠ k.current
  · rw [queue_thread_runq_of_should cfg k t hc]
    exact (mem_z_priq_dumb_add cfg k.threads k.runq t y).mpr (Or.inr h)
  · have h1 : cfg.SMP = true := by
      cases hsmp : cfg.SMP
      · exact absurd (Or.inl hsmp) hc
      · rfl
    have h2 : t = k.current := by
      by_contra hne
      exact hc (Or.inr hne)
    rw [queue_thread_runq_of_current cfg k t h1 h2]
    exact h

theorem mem_ready_thread_runq_other (cfg : Config) (k : Kernel) (t y : Tid) (hy : y ≠ t) :
    y ∈ (ready_thread cfg k t).runq ↔ y ∈ k.runq := by
  unfold ready_thread
  split_ifs
  · rw [update_cache_runq]
    constructor
    · intro h
      rcases mem_queue_thread_runq cfg k t y h with h | h
      · exact absurd h hy
      · exact h
    · exact mem_queue_thread_runq_of_mem cfg k t y
  · exact Iff.rfl

/-- One pass of the loop of `unpend_all` on the thread `x`. -/
theorem join_step_spec (cfg : Config) (k : Kernel) (x : Tid) :
    (∀ w, (ready_thread cfg (arch_thread_return_value_set
        (z_abort_thread_timeout (unpend_thread_no_timeout k x) x) x 0) x).waitq w =
      z_priq_dumb_remove (k.waitq w) x) ∧
    (∀ y, y ≠ x → (ready_thread cfg (arch_thread_return_value_set
        (z_abort_thread_timeout (unpend_thread_no_timeout k x) x) x 0) x).threads y =
      k.threads y) ∧
    (ready_thread cfg (arch_thread_return_value_set
        (z_abort_thread_timeout (unpend_thread_no_timeout k x) x) x 0) x).current =
      k.current ∧
    (∀ y, y ≠ x → (y ∈ (ready_thread cfg (arch_thread_return_value_set
        (z_abort_thread_timeout (unpend_thread_no_timeout k x) x) x 0) x).runq ↔
      y ∈ k.runq)) ∧
    (((ready_thread cfg (arch_thread_return_value_set
        (z_abort_thread_timeout (unpend_thread_no_timeout k x) x) x 0) x).threads
        x).thread_state.PENDING = false ∧
      ((ready_thread cfg (arch_thread_return_value_set
        (z_abort_thread_timeout (unpend_thread_no_timeout k x) x) x 0) x).threads
        x).pended_on = none ∧
      ((ready_thread cfg (arch_thread_return_value_set
        (z_abort_thread_timeout (unpend_thread_no_timeout k x) x) x 0) x).threads
        x).timeout_active = false ∧
      ((ready_thread cfg (arch_thread_return_value_set
        (z_abort_thread_timeout (unpend_thread_no_timeout k x) x) x 0) x).threads
        x).swap_retval = 0) ∧
    ((k.threads x).thread_state.QUEUED = false → no_other_block (k.threads x) = true →
      ((ready_thread cfg (arch_thread_return_value_set
        (z_abort_thread_timeout (unpend_thread_no_timeout k x) x) x 0) x).threads
        x).thread_state.QUEUED = true ∧
      ((cfg.SMP = false ∨ x ≠ k.current) →
        x ∈ (ready_thread cfg (arch_thread_return_value_set
          (z_abort_thread_timeout (unpend_thread_no_timeout k x) x) x 0) x).runq)) := by
  rw [join_release_eq]
  generalize hR : ({ k.unlink x with
        threads := Function.update k.threads x
          { k.threads x with
            thread_state := { (k.threads x).thread_state with PENDING := false },
            pended_on := none, timeout_active := false, swap_retval := 0 } } : Kernel) = R
  have hRt : R.threads x = { k.threads x with
      thread_state := { (k.threads x).thread_state with PENDING := false },
      pended_on := none, timeout_active := false, swap_retval := 0 } := by
    rw [← hR]
    exact Function.update_same _ _ _
  have hRo : ∀ y, y ≠ x → R.threads y = k.threads y := by
    intro y hy
    rw [← hR]
    exact Function.update_noteq hy _ _
  have hRw : ∀ w, R.waitq w = z_priq_dumb_remove (k.waitq w) x := by
    intro w
    rw [← hR]
    rfl
  have hRr : R.runq = z_priq_dumb_remove k.runq x := by
    rw [← hR]
    rfl
  have hRc : R.current = k.current := by
    rw [← hR]
    rfl
  have hu := ready_thread_unqueued cfg R x x
  rw [hRt] at hu
  have h1 := congrArg (fun a : k_thread => a.thread_state.PENDING) hu
  have h2 := congrArg k_thread.pended_on hu
  have h3 := congrArg k_thread.timeout_active hu
  have h4 := congrArg k_thread.swap_retval hu
  simp only [k_thread.unqueued] at h1 h2 h3 h4
  refine ⟨?_, ?_, ?_, ?_, ⟨h1, h2, h3, h4⟩, ?_⟩
  · intro w
    rw [ready_thread_waitq, hRw]
  · intro y hy
    rw [ready_thread_threads_other cfg R x y hy, hRo y hy]
  · rw [ready_thread_current, hRc]
  · intro y hy
    rw [mem_ready_thread_runq_other cfg R x y hy, hRr, mem_z_priq_dumb_remove]
    exact ⟨fun h => h.1, fun h => ⟨h, hy⟩⟩
  · intro hq hnob
    have hRq : (R.threads x).thread_state.QUEUED = false := by
      rw [hRt]
      exact hq
    have hRr2 : z_is_thread_ready (R.threads x) = true := by
      rw [hRt]
      unfold no_other_block at hnob
      simp only [Bool.not_eq_true', Bool.or_eq_false_iff] at hnob
      simp [z_is_thread_ready, z_is_thread_prevented_from_running, z_is_thread_timeout_active,
        hnob.1.1.1, hnob.1.1.2, hnob.1.2, hnob.2]
    refine ⟨?_, fun hs => ?_⟩
    · exact (ready_thread_queued_iff cfg R x).mpr (Or.inr hRr2)
    · rw [ready_thread_runq_fire cfg R x hRq hRr2 (by rw [hRc]; exact hs),
        mem_z_priq_dumb_add]
      exact Or.inl rfl

/-- The loop of `unpend_all` with at least as many passes as the queue has
members: the queue ends empty, no list gains a member other than the run
queue, threads that were not on the queue are untouched, and every thread that
was on it is released with return value 0 and, unless another state bit blocks
it, queued. -/
theorem unpend_all_loop_spec (cfg : Config) (w : WaitQ) :
    ∀ (fuel : Nat) (k : Kernel), (k.waitq w).length ≤ fuel → NULL ∉ k.waitq w →
      (unpend_all_loop cfg fuel k w).waitq w = [] ∧
      (∀ w' y, y ∈ (unpend_all_loop cfg fuel k w).waitq w' → y ∈ k.waitq w') ∧
      (∀ y, y ∉ k.waitq w →
        (unpend_all_loop cfg fuel k w).threads y = k.threads y ∧
        (y ∈ (unpend_all_loop cfg fuel k w).runq ↔ y ∈ k.runq)) ∧
      (unpend_all_loop cfg fuel k w).current = k.current ∧
      (∀ x ∈ k.waitq w,
        ((unpend_all_loop cfg fuel k w).threads x).thread_state.PENDING = false ∧
        ((unpend_all_loop cfg fuel k w).threads x).pended_on = none ∧
        ((unpend_all_loop cfg fuel k w).threads x).timeout_active = false ∧
        ((unpend_all_loop cfg fuel k w).threads x).swap_retval = 0 ∧
        ((k.threads x).thread_state.QUEUED = false → no_other_block (k.threads x) = true →
          ((unpend_all_loop cfg fuel k w).threads x).thread_state.QUEUED = true ∧
          ((cfg.SMP = false ∨ x ≠ k.current) →
            x ∈ (unpend_all_loop cfg fuel k w).runq))) := by
  intro fuel
  induction fuel with
  | zero =>
    intro k hlen _
    have hnil : k.waitq w = [] := List.length_eq_zero.mp (Nat.le_zero.mp hlen)
    unfold unpend_all_loop
    refine ⟨hnil, fun _ _ h => h, fun _ _ => ⟨rfl, Iff.rfl⟩, rfl, ?_⟩
    intro x hx
    rw [hnil] at hx
    cases hx
  | succ n ih =>
    intro k hlen h0
    cases hq : k.waitq w with
    | nil =>
      have hhead : z_waitq_head k w = NULL := by
        unfold z_waitq_head
        rw [hq]
        rfl
      unfold unpend_all_loop
      dsimp only
      rw [if_neg (by rw [hhead]; exact fun h => h rfl)]
      refine ⟨hq, fun _ _ h => h, fun _ _ => ⟨rfl, Iff.rfl⟩, rfl, ?_⟩
      intro x hx
      cases hx
    | cons x rest =>
      have hx0 : x ≠ NULL := fun h => h0 (by rw [hq, h]; exact List.mem_cons_self _ _)
      have hhead : z_waitq_head k w = x := by
        unfold z_waitq_head
        rw [hq]
        rfl
      obtain ⟨hsw, hso, hsc, hsr, hsf, hsq⟩ := join_step_spec cfg k x
      generalize hk1 : ready_thread cfg (arch_thread_return_value_set
        (z_abort_thread_timeout (unpend_thread_no_timeout k x) x) x 0) x = k1
        at hsw hso hsc hsr hsf hsq
      have hloop : unpend_all_loop cfg (n + 1) k w = unpend_all_loop cfg n k1 w := by
        rw [unpend_all_loop]
        dsimp only
        rw [hhead, if_pos hx0, hk1]
      rw [hloop]
      have hw1 : k1.waitq w = z_priq_dumb_remove (x :: rest) x := by
        rw [hsw w, hq]
      have hlen1 : (k1.waitq w).length ≤ n := by
        rw [hw1]
        have := length_z_priq_dumb_remove_head x rest
        rw [hq] at hlen
        simp only [List.length_cons] at hlen
        omega
      have hxn : x ∉ k1.waitq w := by
        rw [hw1]
        exact fun hm => ((mem_z_priq_dumb_remove _ x x).mp hm).2 rfl
      have h01 : NULL ∉ k1.waitq w := by
        rw [hw1]
        intro hm
        exact h0 (by rw [hq]; exact ((mem_z_priq_dumb_remove _ x NULL).mp hm).1)
      obtain ⟨ie, iw, io, ic, ij⟩ := ih k1 hlen1 h01
      refine ⟨ie, ?_, ?_, ic.trans hsc, ?_⟩
      · intro w' y hy
        have := iw w' y hy
        rw [hsw w'] at this
        exact ((mem_z_priq_dumb_remove _ x y).mp this).1
      · intro y hy
        have hyx : y ≠ x := fun h => hy (by rw [h]; exact List.mem_cons_self _ _)
        have hy1 : y ∉ k1.waitq w := by
          rw [hw1]
          exact fun hm => hy ((mem_z_priq_dumb_remove _ x y).mp hm).1
        exact ⟨((io y hy1).1).trans (hso y hyx), ((io y hy1).2).trans (hsr y hyx)⟩
      · intro y hy
        by_cases hyx : y = x
        · rw [hyx, (io x hxn).1]
          refine ⟨hsf.1, hsf.2.1, hsf.2.2.1, hsf.2.2.2, fun hq0 hnob => ?_⟩
          exact ⟨(hsq hq0 hnob).1, fun hs => (io x hxn).2.mpr ((hsq hq0 hnob).2 hs)⟩
        · have hy1 : y ∈ k1.waitq w := by
            rw [hw1]
            exact (mem_z_priq_dumb_remove _ x y).mpr ⟨hy, hyx⟩
          have := ij y hy1
          rw [hso y hyx, hsc] at this
          exact this

/-- What `end_thread` does to a thread that is not dead yet, whose join queue
holds no NULL entry and not the thread itself. -/
theorem end_thread_spec (cfg : Config) (k : Kernel) (t : Tid)
    (hd : (k.threads t).thread_state.DEAD = false) (h0 : NULL ∉ k.waitq (WaitQ.join t))
    (hown : t ∉ k.waitq (WaitQ.join t)) :
    ((end_thread cfg k t).threads t).thread_state.DEAD = true ∧
    ((end_thread cfg k t).threads t).thread_state.ABORTING = false ∧
    ((end_thread cfg k t).threads t).thread_state.QUEUED = false ∧
    ((end_thread cfg k t).threads t).pended_on = none ∧
    ((end_thread cfg k t).threads t).timeout_active = false ∧
    ((end_thread cfg k t).threads t).thread_state.PENDING =
      (if (k.threads t).pended_on ≠ none then false
       else (k.threads t).thread_state.PENDING) ∧
    (((t ∈ k.runq ∨ ∃ w, t ∈ k.waitq w) →
        ((k.threads t).thread_state.QUEUED = true ∧ (cfg.SMP = false ∨ t ≠ k.current)) ∨
          (k.threads t).pended_on ≠ none) →
      t ∉ (end_thread cfg k t).runq ∧ ∀ w, t ∉ (end_thread cfg k t).waitq w) ∧
    (end_thread cfg k t).waitq (WaitQ.join t) = [] ∧
    (end_thread cfg k t).current = k.current ∧
    (∀ y, y ≠ t → y ∉ k.waitq (WaitQ.join t) → (end_thread cfg k t).threads y = k.threads y) ∧
    (∀ x ∈ k.waitq (WaitQ.join t),
      ((end_thread cfg k t).threads x).thread_state.PENDING = false ∧
      ((end_thread cfg k t).threads x).pended_on = none ∧
      ((end_thread cfg k t).threads x).timeout_active = false ∧
      ((end_thread cfg k t).threads x).swap_retval = 0 ∧
      ((k.threads x).thread_state.QUEUED = false → no_other_block (k.threads x) = true →
        ((end_thread cfg k t).threads x).thread_state.QUEUED = true ∧
        ((cfg.SMP = false ∨ x ≠ k.current) → x ∈ (end_thread cfg k t).runq))) := by
  rw [end_thread_eq cfg k t hd]
  generalize hS : (if ((k.threads t).thread_state.QUEUED = true ∧
      should_queue_thread cfg k t = true) ∨
      (k.threads t).pended_on ≠ none then k.unlink t else k) = S
  have hSc : S.current = k.current := by
    rw [← hS]
    split_ifs <;> rfl
  have hSw : ∀ w y, y ∈ S.waitq w → y ∈ k.waitq w := by
    intro w y
    rw [← hS]
    split_ifs
    · exact fun h => ((mem_unlink_waitq k t y w).mp h).1
    · exact fun h => h
  have hSw2 : ∀ w y, y ≠ t → y ∈ k.waitq w → y ∈ S.waitq w := by
    intro w y hy
    rw [← hS]
    split_ifs
    · exact fun h => (mem_unlink_waitq k t y w).mpr ⟨h, hy⟩
    · exact fun h => h
  have hSl : ((t ∈ k.runq ∨ ∃ w, t ∈ k.waitq w) →
        ((k.threads t).thread_state.QUEUED = true ∧ (cfg.SMP = false ∨ t ≠ k.current)) ∨
          (k.threads t).pended_on ≠ none) →
      t ∉ S.runq ∧ ∀ w, t ∉ S.waitq w := by
    intro hl
    rw [← hS]
    split_ifs with hc
    · exact ⟨fun h => ((mem_unlink_runq k t t).mp h).2 rfl,
        fun w h => ((mem_unlink_waitq k t t w).mp h).2 rfl⟩
    · have hno : ¬ (t ∈ k.runq ∨ ∃ w, t ∈ k.waitq w) := by
        intro hm
        apply hc
        rcases hl hm with ⟨hq, hs⟩ | hp
        · refine Or.inl ⟨hq, ?_⟩
          unfold should_queue_thread
          rcases hs with hs | hs
          · simp [hs]
          · simp [hs]
        · exact Or.inr hp
      exact ⟨fun h => hno (Or.inl h), fun w h => hno (Or.inr ⟨w, h⟩)⟩
  generalize hK : ({ S with
      threads := Function.update k.threads t
        { k.threads t with
          thread_state :=
            { (k.threads t).thread_state with
              DEAD := true, ABORTING := false, QUEUED := false,
              PENDING := if (k.threads t).pended_on ≠ none then false
                         else (k.threads t).thread_state.PENDING },
          pended_on := none, timeout_active := false } } : Kernel) = K
  have hKt : K.threads t = { k.threads t with
      thread_state :=
        { (k.threads t).thread_state with
          DEAD := true, ABORTING := false, QUEUED := false,
          PENDING := if (k.threads t).pended_on ≠ none then false
                     else (k.threads t).thread_state.PENDING },
      pended_on := none, timeout_active := false } := by
    rw [← hK]
    exact Function.update_same _ _ _
  have hKo : ∀ y, y ≠ t → K.threads y = k.threads y := by
    intro y hy
    rw [← hK]
    exact Function.update_noteq hy _ _
  have hKc : K.current = k.current := by
    rw [← hK]
    exact hSc
  have hKw : ∀ w y, y ∈ K.waitq w → y ∈ k.waitq w := by
    rw [← hK]
    exact hSw
  have hKw2 : ∀ w y, y ≠ t → y ∈ k.waitq w → y ∈ K.waitq w := by
    rw [← hK]
    exact hSw2
  have hKl : ((t ∈ k.runq ∨ ∃ w, t ∈ k.waitq w) →
        ((k.threads t).thread_state.QUEUED = true ∧ (cfg.SMP = false ∨ t ≠ k.current)) ∨
          (k.threads t).pended_on ≠ none) →
      t ∉ K.runq ∧ ∀ w, t ∉ K.waitq w := by
    rw [← hK]
    exact hSl
  have h0K : NULL ∉ K.waitq (WaitQ.join t) := fun h => h0 (hKw _ _ h)
  have htK : t ∉ K.waitq (WaitQ.join t) := fun h => hown (hKw _ _ h)
  obtain ⟨le, lw, lo, lc, lj⟩ :=
    unpend_all_loop_spec cfg (WaitQ.join t) (K.waitq (WaitQ.join t)).length K (le_refl _) h0K
  have hU : unpend_all cfg K (WaitQ.join t) =
      unpend_all_loop cfg (K.waitq (WaitQ.join t)).length K (WaitQ.join t) := rfl
  rw [update_cache_threads, update_cache_runq, update_cache_waitq, update_cache_current, hU]
  have htt := (lo t htK).1
  rw [hKt] at htt
  refine ⟨?_, ?_, ?_, ?_, ?_, ?_, ?_, le, lc.trans hKc, ?_, ?_⟩
  · rw [htt]
  · rw [htt]
  · rw [htt]
  · rw [htt]
  · rw [htt]
  · rw [htt]
  · intro hl
    obtain ⟨hr, hw⟩ := hKl hl
    exact ⟨fun h => hr ((lo t htK).2.mp h), fun w h => hw w (lw w t h)⟩
  · intro y hy hyj
    rw [(lo y (fun h => hyj (hKw _ _ h))).1, hKo y hy]
  · intro x hx
    have hxt : x ≠ t := fun h => hown (h ▸ hx)
    have := lj x (hKw2 _ x hxt hx)
    rw [hKo x hxt, hKc] at this
    exact this

/-- For a thread that no other CPU runs, `z_thread_abort` is `end_thread`,
followed by `z_swap` when the thread is `_current` outside an ISR, unless on
SMP the thread is flagged `ABORTING` and is not `_current`. -/
theorem z_thread_abort_eq (cfg : Config) (k : Kernel) (t : Tid) (in_isr : Bool)
    (hd : (k.threads t).thread_state.DEAD = false) (h0 : NULL ∉ k.waitq (WaitQ.join t))
    (hown : t ∉ k.waitq (WaitQ.join t))
    (hc : cfg.SMP = false ∨ (k.threads t).thread_state.ABORTING = false ∨ t = k.current) :
    z_thread_abort cfg k t false in_isr =
      some (end_thread cfg k t, t == k.current && !in_isr) := by
  obtain ⟨eD, eA, _, _, _, _, _, _, eC, _, _⟩ := end_thread_spec cfg k t hd h0 hown
  have hdn : ¬ (k.threads t).thread_state.DEAD = true := by rw [hd]; simp
  unfold z_thread_abort
  rw [if_neg hdn]
  cases hsmp : cfg.SMP
  · simp only [Bool.false_eq_true, if_false]
    rw [eC]
  · simp only [if_true, thread_active_elsewhere, hsmp, Bool.and_false, Bool.false_eq_true,
      if_false]
    by_cases h1 : (is_aborting (k.threads t) && t == k.current && in_isr) = true
    · rw [if_pos h1]
      have h2 : ¬ (is_aborting ((end_thread cfg k t).threads t) &&
          t != (end_thread cfg k t).current) = true := by
        unfold is_aborting
        rw [eA]
        simp
      rw [if_neg h2, end_thread_of_dead cfg _ t eD, eC]
    · rw [if_neg h1]
      have h2 : ¬ (is_aborting (k.threads t) && t != k.current) = true := by
        rcases hc with hc | hc | hc
        · rw [hsmp] at hc
          cases hc
        · unfold is_aborting
          rw [hc]
          simp
        · simp [hc]
      rw [if_neg h2, eC]

/-- C22 as stated fails in three ways.  Thread 2 of `k_pended_null` is pended
with a NULL wait queue: `z_thread_abort` ends it, and because `end_thread`
unpends only a thread whose `pended_on` is set, the dead thread keeps
`PENDING`.  Thread 4 of `k_joined` waits on the join queue of thread 3 and was
suspended meanwhile: aborting thread 3 takes it off the join queue and clears
`PENDING`, but `ready_thread` does not queue it, the run queue is `[1, 2]`.
On the SMP build thread 2 of `k_aborting` is flagged `ABORTING`, is not
`_current` and runs on no CPU: `z_thread_abort` outside an ISR returns without
ending it. -/
theorem abort_completeness_counterexample :
    (k_pended_null.threads 2).thread_state.DEAD = false ∧
    (z_thread_abort cfg_deadline k_pended_null 2 false false).map
      (fun r => ((r.1.threads 2).thread_state.DEAD, (r.1.threads 2).thread_state.PENDING)) =
      some (true, true) ∧
    ((end_thread cfg_deadline k_pended_null 2).threads 2).thread_state.PENDING = true ∧
    k_joined.waitq (WaitQ.join 3) = [2, 4] ∧
    (z_thread_abort cfg_deadline k_joined 3 false false).map
      (fun r => ((r.1.threads 3).thread_state.DEAD, (r.1.threads 4).thread_state.PENDING,
        (r.1.threads 4).thread_state.QUEUED, r.1.runq)) =
      some (true, false, false, [1, 2]) ∧
    4 ∉ (end_thread cfg_deadline k_joined 3).runq ∧
    (k_aborting.threads 2).thread_state.DEAD = false ∧ k_aborting.current ≠ 2 ∧
    (z_thread_abort cfg_smp k_aborting 2 false false).map
      (fun r => (r.1.threads 2).thread_state.DEAD) = some false := by
  decide

/-- C22 (amended): let the join queue of `t` hold no NULL entry and not `t`
itself.  If `t` is `DEAD` on entry, `z_thread_abort(t)` and `end_thread(t)`
change no state.  Otherwise, for a thread that no other CPU runs,
`z_thread_abort(t)` is `end_thread(t)` (then `z_swap` when `t` is `_current`
outside an ISR) on a uniprocessor build, and on SMP when `ABORTING` is clear or
`t` is `_current`.  After `end_thread(t)` the thread has `DEAD` set, `ABORTING`
and `QUEUED` clear, `pended_on` NULL and its timeout aborted; `PENDING` is
clear when `pended_on` was set or `PENDING` was clear on entry; when a thread
on a list has `QUEUED` set (and on SMP is not `_current`) or `pended_on` set,
`t` is on neither the run queue nor any wait queue; the join queue is empty;
threads other than `t` and the joiners are untouched; every joiner has
`PENDING` clear, `pended_on` NULL, no timeout and swap return value 0, and a
joiner that was not queued and has no other blocking state bit has `QUEUED`
set and (on a uniprocessor, or when it is not `_current`) is on the run
queue. -/
theorem abort_completeness (cfg : Config) (k : Kernel) (t : Tid)
    (h0 : NULL ∉ k.waitq (WaitQ.join t)) (hown : t ∉ k.waitq (WaitQ.join t)) :
    ((k.threads t).thread_state.DEAD = true →
      end_thread cfg k t = k ∧
      ∀ elsewhere in_isr, z_thread_abort cfg k t elsewhere in_isr = some (k, false)) ∧
    ((k.threads t).thread_state.DEAD = false →
      (∀ in_isr,
        (cfg.SMP = false ∨ (k.threads t).thread_state.ABORTING = false ∨ t = k.current) →
        z_thread_abort cfg k t false in_isr =
          some (end_thread cfg k t, t == k.current && !in_isr)) ∧
      ((end_thread cfg k t).threads t).thread_state.DEAD = true ∧
      ((end_thread cfg k t).threads t).thread_state.ABORTING = false ∧
      ((end_thread cfg k t).threads t).thread_state.QUEUED = false ∧
      ((end_thread cfg k t).threads t).pended_on = none ∧
      ((end_thread cfg k t).threads t).timeout_active = false ∧
      ((end_thread cfg k t).threads t).thread_state.PENDING =
        (if (k.threads t).pended_on ≠ none then false
         else (k.threads t).thread_state.PENDING) ∧
      (((t ∈ k.runq ∨ ∃ w, t ∈ k.waitq w) →
          ((k.threads t).thread_state.QUEUED = true ∧ (cfg.SMP = false ∨ t ≠ k.current)) ∨
            (k.threads t).pended_on ≠ none) →
        t ∉ (end_thread cfg k t).runq ∧ ∀ w, t ∉ (end_thread cfg k t).waitq w) ∧
      (end_thread cfg k t).waitq (WaitQ.join t) = [] ∧
      (end_thread cfg k t).current = k.current ∧
      (∀ y, y ≠ t → y ∉ k.waitq (WaitQ.join t) →
        (end_thread cfg k t).threads y = k.threads y) ∧
      (∀ x ∈ k.waitq (WaitQ.join t),
        ((end_thread cfg k t).threads x).thread_state.PENDING = false ∧
        ((end_thread cfg k t).threads x).pended_on = none ∧
        ((end_thread cfg k t).threads x).timeout_active = false ∧
        ((end_thread cfg k t).threads x).swap_retval = 0 ∧
        ((k.threads x).thread_state.QUEUED = false → no_other_block (k.threads x) = true →
          ((end_thread cfg k t).threads x).thread_state.QUEUED = true ∧
          ((cfg.SMP = false ∨ x ≠ k.current) → x ∈ (end_thread cfg k t).runq)))) := by
  refine ⟨fun hd => ⟨end_thread_of_dead cfg k t hd, fun e i => ?_⟩, fun hd => ?_⟩
  · unfold z_thread_abort
    rw [if_pos hd]
  · exact ⟨fun in_isr hc => z_thread_abort_eq cfg k t in_isr hd h0 hown hc,
      end_thread_spec cfg k t hd h0 hown⟩

theorem abort_completeness_witness :
    k_joined.waitq (WaitQ.join 3) = [2, 4] ∧
    (k_joined.threads 3).thread_state.DEAD = false ∧
    ((end_thread cfg_deadline k_joined 3).threads 3).thread_state.DEAD = true ∧
    (end_thread cfg_deadline k_joined 3).waitq (WaitQ.join 3) = [] ∧
    ((end_thread cfg_deadline k_joined 3).threads 2).swap_retval = 0 ∧
    2 ∈ (end_thread cfg_deadline k_joined 3).runq :=
  ⟨by decide, by decide,
    ((abort_completeness cfg_deadline k_joined 3 (by decide) (by decide)).2
      (by decide)).2.1,
    ((abort_completeness cfg_deadline k_joined 3 (by decide) (by decide)).2
      (by decide)).2.2.2.2.2.2.2.2.1,
    (((abort_completeness cfg_deadline k_joined 3 (by decide) (by decide)).2
      (by decide)).2.2.2.2.2.2.2.2.2.2.2 2 (by decide)).2.2.2.1,
    ((((abort_completeness cfg_deadline k_joined 3 (by decide) (by decide)).2
      (by decide)).2.2.2.2.2.2.2.2.2.2.2 2 (by decide)).2.2.2.2 (by decide)
      (by decide)).2 (Or.inl rfl)⟩

/-! ## Recording the thread a metairq preempted -/

/-- C35: `update_metairq_preempt(thread)` with metairq and cooperative
priorities enabled.  If `thread` is a metairq and `_current` is neither a
metairq nor preemptible, `metairq_preempted` becomes `_current`; else if
`thread` is not a metairq and not the idle thread, it becomes NULL; in every
remaining case (a metairq chosen over a metairq or over a preemptible thread,
or the idle thread chosen) the state is unchanged.  In the first two cases
nothing but the slot is written. -/
theorem update_metairq_preempt_spec (cfg : Config) (k : Kernel) (thread : Tid)
    (hm : 0 < cfg.NUM_METAIRQ_PRIORITIES) (hc : 0 < cfg.NUM_COOP_PRIORITIES) :
    (is_metairq cfg (k.threads thread) = true → is_metairq cfg (k.threads k.current) = false →
      is_preempt (k.threads k.current) = false →
      update_metairq_preempt cfg k thread = { k with metairq_preempted := k.current }) ∧
    (is_metairq cfg (k.threads thread) = false →
      z_is_idle_thread_object cfg k thread = false →
      update_metairq_preempt cfg k thread = { k with metairq_preempted := NULL }) ∧
    (is_metairq cfg (k.threads thread) = true →
      (is_metairq cfg (k.threads k.current) = true ∨ is_preempt (k.threads k.current) = true) →
      update_metairq_preempt cfg k thread = k) ∧
    (is_metairq cfg (k.threads thread) = false →
      z_is_idle_thread_object cfg k thread = true →
      update_metairq_preempt cfg k thread = k) := by
  refine ⟨?_, ?_, ?_, ?_⟩
  · intro h1 h2 h3
    unfold update_metairq_preempt
    simp [hm, hc, h1, h2, h3]
  · intro h1 h2
    unfold update_metairq_preempt
    simp [hm, hc, h1, h2]
  · intro h1 h2
    unfold update_metairq_preempt
    rcases h2 with h2 | h2 <;> simp [hm, hc, h1, h2]
  · intro h1 h2
    unfold update_metairq_preempt
    simp [hm, hc, h1, h2]

theorem update_metairq_preempt_spec_witness :
    is_metairq cfg_deadline (k_coop_pair.threads 5) = true ∧
    is_metairq cfg_deadline (k_coop_pair.threads k_coop_pair.current) = false ∧
    is_preempt (k_coop_pair.threads k_coop_pair.current) = false ∧
    (update_metairq_preempt cfg_deadline k_coop_pair 5).metairq_preempted =
      k_coop_pair.current :=
  ⟨by decide, by decide, by decide,
    congrArg Kernel.metairq_preempted
      ((update_metairq_preempt_spec cfg_deadline k_coop_pair 5 (by decide) (by decide)).1
        (by decide) (by decide) (by decide))⟩

/-! ## The cache after `update_cache` -/

theorem should_preempt_next_up (cfg : Config) (k : Kernel) (t : Tid) (p : Int) :
    should_preempt cfg (next_up cfg k).2 t p = should_preempt cfg k t p := by
  unfold should_preempt
  rw [next_up_current, (next_up_same_queues cfg k).2.1]

/-- C36: on a uniprocessor build, after `update_cache(preempt_ok)` the cache is
the thread `next_up()` returned to it when `should_preempt` accepts that
thread, and `_current` otherwise; `_current` itself is unchanged.  So when
`_current` is preemptible or prevented from running the cache is what
`next_up()` returned, and `need_swap()` is true iff that thread differs from
`_current`. -/
theorem update_cache_spec (cfg : Config) (k : Kernel) (preempt_ok : Int)
    (hsmp : cfg.SMP = false) :
    (update_cache cfg k preempt_ok).cache =
      (if should_preempt cfg k (next_up cfg k).1 preempt_ok = true then (next_up cfg k).1
       else k.current) ∧
    (update_cache cfg k preempt_ok).current = k.current ∧
    (need_swap cfg (update_cache cfg k preempt_ok) = true ↔
      (update_cache cfg k preempt_ok).cache ≠ k.current) ∧
    ((is_preempt (k.threads k.current) = true ∨
        z_is_thread_prevented_from_running (k.threads k.current) = true) →
      (update_cache cfg k preempt_ok).cache = (next_up cfg k).1 ∧
      (need_swap cfg (update_cache cfg k preempt_ok) = true ↔
        (next_up cfg k).1 ≠ k.current)) := by
  have hcache : (update_cache cfg k preempt_ok).cache =
      (if should_preempt cfg k (next_up cfg k).1 preempt_ok = true then (next_up cfg k).1
       else k.current) := by
    unfold update_cache
    dsimp only
    rw [if_neg (by simp [hsmp]), should_preempt_next_up]
    by_cases hsp : should_preempt cfg k (next_up cfg k).1 preempt_ok = true
    · rw [if_pos hsp, if_pos hsp]
    · rw [if_neg hsp, if_neg hsp]
      exact next_up_current cfg k
  have hcur := update_cache_current cfg k preempt_ok
  have hneed : need_swap cfg (update_cache cfg k preempt_ok) = true ↔
      (update_cache cfg k preempt_ok).cache ≠ k.current := by
    unfold need_swap
    rw [if_neg (by simp [hsmp]), hcur]
    exact bne_iff_ne
  refine ⟨hcache, hcur, hneed, fun h => ?_⟩
  have hsp : should_preempt cfg k (next_up cfg k).1 preempt_ok = true := by
    rcases h with h | h
    · exact should_preempt_of_is_preempt cfg k _ _ h
    · unfold should_preempt
      simp [h]
  have hc : (update_cache cfg k preempt_ok).cache = (next_up cfg k).1 := by
    rw [hcache, if_pos hsp]
  refine ⟨hc, ?_⟩
  rw [hneed, hc]

theorem update_cache_spec_witness :
    is_preempt (k_rr.threads k_rr.current) = true ∧
    (update_cache cfg_deadline k_rr 0).cache = (next_up cfg_deadline k_rr).1 ∧
    (next_up cfg_deadline k_rr).1 = 1 :=
  ⟨by decide,
    ((update_cache_spec cfg_deadline k_rr 0 rfl).2.2.2 (Or.inl (by decide))).1,
    by decide⟩

/-! ## `z_time_slice` without expiry -/

/-- An announcement when time slicing is off or the current thread is not
sliceable: the slice counter is zeroed. -/
theorem z_time_slice_idle (cfg : Config) (k : Kernel) (ticks : Int)
    (hnp : cfg.SWAP_NONATOMIC = true → k.pending_current ≠ k.current)
    (h : k.slice_time = 0 ∨ sliceable cfg k k.current = false) :
    z_time_slice cfg k ticks =
      { k with pending_current := if cfg.SWAP_NONATOMIC then NULL else k.pending_current,
               slice_ticks := 0 } := by
  have hc1 : ¬ (cfg.SWAP_NONATOMIC && k.pending_current == k.current) = true := by
    intro h
    rw [Bool.and_eq_true] at h
    exact hnp h.1 (beq_iff_eq.mp h.2)
  unfold z_time_slice
  rw [if_neg hc1]
  cases hna : cfg.SWAP_NONATOMIC
  · have hc2 : ¬ (decide (k.slice_time ≠ 0) && sliceable cfg k k.current) = true := by
      rcases h with h | h <;> simp [h]
    simp only [Bool.false_eq_true, if_false]
    rw [if_neg hc2]
  · have hc2 : ¬ (decide (({ k with pending_current := NULL } : Kernel).slice_time ≠ 0) &&
        sliceable cfg { k with pending_current := NULL }
          ({ k with pending_current := NULL } : Kernel).current) = true := by
      have : sliceable cfg { k with pending_current := NULL } k.current =
          sliceable cfg k k.current := rfl
      rcases h with h | h <;> simp [h, this]
    simp only [if_true]
    rw [if_neg hc2]

/-- C33: `z_time_slice(ticks)` in the non-expiry cases.  With
`CONFIG_SWAP_NONATOMIC` and `pending_current == _current` the call is
`z_reset_time_slice()`, which writes the slice counter only.  Otherwise
`pending_current` is cleared (with `CONFIG_SWAP_NONATOMIC`) and: if
`slice_time == 0` or `_current` is not sliceable (not `is_preempt`, or
prevented from running, or of higher priority than `slice_max_prio`, or the
idle thread) `slice_ticks` becomes 0; if `_current` is sliceable,
`slice_time != 0` and `ticks < slice_ticks`, `slice_ticks` decreases by
`ticks` and stays strictly positive.  In all three cases the run queue, the
cache and every thread are unchanged. -/
theorem z_time_slice_no_expiry (cfg : Config) (k : Kernel) (ticks : Int) :
    (sliceable cfg k k.current = false ↔
      (is_preempt (k.threads k.current) = false ∨
        z_is_thread_prevented_from_running (k.threads k.current) = true ∨
        (k.threads k.current).prio < k.slice_max_prio ∨
        z_is_idle_thread_object cfg k k.current = true)) ∧
    ((cfg.SWAP_NONATOMIC = true → k.pending_current ≠ k.current) →
      (k.slice_time = 0 ∨ sliceable cfg k k.current = false) →
      z_time_slice cfg k ticks =
        { k with pending_current := if cfg.SWAP_NONATOMIC then NULL else k.pending_current,
                 slice_ticks := 0 }) ∧
    ((cfg.SWAP_NONATOMIC = true → k.pending_current ≠ k.current) →
      k.slice_time ≠ 0 → sliceable cfg k k.current = true → ticks < k.slice_ticks →
      z_time_slice cfg k ticks =
        { k with pending_current := if cfg.SWAP_NONATOMIC then NULL else k.pending_current,
                 slice_ticks := k.slice_ticks - ticks } ∧
      0 < (z_time_slice cfg k ticks).slice_ticks) ∧
    (cfg.SWAP_NONATOMIC = true → k.pending_current = k.current →
      z_time_slice cfg k ticks = z_reset_time_slice k ∧
      (z_time_slice cfg k ticks).runq = k.runq ∧
      (z_time_slice cfg k ticks).cache = k.cache ∧
      (z_time_slice cfg k ticks).threads = k.threads) := by
  refine ⟨?_, fun hnp h => z_time_slice_idle cfg k ticks hnp h, ?_, ?_⟩
  · unfold sliceable z_is_prio_higher
    cases is_preempt (k.threads k.current) <;>
    cases z_is_thread_prevented_from_running (k.threads k.current) <;>
    cases z_is_idle_thread_object cfg k k.current <;>
    by_cases hp : (k.threads k.current).prio < k.slice_max_prio <;> simp [hp]
  · intro hnp hst hsl hlt
    have he := z_time_slice_tick cfg k ticks hnp hst hsl hlt
    refine ⟨he, ?_⟩
    rw [he]
    show 0 < k.slice_ticks - ticks
    omega
  · intro hna hp
    have he : z_time_slice cfg k ticks = z_reset_time_slice k := by
      unfold z_time_slice
      rw [if_pos (by simp [hna, hp])]
    rw [he]
    exact ⟨rfl, (z_reset_time_slice_runq k).1, (z_reset_time_slice_runq k).2.2.1,
      (z_reset_time_slice_runq k).2.1⟩

theorem z_time_slice_no_expiry_witness :
    sliceable cfg_slice k_slice k_slice.current = true ∧ k_slice.slice_ticks = 3 ∧
    (z_time_slice cfg_slice k_slice 2).slice_ticks = 1 ∧
    (z_time_slice cfg_slice k_slice 2).runq = k_slice.runq ∧
    0 < (z_time_slice cfg_slice k_slice 2).slice_ticks :=
  ⟨by decide, by decide, by decide, by decide,
    ((z_time_slice_no_expiry cfg_slice k_slice 2).2.2.1 (fun h => absurd h (by decide))
      (by decide) (by decide) (by decide)).2⟩

/-! ## `z_reset_time_slice` and its call from `update_cache` -/

theorem next_up_slice_ticks (cfg : Config) (k : Kernel) :
    (next_up cfg k).2.slice_ticks = k.slice_ticks := by
  unfold next_up
  dsimp only
  split_ifs <;> rfl

theorem update_metairq_preempt_slice_ticks (cfg : Config) (k : Kernel) (t : Tid) :
    (update_metairq_preempt cfg k t).slice_ticks = k.slice_ticks := by
  unfold update_metairq_preempt
  split_ifs <;> rfl

/-- C34: `z_reset_time_slice()` sets `slice_ticks` to
`slice_time + sys_clock_elapsed()` when `slice_time != 0` and changes nothing
when `slice_time == 0`.  On a uniprocessor build with time slicing,
`update_cache` applies it, between `next_up()` and `update_metairq_preempt`,
exactly when `should_preempt` accepts the chosen thread and that thread
differs from `_current`; so after `update_cache` the counter is
`slice_time + sys_clock_elapsed()` in that case when `slice_time != 0`, and is
unchanged in every other case. -/
theorem z_reset_time_slice_spec (cfg : Config) (k : Kernel) (preempt_ok : Int) :
    (k.slice_time ≠ 0 →
      z_reset_time_slice k = { k with slice_ticks := k.slice_time + k.clock_elapsed }) ∧
    (k.slice_time = 0 → z_reset_time_slice k = k) ∧
    (cfg.SMP = false → cfg.TIMESLICING = true →
      update_cache cfg k preempt_ok =
        (if should_preempt cfg k (next_up cfg k).1 preempt_ok = true then
          { update_metairq_preempt cfg
              (if (next_up cfg k).1 ≠ k.current then z_reset_time_slice (next_up cfg k).2
               else (next_up cfg k).2) (next_up cfg k).1 with
            cache := (next_up cfg k).1 }
        else { (next_up cfg k).2 with cache := k.current }) ∧
      (update_cache cfg k preempt_ok).slice_ticks =
        (if should_preempt cfg k (next_up cfg k).1 preempt_ok = true ∧
            (next_up cfg k).1 ≠ k.current ∧ k.slice_time ≠ 0 then
          k.slice_time + k.clock_elapsed
        else k.slice_ticks)) := by
  refine ⟨?_, ?_, ?_⟩
  · intro h
    unfold z_reset_time_slice
    rw [if_pos h]
  · intro h
    unfold z_reset_time_slice
    rw [if_neg (not_not.mpr h)]
  · intro hsmp hts
    have he : update_cache cfg k preempt_ok =
        (if should_preempt cfg k (next_up cfg k).1 preempt_ok = true then
          { update_metairq_preempt cfg
              (if (next_up cfg k).1 ≠ k.current then z_reset_time_slice (next_up cfg k).2
               else (next_up cfg k).2) (next_up cfg k).1 with
            cache := (next_up cfg k).1 }
        else { (next_up cfg k).2 with cache := k.current }) := by
      unfold update_cache
      dsimp only
      rw [if_neg (by simp [hsmp]), should_preempt_next_up, next_up_current]
      by_cases hsp : should_preempt cfg k (next_up cfg k).1 preempt_ok = true
      · rw [if_pos hsp, if_pos hsp]
        by_cases hne : (next_up cfg k).1 = k.current
        · rw [if_neg (by simp [hne]), if_neg (not_not.mpr hne)]
        · rw [if_pos (by simp [hts, hne]), if_pos hne]
      · rw [if_neg hsp, if_neg hsp]
    refine ⟨he, ?_⟩
    rw [he]
    by_cases hsp : should_preempt cfg k (next_up cfg k).1 preempt_ok = true
    · rw [if_pos hsp]
      show (update_metairq_preempt cfg _ _).slice_ticks = _
      rw [update_metairq_preempt_slice_ticks]
      by_cases hne : (next_up cfg k).1 = k.current
      · rw [if_neg (not_not.mpr hne), if_neg (fun h => h.2.1 hne)]
        exact next_up_slice_ticks cfg k
      · rw [if_pos hne]
        by_cases hst : k.slice_time = 0
        · rw [if_neg (fun h => h.2.2 hst)]
          unfold z_reset_time_slice
          rw [if_neg (by rw [(next_up_slice cfg k).1]; exact not_not.mpr hst)]
          exact next_up_slice_ticks cfg k
        · rw [if_pos ⟨hsp, hne, hst⟩]
          rw [z_reset_time_slice_ticks _ (by rw [(next_up_slice cfg k).1]; exact hst),
            (next_up_slice cfg k).1, (next_up_slice cfg k).2]
    · rw [if_neg hsp, if_neg (fun h => hsp h.1)]
      exact next_up_slice_ticks cfg k

theorem z_reset_time_slice_spec_witness :
    k_slice.slice_time ≠ 0 ∧
    (z_reset_time_slice k_slice).slice_ticks = 11 ∧
    (update_cache cfg_slice k_slice 0).slice_ticks = k_slice.slice_ticks :=
  ⟨by decide,
    (congrArg Kernel.slice_ticks
      ((z_reset_time_slice_spec cfg_slice k_slice 0).1 (by decide))).trans (by decide),
    (((z_reset_time_slice_spec cfg_slice k_slice 0).2.2 rfl rfl).2).trans (by decide)⟩

/-! ## Device initialisation -/

theorem wrap_int32_range (x : Int) : -2147483648 ≤ wrap_int32 x ∧ wrap_int32 x < 2147483648 := by
  unfold wrap_int32
  norm_num
  omega

theorem wrap_int32_neg (r : Int) (h1 : -2147483648 ≤ r) (h2 : r < 0) :
    wrap_int32 (-r) = if r = -2147483648 then -2147483648 else -r := by
  unfold wrap_int32
  norm_num
  split_ifs with h
  · subst h
    norm_num
  · omega

/-- The device state after one init entry that names the device. -/
theorem z_sys_init_run_level_entry_eq (devs : Nat → device_state) (d : Nat) (r : Int)
    (h1 : -2147483648 ≤ r) (h2 : r < 2147483648) :
    z_sys_init_run_level devs [⟨some d, r⟩] d =
      { init_res :=
          if r = 0 then (devs d).init_res
          else if r = -2147483648 then 0
          else (min |r| 255).toNat,
        initialized := true } := by
  show z_sys_init_run_level_entry devs ⟨some d, r⟩ d = _
  unfold z_sys_init_run_level_entry
  simp only [Function.update_same]
  by_cases h0 : r = 0
  · simp [h0]
  · rw [if_neg h0, if_pos h0]
    by_cases hn : r < 0
    · rw [if_pos hn, wrap_int32_neg r h1 hn]
      by_cases hm : r = -2147483648
      · subst hm
        simp [UINT8_MAX]
      · rw [if_neg hm, if_neg hm]
        have habs : |r| = -r := abs_of_neg hn
        rw [habs]
        unfold UINT8_MAX
        by_cases hb : -r > 255
        · rw [if_pos hb]
          have : min (-r) 255 = 255 := min_eq_right (le_of_lt hb)
          rw [this]
          rfl
        · rw [if_neg hb]
          have : min (-r) 255 = -r := min_eq_left (not_lt.mp hb)
          rw [this]
          have hmod : -r % 2 ^ 8 = -r := by omega
          simp only [hmod]
    · rw [if_neg hn]
      have hm : r ≠ -2147483648 := by omega
      rw [if_neg hm]
      have habs : |r| = r := abs_of_nonneg (not_lt.mp hn)
      rw [habs]
      unfold UINT8_MAX
      by_cases hb : r > 255
      · rw [if_pos hb]
        have : min r 255 = 255 := min_eq_right (le_of_lt hb)
        rw [this]
        rfl
      · rw [if_neg hb]
        have : min r 255 = r := min_eq_left (not_lt.mp hb)
        rw [this]
        have hmod : r % 2 ^ 8 = r := by omega
        simp only [hmod]

/-- C32 holds for every 32-bit return code but `INT_MIN`.  After
`z_sys_init_run_level` has run an init entry with a non-NULL device,
`initialized` is true whatever `rc` the init function returned, and `init_res`
is unchanged for `rc == 0` and `min(|rc|, 255)` for every other `rc` except
`INT_MIN`: there `-rc` is `INT_MIN` again, the clamp does not apply, and the
8-bit field receives the low byte 0.  So, starting from `init_res == 0`,
`z_device_ready(dev)` is true iff the init function returned 0 or `INT_MIN`;
a device whose init function failed with `INT_MIN` is reported ready.
`z_device_ready(NULL)` is false. -/
theorem z_sys_init_run_level_int_min (devs : Nat → device_state) (d : Nat) (rc : Int) :
    (z_sys_init_run_level devs [⟨some d, wrap_int32 rc⟩] d).initialized = true ∧
    (z_sys_init_run_level devs [⟨some d, wrap_int32 rc⟩] d).init_res =
      (if wrap_int32 rc = 0 then (devs d).init_res
       else if wrap_int32 rc = -2147483648 then 0
       else (min |wrap_int32 rc| 255).toNat) ∧
    (z_device_ready
        (z_sys_init_run_level (Function.update devs d { devs d with init_res := 0 })
          [⟨some d, wrap_int32 rc⟩]) (some d) = true ↔
      (wrap_int32 rc = 0 ∨ wrap_int32 rc = -2147483648)) ∧
    z_device_ready devs none = false ∧
    (z_sys_init_run_level (fun _ => { init_res := 0, initialized := false })
      [⟨some 3, -2147483648⟩] 3).init_res = 0 ∧
    z_device_ready
      (z_sys_init_run_level (fun _ => { init_res := 0, initialized := false })
        [⟨some 3, -2147483648⟩]) (some 3) = true := by
  obtain ⟨h1, h2⟩ := wrap_int32_range rc
  generalize wrap_int32 rc = r at h1 h2
  refine ⟨?_, ?_, ?_, rfl, by decide, by decide⟩
  · rw [z_sys_init_run_level_entry_eq devs d r h1 h2]
  · rw [z_sys_init_run_level_entry_eq devs d r h1 h2]
  · unfold z_device_ready
    simp only
    rw [z_sys_init_run_level_entry_eq _ d r h1 h2]
    simp only [Function.update_same, Bool.true_and, beq_iff_eq]
    by_cases h0 : r = 0
    · simp [h0]
    · rw [if_neg h0]
      by_cases hm : r = -2147483648
      · simp [hm]
      · rw [if_neg hm]
        have hpos : 0 < min |r| 255 := lt_min (abs_pos.mpr h0) (by norm_num)
        constructor
        · intro h
          have : ((min |r| 255).toNat : Int) = 0 := by rw [h]; rfl
          rw [Int.toNat_of_nonneg (le_of_lt hpos)] at this
          omega
        · rintro (h | h)
          · exact absurd h h0
          · exact absurd h hm

/-! ## Suspend and resume -/

/-- The state of `z_impl_k_thread_suspend` before `update_cache`, on a
uniprocessor build. -/
theorem suspend_pre_eq (cfg : Config) (k : Kernel) (t : Tid) (hsmp : cfg.SMP = false) :
    z_mark_thread_as_suspended
      (if z_is_thread_queued ((z_abort_thread_timeout k t).threads t) then
        dequeue_thread cfg (z_abort_thread_timeout k t) t
       else z_abort_thread_timeout k t) t =
    { (if (k.threads t).thread_state.QUEUED = true then k.unlink t else k) with
      threads := Function.update k.threads t
        { k.threads t with
          thread_state :=
            { (k.threads t).thread_state with QUEUED := false, SUSPENDED := true },
          timeout_active := false } } := by
  cases hq : (k.threads t).thread_state.QUEUED <;>
  simp [z_mark_thread_as_suspended, z_abort_thread_timeout, dequeue_thread, z_is_thread_queued,
    Kernel.upd_state, Kernel.upd, Kernel.unlink, hq, should_queue_thread, hsmp]

/-- The threads, run queue and wait queues after `z_impl_k_thread_suspend` on
a uniprocessor build. -/
theorem z_impl_k_thread_suspend_lists (cfg : Config) (k : Kernel) (t : Tid) (resched : Bool)
    (hsmp : cfg.SMP = false) :
    (z_impl_k_thread_suspend cfg k t resched).threads =
      Function.update k.threads t
        { k.threads t with
          thread_state :=
            { (k.threads t).thread_state with QUEUED := false, SUSPENDED := true },
          timeout_active := false } ∧
    (z_impl_k_thread_suspend cfg k t resched).runq =
      (if (k.threads t).thread_state.QUEUED = true then z_priq_dumb_remove k.runq t
       else k.runq) ∧
    (z_impl_k_thread_suspend cfg k t resched).waitq =
      (if (k.threads t).thread_state.QUEUED = true then
        fun w => z_priq_dumb_remove (k.waitq w) t
       else k.waitq) := by
  have hsq : ∀ K : Kernel, same_queues K
      (if t = (update_cache cfg K (if t = K.current then 1 else 0)).current then
        z_reschedule_irqlock cfg (update_cache cfg K (if t = K.current then 1 else 0)) resched
       else update_cache cfg K (if t = K.current then 1 else 0)) := by
    intro K
    generalize (if t = K.current then (1 : Int) else 0) = p
    by_cases hc : t = (update_cache cfg K p).current
    · rw [if_pos hc]
      exact same_queues_trans (update_cache_same_queues cfg K _)
        (z_reschedule_irqlock_same_queues cfg _ resched hsmp)
    · rw [if_neg hc]
      exact update_cache_same_queues cfg K _
  have h := hsq (z_mark_thread_as_suspended
      (if z_is_thread_queued ((z_abort_thread_timeout k t).threads t) then
        dequeue_thread cfg (z_abort_thread_timeout k t) t
       else z_abort_thread_timeout k t) t)
  have he : z_impl_k_thread_suspend cfg k t resched =
      (if t = (update_cache cfg (z_mark_thread_as_suspended
          (if z_is_thread_queued ((z_abort_thread_timeout k t).threads t) then
            dequeue_thread cfg (z_abort_thread_timeout k t) t
           else z_abort_thread_timeout k t) t)
          (if t = (z_mark_thread_as_suspended
          (if z_is_thread_queued ((z_abort_thread_timeout k t).threads t) then
            dequeue_thread cfg (z_abort_thread_timeout k t) t
           else z_abort_thread_timeout k t) t).current then 1 else 0)).current then
        z_reschedule_irqlock cfg (update_cache cfg (z_mark_thread_as_suspended
          (if z_is_thread_queued ((z_abort_thread_timeout k t).threads t) then
            dequeue_thread cfg (z_abort_thread_timeout k t) t
           else z_abort_thread_timeout k t) t)
          (if t = (z_mark_thread_as_suspended
          (if z_is_thread_queued ((z_abort_thread_timeout k t).threads t) then
            dequeue_thread cfg (z_abort_thread_timeout k t) t
           else z_abort_thread_timeout k t) t).current then 1 else 0)) resched
       else update_cache cfg (z_mark_thread_as_suspended
          (if z_is_thread_queued ((z_abort_thread_timeout k t).threads t) then
            dequeue_thread cfg (z_abort_thread_timeout k t) t
           else z_abort_thread_timeout k t) t)
          (if t = (z_mark_thread_as_suspended
          (if z_is_thread_queued ((z_abort_thread_timeout k t).threads t) then
            dequeue_thread cfg (z_abort_thread_timeout k t) t
           else z_abort_thread_timeout k t) t).current then 1 else 0)) := rfl
  rw [he, h.1, h.2.1, h.2.2, suspend_pre_eq cfg k t hsmp]
  refine ⟨rfl, ?_, ?_⟩
  · show (if _ then k.unlink t else k).runq = _
    split_ifs <;> rfl
  · show (if _ then k.unlink t else k).waitq = _
    split_ifs <;> rfl
theorem unqueued_of_ready (a : k_thread) (hr : z_is_thread_ready a = true) :
    ({ a with
        thread_state := { a.thread_state with QUEUED := false, SUSPENDED := false },
        timeout_active := false } : k_thread) = a.unqueued := by
  rcases a with ⟨prio, sl, dl, ⟨du, pe, pr, de, su, ab, qu⟩, ok, cm, po, ta, ii, sr, sd⟩
  simp [z_is_thread_ready, z_is_thread_prevented_from_running, z_is_thread_timeout_active] at hr
  simp [k_thread.unqueued, hr]

theorem requeued_of_queued (a : k_thread) (hq : a.thread_state.QUEUED = true) :
    ({ a.unqueued with
        thread_state := { a.unqueued.thread_state with QUEUED := true } } : k_thread) = a := by
  rcases a with ⟨prio, sl, dl, ⟨du, pe, pr, de, su, ab, qu⟩, ok, cm, po, ta, ii, sr, sd⟩
  simp at hq
  simp [k_thread.unqueued, hq]

theorem z_is_thread_ready_unqueued (a : k_thread) :
    z_is_thread_ready a.unqueued = z_is_thread_ready a := rfl

/-- Resuming a thread that was ready and queued before it was suspended, on a
uniprocessor build: every thread record is as before the suspension, and the
thread is back on the run queue where `z_priq_dumb_add` puts it. -/
theorem resume_after_suspend (cfg : Config) (k : Kernel) (t : Tid) (r1 r2 : Bool)
    (hsmp : cfg.SMP = false) (hr : z_is_thread_ready (k.threads t) = true)
    (hq : (k.threads t).thread_state.QUEUED = true) :
    (z_impl_k_thread_resume cfg (z_impl_k_thread_suspend cfg k t r1) t r2).threads =
      k.threads ∧
    (z_impl_k_thread_resume cfg (z_impl_k_thread_suspend cfg k t r1) t r2).runq =
      z_priq_dumb_add cfg k.threads (z_priq_dumb_remove k.runq t) t ∧
    (z_impl_k_thread_resume cfg (z_impl_k_thread_suspend cfg k t r1) t r2).waitq =
      fun w => z_priq_dumb_remove (k.waitq w) t := by
  obtain ⟨hst, hsr, hsw⟩ := z_impl_k_thread_suspend_lists cfg k t r1 hsmp
  rw [if_pos hq] at hsr hsw
  generalize z_impl_k_thread_suspend cfg k t r1 = S at hst hsr hsw
  have hSt : S.threads t = { k.threads t with
      thread_state := { (k.threads t).thread_state with QUEUED := false, SUSPENDED := true },
      timeout_active := false } := by
    rw [hst, Function.update_same]
  have hsus : ¬ (!z_is_thread_suspended (S.threads t)) = true := by
    rw [hSt]
    simp [z_is_thread_suspended]
  have hK1 : (z_mark_thread_as_not_suspended S t).threads =
      Function.update k.threads t (k.threads t).unqueued := by
    unfold z_mark_thread_as_not_suspended Kernel.upd_state Kernel.upd
    simp only
    rw [hSt, hst, Function.update_idem]
    exact congrArg (Function.update k.threads t) (unqueued_of_ready (k.threads t) hr)
  have hK1t : (z_mark_thread_as_not_suspended S t).threads t = (k.threads t).unqueued := by
    rw [hK1, Function.update_same]
  have hK1q : ((z_mark_thread_as_not_suspended S t).threads t).thread_state.QUEUED = false := by
    rw [hK1t]
    rfl
  have hK1r : z_is_thread_ready ((z_mark_thread_as_not_suspended S t).threads t) = true := by
    rw [hK1t, z_is_thread_ready_unqueued]
    exact hr
  have hun : ∀ x, ((z_mark_thread_as_not_suspended S t).threads x).unqueued =
      (k.threads x).unqueued := by
    intro x
    rw [hK1]
    by_cases hx : x = t
    · rw [hx, Function.update_same]
      rfl
    · rw [Function.update_noteq hx]
  have hres : z_impl_k_thread_resume cfg S t r2 =
      z_reschedule cfg (ready_thread cfg (z_mark_thread_as_not_suspended S t) t) r2 := by
    unfold z_impl_k_thread_resume
    rw [if_neg hsus]
  have hsq := z_reschedule_same_queues cfg
    (ready_thread cfg (z_mark_thread_as_not_suspended S t) t) r2 hsmp
  rw [hres, hsq.1, hsq.2.1, hsq.2.2]
  refine ⟨?_, ?_, ?_⟩
  · rw [ready_thread_threads_fire cfg _ t hK1q hK1r, hK1t, hK1, Function.update_idem,
      requeued_of_queued _ hq, Function.update_eq_self]
  · rw [ready_thread_runq_fire cfg _ t hK1q hK1r (Or.inl hsmp),
      z_priq_dumb_add_congr cfg k.threads _ hun]
    show z_priq_dumb_add cfg k.threads S.runq t = _
    rw [hsr]
  · rw [ready_thread_waitq]
    show S.waitq = _
    exact hsw

/-- C40 as stated fails with deadline scheduling: threads of equal priority are
ordered by deadline.  In `k_suspend` threads 1, 2 and 3 have priority 5 and
the deadlines 10, 20 and 30; thread 2 is ready, queued and not current.
Suspending and resuming it puts it back in front of thread 3, not at the back
of its priority. -/
theorem suspend_resume_counterexample :
    z_is_thread_ready (k_suspend.threads 2) = true ∧
    (k_suspend.threads 2).thread_state.QUEUED = true ∧ k_suspend.current ≠ 2 ∧
    k_suspend.runq = [1, 2, 3] ∧
    (k_suspend.threads 2).prio = (k_suspend.threads 3).prio ∧
    (z_impl_k_thread_suspend cfg_deadline k_suspend 2 true).runq = [1, 3] ∧
    (z_impl_k_thread_resume cfg_deadline
      (z_impl_k_thread_suspend cfg_deadline k_suspend 2 true) 2 true).runq = [1, 2, 3] := by
  decide

/-- C40 (amended): on a uniprocessor build.  `z_impl_k_thread_suspend(t)`
leaves `t` with `SUSPENDED` set and `QUEUED` clear and touches no other
thread; `t` is absent from the run queue afterwards when a thread on the run
queue has `QUEUED` set, and the wait queues are untouched when a queued thread
is on no wait queue.  `z_impl_k_thread_resume(t)` on a thread whose
`SUSPENDED` bit is clear changes no state.  For a thread `t` that was ready
and queued, with priorities in the `int8_t` range, the deadline rule and an
ordered duplicate-free run queue, suspend followed by resume leaves every
thread record as it was and `t` on the run queue once, the other threads in
their order, `t` behind every resident that is not lower than it and in front
of every resident that is lower: behind the residents of equal priority and
deadline, in front of those of lower priority. -/
theorem suspend_resume_spec (cfg : Config) (k : Kernel) (t : Tid) (r1 r2 : Bool)
    (hsmp : cfg.SMP = false) :
    ((z_impl_k_thread_suspend cfg k t r1).threads t).thread_state.SUSPENDED = true ∧
    ((z_impl_k_thread_suspend cfg k t r1).threads t).thread_state.QUEUED = false ∧
    (∀ y, y ≠ t → (z_impl_k_thread_suspend cfg k t r1).threads y = k.threads y) ∧
    ((t ∈ k.runq → (k.threads t).thread_state.QUEUED = true) →
      t ∉ (z_impl_k_thread_suspend cfg k t r1).runq) ∧
    (((k.threads t).thread_state.QUEUED = true → ∀ w, t ∉ k.waitq w) →
      (z_impl_k_thread_suspend cfg k t r1).waitq = k.waitq) ∧
    ((k.threads t).thread_state.SUSPENDED = false →
      z_impl_k_thread_resume cfg k t r2 = k) ∧
    (z_is_thread_ready (k.threads t) = true → (k.threads t).thread_state.QUEUED = true →
      (∀ x, (k.threads x).wf) → deadlines_in_half_space cfg k.threads →
      k.runq.Pairwise (fun a b => 0 ≤ z_sched_prio_cmp cfg (k.threads a) (k.threads b)) →
      k.runq.Nodup →
      (z_impl_k_thread_resume cfg (z_impl_k_thread_suspend cfg k t r1) t r2).threads =
        k.threads ∧
      t ∈ (z_impl_k_thread_resume cfg (z_impl_k_thread_suspend cfg k t r1) t r2).runq ∧
      (z_impl_k_thread_resume cfg (z_impl_k_thread_suspend cfg k t r1) t r2).runq.Nodup ∧
      ∃ l1 l2, z_priq_dumb_remove k.runq t = l1 ++ l2 ∧
        (z_impl_k_thread_resume cfg (z_impl_k_thread_suspend cfg k t r1) t r2).runq =
          l1 ++ t :: l2 ∧
        (∀ x ∈ l1, ¬ 0 < z_sched_prio_cmp cfg (k.threads t) (k.threads x)) ∧
        (∀ x ∈ l2, 0 < z_sched_prio_cmp cfg (k.threads t) (k.threads x)) ∧
        (∀ x ∈ k.runq, x ≠ t → (k.threads x).prio = (k.threads t).prio →
          (k.threads x).prio_deadline % 2 ^ 32 = (k.threads t).prio_deadline % 2 ^ 32 →
          x ∈ l1) ∧
        (∀ x ∈ k.runq, (k.threads t).prio < (k.threads x).prio → x ∈ l2)) := by
  obtain ⟨hst, hsr, hsw⟩ := z_impl_k_thread_suspend_lists cfg k t r1 hsmp
  refine ⟨?_, ?_, ?_, ?_, ?_, ?_, ?_⟩
  · rw [hst, Function.update_same]
  · rw [hst, Function.update_same]
  · intro y hy
    rw [hst, Function.update_noteq hy]
  · intro hin hm
    rw [hsr] at hm
    by_cases hq : (k.threads t).thread_state.QUEUED = true
    · rw [if_pos hq] at hm
      exact ((mem_z_priq_dumb_remove k.runq t t).mp hm).2 rfl
    · rw [if_neg hq] at hm
      exact hq (hin hm)
  · intro hw
    rw [hsw]
    by_cases hq : (k.threads t).thread_state.QUEUED = true
    · rw [if_pos hq]
      funext w
      exact z_priq_dumb_remove_of_not_mem (k.waitq w) t (hw hq w)
    · rw [if_neg hq]
  · intro hs
    unfold z_impl_k_thread_resume
    rw [if_pos (by simp [z_is_thread_suspended, hs])]
  · intro hr hq hwf hdl hs hn
    obtain ⟨ht, hrun, _⟩ := resume_after_suspend cfg k t r1 r2 hsmp hr hq
    have ho : CmpOrder cfg k.threads := cmpOrder_of_rule cfg k.threads hwf hdl
    have hsr2 : (z_priq_dumb_remove k.runq t).Pairwise
        (fun a b => 0 ≤ z_sched_prio_cmp cfg (k.threads a) (k.threads b)) :=
      List.Pairwise.sublist (sublist_z_priq_dumb_remove k.runq t) hs
    have hnr : (z_priq_dumb_remove k.runq t).Nodup :=
      List.Nodup.sublist (sublist_z_priq_dumb_remove k.runq t) hn
    have htr : t ∉ z_priq_dumb_remove k.runq t := fun hm =>
      ((mem_z_priq_dumb_remove k.runq t t).mp hm).2 rfl
    obtain ⟨l1, l2, h1, h2, h3, h4⟩ :=
      z_priq_dumb_add_split_sorted cfg k.threads ho (z_priq_dumb_remove k.runq t) t hsr2
    refine ⟨ht, ?_, ?_, l1, l2, h1, by rw [hrun, h2], h3, h4, ?_, ?_⟩
    · rw [hrun, mem_z_priq_dumb_add]
      exact Or.inl rfl
    · rw [hrun]
      exact nodup_z_priq_dumb_add cfg k.threads _ t hnr htr
    · intro x hx hxt hp hd
      have hc : z_sched_prio_cmp cfg (k.threads t) (k.threads x) = 0 :=
        z_sched_prio_cmp_eq_zero cfg _ _ hp.symm hd.symm
      have hx2 : x ∉ l2 := fun hm => by
        have := h4 x hm
        omega
      have hxm : x ∈ l1 ++ l2 := by
        rw [← h1]
        exact (mem_z_priq_dumb_remove k.runq t x).mpr ⟨hx, hxt⟩
      rcases List.mem_append.mp hxm with hm | hm
      · exact hm
      · exact absurd hm hx2
    · intro x hx hp
      have hc : 0 < z_sched_prio_cmp cfg (k.threads t) (k.threads x) :=
        z_sched_prio_cmp_pos_of_prio_lt cfg _ _ (hwf t) (hwf x) hp
      have hxt : x ≠ t := fun h => by
        rw [h] at hp
        omega
      have hx1 : x ∉ l1 := fun hm => h3 x hm hc
      have hxm : x ∈ l1 ++ l2 := by
        rw [← h1]
        exact (mem_z_priq_dumb_remove k.runq t x).mpr ⟨hx, hxt⟩
      rcases List.mem_append.mp hxm with hm | hm
      · exact absurd hm hx1
      · exact hm

theorem suspend_resume_spec_witness :
    z_is_thread_ready (k_rr.threads 2) = true ∧
    (k_rr.threads 2).thread_state.QUEUED = true ∧
    (z_impl_k_thread_resume cfg_deadline
      (z_impl_k_thread_suspend cfg_deadline k_rr 2 true) 2 true).threads = k_rr.threads ∧
    (z_impl_k_thread_resume cfg_deadline
      (z_impl_k_thread_suspend cfg_deadline k_rr 2 true) 2 true).runq = [1, 3, 2, 9] :=
  ⟨by decide, by decide,
    ((suspend_resume_spec cfg_deadline k_rr 2 true true rfl).2.2.2.2.2.2 (by decide)
      (by decide)
      (fun x => by
        simp only [k_rr, mk_kernel]
        split_ifs <;> decide)
      (Or.inr ⟨0, fun x => by
        simp only [k_rr, mk_kernel]
        split_ifs <;> decide⟩)
      (by decide) (by decide)).1,
    by decide⟩

/-! ## Next-thread selection on SMP -/

theorem dequeue_thread_runq_of_current (cfg : Config) (k : Kernel) (t : Tid)
    (hs : cfg.SMP = true) (ht : t = k.current) :
    (dequeue_thread cfg k t).runq = k.runq := by
  unfold dequeue_thread should_queue_thread
  simp [hs, Kernel.upd_state, Kernel.upd, ht]

/-- The SMP `next_up()` when `_current` is not aborting: the choice and the
final state in terms of the state `K` and the thread `t0` that the shared part
hands over. -/
theorem next_up_smp_eq (cfg : Config) (k : Kernel)
    (hab : is_aborting (k.threads k.current) = false) :
    ∃ K : Kernel, K.threads = k.threads ∧ K.runq = k.runq ∧ K.current = k.current ∧
      K.swap_ok = k.swap_ok ∧ K.waitq = k.waitq ∧
      ∃ th2 : Tid,
        th2 = (if (!z_is_thread_prevented_from_running (k.threads k.current)) = true then
            (if (!should_preempt cfg k
                (if z_sched_prio_cmp cfg (k.threads k.current)
                      (k.threads (next_up_candidate cfg k)) > 0 ∨
                    (z_sched_prio_cmp cfg (k.threads k.current)
                      (k.threads (next_up_candidate cfg k)) = 0 ∧ k.swap_ok = 0)
                 then k.current else next_up_candidate cfg k) k.swap_ok) = true
             then k.current
             else (if z_sched_prio_cmp cfg (k.threads k.current)
                      (k.threads (next_up_candidate cfg k)) > 0 ∨
                    (z_sched_prio_cmp cfg (k.threads k.current)
                      (k.threads (next_up_candidate cfg k)) = 0 ∧ k.swap_ok = 0)
                 then k.current else next_up_candidate cfg k))
          else next_up_candidate cfg k) ∧
        ∃ K2 : Kernel,
          K2 = (if th2 ≠ k.current ∧
                (!z_is_thread_prevented_from_running (k.threads k.current)) = true ∧
                z_is_idle_thread_object cfg K K.current = false ∧
                z_is_thread_queued (k.threads k.current) = false
              then queue_thread cfg K K.current else K) ∧
          next_up_smp cfg k =
            (th2, { (if z_is_thread_queued (K2.threads th2) then dequeue_thread cfg K2 th2
                     else K2) with swap_ok := 0 }) := by
  have hf := next_up_common_fields cfg k
  have hcand : next_up_candidate cfg k =
      if (next_up_common cfg k).1 = NULL then (next_up_common cfg k).2.idle_thread
      else (next_up_common cfg k).1 := by
    unfold next_up_candidate
    rw [hf.2.2.2.2.1]
  unfold next_up_smp
  generalize next_up_common cfg k = r at hf hcand ⊢
  obtain ⟨t0, K⟩ := r
  obtain ⟨hth, hrq, hcur, hsw, hidle, hzi, hwq⟩ := hf
  dsimp only at hth hrq hcur hsw hidle hzi hwq hcand ⊢
  have hab' : ¬ is_aborting (K.threads K.current) = true := by
    rw [hth, hcur, hab]
    simp
  rw [if_neg hab']
  have hsp : ∀ t p, should_preempt cfg K t p = should_preempt cfg k t p := by
    intro t p
    unfold should_preempt
    rw [hth, hcur]
  refine ⟨K, hth, hrq, hcur, hsw, hwq, _, rfl, _, rfl, ?_⟩
  rw [← hcand, hth, hcur, hsw]
  simp only [hsp]

/-- Taking the chosen thread out of the queue, the last step of the SMP
`next_up()`. -/
theorem cond_dequeue_smp (cfg : Config) (k : Kernel) (t : Tid) (hs : cfg.SMP = true) :
    ((if z_is_thread_queued (k.threads t) = true then dequeue_thread cfg k t else k).threads
      t).thread_state.QUEUED = false ∧
    (∀ y, y ≠ t →
      (if z_is_thread_queued (k.threads t) = true then dequeue_thread cfg k t else k).threads y =
        k.threads y) ∧
    (∀ x, x ∈ (if z_is_thread_queued (k.threads t) = true then dequeue_thread cfg k t
        else k).runq → x ∈ k.runq) ∧
    (∀ y, y ≠ t → y ∈ k.runq →
      y ∈ (if z_is_thread_queued (k.threads t) = true then dequeue_thread cfg k t
        else k).runq) ∧
    (t ≠ k.current → (k.threads t).thread_state.QUEUED = true →
      t ∉ (if z_is_thread_queued (k.threads t) = true then dequeue_thread cfg k t
        else k).runq) ∧
    (t = k.current →
      (if z_is_thread_queued (k.threads t) = true then dequeue_thread cfg k t else k).runq =
        k.runq) := by
  by_cases hq : z_is_thread_queued (k.threads t) = true
  · rw [if_pos hq]
    refine ⟨?_, ?_, mem_dequeue_thread_runq cfg k t, ?_, ?_, ?_⟩
    · rw [dequeue_thread_threads_any, Function.update_same]
    · intro y hy
      rw [dequeue_thread_threads_any, Function.update_noteq hy]
    · intro y hy hm
      by_cases hc : t = k.current
      · rw [dequeue_thread_runq_of_current cfg k t hs hc]
        exact hm
      · rw [(dequeue_thread_lists_of_should cfg k t (Or.inr hc)).1]
        exact (mem_z_priq_dumb_remove k.runq t y).mpr ⟨hm, hy⟩
    · intro hc _ hm
      rw [(dequeue_thread_lists_of_should cfg k t (Or.inr hc)).1] at hm
      exact ((mem_z_priq_dumb_remove k.runq t t).mp hm).2 rfl
    · intro hc
      exact dequeue_thread_runq_of_current cfg k t hs hc
  · rw [if_neg hq]
    refine ⟨?_, fun _ _ => rfl, fun _ h => h, fun _ _ h => h, ?_, fun _ => rfl⟩
    · simpa [z_is_thread_queued] using hq
    · intro _ hq2
      exact absurd (by simpa [z_is_thread_queued] using hq2) hq

/-- C37 as stated fails.  On SMP another CPU can suspend and resume the thread
this CPU is running, which puts it on the run queue with `QUEUED` set
(`k_smp_requeued`): `next_up()` then returns `_current` with `QUEUED` cleared
while it is still on the run queue, because `dequeue_thread` does not unlink
`_current`.  And in a state where a thread is on the run queue with `QUEUED`
clear (`k_smp_stale`) the returned thread stays on the run queue. -/
theorem next_up_smp_counterexample :
    cfg_smp.SMP = true ∧
    is_aborting (k_smp_requeued.threads k_smp_requeued.current) = false ∧
    (next_up_smp cfg_smp k_smp_requeued).1 = 1 ∧
    ((next_up_smp cfg_smp k_smp_requeued).2.threads 1).thread_state.QUEUED = false ∧
    1 ∈ (next_up_smp cfg_smp k_smp_requeued).2.runq ∧
    is_aborting (k_smp_stale.threads k_smp_stale.current) = false ∧
    k_smp_stale.runq = [2] ∧ (k_smp_stale.threads 2).thread_state.QUEUED = false ∧
    (next_up_smp cfg_smp k_smp_stale).1 = 2 ∧
    2 ∈ (next_up_smp cfg_smp k_smp_stale).2.runq := by
  decide

/-- C37 (amended): on an SMP build, for every state in which `_current` is not
`ABORTING`, the thread `r` returned by `next_up()` has its `QUEUED` bit clear
and `swap_ok` is false afterwards; no thread is inserted into the run queue;
if `_current` was not on the run queue and every thread on the run queue had
`QUEUED` set, `r` is not on the run queue afterwards; if `r != _current` and
`_current` was active, not the idle thread and not `QUEUED`, then `_current`
has `QUEUED` set afterwards and its membership of the run queue is as before
(it is not inserted); if `r == _current` the run queue is unchanged. -/
theorem next_up_smp_spec (cfg : Config) (k : Kernel) (hsmp : cfg.SMP = true)
    (hab : is_aborting (k.threads k.current) = false) :
    ((next_up_smp cfg k).2.threads (next_up_smp cfg k).1).thread_state.QUEUED = false ∧
    (next_up_smp cfg k).2.swap_ok = 0 ∧
    (∀ x, x ∈ (next_up_smp cfg k).2.runq → x ∈ k.runq) ∧
    (k.current ∉ k.runq → (∀ x ∈ k.runq, (k.threads x).thread_state.QUEUED = true) →
      (next_up_smp cfg k).1 ∉ (next_up_smp cfg k).2.runq) ∧
    ((next_up_smp cfg k).1 ≠ k.current →
      z_is_thread_prevented_from_running (k.threads k.current) = false →
      z_is_idle_thread_object cfg k k.current = false →
      (k.threads k.current).thread_state.QUEUED = false →
      ((next_up_smp cfg k).2.threads k.current).thread_state.QUEUED = true ∧
      (k.current ∈ (next_up_smp cfg k).2.runq ↔ k.current ∈ k.runq)) ∧
    ((next_up_smp cfg k).1 = k.current → (next_up_smp cfg k).2.runq = k.runq) := by
  obtain ⟨K, hth, hrq, hcur, hsw, hwq, th2, hth2, K2, hK2, he⟩ := next_up_smp_eq cfg k hab
  have hidle : z_is_idle_thread_object cfg K K.current =
      z_is_idle_thread_object cfg k k.current := by
    unfold z_is_idle_thread_object
    rw [hth, hcur]
    simp [hsmp]
  have hK2r : K2.runq = k.runq := by
    rw [hK2]
    split_ifs
    · rw [queue_thread_runq_of_current cfg K K.current hsmp rfl, hrq]
    · exact hrq
  have hK2c : K2.current = k.current := by
    rw [hK2]
    split_ifs
    · rw [queue_thread_current, hcur]
    · exact hcur
  have hK2o : ∀ y, y ≠ k.current → K2.threads y = k.threads y := by
    intro y hy
    rw [hK2]
    split_ifs
    · rw [queue_thread_threads_any, Function.update_noteq (by rw [hcur]; exact hy), hth]
    · rw [hth]
  obtain ⟨d1, d2, d3, d4, d5, d6⟩ := cond_dequeue_smp cfg K2 th2 hsmp
  rw [he]
  refine ⟨d1, rfl, ?_, ?_, ?_, ?_⟩
  · intro x hx
    rw [← hK2r]
    exact d3 x hx
  · intro hcn hall hm
    have hm2 : th2 ∈ k.runq := by
      rw [← hK2r]
      exact d3 th2 hm
    have hne : th2 ≠ k.current := fun h => hcn (h ▸ hm2)
    have hq : (K2.threads th2).thread_state.QUEUED = true := by
      rw [hK2o th2 hne]
      exact hall th2 hm2
    exact d5 (by rw [hK2c]; exact hne) hq hm
  · intro hne hact hnid hnq
    have hc : th2 ≠ k.current ∧
        (!z_is_thread_prevented_from_running (k.threads k.current)) = true ∧
        z_is_idle_thread_object cfg K K.current = false ∧
        z_is_thread_queued (k.threads k.current) = false := by
      refine ⟨hne, by rw [hact]; rfl, by rw [hidle]; exact hnid, ?_⟩
      simpa [z_is_thread_queued] using hnq
    rw [if_pos hc] at hK2
    have hq2 : (K2.threads k.current).thread_state.QUEUED = true := by
      rw [hK2, queue_thread_threads_any, hcur, Function.update_same]
    refine ⟨?_, ?_⟩
    · show ((if z_is_thread_queued (K2.threads th2) = true then dequeue_thread cfg K2 th2
          else K2).threads k.current).thread_state.QUEUED = true
      rw [d2 k.current (Ne.symm hne)]
      exact hq2
    · constructor
      · intro hm
        rw [← hK2r]
        exact d3 _ hm
      · intro hm
        exact d4 k.current (Ne.symm hne) (by rw [hK2r]; exact hm)
  · intro heq
    show (if z_is_thread_queued (K2.threads th2) = true then dequeue_thread cfg K2 th2
        else K2).runq = k.runq
    rw [d6 (by rw [hK2c]; exact heq), hK2r]

theorem next_up_smp_spec_witness :
    is_aborting (k_slice_smp.threads k_slice_smp.current) = false ∧
    (next_up_smp cfg_smp k_slice_smp).1 = 1 ∧
    ((next_up_smp cfg_smp k_slice_smp).2.threads
      (next_up_smp cfg_smp k_slice_smp).1).thread_state.QUEUED = false ∧
    (next_up_smp cfg_smp k_slice_smp).2.swap_ok = 0 :=
  ⟨by decide, by decide, (next_up_smp_spec cfg_smp k_slice_smp rfl (by decide)).1,
    (next_up_smp_spec cfg_smp k_slice_smp rfl (by decide)).2.1⟩

/-- C38 as stated fails when `metairq_preempted` holds a runnable thread: in
`k_smp_slot` thread 1 is current, not prevented from running and not
aborting, the best thread of the run queue is thread 2, which is lower than
thread 1, yet `next_up()` returns the remembered thread 5. -/
theorem next_up_smp_choice_counterexample :
    cfg_smp.SMP = true ∧
    z_is_thread_prevented_from_running (k_smp_slot.threads k_smp_slot.current) = false ∧
    is_aborting (k_smp_slot.threads k_smp_slot.current) = false ∧
    _priq_run_best cfg_smp k_smp_slot = 2 ∧
    0 < z_sched_prio_cmp cfg_smp (k_smp_slot.threads k_smp_slot.current)
      (k_smp_slot.threads 2) ∧
    k_smp_slot.metairq_preempted = 5 ∧
    (next_up_smp cfg_smp k_smp_slot).1 = 5 ∧
    (next_up_smp cfg_smp k_smp_slot).1 ≠ k_smp_slot.current := by
  decide

/-- C38 (amended): on an SMP build, let `_current` be not prevented from
running and not `ABORTING`, and let `best` be the thread the comparison is
made with: the thread remembered in `metairq_preempted` when the
metairq-return rule selects it, otherwise the best thread of the run queue,
and the idle thread when that gives NULL (so with the slot NULL, or without
metairq or cooperative priorities, the queue's best thread or the idle
thread).  If `z_sched_prio_cmp(_current, best) > 0`, or it is 0 and `swap_ok`
is false, `next_up()` returns `_current`; when the comparison is 0 and
`swap_ok` is true, `next_up()` returns `best`. -/
theorem next_up_smp_choice (cfg : Config) (k : Kernel)
    (hab : is_aborting (k.threads k.current) = false)
    (hact : z_is_thread_prevented_from_running (k.threads k.current) = false) :
    ((0 < z_sched_prio_cmp cfg (k.threads k.current) (k.threads (next_up_candidate cfg k)) ∨
        (z_sched_prio_cmp cfg (k.threads k.current) (k.threads (next_up_candidate cfg k)) = 0 ∧
          k.swap_ok = 0)) →
      (next_up_smp cfg k).1 = k.current) ∧
    (z_sched_prio_cmp cfg (k.threads k.current) (k.threads (next_up_candidate cfg k)) = 0 →
      k.swap_ok ≠ 0 → (next_up_smp cfg k).1 = next_up_candidate cfg k) ∧
    ((k.metairq_preempted = NULL ∨ cfg.NUM_METAIRQ_PRIORITIES = 0 ∨
        cfg.NUM_COOP_PRIORITIES = 0) →
      next_up_candidate cfg k =
        (if _priq_run_best cfg k = NULL then k.idle_thread else _priq_run_best cfg k)) := by
  obtain ⟨K, _, _, _, _, _, th2, hth2, K2, _, he⟩ := next_up_smp_eq cfg k hab
  have h1 : (next_up_smp cfg k).1 = th2 := by rw [he]
  have hactive : (!z_is_thread_prevented_from_running (k.threads k.current)) = true := by
    rw [hact]
    rfl
  rw [if_pos hactive] at hth2
  refine ⟨?_, ?_, ?_⟩
  · intro hc
    have hc' : z_sched_prio_cmp cfg (k.threads k.current)
          (k.threads (next_up_candidate cfg k)) > 0 ∨
        (z_sched_prio_cmp cfg (k.threads k.current)
          (k.threads (next_up_candidate cfg k)) = 0 ∧ k.swap_ok = 0) := hc
    rw [if_pos hc'] at hth2
    rw [h1, hth2]
    split_ifs <;> rfl
  · intro h0 hs
    have hc' : ¬ (z_sched_prio_cmp cfg (k.threads k.current)
          (k.threads (next_up_candidate cfg k)) > 0 ∨
        (z_sched_prio_cmp cfg (k.threads k.current)
          (k.threads (next_up_candidate cfg k)) = 0 ∧ k.swap_ok = 0)) := by
      rintro (h | h)
      · rw [h0] at h
        exact absurd h (by decide)
      · exact hs h.2
    rw [if_neg hc'] at hth2
    have hsp : should_preempt cfg k (next_up_candidate cfg k) k.swap_ok = true := by
      unfold should_preempt
      rw [if_pos hs]
    rw [if_neg (by rw [hsp]; simp)] at hth2
    rw [h1, hth2]
  · intro h
    unfold next_up_candidate next_up_common
    dsimp only
    rcases h with h | h | h
    · rw [h]
      simp
    · rw [h]
      simp
    · rw [h]
      simp

theorem next_up_smp_choice_witness :
    is_aborting (k_slice_smp.threads k_slice_smp.current) = false ∧
    z_is_thread_prevented_from_running (k_slice_smp.threads k_slice_smp.current) = false ∧
    next_up_candidate cfg_smp k_slice_smp = 2 ∧
    (next_up_smp cfg_smp k_slice_smp).1 = k_slice_smp.current :=
  ⟨by decide, by decide, by decide,
    (next_up_smp_choice cfg_smp k_slice_smp (by decide) (by decide)).1
      (Or.inr ⟨by decide, by decide⟩)⟩

/-! ## The multi-queue -/

theorem ctz_scan_spec (x : Nat) :
    ∀ (fuel i : Nat), i ≤ ctz_scan x fuel i ∧ ctz_scan x fuel i ≤ i + fuel ∧
      (∀ j, i ≤ j → j < ctz_scan x fuel i → x.testBit j = false) ∧
      (ctz_scan x fuel i < i + fuel → x.testBit (ctz_scan x fuel i) = true) := by
  intro fuel
  induction fuel with
  | zero =>
    intro i
    unfold ctz_scan
    exact ⟨le_refl _, le_refl _, fun j h1 h2 => absurd h2 (by omega), fun h => absurd h (by omega)⟩
  | succ n ih =>
    intro i
    unfold ctz_scan
    by_cases hb : x.testBit i = true
    · rw [if_pos hb]
      exact ⟨le_refl _, by omega, fun j h1 h2 => absurd h2 (by omega), fun _ => hb⟩
    · rw [if_neg hb]
      obtain ⟨h1, h2, h3, h4⟩ := ih (i + 1)
      refine ⟨by omega, by omega, ?_, fun h => h4 (by omega)⟩
      intro j hj1 hj2
      by_cases hji : j = i
      · rw [hji]
        simpa using hb
      · exact h3 j (by omega) hj2

/-- `__builtin_ctz` of a word with a bit set below 32: the index of the lowest
set bit. -/
theorem builtin_ctz_spec (x i : Nat) (hi : i < 32) (hb : x.testBit i = true) :
    __builtin_ctz x ≤ i ∧ x.testBit (__builtin_ctz x) = true ∧
    ∀ j, j < __builtin_ctz x → x.testBit j = false := by
  obtain ⟨_, h2, h3, h4⟩ := ctz_scan_spec x 32 0
  have hle : ctz_scan x 32 0 ≤ i := by
    by_contra hlt
    have := h3 i (Nat.zero_le _) (by omega)
    rw [hb] at this
    exact Bool.noConfusion this
  exact ⟨hle, h4 (by omega), fun j hj => h3 j (Nat.zero_le _) hj⟩

theorem eq_zero_of_testBit_false (m : Nat) (hm : m < 2 ^ 32)
    (h : ∀ i, i < 32 → m.testBit i = false) : m = 0 := by
  apply Nat.eq_of_testBit_eq
  intro i
  rw [Nat.zero_testBit]
  by_cases hi : i < 32
  · exact h i hi
  · apply Nat.testBit_lt_two_pow
    calc m < 2 ^ 32 := hm
      _ ≤ 2 ^ i := Nat.pow_le_pow_right (by norm_num) (by omega)

theorem priority_bit_lt (cfg : Config) (th : Tid → k_thread) (hidx : prio_in_mq_range cfg th)
    (t : Tid) : priority_bit cfg th t < 32 := by
  unfold priority_bit
  have := hidx t
  omega

theorem priq_mq_inv_empty (cfg : Config) (th : Tid → k_thread) :
    priq_mq_inv cfg th { queues := fun _ => [], bitmask := 0 } [] := by
  refine ⟨fun i => rfl, by norm_num, fun i _ => ?_⟩
  simp

theorem priq_mq_inv_add (cfg : Config) (th : Tid → k_thread) (hidx : prio_in_mq_range cfg th)
    (pq : priq_mq) (A : List Tid) (t : Tid) (h : priq_mq_inv cfg th pq A) :
    priq_mq_inv cfg th (z_priq_mq_add cfg th pq t) (A ++ [t]) := by
  obtain ⟨hq, hm, hb⟩ := h
  have hlt := priority_bit_lt cfg th hidx t
  have hqueues : ∀ i, (z_priq_mq_add cfg th pq t).queues i =
      (A ++ [t]).filter (fun x => priority_bit cfg th x == i) := by
    intro i
    unfold z_priq_mq_add
    simp only
    by_cases hi : i = priority_bit cfg th t
    · rw [hi, Function.update_same, hq, List.filter_append]
      simp
    · rw [Function.update_noteq hi, hq, List.filter_append]
      have : (priority_bit cfg th t == i) = false := by
        simpa using fun h => hi h.symm
      simp [this]
  refine ⟨hqueues, ?_, ?_⟩
  · unfold z_priq_mq_add
    exact Nat.mod_lt _ (by norm_num)
  · intro i hi
    rw [hqueues i]
    have hbit : (z_priq_mq_add cfg th pq t).bitmask.testBit i =
        (pq.bitmask.testBit i || decide (priority_bit cfg th t = i)) := by
      unfold z_priq_mq_add BIT
      simp only
      rw [Nat.testBit_mod_two_pow, Nat.testBit_or, Nat.testBit_two_pow]
      simp [hi]
    rw [hbit, List.filter_append]
    by_cases hit : priority_bit cfg th t = i
    · simp [hit]
    · have h1 := hb i hi
      rw [hq i] at h1
      have : (priority_bit cfg th t == i) = false := by simpa using hit
      simp [hit, this, h1]

theorem filter_remove_comm (A : List Tid) (t : Tid) (p : Tid → Bool) :
    sys_dlist_remove (A.filter p) t = (A.filter (fun n => n != t)).filter p := by
  unfold sys_dlist_remove
  rw [List.filter_filter, List.filter_filter]
  apply List.filter_congr
  intro a _
  exact Bool.and_comm _ _

theorem priq_mq_inv_remove (cfg : Config) (th : Tid → k_thread)
    (hidx : prio_in_mq_range cfg th) (pq : priq_mq) (A : List Tid) (t : Tid)
    (h : priq_mq_inv cfg th pq A) :
    priq_mq_inv cfg th (z_priq_mq_remove cfg th pq t) (A.filter (fun n => n != t)) := by
  obtain ⟨hq, hm, hb⟩ := h
  have hlt := priority_bit_lt cfg th hidx t
  have hqueues : ∀ i, (z_priq_mq_remove cfg th pq t).queues i =
      (A.filter (fun n => n != t)).filter (fun x => priority_bit cfg th x == i) := by
    intro i
    show sys_dlist_remove (pq.queues i) t = _
    rw [hq i, filter_remove_comm]
  have hother : ∀ i, i ≠ priority_bit cfg th t →
      sys_dlist_remove (pq.queues i) t = pq.queues i := by
    intro i hi
    unfold sys_dlist_remove
    rw [List.filter_eq_self]
    intro a ha
    rw [hq i, List.mem_filter] at ha
    have hidxa : priority_bit cfg th a = i := by simpa using ha.2
    have : a ≠ t := fun hat => hi (by rw [← hidxa, hat])
    simpa using this
  have hpow : BIT (priority_bit cfg th t) % 2 ^ 32 = 2 ^ priority_bit cfg th t := by
    unfold BIT
    exact Nat.mod_eq_of_lt (Nat.pow_lt_pow_right (by norm_num) hlt)
  have hf : (0xffffffff : Nat) = 2 ^ 32 - 1 := by norm_num
  refine ⟨hqueues, ?_, ?_⟩
  · unfold z_priq_mq_remove
    simp only
    split_ifs
    · exact lt_of_le_of_lt Nat.and_le_left hm
    · exact hm
  · intro i hi
    show (z_priq_mq_remove cfg th pq t).bitmask.testBit i = true ↔
      sys_dlist_remove (pq.queues i) t ≠ []
    by_cases hemp : sys_dlist_remove (pq.queues (priority_bit cfg th t)) t = []
    · have hbm : (z_priq_mq_remove cfg th pq t).bitmask =
          pq.bitmask &&& (0xffffffff ^^^ (BIT (priority_bit cfg th t) % 2 ^ 32)) := by
        unfold z_priq_mq_remove
        simp only
        rw [if_pos hemp]
      rw [hbm, hpow, hf, Nat.testBit_and, Nat.testBit_xor, Nat.testBit_two_pow_sub_one,
        Nat.testBit_two_pow]
      by_cases hit : i = priority_bit cfg th t
      · rw [hit, hemp]
        simp [hlt]
      · rw [hother i hit]
        have hne : ¬ priority_bit cfg th t = i := fun h => hit h.symm
        simp [hi, hne]
        exact hb i hi
    · have hbm : (z_priq_mq_remove cfg th pq t).bitmask = pq.bitmask := by
        unfold z_priq_mq_remove
        simp only
        rw [if_neg hemp]
      rw [hbm]
      by_cases hit : i = priority_bit cfg th t
      · rw [hit]
        have hne : pq.queues (priority_bit cfg th t) ≠ [] := by
          intro h0
          apply hemp
          rw [h0]
          rfl
        exact ⟨fun _ => hemp, fun _ => (hb _ hlt).mpr hne⟩
      · rw [hother i hit]
        exact hb i hi

theorem priq_mq_inv_step (cfg : Config) (th : Tid → k_thread)
    (hidx : prio_in_mq_range cfg th) (pq : priq_mq) (s : List Tid × Nat) (op : PriqOp)
    (h : priq_mq_inv cfg th pq s.1) :
    priq_mq_inv cfg th (priq_mq_step cfg th pq op) (arrival_step s op).1 := by
  cases op with
  | add t => exact priq_mq_inv_add cfg th hidx pq s.1 t h
  | remove t => exact priq_mq_inv_remove cfg th hidx pq s.1 t h

theorem priq_mq_inv_run (cfg : Config) (th : Tid → k_thread)
    (hidx : prio_in_mq_range cfg th) (ops : List PriqOp) :
    ∀ (pq : priq_mq) (s : List Tid × Nat), priq_mq_inv cfg th pq s.1 →
      priq_mq_inv cfg th (ops.foldl (priq_mq_step cfg th) pq) (ops.foldl arrival_step s).1 := by
  induction ops with
  | nil => intro pq s h; exact h
  | cons op rest ih =>
    intro pq s h
    exact ih _ _ (priq_mq_inv_step cfg th hidx pq s op h)

theorem arrival_step_mem (s : List Tid × Nat) (r : Tid → Bool) (op : PriqOp)
    (h : ∀ x, x ∈ s.1 ↔ r x = true) :
    ∀ x, x ∈ (arrival_step s op).1 ↔ resident_step r op x = true := by
  intro x
  cases op with
  | add t =>
    show x ∈ s.1 ++ [t] ↔ (x == t || r x) = true
    simp only [List.mem_append, List.mem_singleton, h x, Bool.or_eq_true, beq_iff_eq]
    tauto
  | remove t =>
    show x ∈ s.1.filter (fun n => n != t) ↔ (x != t && r x) = true
    simp only [List.mem_filter, h x, Bool.and_eq_true, bne_iff_ne, ne_eq]
    tauto

theorem arrival_run_mem (ops : List PriqOp) :
    ∀ (s : List Tid × Nat) (r : Tid → Bool), (∀ x, x ∈ s.1 ↔ r x = true) →
      ∀ x, x ∈ (ops.foldl arrival_step s).1 ↔ ops.foldl resident_step r x = true := by
  induction ops with
  | nil => intro s r h; exact h
  | cons op rest ih =>
    intro s r h
    exact ih _ _ (arrival_step_mem s r op h)

theorem mem_arrival_order (ops : List PriqOp) (x : Tid) :
    x ∈ arrival_order ops ↔ resident_after ops x = true :=
  arrival_run_mem ops ([], 0) (fun _ => false) (by simp) x

theorem resident_null_run (ops : List PriqOp) :
    ∀ (r : Tid → Bool), r NULL = false → valid_ops_from r ops →
      ops.foldl resident_step r NULL = false := by
  induction ops with
  | nil => intro r h _; exact h
  | cons op rest ih =>
    intro r h hv
    cases op with
    | add t =>
      obtain ⟨ht0, _, hrest⟩ := hv
      refine ih _ ?_ hrest
      show (NULL == t || r NULL) = false
      rw [h]
      simpa using fun h' => ht0 h'.symm
    | remove t =>
      obtain ⟨_, hrest⟩ := hv
      refine ih _ ?_ hrest
      show (NULL != t && r NULL) = false
      rw [h]
      simp

theorem resident_after_null (ops : List PriqOp) (hv : valid_ops ops) :
    resident_after ops NULL = false :=
  resident_null_run ops (fun _ => false) rfl hv

/-- What `z_priq_mq_best` returns on a multi-queue that satisfies the
invariant against the arrival list `A`. -/
theorem z_priq_mq_best_spec (cfg : Config) (th : Tid → k_thread)
    (hidx : prio_in_mq_range cfg th) (pq : priq_mq) (A : List Tid) (h0 : NULL ∉ A)
    (h : priq_mq_inv cfg th pq A) :
    (z_priq_mq_best pq = NULL ↔ A = []) ∧
    (A ≠ [] → z_priq_mq_best pq ∈ A ∧
      (pq.queues (priority_bit cfg th (z_priq_mq_best pq))).head? = some (z_priq_mq_best pq) ∧
      (∀ i, i < priority_bit cfg th (z_priq_mq_best pq) → pq.queues i = []) ∧
      (∀ u ∈ A, priority_bit cfg th (z_priq_mq_best pq) ≤ priority_bit cfg th u)) := by
  obtain ⟨hq, hm, hb⟩ := h
  have hmemq : ∀ a ∈ A, a ∈ pq.queues (priority_bit cfg th a) := by
    intro a ha
    rw [hq, List.mem_filter]
    exact ⟨ha, by simp⟩
  by_cases hz : pq.bitmask = 0
  · have hA : A = [] := by
      cases A with
      | nil => rfl
      | cons a rest =>
        exfalso
        have hmem := hmemq a (List.mem_cons_self _ _)
        have hbit := (hb _ (priority_bit_lt cfg th hidx a)).mpr (List.ne_nil_of_mem hmem)
        rw [hz, Nat.zero_testBit] at hbit
        exact Bool.noConfusion hbit
    have hbest : z_priq_mq_best pq = NULL := by
      unfold z_priq_mq_best
      rw [if_pos hz]
    exact ⟨⟨fun _ => hA, fun _ => hbest⟩, fun hne => absurd hA hne⟩
  · have hex : ∃ i, i < 32 ∧ pq.bitmask.testBit i = true := by
      by_contra hno
      apply hz
      apply eq_zero_of_testBit_false _ hm
      intro i hi
      by_contra hb1
      exact hno ⟨i, hi, by simpa using hb1⟩
    obtain ⟨i, hi, hbi⟩ := hex
    obtain ⟨hc1, hc2, hc3⟩ := builtin_ctz_spec pq.bitmask i hi hbi
    have hclt : __builtin_ctz pq.bitmask < 32 := by omega
    have hne := (hb _ hclt).mp hc2
    obtain ⟨n, rest, hnr⟩ := List.exists_cons_of_ne_nil hne
    have hbest : z_priq_mq_best pq = n := by
      unfold z_priq_mq_best
      rw [if_neg hz, hnr]
    have hnmem : n ∈ pq.queues (__builtin_ctz pq.bitmask) := by
      rw [hnr]; exact List.mem_cons_self _ _
    rw [hq, List.mem_filter] at hnmem
    have hnidx : priority_bit cfg th n = __builtin_ctz pq.bitmask := by simpa using hnmem.2
    have hAne : A ≠ [] := List.ne_nil_of_mem hnmem.1
    have hn0 : n ≠ NULL := fun h => h0 (h ▸ hnmem.1)
    rw [hbest]
    refine ⟨⟨fun h => absurd h hn0, fun h => absurd h hAne⟩, fun _ => ⟨hnmem.1, ?_, ?_, ?_⟩⟩
    · rw [hnidx, hnr]
      rfl
    · intro j hj
      rw [hnidx] at hj
      have hjf := hc3 j hj
      by_contra hjne
      have := (hb j (by omega)).mpr hjne
      rw [hjf] at this
      exact Bool.noConfusion this
    · intro u hu
      rw [hnidx]
      by_contra hlt
      have hlt2 : priority_bit cfg th u < __builtin_ctz pq.bitmask := by omega
      have hjf := hc3 _ hlt2
      have := (hb _ (by omega)).mpr (List.ne_nil_of_mem (hmemq u hu))
      rw [hjf] at this
      exact Bool.noConfusion this

theorem priq_mq_run_inv (cfg : Config) (th : Tid → k_thread)
    (hidx : prio_in_mq_range cfg th) (ops : List PriqOp) :
    priq_mq_inv cfg th (priq_mq_run cfg th ops) (arrival_order ops) :=
  priq_mq_inv_run cfg th hidx ops _ ([], 0) (priq_mq_inv_empty cfg th)

theorem priority_bit_le_iff (cfg : Config) (th : Tid → k_thread)
    (hidx : prio_in_mq_range cfg th) (a b : Tid) :
    priority_bit cfg th a ≤ priority_bit cfg th b ↔ (th a).prio ≤ (th b).prio := by
  have ha := hidx a
  have hb := hidx b
  unfold priority_bit
  omega

theorem prio_in_mq_range_th_mq : prio_in_mq_range cfg_deadline th_mq := by
  intro t
  show 0 ≤ ((t % 4 : Nat) : Int) - (-16) ∧ ((t % 4 : Nat) : Int) - (-16) ≤ 31
  omega

/-- C39: in the multi-queue back-end, after every sequence of `z_priq_mq_add`
/ `z_priq_mq_remove` calls from the empty state (priorities with
`prio - K_HIGHEST_THREAD_PRIO` in 0..31, adds of non-NULL threads that are not
resident, removes of residents): bit `i` of the bitmask is set iff list `i` is
not empty; list `i` holds the residents of index `i` in order of arrival;
`z_priq_mq_best` returns NULL iff no thread is resident, and otherwise a
resident that is the head of its list, with all lists of smaller index empty,
whose priority is numerically smallest among the residents. -/
theorem priq_mq_sequence (cfg : Config) (th : Tid → k_thread) (ops : List PriqOp)
    (hidx : prio_in_mq_range cfg th) (hv : valid_ops ops) :
    (∀ i, i < 32 → ((priq_mq_run cfg th ops).bitmask.testBit i = true ↔
      (priq_mq_run cfg th ops).queues i ≠ [])) ∧
    (∀ i, (priq_mq_run cfg th ops).queues i =
      (arrival_order ops).filter (fun t => priority_bit cfg th t == i)) ∧
    (∀ t, t ∈ arrival_order ops ↔ resident_after ops t = true) ∧
    (z_priq_mq_best (priq_mq_run cfg th ops) = NULL ↔ ∀ t, resident_after ops t = false) ∧
    ((∃ t, resident_after ops t = true) →
      resident_after ops (z_priq_mq_best (priq_mq_run cfg th ops)) = true ∧
      ((priq_mq_run cfg th ops).queues
        (priority_bit cfg th (z_priq_mq_best (priq_mq_run cfg th ops)))).head? =
          some (z_priq_mq_best (priq_mq_run cfg th ops)) ∧
      (∀ i, i < priority_bit cfg th (z_priq_mq_best (priq_mq_run cfg th ops)) →
        (priq_mq_run cfg th ops).queues i = []) ∧
      (∀ u, resident_after ops u = true →
        (th (z_priq_mq_best (priq_mq_run cfg th ops))).prio ≤ (th u).prio)) := by
  have hinv := priq_mq_run_inv cfg th hidx ops
  have h0 : NULL ∉ arrival_order ops := by
    intro h
    rw [mem_arrival_order, resident_after_null ops hv] at h
    exact Bool.noConfusion h
  have hbest := z_priq_mq_best_spec cfg th hidx _ _ h0 hinv
  have hnil : arrival_order ops = [] ↔ ∀ t, resident_after ops t = false := by
    constructor
    · intro hA t
      have := mem_arrival_order ops t
      rw [hA] at this
      simpa using this
    · intro hall
      apply List.eq_nil_iff_forall_not_mem.mpr
      intro a ha
      rw [mem_arrival_order, hall a] at ha
      exact Bool.noConfusion ha
  refine ⟨hinv.2.2, hinv.1, mem_arrival_order ops, hbest.1.trans hnil, ?_⟩
  rintro ⟨t, ht⟩
  have hne : arrival_order ops ≠ [] :=
    List.ne_nil_of_mem ((mem_arrival_order ops t).mpr ht)
  obtain ⟨h1, h2, h3, h4⟩ := hbest.2 hne
  refine ⟨(mem_arrival_order ops _).mp h1, h2, h3, fun u hu => ?_⟩
  exact (priority_bit_le_iff cfg th hidx _ _).mp (h4 u ((mem_arrival_order ops u).mpr hu))

/-- Witness of C39 on the sequence add 3, add 2, add 5, remove 2 over threads of
priority `t % 4`: bit 17 (priority 1) is set iff list 17 is not empty. -/
theorem priq_mq_sequence_witness :
    (priq_mq_run cfg_deadline th_mq
        [PriqOp.add 3, PriqOp.add 2, PriqOp.add 5, PriqOp.remove 2]).bitmask.testBit 17 = true ↔
      (priq_mq_run cfg_deadline th_mq
        [PriqOp.add 3, PriqOp.add 2, PriqOp.add 5, PriqOp.remove 2]).queues 17 ≠ [] :=
  (priq_mq_sequence cfg_deadline th_mq
    [PriqOp.add 3, PriqOp.add 2, PriqOp.add 5, PriqOp.remove 2]
    (fun t => by
      show 0 ≤ ((t % 4 : Nat) : Int) - (-16) ∧ ((t % 4 : Nat) : Int) - (-16) ≤ 31
      omega)
    ⟨by decide, rfl, by decide, rfl, by decide, rfl, rfl, trivial⟩).1 17 (by decide)


/-! ## Agreement of the three back-ends -/

theorem z_sched_prio_cmp_keys (cfg : Config) (a a1 b b1 : k_thread)
    (h1 : a1.prio = a.prio) (h2 : a1.prio_deadline = a.prio_deadline)
    (h3 : b1.prio = b.prio) (h4 : b1.prio_deadline = b.prio_deadline) :
    z_sched_prio_cmp cfg a1 b1 = z_sched_prio_cmp cfg a b := by
  rw [z_sched_prio_cmp_unfold, z_sched_prio_cmp_unfold, h1, h2, h3, h4]

theorem z_sched_prio_cmp_mq (cfg : Config) (th : Tid → k_thread)
    (hd : cfg.SCHED_DEADLINE = false) (hidx : prio_in_mq_range cfg th) (a b : Tid) :
    z_sched_prio_cmp cfg (th a) (th b) =
      if (th a).prio ≠ (th b).prio then (th b).prio - (th a).prio else 0 := by
  have ha := hidx a
  have hb := hidx b
  rw [z_sched_prio_cmp_unfold]
  simp only [hd, Bool.false_eq_true, if_false]
  split_ifs with hp
  · exact wrap_int32_of_small _ (by omega) (by omega)
  · rfl

theorem cmpOrder_of_mq (cfg : Config) (th : Tid → k_thread)
    (hd : cfg.SCHED_DEADLINE = false) (hidx : prio_in_mq_range cfg th) : CmpOrder cfg th := by
  constructor
  · intro a b
    rw [z_sched_prio_cmp_mq cfg th hd hidx a b, z_sched_prio_cmp_mq cfg th hd hidx b a]
    split_ifs <;> omega
  · intro a b c
    rw [z_sched_prio_cmp_mq cfg th hd hidx a b, z_sched_prio_cmp_mq cfg th hd hidx b c,
      z_sched_prio_cmp_mq cfg th hd hidx a c]
    split_ifs <;> omega

theorem index_ne_of_lower (cfg : Config) (th : Tid → k_thread)
    (hd : cfg.SCHED_DEADLINE = false) (hidx : prio_in_mq_range cfg th) (t x : Tid)
    (h : 0 < z_sched_prio_cmp cfg (th t) (th x)) :
    priority_bit cfg th x ≠ priority_bit cfg th t := by
  rw [z_sched_prio_cmp_mq cfg th hd hidx] at h
  have ht := hidx t
  have hx := hidx x
  unfold priority_bit
  split_ifs at h with hp
  · omega
  · omega

theorem index_le_of_not_lower (cfg : Config) (th : Tid → k_thread)
    (hd : cfg.SCHED_DEADLINE = false) (hidx : prio_in_mq_range cfg th) (t x : Tid)
    (h : 0 ≤ z_sched_prio_cmp cfg (th t) (th x)) :
    priority_bit cfg th t ≤ priority_bit cfg th x := by
  rw [z_sched_prio_cmp_mq cfg th hd hidx] at h
  have ht := hidx t
  have hx := hidx x
  unfold priority_bit
  split_ifs at h with hp
  · omega
  · omega

theorem mem_of_filter_eq (cfg : Config) (th : Tid → k_thread) (D A : List Tid)
    (hf : ∀ i, D.filter (fun t => priority_bit cfg th t == i) =
      A.filter (fun t => priority_bit cfg th t == i)) (x : Tid) : x ∈ D ↔ x ∈ A := by
  have h1 : x ∈ D ↔ x ∈ D.filter (fun t => priority_bit cfg th t == priority_bit cfg th x) := by
    simp [List.mem_filter]
  have h2 : x ∈ A ↔ x ∈ A.filter (fun t => priority_bit cfg th t == priority_bit cfg th x) := by
    simp [List.mem_filter]
  rw [h1, h2, hf]

/-- One operation keeps the list of the list back-end ordered and, priority by
priority, in order of arrival. -/
theorem dumb_arrival_step (cfg : Config) (th : Tid → k_thread)
    (hd : cfg.SCHED_DEADLINE = false) (hidx : prio_in_mq_range cfg th)
    (D : List Tid) (s : List Tid × Nat) (op : PriqOp)
    (hf : ∀ i, D.filter (fun t => priority_bit cfg th t == i) =
      s.1.filter (fun t => priority_bit cfg th t == i))
    (hs : D.Pairwise (fun a b => 0 ≤ z_sched_prio_cmp cfg (th a) (th b))) :
    (∀ i, (priq_dumb_step cfg th D op).filter (fun t => priority_bit cfg th t == i) =
      (arrival_step s op).1.filter (fun t => priority_bit cfg th t == i)) ∧
    (priq_dumb_step cfg th D op).Pairwise
      (fun a b => 0 ≤ z_sched_prio_cmp cfg (th a) (th b)) := by
  have ho := cmpOrder_of_mq cfg th hd hidx
  cases op with
  | add t =>
    refine ⟨?_, pairwise_z_priq_dumb_add cfg th ho D t hs⟩
    intro i
    obtain ⟨l1, l2, h1, h2, _, h4⟩ := z_priq_dumb_add_split_sorted cfg th ho D t hs
    show (z_priq_dumb_add cfg th D t).filter (fun t => priority_bit cfg th t == i) =
      (s.1 ++ [t]).filter (fun t => priority_bit cfg th t == i)
    rw [h2, List.filter_append, List.filter_append, ← hf i, h1, List.filter_append]
    by_cases hi : priority_bit cfg th t = i
    · have hl2 : l2.filter (fun x => priority_bit cfg th x == i) = [] := by
        rw [List.filter_eq_nil_iff]
        intro x hx
        have := index_ne_of_lower cfg th hd hidx t x (h4 x hx)
        rw [hi] at this
        simpa using this
      simp [List.filter_cons, hi, hl2]
    · simp [List.filter_cons, hi]
  | remove t =>
    refine ⟨?_, hs.sublist (sublist_z_priq_dumb_remove D t)⟩
    intro i
    show (D.filter (fun n => n != t)).filter (fun t => priority_bit cfg th t == i) =
      (s.1.filter (fun n => n != t)).filter (fun t => priority_bit cfg th t == i)
    rw [← filter_remove_comm, ← filter_remove_comm, hf i]

theorem z_priq_rb_lessthan_new (cfg : Config) (th th1 : Tid → k_thread) (t n : Tid)
    (hk : ∀ x, (th1 x).prio = (th x).prio ∧ (th1 x).prio_deadline = (th x).prio_deadline)
    (hkey : (th1 n).order_key ≤ (th1 t).order_key) :
    z_priq_rb_lessthan cfg th1 t n = decide (0 < z_sched_prio_cmp cfg (th t) (th n)) := by
  have hc := z_sched_prio_cmp_keys cfg (th t) (th1 t) (th n) (th1 n) (hk t).1 (hk t).2
    (hk n).1 (hk n).2
  unfold z_priq_rb_lessthan
  simp only [hc]
  split_ifs with h1 h2
  · simp [h1]
  · simp [h1]
  · have : ¬ (th1 t).order_key < (th1 n).order_key := by omega
    simp [h1, this]

theorem rb_insert_eq_dumb_add (cfg : Config) (th th1 : Tid → k_thread) (t : Tid) :
    ∀ D : List Tid,
      (∀ n ∈ D, z_priq_rb_lessthan cfg th1 t n =
        decide (0 < z_sched_prio_cmp cfg (th t) (th n))) →
      rb_insert (z_priq_rb_lessthan cfg th1) D t = z_priq_dumb_add cfg th D t := by
  intro D
  induction D with
  | nil => intro _; rfl
  | cons n rest ih =>
    intro h
    have hn := h n (List.mem_cons_self _ _)
    have hr := ih (fun m hm => h m (List.mem_cons_of_mem _ hm))
    unfold rb_insert z_priq_dumb_add
    by_cases hc : 0 < z_sched_prio_cmp cfg (th t) (th n)
    · rw [if_pos (by rw [hn]; simpa using hc), if_pos hc]
    · rw [if_neg (by rw [hn]; simpa using hc), if_neg hc, hr]

theorem priq_rb_inv_add (cfg : Config) (th : Tid → k_thread)
    (s : (Tid → k_thread) × priq_rb) (D : List Tid) (c : Nat) (t : Tid)
    (hc : c + 1 < 2 ^ 32) (h : priq_rb_inv th s D c) :
    priq_rb_inv th (z_priq_rb_add cfg s.1 s.2 t) (z_priq_dumb_add cfg th D t) (c + 1) := by
  obtain ⟨h1, h2, h3, h4⟩ := h
  have hmod : (c + 1) % 2 ^ 32 = c + 1 := Nat.mod_eq_of_lt hc
  have hne : ¬ c + 1 = 0 := by omega
  have heq : z_priq_rb_add cfg s.1 s.2 t =
      (Function.update s.1 t { s.1 t with order_key := c },
       { tree := rb_insert (z_priq_rb_lessthan cfg
            (Function.update s.1 t { s.1 t with order_key := c })) D t,
         next_order_key := c + 1 }) := by
    unfold z_priq_rb_add
    simp only [h1, h2, hmod, hne, if_false]
  have hk1 : ∀ x, (Function.update s.1 t { s.1 t with order_key := c } x).prio = (th x).prio ∧
      (Function.update s.1 t { s.1 t with order_key := c } x).prio_deadline =
        (th x).prio_deadline := by
    intro x
    by_cases hx : x = t
    · rw [hx, Function.update_same]
      exact h3 t
    · rw [Function.update_noteq hx]
      exact h3 x
  have hkt : (Function.update s.1 t { s.1 t with order_key := c } t).order_key = c := by
    rw [Function.update_same]
  have hkn : ∀ n ∈ D, (Function.update s.1 t { s.1 t with order_key := c } n).order_key ≤ c := by
    intro n hn
    by_cases hx : n = t
    · rw [hx, hkt]
    · rw [Function.update_noteq hx]
      exact le_of_lt (h4 n hn)
  have hins := rb_insert_eq_dumb_add cfg th
    (Function.update s.1 t { s.1 t with order_key := c }) t D
    (fun n hn => z_priq_rb_lessthan_new cfg th _ t n hk1 (by rw [hkt]; exact hkn n hn))
  rw [heq, hins]
  refine ⟨rfl, rfl, hk1, ?_⟩
  intro x hx
  show (Function.update s.1 t { s.1 t with order_key := c } x).order_key < c + 1
  rcases (mem_z_priq_dumb_add cfg th D t x).mp hx with hxt | hxD
  · rw [hxt, hkt]; omega
  · exact Nat.lt_succ_of_le (hkn x hxD)

theorem priq_rb_inv_remove (th : Tid → k_thread)
    (s : (Tid → k_thread) × priq_rb) (D : List Tid) (c : Nat) (t : Tid)
    (h : priq_rb_inv th s D c) :
    priq_rb_inv th (s.1, z_priq_rb_remove s.2 t) (z_priq_dumb_remove D t)
      (if D.filter (fun n => n != t) = [] then 0 else c) := by
  obtain ⟨h1, h2, h3, h4⟩ := h
  refine ⟨?_, ?_, h3, ?_⟩
  · show s.2.tree.filter (fun n => n != t) = sys_dlist_remove D t
    rw [h1]; rfl
  · show (if s.2.tree.filter (fun n => n != t) = [] then 0 else s.2.next_order_key) = _
    rw [h1, h2]
  · intro x hx
    have hxD : x ∈ D.filter (fun n => n != t) := hx
    have hne : ¬ D.filter (fun n => n != t) = [] := List.ne_nil_of_mem hxD
    rw [if_neg hne]
    exact h4 x (List.mem_filter.mp hxD).1

theorem priq_rb_inv_step (cfg : Config) (th : Tid → k_thread)
    (s : (Tid → k_thread) × priq_rb) (D : List Tid) (a : List Tid × Nat) (op : PriqOp)
    (hf : ∀ i, D.filter (fun t => priority_bit cfg th t == i) =
      a.1.filter (fun t => priority_bit cfg th t == i))
    (h : priq_rb_inv th s D a.2) (hc : (arrival_step a op).2 < 2 ^ 32) :
    priq_rb_inv th (priq_rb_step cfg s op) (priq_dumb_step cfg th D op)
      (arrival_step a op).2 := by
  cases op with
  | add t => exact priq_rb_inv_add cfg th s D a.2 t hc h
  | remove t =>
    have hiff : D.filter (fun n => n != t) = [] ↔ a.1.filter (fun n => n != t) = [] := by
      simp only [List.filter_eq_nil_iff]
      constructor
      · intro hD x hx
        exact hD x ((mem_of_filter_eq cfg th D a.1 hf x).mpr hx)
      · intro hA x hx
        exact hA x ((mem_of_filter_eq cfg th D a.1 hf x).mp hx)
    have hr := priq_rb_inv_remove th s D a.2 t h
    have hcount : (if D.filter (fun n => n != t) = [] then 0 else a.2) =
        (arrival_step a (PriqOp.remove t)).2 := by
      show _ = (if a.1.filter (fun n => n != t) = [] then 0 else a.2)
      by_cases hD : D.filter (fun n => n != t) = []
      · rw [if_pos hD, if_pos (hiff.mp hD)]
      · rw [if_neg hD, if_neg (fun hA => hD (hiff.mpr hA))]
    rw [hcount] at hr
    exact hr

/-- The list, the tree and the arrival list stay related over a sequence of
operations in which the count of adds since the queue was last empty stays
below `2 ^ 32`. -/
theorem backends_run (cfg : Config) (th : Tid → k_thread)
    (hd : cfg.SCHED_DEADLINE = false) (hidx : prio_in_mq_range cfg th) (ops : List PriqOp) :
    ∀ (D : List Tid) (s : (Tid → k_thread) × priq_rb) (a : List Tid × Nat),
      (∀ i, D.filter (fun t => priority_bit cfg th t == i) =
        a.1.filter (fun t => priority_bit cfg th t == i)) →
      D.Pairwise (fun x y => 0 ≤ z_sched_prio_cmp cfg (th x) (th y)) →
      priq_rb_inv th s D a.2 →
      (∀ p, p <+: ops → (p.foldl arrival_step a).2 < 2 ^ 32) →
      (∀ i, (ops.foldl (priq_dumb_step cfg th) D).filter
          (fun t => priority_bit cfg th t == i) =
        (ops.foldl arrival_step a).1.filter (fun t => priority_bit cfg th t == i)) ∧
      (ops.foldl (priq_dumb_step cfg th) D).Pairwise
        (fun x y => 0 ≤ z_sched_prio_cmp cfg (th x) (th y)) ∧
      priq_rb_inv th (ops.foldl (priq_rb_step cfg) s) (ops.foldl (priq_dumb_step cfg th) D)
        (ops.foldl arrival_step a).2 := by
  induction ops with
  | nil => intro D s a hf hs hrb _; exact ⟨hf, hs, hrb⟩
  | cons op rest ih =>
    intro D s a hf hs hrb hb
    have hstep := dumb_arrival_step cfg th hd hidx D a op hf hs
    have hc : (arrival_step a op).2 < 2 ^ 32 := hb [op] ⟨rest, rfl⟩
    have hrb1 := priq_rb_inv_step cfg th s D a op hf hrb hc
    refine ih _ _ _ hstep.1 hstep.2 hrb1 ?_
    intro p hp
    obtain ⟨q, hq⟩ := hp
    exact hb (op :: p) ⟨q, by rw [← hq]; rfl⟩

/-- The three `best` functions agree on related queues. -/
theorem best_agree (cfg : Config) (th : Tid → k_thread)
    (hd : cfg.SCHED_DEADLINE = false) (hidx : prio_in_mq_range cfg th)
    (D A : List Tid) (pq : priq_mq) (s : (Tid → k_thread) × priq_rb) (c : Nat)
    (hf : ∀ i, D.filter (fun t => priority_bit cfg th t == i) =
      A.filter (fun t => priority_bit cfg th t == i))
    (hs : D.Pairwise (fun x y => 0 ≤ z_sched_prio_cmp cfg (th x) (th y)))
    (h0 : NULL ∉ A) (hmq : priq_mq_inv cfg th pq A) (hrb : priq_rb_inv th s D c) :
    z_priq_rb_best s.2 = z_priq_dumb_best D ∧ z_priq_mq_best pq = z_priq_dumb_best D := by
  constructor
  · unfold z_priq_rb_best z_priq_dumb_best
    rw [hrb.1]
  · have hspec := z_priq_mq_best_spec cfg th hidx pq A h0 hmq
    cases D with
    | nil =>
      have hA : A = [] := by
        apply List.eq_nil_iff_forall_not_mem.mpr
        intro x hx
        have := (mem_of_filter_eq cfg th [] A hf x).mpr hx
        simp at this
      rw [hspec.1.mpr hA]
      rfl
    | cons d rest =>
      have hdA : d ∈ A := (mem_of_filter_eq cfg th _ A hf d).mp (List.mem_cons_self _ _)
      obtain ⟨h1, h2, _, h4⟩ := hspec.2 (List.ne_nil_of_mem hdA)
      have hnD : z_priq_mq_best pq ∈ d :: rest := (mem_of_filter_eq cfg th _ A hf _).mpr h1
      have hle1 := h4 d hdA
      have hle2 : priority_bit cfg th d ≤ priority_bit cfg th (z_priq_mq_best pq) := by
        rcases List.mem_cons.mp hnD with hn | hn
        · rw [hn]
        · exact index_le_of_not_lower cfg th hd hidx d _ ((List.pairwise_cons.mp hs).1 _ hn)
      have hidxeq : priority_bit cfg th d = priority_bit cfg th (z_priq_mq_best pq) :=
        le_antisymm hle2 hle1
      rw [hmq.1, ← hf, List.filter_cons] at h2
      have hb : (priority_bit cfg th d == priority_bit cfg th (z_priq_mq_best pq)) = true := by
        simpa using hidxeq
      rw [if_pos hb] at h2
      have h3 : d = z_priq_mq_best pq := by simpa using h2
      rw [← h3]
      rfl

theorem arrival_count_le (ops : List PriqOp) :
    ∀ a : List Tid × Nat, (ops.foldl arrival_step a).2 ≤ a.2 + ops.length := by
  induction ops with
  | nil => intro a; simp
  | cons op rest ih =>
    intro a
    have h := ih (arrival_step a op)
    have h1 : (arrival_step a op).2 ≤ a.2 + 1 := by
      cases op with
      | add t => exact le_refl _
      | remove t =>
        show (if a.1.filter (fun n => n != t) = [] then 0 else a.2) ≤ a.2 + 1
        split_ifs <;> omega
    show ((rest.foldl arrival_step (arrival_step a op)).2 ≤ a.2 + (rest.length + 1))
    omega

theorem adds_since_empty_le_length (ops : List PriqOp) : adds_since_empty ops ≤ ops.length := by
  have h := arrival_count_le ops ([], 0)
  unfold adds_since_empty
  simpa using h

/-- C31: for every sequence of add and remove operations (adds of non-NULL
threads that are not resident, removes of residents, deadline scheduling off,
`prio - K_HIGHEST_THREAD_PRIO` within 0..31, fewer than `2 ^ 32` adds since the
queue was last empty) applied in parallel to an initially empty list, tree
and multi-queue, `z_priq_rb_best` and `z_priq_mq_best` return what
`z_priq_dumb_best` returns (the same thread, or all NULL) after every step. -/
theorem priq_backends_agree (cfg : Config) (th : Tid → k_thread) (ops : List PriqOp)
    (hd : cfg.SCHED_DEADLINE = false) (hidx : prio_in_mq_range cfg th)
    (hv : valid_ops ops) (hb : ∀ p, p <+: ops → adds_since_empty p < 2 ^ 32) :
    ∀ p, p <+: ops →
      z_priq_rb_best (priq_rb_run cfg th p).2 = z_priq_dumb_best (priq_dumb_run cfg th p) ∧
      z_priq_mq_best (priq_mq_run cfg th p) = z_priq_dumb_best (priq_dumb_run cfg th p) := by
  intro p hp
  have hvp : valid_ops p := by
    obtain ⟨q, hq⟩ := hp
    unfold valid_ops at hv
    rw [← hq] at hv
    exact ((valid_ops_from_append p q _).mp hv).1
  have hrun := backends_run cfg th hd hidx p [] (th, { tree := [], next_order_key := 0 })
    ([], 0) (fun _ => rfl) List.Pairwise.nil
    ⟨rfl, rfl, fun _ => ⟨rfl, rfl⟩, fun x hx => absurd hx (List.not_mem_nil x)⟩
    (fun q hq => hb q (hq.trans hp))
  have h0 : NULL ∉ arrival_order p := by
    intro h
    rw [mem_arrival_order, resident_after_null p hvp] at h
    exact Bool.noConfusion h
  exact best_agree cfg th hd hidx _ _ _ _ _ hrun.1 hrun.2.1 h0
    (priq_mq_run_inv cfg th hidx p) hrun.2.2

/-- Witness of C31 on the sequence add 3, add 2, add 5, remove 2 over threads of
priority `t % 4`, at the end of the sequence. -/
theorem priq_backends_agree_witness :
    z_priq_rb_best (priq_rb_run cfg_nodeadline th_mq
        [PriqOp.add 3, PriqOp.add 2, PriqOp.add 5, PriqOp.remove 2]).2 =
      z_priq_dumb_best (priq_dumb_run cfg_nodeadline th_mq
        [PriqOp.add 3, PriqOp.add 2, PriqOp.add 5, PriqOp.remove 2]) ∧
    z_priq_mq_best (priq_mq_run cfg_nodeadline th_mq
        [PriqOp.add 3, PriqOp.add 2, PriqOp.add 5, PriqOp.remove 2]) =
      z_priq_dumb_best (priq_dumb_run cfg_nodeadline th_mq
        [PriqOp.add 3, PriqOp.add 2, PriqOp.add 5, PriqOp.remove 2]) :=
  priq_backends_agree cfg_nodeadline th_mq
    [PriqOp.add 3, PriqOp.add 2, PriqOp.add 5, PriqOp.remove 2] rfl
    (fun t => by
      show 0 ≤ ((t % 4 : Nat) : Int) - (-16) ∧ ((t % 4 : Nat) : Int) - (-16) ≤ 31
      omega)
    ⟨by decide, rfl, by decide, rfl, by decide, rfl, rfl, trivial⟩
    (fun p hp => lt_of_le_of_lt (adds_since_empty_le_length p)
      (lt_of_le_of_lt hp.length_le (by decide)))
    _ (List.prefix_refl _)

end Zephyr
